import Mathlib

/-!
# Deployment manifest creation: override merging and release-counter allocation

A shallow embedding of `pkg/deployment/manifest/ManifestCreationService.go`.

* Go `int` is `Int`; a pointer that may be nil is an `Option`.
* JSON text (a Go `string` or `[]byte` holding a values document) is `Text`: what
  `encoding/json` makes of the bytes. A `[]byte` that the code compares with nil is an
  `Option Text`.
* Collaborators reached through interfaces (repositories, services) are fields of `Deps`;
  each call is a function of the collaborators' state and is recorded in a log of events.
* A run-time panic (index out of range, nil dereference) is an explicit outcome.
-/

namespace Devtron

/-! ## JSON documents -/

/-- A parsed JSON document. An object keeps its members as a list; a name written twice takes
its last value, as `encoding/json` does when it fills a map. -/
inductive Json where
  | null
  | bool (b : Bool)
  | num (n : Int)
  | str (s : String)
  | arr (xs : List Json)
  | obj (kvs : List (String × Json))

namespace Json

/-- Member lookup: the last member written under `k`. -/
def lookup (k : String) : List (String × Json) → Option Json
  | [] => none
  | (k', v) :: rest =>
    match lookup k rest with
    | some w => some w
    | none => if k' = k then some v else none

/-- Remove every member named `k`. -/
def eraseKey (k : String) : List (String × Json) → List (String × Json)
  | [] => []
  | (k', v') :: rest => if k' = k then eraseKey k rest else (k', v') :: eraseKey k rest

/-- Set member `k` to `v`, replacing whatever was stored under `k`. -/
def setKey (k : String) (v : Json) (t : List (String × Json)) : List (String × Json) :=
  eraseKey k t ++ [(k, v)]

/-- Members of an object; anything that is not an object has none. -/
def fields : Json → List (String × Json)
  | obj kvs => kvs
  | _ => []

/-- A value that is neither null nor a container. -/
def isScalar : Json → Bool
  | bool _ => true
  | num _ => true
  | str _ => true
  | _ => false

/-- Top-level member `k` of a document (none when the document is not an object). -/
def get (k : String) (j : Json) : Option Json := lookup k (fields j)

mutual
/-- Modelled from the spec: the merge performed by `mergeUtil.JsonPatch`
(internal/util/MergeUtil.go, absent from the sources) is an RFC 7396 JSON Merge Patch,
a deep merge in which the later document's keys override the earlier ones: an object patch
is merged member by member into the target (a null member deletes), any other patch
replaces the target. -/
def mergePatch (target : Json) : Json → Json
  | obj ps => obj (mergeFields (fields target) ps)
  | p => p
/-- Modelled from the spec: the member-by-member part of the RFC 7396 merge. -/
def mergeFields (t : List (String × Json)) : List (String × Json) → List (String × Json)
  | [] => t
  | (k, v) :: rest =>
    match v with
    | null => mergeFields (eraseKey k t) rest
    | v => mergeFields (setKey k (mergePatch ((lookup k t).getD null) v) t) rest
end

end Json

/-! ## Text and errors -/

/-- JSON text as the Go code holds it (a `string` or a `[]byte`), seen through the parser. -/
inductive Text where
  /-- zero bytes: `""`, an empty or nil slice -/
  | empty
  /-- at least one byte, which do not parse as JSON -/
  | malformed
  /-- the text of the document `j` -/
  | json (j : Json)

namespace Text

/-- The Go test `len(s) > 0`. -/
def nonEmpty : Text → Bool
  | empty => false
  | _ => true

end Text

/-- Model of `util.ApiError`, with the fields the code sets. -/
structure ApiError where
  HttpStatusCode : Int
  UserMessage : String
  InternalMessage : String
  UserDetailMessage : String := ""
deriving DecidableEq, Repr

/-- Go `error` values. -/
inductive Error where
  /-- errors.New / fmt.Errorf / any error of a collaborator -/
  | errorString (msg : String)
  /-- a `*util.ApiError` -/
  | api (e : ApiError)
  /-- a not-found error of github.com/juju/errors, as `errors.NotFoundf` makes it -/
  | notFound (msg : String)
deriving DecidableEq, Repr

/-- The method `err.Error()`: the message of an error. -/
def Error.msg : Error → String
  | .errorString msg => msg
  | .api e => e.InternalMessage
  | .notFound msg => msg

/-- Constant `http.StatusUnprocessableEntity` of net/http. -/
def StatusUnprocessableEntity : Int := 422

/-- The part of `util.MergeUtil` the service uses. -/
structure MergeUtil where
  JsonPatch : Text → Text → Except Error Text

/-- Modelled from the spec: `mergeUtil.JsonPatch(target, patch)` (internal/util/MergeUtil.go,
absent from the sources) is an RFC 7396 merge of two JSON documents; a step fails when one of
its two inputs is not JSON. -/
def rfc7396 : MergeUtil where
  JsonPatch target patch :=
    match target, patch with
    | .json t, .json p => .ok (.json (Json.mergePatch t p))
    | .json _, _ => .error (.errorString "Invalid JSON Patch")
    | _, _ => .error (.errorString "Invalid JSON Document")

/-- The helper `globalUtil.GetEmptyJSON()`: the bytes of the empty JSON object. -/
def GetEmptyJSON : Text := .json (.obj [])

/-! ## Data model -/

/-- `models.ChartStatus` (declared outside the sources; only the names are used). -/
inductive ChartStatus where
  | CHARTSTATUS_NEW
  | CHARTSTATUS_DEPLOYMENT_IN_PROGRESS
  | CHARTSTATUS_SUCCESS
  | CHARTSTATUS_ERROR
  | CHARTSTATUS_ROLLBACK
  | CHARTSTATUS_UNKNOWN
deriving DecidableEq, Repr

/-- `models.DeploymentType` (declared outside the sources; only the names are used). -/
inductive DeploymentType where
  | DEPLOYMENTTYPE_UNKNOWN
  | DEPLOYMENTTYPE_START
  | DEPLOYMENTTYPE_STOP
  | DEPLOYMENTTYPE_DEPLOY
  | DEPLOYMENTTYPE_PRE
  | DEPLOYMENTTYPE_POST
deriving DecidableEq, Repr

/-- `bean.DeploymentConfigurationType`; `other` is any value that is neither constant. -/
inductive DeploymentConfigurationType where
  | DEPLOYMENT_CONFIG_TYPE_LAST_SAVED
  | DEPLOYMENT_CONFIG_TYPE_SPECIFIC_TRIGGER
  | other (name : String)
deriving DecidableEq, Repr

/-- `chartRepoRepository.Chart`, the fields read here. -/
structure Chart where
  Id : Int
  ChartVersion : String
  ResolvedGlobalOverride : Text
  ImageDescriptorTemplate : String

/-- Environment model (`repository2.Environment`), the fields read here. -/
structure Environment where
  Id : Int
  ClusterId : Int
  IsVirtualEnvironment : Bool
deriving DecidableEq, Repr

/-- `bean2.EnvConfigOverride`, the fields read here. -/
structure EnvConfigOverride where
  Id : Int
  TargetEnvironment : Int
  Namespace : String
  IsOverride : Bool
  ResolvedEnvOverrideValues : Text
  Chart : Option Chart
  Environment : Option Environment

/-- `chartConfig.PipelineStrategy` (PipelineConfigRepository.go). -/
structure PipelineStrategy where
  Id : Int
  PipelineId : Int
  Strategy : String
  Config : Text
  Default : Bool
  Deleted : Bool

/-! ## Requests, rows and responses -/

/-- Go `time.Time`, as an abstract instant. -/
abbrev Time := Nat

/-- `sql.AuditLog`. -/
structure AuditLog where
  CreatedBy : Int := 0
  CreatedOn : Time := 0
  UpdatedOn : Time := 0
  UpdatedBy : Int := 0

/-- `repository.CiArtifact`, the fields read here. -/
structure CiArtifact where
  Id : Int
  Image : String
  ImageDigest : String

/-- `pipelineConfig.Pipeline`, the fields read here. -/
structure Pipeline where
  Id : Int
  DeploymentAppName : String
  CiPipelineId : Int

/-- `bean.ValuesOverrideRequest`, the fields read here. `AdditionalOverride` is a
`json.RawMessage`, nil when absent. -/
structure ValuesOverrideRequest where
  PipelineId : Int
  AppId : Int
  EnvId : Int
  CiArtifactId : Int
  PipelineOverrideId : Int := 0
  CdWorkflowId : Int := 0
  ClusterId : Int := 0
  UserId : Int := 0
  AppName : String := ""
  EnvName : String := ""
  PipelineName : String := ""
  Image : String := ""
  ForceTrigger : Bool := false
  DeploymentType : DeploymentType := .DEPLOYMENTTYPE_UNKNOWN
  DeploymentWithConfig : DeploymentConfigurationType :=
    .DEPLOYMENT_CONFIG_TYPE_LAST_SAVED
  WfrIdForDeploymentWithSpecificTrigger : Int := 0
  AdditionalOverride : Option Text := none

/-- `chartConfig.PipelineOverride`; the defaults are Go's zero values. -/
structure PipelineOverride where
  Id : Int := 0
  EnvConfigOverrideId : Int := 0
  Status : ChartStatus := .CHARTSTATUS_UNKNOWN
  PipelineId : Int := 0
  CiArtifactId : Int := 0
  PipelineReleaseCounter : Int := 0
  CdWorkflowId : Int := 0
  DeploymentType : DeploymentType := .DEPLOYMENTTYPE_UNKNOWN
  PipelineMergedValues : Text := .empty
  AuditLog : AuditLog := {}
  Pipeline : Option Pipeline := none
  CiArtifact : Option CiArtifact := none

/-- The arguments of `app.NewReleaseAttributes`, which the image-descriptor template is
rendered with. -/
structure ReleaseAttributes where
  imageName : String
  tag : String
  pipelineName : String
  deploymentStrategy : String
  appId : Int
  envId : Int
  pipelineReleaseCounter : Int
  appMetrics : Bool

/-- `imageDigestPolicy.DigestPolicyConfigurationResponse`, seen through its method
`UseDigestForTrigger()`. -/
structure DigestPolicyConfigurationResponse where
  UseDigestForTrigger : Bool

/-- `bean3.MergedCmAndCsJsonV2Response`; `MergedJson` is a `[]byte` that may be nil. -/
structure MergedCmAndCsJsonV2Response where
  MergedJson : Option Text := none
  ExternalCmList : List String := []
  ExternalCsList : List String := []

/-- `app.ValuesOverrideResponse`; the defaults are Go's zero values. -/
structure ValuesOverrideResponse where
  MergedValues : Text := .empty
  ReleaseOverrideJSON : Text := .empty
  EnvOverride : Option EnvConfigOverride := none
  PipelineStrategy : Option PipelineStrategy := none
  PipelineOverride : Option PipelineOverride := none
  Artifact : Option CiArtifact := none
  Pipeline : Option Pipeline := none

/-! ## Runs of the service -/

/-- What a run records: one event per call of a collaborator or of a step of the service.
Calls on the pipeline-override table carry what the repository answered; calls made by the
config/secret resolver and by the live-state checks carry the error they came back with. -/
inductive Event where
  | FindPipelineById (id : Int)
  | GetCiArtifact (id : Int)
  | getDeploymentStrategyByTriggerType
  | FindPipelineOverrideById (id : Int)
  | GetByIdIncludingInactive (id : Int)
  | FindEnvironmentById (id : Int)
  | getEnvOverrideByTriggerType
  | GetCurrentPipelineReleaseCounter (pipelineId : Int) (resp : Except Error Int)
  | Save (po : PipelineOverride) (resp : Except Error PipelineOverride)
  | GetByPipelineIdAndReleaseNo (pipelineId releaseNo : Int)
      (resp : Except Error (List PipelineOverride))
  | Update (po : PipelineOverride) (resp : Option Error)
  | getAppMetricsByTriggerType
  | GetDigestPolicyConfigurations (pipelineId : Int)
  | getConfigMapAndSecretJsonV2
  | GetAppLabelsForDeployment (appId : Int)
  | mergeOverrideValues
  | updatedExternalCmCsHashForTrigger (merged : Text)
  | autoscalingCheckBeforeTrigger (merged : Text)
  | HandleImagePullSecretOnApplicationDeployment (merged : Text)
  | UpdatePipelineMergedValues (id : Int) (mergedValues : Text) (userId : Int)
  | GetByAppIdAppLevel (appId : Int) (err : Option Error)
  | GetByAppIdAndEnvIdEnvLevel (appId envId : Int) (err : Option Error)
  | GetHistoryByPipelineIdAndWfrId (pipelineId wfrId : Int) (secret : Bool)
      (err : Option Error)
  | ConfigMapMerge (err : Option Error)
  | ConfigSecretMergeForCDStages (err : Option Error)
  | ResolveCMCSTrigger (err : Option Error)
  | GetDataFromConfigMaps (names : List String) (err : Option Error)
  | GetDataFromSecrets (names : List String) (err : Option Error)
  | GetPreferredVersionForAPIGroup (clusterId : Int) (group : String) (err : Option Error)
  | GetResource (clusterId : Int) (name : String) (err : Option Error)
  | GetStrategyHistoryByPipelineIdAndWfrId (pipelineId wfrId : Int) (err : Option Error)
  | SelectPipelineStrategy (pipelineId : Int) (err : Option Error)
  | GetEnvOverrideForSpecificConfigTrigger
  | getEnvOverrideForLastSavedConfigTrigger
  | GetDeploymentTemplateHistoryByPipelineIdAndWfrId (pipelineId wfrId : Int)
      (err : Option Error)
  | GetMetricsFlagForAPipelineByAppIdAndEnvId (appId envId : Int) (err : Option Error)
  | BuildChartAndGetPath (appName : String) (err : Option Error)

/-- How a run ends: with a value, with a Go panic, or because the model's loop budget ran
out (which the theorems show never happens). -/
inductive Res (α : Type) where
  | val (a : α)
  | panic
  | outOfFuel

/-- A finished run: how it ended, the collaborators' state, and the events in order. -/
structure Outcome (σ α : Type) where
  result : Res α
  world : σ
  log : List Event

/-- A step of the service: a run from a state of the collaborators. -/
def M (σ α : Type) : Type := σ → Outcome σ α

namespace M

variable {σ α β : Type}

/-- Return a value. -/
def pure (a : α) : M σ α := fun w => ⟨.val a, w, []⟩

/-- Run `m`, then `f` on its value; a panic ends the run. -/
def bind (m : M σ α) (f : α → M σ β) : M σ β := fun w =>
  let o := m w
  match o.result with
  | .val a => let o' := f a o.world; ⟨o'.result, o'.world, o.log ++ o'.log⟩
  | .panic => ⟨.panic, o.world, o.log⟩
  | .outOfFuel => ⟨.outOfFuel, o.world, o.log⟩

/-- A Go run-time panic. -/
def panic : M σ α := fun w => ⟨.panic, w, []⟩

/-- The loop budget of the model is used up. -/
def outOfFuel : M σ α := fun w => ⟨.outOfFuel, w, []⟩

/-- Call a collaborator and record the call. -/
def call (op : σ → β × σ) (ev : β → Event) : M σ β := fun w =>
  let r := op w
  ⟨.val r.1, r.2, [ev r.1]⟩

/-- Run a step of the service that is not spelled out here and record it; `none` is a panic
inside the step. -/
def step (op : σ → Option β × σ) (ev : Event) : M σ β := fun w =>
  let r := op w
  match r.1 with
  | some b => ⟨.val b, r.2, [ev]⟩
  | none => ⟨.panic, r.2, [ev]⟩

/-- Record an event. -/
def emit (ev : Event) : M σ Unit := fun w => ⟨.val (), w, [ev]⟩

end M

instance {σ : Type} : Monad (M σ) where
  pure := M.pure
  bind := M.bind

/-- The collaborators of `ManifestCreationServiceImpl`, over their joint state `σ`. A call
returning `(value, error)` answers `Except Error value`; one returning only `error` answers
`Option Error`. The last six fields are methods and helpers of the service that this
development takes as given; `none` is a panic inside them. -/
structure Deps (σ : Type) where
  mergeUtil : MergeUtil
  /-- the method `(*ReleaseAttributes).RenderJson(template)` -/
  RenderJson : ReleaseAttributes → String → Except Error Text
  /-- the helper `helper.ResolveDeploymentTypeAndUpdate` -/
  ResolveDeploymentTypeAndUpdate : ValuesOverrideRequest → ValuesOverrideRequest
  /-- the method `pipelineRepository.FindById` -/
  FindPipelineById : Int → σ → Except Error Pipeline × σ
  /-- the method `ciArtifactRepository.Get` -/
  GetCiArtifact : Int → σ → Except Error CiArtifact × σ
  /-- the method `pipelineOverrideRepository.FindById` -/
  FindPipelineOverrideById : Int → σ → Except Error PipelineOverride × σ
  GetByIdIncludingInactive : Int → σ → Except Error EnvConfigOverride × σ
  /-- the method `envRepository.FindById` -/
  FindEnvironmentById : Int → σ → Except Error Environment × σ
  GetCurrentPipelineReleaseCounter : Int → σ → Except Error Int × σ
  /-- the method `pipelineOverrideRepository.Save`: the row comes back with its id -/
  Save : PipelineOverride → σ → Except Error PipelineOverride × σ
  GetByPipelineIdAndReleaseNo : Int → Int → σ → Except Error (List PipelineOverride) × σ
  /-- the method `pipelineOverrideRepository.Update` -/
  Update : PipelineOverride → σ → Option Error × σ
  UpdatePipelineMergedValues : Int → Text → Int → σ → Option Error × σ
  GetDigestPolicyConfigurations : Int → σ → Except Error DigestPolicyConfigurationResponse × σ
  GetAppLabelsForDeployment : Int → String → String → σ → Except Error (Option Text) × σ
  HandleImagePullSecretOnApplicationDeployment :
    Option Environment → CiArtifact → Int → Text → σ → Except Error Text × σ
  getDeploymentStrategyByTriggerType :
    ValuesOverrideRequest → σ → Option (Option PipelineStrategy × Option Error) × σ
  getEnvOverrideByTriggerType :
    ValuesOverrideRequest → Time → σ → Option (Option EnvConfigOverride × Option Error) × σ
  getAppMetricsByTriggerType : ValuesOverrideRequest → σ → Option (Bool × Option Error) × σ
  /-- the helpers `GetScopeForVariables` and `NewMergedCmAndCsJsonV2Request` followed by
  `getConfigMapAndSecretJsonV2`, which always returns a response -/
  getConfigMapAndSecretJsonV2 : ValuesOverrideRequest → EnvConfigOverride → String → σ →
    Option (MergedCmAndCsJsonV2Response × Option Error) × σ
  updatedExternalCmCsHashForTrigger :
    Int → String → Text → List String → List String → σ → Option (Text × Option Error) × σ
  autoscalingCheckBeforeTrigger :
    String → String → Text → ValuesOverrideRequest → σ → Option (Text × Option Error) × σ

/-! ## Value merge engine -/

/-- Source: `mergeOverrideValues` (ManifestCreationService.go:544-584). The result is the Go
pair `(mergedValues, err)`, a nil slice being `Text.empty`; `none` is the nil dereference of
`envOverride.Chart`. -/
def mergeOverrideValues (mergeUtil : MergeUtil) (envOverride : EnvConfigOverride)
    (releaseOverrideJson : Text) (configMapJson : Option Text) (appLabelJsonByte : Option Text)
    (strategy : Option PipelineStrategy) : Option (Text × Option Error) :=
  let templateOverrideValuesByte : Option Text :=
    if !envOverride.IsOverride then
      envOverride.Chart.map (fun c => c.ResolvedGlobalOverride)
    else
      some envOverride.ResolvedEnvOverrideValues
  match templateOverrideValuesByte with
  | none => none
  | some templateOverrideValuesByte =>
    some <|
      match mergeUtil.JsonPatch GetEmptyJSON templateOverrideValuesByte with
      | .error err => (Text.empty, some err)
      | .ok merged =>
        let afterStrategy : Except Error Text :=
          match strategy with
          | some s => if s.Config.nonEmpty then mergeUtil.JsonPatch merged s.Config else .ok merged
          | none => .ok merged
        match afterStrategy with
        | .error err => (Text.empty, some err)
        | .ok merged =>
          match mergeUtil.JsonPatch merged releaseOverrideJson with
          | .error err => (Text.empty, some err)
          | .ok merged =>
            let afterConfigMap : Except Error Text :=
              match configMapJson with
              | some cm => mergeUtil.JsonPatch merged cm
              | none => .ok merged
            match afterConfigMap with
            | .error err => (Text.empty, some err)
            | .ok merged =>
              let afterAppLabel : Except Error Text :=
                match appLabelJsonByte with
                | some lbl => mergeUtil.JsonPatch merged lbl
                | none => .ok merged
              match afterAppLabel with
              | .error err => (Text.empty, some err)
              | .ok merged => (merged, none)

/-- The patch layers of the merge engine, in the order the spec lists them (steps 2 to 6). -/
inductive Layer where
  | chartValues
  | strategyConfig
  | releaseOverride
  | configSecret
  | appLabel
deriving DecidableEq, Repr

/-- Position of a layer in the documented order. -/
def Layer.rank : Layer → Nat
  | .chartValues => 2
  | .strategyConfig => 3
  | .releaseOverride => 4
  | .configSecret => 5
  | .appLabel => 6

/-- From the spec's words: the document a layer contributes, `none` when the step is skipped.
Chart-level values are the environment override values if `IsOverride`, else the global chart
values; the strategy config counts only if a strategy is present with non-empty config; the
config/secret JSON and the app-label JSON count only if present. -/
def layerText (envOverride : EnvConfigOverride) (chart : Chart) (releaseOverrideJson : Text)
    (configMapJson : Option Text) (appLabelJsonByte : Option Text)
    (strategy : Option PipelineStrategy) : Layer → Option Text
  | .chartValues =>
    some (if envOverride.IsOverride then envOverride.ResolvedEnvOverrideValues
          else chart.ResolvedGlobalOverride)
  | .strategyConfig =>
    match strategy with
    | some s => if s.Config.nonEmpty then some s.Config else none
    | none => none
  | .releaseOverride => some releaseOverrideJson
  | .configSecret => configMapJson
  | .appLabel => appLabelJsonByte

/-- From the spec's words: a left-to-right patch chain, each step patching onto the
accumulated result and the first failing step ending the chain with its error. -/
def patchChain (mergeUtil : MergeUtil) : Text → List Text → Except Error Text
  | acc, [] => .ok acc
  | acc, p :: ps =>
    match mergeUtil.JsonPatch acc p with
    | .ok acc' => patchChain mergeUtil acc' ps
    | .error e => .error e

/-- From the spec's words: the documented order of the layers. -/
def documentedOrder : List Layer :=
  [.chartValues, .strategyConfig, .releaseOverride, .configSecret, .appLabel]

/-- The documented order with step 3 (strategy config) and step 5 (config/secret JSON)
exchanged. -/
def swappedOrder : List Layer :=
  [.chartValues, .configSecret, .releaseOverride, .strategyConfig, .appLabel]

/-- From the spec's words: the merged values document, the chain over the layers that are
present taken in the given order, starting from the empty JSON object. -/
def mergeChain (mergeUtil : MergeUtil) (order : List Layer) (envOverride : EnvConfigOverride)
    (chart : Chart) (releaseOverrideJson : Text) (configMapJson : Option Text)
    (appLabelJsonByte : Option Text) (strategy : Option PipelineStrategy) : Except Error Text :=
  patchChain mergeUtil GetEmptyJSON
    (order.filterMap
      (layerText envOverride chart releaseOverrideJson configMapJson appLabelJsonByte strategy))

/-- The Go pair `(bytes, err)` of a chain result: the bytes and nil, or nil bytes and the error. -/
def asGoPair : Except Error Text → Text × Option Error
  | .ok merged => (merged, none)
  | .error err => (Text.empty, some err)

/-! ## Release override renderer -/

/-- Pieces of a character list between occurrences of `sep`. -/
def splitChars (sep : Char) : List Char → List (List Char)
  | [] => [[]]
  | c :: cs =>
    if c = sep then [] :: splitChars sep cs
    else
      match splitChars sep cs with
      | [] => [[c]]
      | p :: ps => (c :: p) :: ps

/-- Go `strings.Split(s, sep)` for a separator of one character. -/
def Split (s : String) (sep : Char) : List String :=
  (splitChars sep s.data).map String.mk

/-- Source: the loop of `getReleaseOverride` (lines 723-729) that rebuilds the image name from
all pieces but the last. -/
def joinImageName (imageTag : List String) (imageTagLen : Int) : String :=
  (List.range (imageTagLen - 1).toNat).foldl
    (fun (imageName : String) (i : Nat) =>
      if (i : Int) ≠ imageTagLen - 2 then
        imageName ++ imageTag.getD i "" ++ ":"
      else
        imageName ++ imageTag.getD i "")
    ""

/-- Source: `getReleaseOverride`, lines 715-743: name and tag of the artifact image, the tag
followed by `@digest` when the digest policy asks for it. An error is the failed policy
lookup. -/
def releaseImageAndTag {σ : Type} (deps : Deps σ) (overrideRequest : ValuesOverrideRequest)
    (artifact : Option CiArtifact) : M σ (Except Error (String × String)) :=
  match artifact with
  | none => pure (.ok ("", ""))
  | some artifact => do
    let artifactImage := artifact.Image
    let imageTag := Split artifactImage ':'
    let imageTagLen : Int := imageTag.length
    let imageName := joinImageName imageTag imageTagLen
    let resp ← M.call (deps.GetDigestPolicyConfigurations overrideRequest.PipelineId)
      (fun _ => Event.GetDigestPolicyConfigurations overrideRequest.PipelineId)
    match resp with
    | .error err => pure (.error err)
    | .ok digestPolicyConfigurations =>
      let last := imageTag.getD (imageTagLen - 1).toNat ""
      let tag :=
        if digestPolicyConfigurations.UseDigestForTrigger then
          last ++ "@" ++ artifact.ImageDigest
        else last
      pure (.ok (imageName, tag))

/-- Source: `getReleaseOverride`, lines 745-762: render the image-descriptor template and put
the user's additional override under the result. -/
def renderReleaseOverride {σ : Type} (deps : Deps σ) (envOverride : EnvConfigOverride)
    (overrideRequest : ValuesOverrideRequest) (imageName tag deploymentStrategy : String)
    (pipelineReleaseCounter : Int) (appMetrics : Bool) : M σ (Text × Option Error) :=
  match envOverride.Chart with
  | none => M.panic
  | some chart =>
    match deps.RenderJson
        { imageName := imageName, tag := tag, pipelineName := overrideRequest.PipelineName,
          deploymentStrategy := deploymentStrategy, appId := overrideRequest.AppId,
          envId := overrideRequest.EnvId, pipelineReleaseCounter := pipelineReleaseCounter,
          appMetrics := appMetrics }
        chart.ImageDescriptorTemplate with
    | .error err =>
      pure (Text.empty, some (.api
        { HttpStatusCode := StatusUnprocessableEntity,
          UserMessage := "unable to render ImageDescriptorTemplate",
          InternalMessage := err.msg }))
    | .ok override =>
      match overrideRequest.AdditionalOverride with
      | some userOverride =>
        match deps.mergeUtil.JsonPatch userOverride override with
        | .error err => pure (Text.empty, some err)
        | .ok data => pure (data, none)
      | none => pure (override, none)

/-- Source: `getReleaseOverride` (lines 707-763). When the digest-policy lookup fails, the
log call of line 733 reads `envOverride.Environment.ClusterId` before the return: a nil
environment is a panic. -/
def getReleaseOverride {σ : Type} (deps : Deps σ) (envOverride : EnvConfigOverride)
    (overrideRequest : ValuesOverrideRequest) (artifact : Option CiArtifact)
    (pipelineReleaseCounter : Int) (strategy : Option PipelineStrategy) (appMetrics : Bool) :
    M σ (Text × Option Error) := do
  let deploymentStrategy :=
    match strategy with
    | some s => s.Strategy
    | none => ""
  let r ← releaseImageAndTag deps overrideRequest artifact
  match r with
  | .error err =>
    match envOverride.Environment with
    | none => M.panic
    | some _ => pure (Text.empty, some err)
  | .ok (imageName, tag) =>
    renderReleaseOverride deps envOverride overrideRequest imageName tag deploymentStrategy
      pipelineReleaseCounter appMetrics

/-! ## Pipeline override allocator -/

/-- Source: the loop of `checkAndFixDuplicateReleaseNo` (lines 800-820). It ends with the
loop variables, or leaves the function with an error; `fuel` bounds the iterations of the
model. -/
def checkAndFixLoop {σ : Type} (deps : Deps σ) :
    Nat → Bool → Int → PipelineOverride →
      M σ (Except (PipelineOverride × Error) (Bool × Int × PipelineOverride))
  | fuel, uniqueVerified, retryCount, override =>
    if !uniqueVerified && retryCount < 5 then
      match fuel with
      | 0 => M.outOfFuel
      | fuel + 1 => do
        let retryCount := retryCount + 1
        let resp ← M.call
          (deps.GetByPipelineIdAndReleaseNo override.PipelineId override.PipelineReleaseCounter)
          (Event.GetByPipelineIdAndReleaseNo override.PipelineId override.PipelineReleaseCounter)
        match resp with
        | .error err => pure (.error (override, err))
        | .ok [] => M.panic
        | .ok (first :: _) =>
          if first.Id = override.Id then
            checkAndFixLoop deps fuel true retryCount override
          else do
            let resp ← M.call (deps.GetCurrentPipelineReleaseCounter override.PipelineId)
              (Event.GetCurrentPipelineReleaseCounter override.PipelineId)
            match resp with
            | .error err => pure (.error (override, err))
            | .ok currentReleaseNo =>
              let override := { override with PipelineReleaseCounter := currentReleaseNo + 1 }
              let resp ← M.call (deps.Update override) (Event.Update override)
              match resp with
              | some err => pure (.error (override, err))
              | none => checkAndFixLoop deps fuel uniqueVerified retryCount override
    else
      pure (.ok (uniqueVerified, retryCount, override))

/-- Source: `checkAndFixDuplicateReleaseNo` (lines 795-825). The result is the override as
the function leaves it, and the returned error. -/
def checkAndFixDuplicateReleaseNo {σ : Type} (deps : Deps σ) (override : PipelineOverride) :
    M σ (PipelineOverride × Option Error) := do
  let r ← checkAndFixLoop deps 5 false 0 override
  match r with
  | .error (override, err) => pure (override, some err)
  | .ok (uniqueVerified, retryCount, override) =>
    if !uniqueVerified then
      pure (override, some (.errorString
        ("duplicate verification retry count exide max overrideId: " ++ toString override.Id
          ++ " ,count: " ++ toString retryCount)))
    else
      pure (override, none)

/-- Source: `savePipelineOverride` (lines 765-793). -/
def savePipelineOverride {σ : Type} (deps : Deps σ) (overrideRequest : ValuesOverrideRequest)
    (envOverrideId : Int) (triggeredAt : Time) :
    M σ (Option PipelineOverride × Option Error) := do
  let resp ← M.call (deps.GetCurrentPipelineReleaseCounter overrideRequest.PipelineId)
    (Event.GetCurrentPipelineReleaseCounter overrideRequest.PipelineId)
  match resp with
  | .error err => pure (none, some err)
  | .ok currentReleaseNo =>
    let po : PipelineOverride :=
      { EnvConfigOverrideId := envOverrideId,
        Status := .CHARTSTATUS_NEW,
        PipelineId := overrideRequest.PipelineId,
        CiArtifactId := overrideRequest.CiArtifactId,
        PipelineReleaseCounter := currentReleaseNo + 1,
        CdWorkflowId := overrideRequest.CdWorkflowId,
        AuditLog := { CreatedBy := overrideRequest.UserId, CreatedOn := triggeredAt,
                      UpdatedOn := triggeredAt, UpdatedBy := overrideRequest.UserId },
        DeploymentType := overrideRequest.DeploymentType }
    let resp ← M.call (deps.Save po) (Event.Save po)
    match resp with
    | .error err => pure (none, some err)
    | .ok po =>
      let r ← checkAndFixDuplicateReleaseNo deps po
      match r with
      | (_, some err) => pure (none, some err)
      | (po, none) => pure (some po, none)

/-! ## Manifest creation orchestrator -/

/-- Source: `setEnvironmentModelInEnvOverride` (lines 1102-1112). -/
def setEnvironmentModelInEnvOverride {σ : Type} (deps : Deps σ)
    (envOverride : EnvConfigOverride) : M σ (EnvConfigOverride × Option Error) := do
  let resp ← M.call (deps.FindEnvironmentById envOverride.TargetEnvironment)
    (fun _ => Event.FindEnvironmentById envOverride.TargetEnvironment)
  match resp with
  | .error err => pure (envOverride, some err)
  | .ok env => pure ({ envOverride with Environment := some env }, none)

/-- Source: `GetValuesOverrideForTrigger`, lines 260-310: the block run when the override was
created by this trigger, up to the final return. The `err` of the final return is the
function-level variable, last assigned by the app-label fetch; the merge and the steps after
it assign the `err` that line 275 declares inside the block. -/
def valuesForNewOverride {σ : Type} (deps : Deps σ) (overrideRequest : ValuesOverrideRequest)
    (envOverride : EnvConfigOverride) (pipeline : Pipeline) (artifact : CiArtifact)
    (pipelineOverride : PipelineOverride) (strategy : Option PipelineStrategy)
    (releaseOverrideJson : Text) (valuesOverrideResponse : ValuesOverrideResponse) :
    M σ (Option ValuesOverrideResponse × Option Error) :=
  match envOverride.Chart with
  | none => M.panic
  | some chart => do
    let chartVersion := chart.ChartVersion
    let (configMapJson, err) ← M.step
      (deps.getConfigMapAndSecretJsonV2 overrideRequest envOverride chartVersion)
      Event.getConfigMapAndSecretJsonV2
    let configMapJson :=
      match err with
      | some _ => { configMapJson with MergedJson := none }
      | none => configMapJson
    let resp ← M.call
      (deps.GetAppLabelsForDeployment overrideRequest.AppId overrideRequest.AppName
        overrideRequest.EnvName)
      (fun _ => Event.GetAppLabelsForDeployment overrideRequest.AppId)
    let (appLabelJsonByte, err) : Option Text × Option Error :=
      match resp with
      | .error e => (none, some e)
      | .ok bytes => (bytes, none)
    M.emit Event.mergeOverrideValues
    match mergeOverrideValues deps.mergeUtil envOverride releaseOverrideJson
        configMapJson.MergedJson appLabelJsonByte strategy with
    | none => M.panic
    | some (mergedValues, _) =>
      let appName := pipeline.DeploymentAppName
      match envOverride.Environment with
      | none => M.panic
      | some environment => do
        let liveChecks : M σ (Except Error Text) :=
          if !environment.IsVirtualEnvironment then do
            let (mergedValues, _) ← M.step
              (deps.updatedExternalCmCsHashForTrigger overrideRequest.ClusterId
                envOverride.Namespace mergedValues configMapJson.ExternalCmList
                configMapJson.ExternalCsList)
              (Event.updatedExternalCmCsHashForTrigger mergedValues)
            let (mergedValues, err') ← M.step
              (deps.autoscalingCheckBeforeTrigger appName envOverride.Namespace mergedValues
                overrideRequest)
              (Event.autoscalingCheckBeforeTrigger mergedValues)
            match err' with
            | some e => pure (.error e)
            | none => pure (.ok mergedValues)
          else pure (.ok mergedValues)
        let live ← liveChecks
        match live with
        | .error e => pure (some valuesOverrideResponse, some e)
        | .ok mergedValues =>
          let resp ← M.call
            (deps.HandleImagePullSecretOnApplicationDeployment envOverride.Environment
              artifact pipeline.CiPipelineId mergedValues)
            (fun _ => Event.HandleImagePullSecretOnApplicationDeployment mergedValues)
          match resp with
          | .error e => pure (some valuesOverrideResponse, some e)
          | .ok mergedValues =>
            let valuesOverrideResponse :=
              { valuesOverrideResponse with MergedValues := mergedValues }
            let updateErr ← M.call
              (deps.UpdatePipelineMergedValues pipelineOverride.Id mergedValues
                overrideRequest.UserId)
              (fun _ => Event.UpdatePipelineMergedValues pipelineOverride.Id mergedValues
                overrideRequest.UserId)
            match updateErr with
            | some e => pure (some valuesOverrideResponse, some e)
            | none =>
              let pipelineOverride :=
                { pipelineOverride with PipelineMergedValues := mergedValues }
              let valuesOverrideResponse :=
                { valuesOverrideResponse with PipelineOverride := some pipelineOverride }
              pure (some valuesOverrideResponse, err)

/-- Source: `GetValuesOverrideForTrigger`, lines 209-231: the override row and the
environment override of a trigger that brings an override id, or the environment override by
trigger type. An `error` is an early return of the whole function. -/
def resolveEnvOverride {σ : Type} (deps : Deps σ) (overrideRequest : ValuesOverrideRequest)
    (triggeredAt : Time) (isPipelineOverrideCreated : Bool)
    (valuesOverrideResponse : ValuesOverrideResponse) :
    M σ (Except (Option ValuesOverrideResponse × Option Error)
      (Option PipelineOverride × Option EnvConfigOverride)) :=
  if isPipelineOverrideCreated then do
    let resp ← M.call (deps.FindPipelineOverrideById overrideRequest.PipelineOverrideId)
      (fun _ => Event.FindPipelineOverrideById overrideRequest.PipelineOverrideId)
    match resp with
    | .error err => pure (.error (none, some err))
    | .ok pipelineOverride =>
      let resp ← M.call (deps.GetByIdIncludingInactive pipelineOverride.EnvConfigOverrideId)
        (fun _ => Event.GetByIdIncludingInactive pipelineOverride.EnvConfigOverrideId)
      match resp with
      | .error err => pure (.error (some valuesOverrideResponse, some err))
      | .ok envOverride =>
        let (envOverride, err) ← setEnvironmentModelInEnvOverride deps envOverride
        match err with
        | some err => pure (.error (none, some err))
        | none => pure (.ok (some pipelineOverride, some envOverride))
  else do
    let (envOverride, err) ← M.step (deps.getEnvOverrideByTriggerType overrideRequest triggeredAt)
      Event.getEnvOverrideByTriggerType
    match err with
    | some err => pure (.error (some valuesOverrideResponse, some err))
    | none => pure (.ok (none, envOverride))

/-- Source: `GetValuesOverrideForTrigger` (lines 173-311). The result is the Go pair
`(*ValuesOverrideResponse, error)`. -/
def GetValuesOverrideForTrigger {σ : Type} (deps : Deps σ)
    (overrideRequest : ValuesOverrideRequest) (triggeredAt : Time) :
    M σ (Option ValuesOverrideResponse × Option Error) := do
  let overrideRequest := deps.ResolveDeploymentTypeAndUpdate overrideRequest
  let valuesOverrideResponse : ValuesOverrideResponse := {}
  let isPipelineOverrideCreated : Bool := decide (overrideRequest.PipelineOverrideId > 0)
  let resp ← M.call (deps.FindPipelineById overrideRequest.PipelineId)
    (fun _ => Event.FindPipelineById overrideRequest.PipelineId)
  match resp with
  | .error err => pure (some valuesOverrideResponse, some err)
  | .ok pipeline =>
    let valuesOverrideResponse := { valuesOverrideResponse with Pipeline := some pipeline }
    let resp ← M.call (deps.GetCiArtifact overrideRequest.CiArtifactId)
      (fun _ => Event.GetCiArtifact overrideRequest.CiArtifactId)
    match resp with
    | .error err => pure (some valuesOverrideResponse, some err)
    | .ok artifact =>
      let valuesOverrideResponse := { valuesOverrideResponse with Artifact := some artifact }
      let overrideRequest := { overrideRequest with Image := artifact.Image }
      let (strategy, err) ← M.step (deps.getDeploymentStrategyByTriggerType overrideRequest)
        Event.getDeploymentStrategyByTriggerType
      let valuesOverrideResponse := { valuesOverrideResponse with PipelineStrategy := strategy }
      match err with
      | some err => pure (some valuesOverrideResponse, some err)
      | none =>
        let r ← resolveEnvOverride deps overrideRequest triggeredAt isPipelineOverrideCreated
          valuesOverrideResponse
        match r with
        | .error early => pure early
        | .ok (_, none) => M.panic
        | .ok (pipelineOverride, some envOverride) =>
          let valuesOverrideResponse :=
            { valuesOverrideResponse with EnvOverride := some envOverride }
          let createOverride : M σ (Except (Option ValuesOverrideResponse × Option Error)
              (ValuesOverrideRequest × Option PipelineOverride)) :=
            if !isPipelineOverrideCreated then do
              let (po, err) ← savePipelineOverride deps overrideRequest envOverride.Id
                triggeredAt
              match err, po with
              | some err, _ => pure (.error (some valuesOverrideResponse, some err))
              | none, none => M.panic
              | none, some po =>
                pure (.ok ({ overrideRequest with PipelineOverrideId := po.Id },
                  some { po with Pipeline := some pipeline, CiArtifact := some artifact }))
            else pure (.ok (overrideRequest, pipelineOverride))
          let created ← createOverride
          match created with
          | .error early => pure early
          | .ok (_, none) => M.panic
          | .ok (overrideRequest, some pipelineOverride) =>
            let valuesOverrideResponse :=
              { valuesOverrideResponse with PipelineOverride := some pipelineOverride }
            let (appMetrics, err) ← M.step (deps.getAppMetricsByTriggerType overrideRequest)
              Event.getAppMetricsByTriggerType
            match err with
            | some err => pure (some valuesOverrideResponse, some err)
            | none =>
              let (releaseOverrideJson, err) ← getReleaseOverride deps envOverride
                overrideRequest (some artifact) pipelineOverride.PipelineReleaseCounter
                strategy appMetrics
              let valuesOverrideResponse :=
                { valuesOverrideResponse with ReleaseOverrideJSON := releaseOverrideJson }
              match err with
              | some err => pure (some valuesOverrideResponse, some err)
              | none =>
                if !isPipelineOverrideCreated then
                  valuesForNewOverride deps overrideRequest envOverride pipeline artifact
                    pipelineOverride strategy releaseOverrideJson valuesOverrideResponse
                else
                  pure (some { valuesOverrideResponse with
                    MergedValues := pipelineOverride.PipelineMergedValues }, none)

/-! ## Reading a log -/

/-- Rows handed to `pipelineOverrideRepository.Save` in a log, in order. -/
def savedRows (log : List Event) : List PipelineOverride :=
  log.filterMap (fun ev =>
    match ev with
    | .Save po _ => some po
    | _ => none)

/-- Calls of `GetByPipelineIdAndReleaseNo`. -/
def Event.isLookup : Event → Bool
  | .GetByPipelineIdAndReleaseNo _ _ _ => true
  | _ => false

/-- Number of calls of `GetByPipelineIdAndReleaseNo` in a log. -/
def lookupCount (log : List Event) : Nat := (log.filter Event.isLookup).length

/-- Calls on the pipeline-override table that came back with an error. -/
def Event.failed : Event → Bool
  | .GetCurrentPipelineReleaseCounter _ (.error _) => true
  | .Save _ (.error _) => true
  | .GetByPipelineIdAndReleaseNo _ _ (.error _) => true
  | .Update _ (some _) => true
  | _ => false

/-- The error that a call on the pipeline-override table came back with. -/
def Event.callError : Event → Option Error
  | .GetCurrentPipelineReleaseCounter _ (.error err) => some err
  | .Save _ (.error err) => some err
  | .GetByPipelineIdAndReleaseNo _ _ (.error err) => some err
  | .Update _ (some err) => some err
  | _ => none

/-- Calls of `UpdatePipelineMergedValues`. -/
def Event.isUpdateMergedValues : Event → Bool
  | .UpdatePipelineMergedValues _ _ _ => true
  | _ => false

/-- A lookup event that shows a row other than `id` first (false for a lookup that failed
or found nothing, true for events that are not lookups). -/
def Event.showsOtherFirst (id : Int) : Event → Bool
  | .GetByPipelineIdAndReleaseNo _ _ (.ok (first :: _)) => first.Id != id
  | .GetByPipelineIdAndReleaseNo _ _ _ => false
  | _ => true

/-- The error `checkAndFixDuplicateReleaseNo` builds with `fmt.Errorf` (line 822). -/
def duplicateVerificationError (overrideId retryCount : Int) : Error :=
  .errorString ("duplicate verification retry count exide max overrideId: "
    ++ toString overrideId ++ " ,count: " ++ toString retryCount)

/-- The step that runs the merge engine. -/
def Event.isMerge : Event → Bool
  | .mergeOverrideValues => true
  | _ => false

/-- Calls on the pipeline-override table made while a release counter is allocated. -/
def Event.isAllocator : Event → Bool
  | .GetCurrentPipelineReleaseCounter _ _ => true
  | .Save _ _ => true
  | .GetByPipelineIdAndReleaseNo _ _ _ => true
  | .Update _ _ => true
  | _ => false

/-! ## Sample inputs -/

/-- A chart whose global values set `replicaCount`. -/
def sampleChart : Chart :=
  { Id := 1, ChartVersion := "4.18.0",
    ResolvedGlobalOverride := .json (.obj [("replicaCount", .num 1)]),
    ImageDescriptorTemplate := "image-descriptor" }

/-- An environment override that falls back to the chart's global values. -/
def sampleEnvOverride : EnvConfigOverride :=
  { Id := 7, TargetEnvironment := 2, Namespace := "demo", IsOverride := false,
    ResolvedEnvOverrideValues := .empty, Chart := some sampleChart,
    Environment := some { Id := 2, ClusterId := 1, IsVirtualEnvironment := false } }

/-- A rolling strategy whose config sets `k` to 1 and `maxSurge` to 1. -/
def sampleStrategy : PipelineStrategy :=
  { Id := 1, PipelineId := 10, Strategy := "ROLLING",
    Config := .json (.obj [("k", .num 1), ("maxSurge", .num 1)]),
    Default := true, Deleted := false }

/-- A release override fragment that sets `image` and `maxSurge`. -/
def sampleRelease : Text := .json (.obj [("image", .str "repo/app"), ("maxSurge", .num 2)])

/-- App labels as a values document. -/
def sampleLabels : Text := .json (.obj [("appLabels", .obj [("team", .str "core")])])

/-- A config/secret document that sets `k` to 2. -/
def sampleConfigSecret : Text := .json (.obj [("k", .num 2)])

/-- An in-memory pipeline-override table: the rows in insertion order. -/
abbrev Table := List PipelineOverride

/-- Largest release counter of a pipeline in the table, 0 without rows. -/
def maxCounter (pipelineId : Int) (rows : Table) : Int :=
  (rows.filter (fun r => r.PipelineId == pipelineId)).foldl
    (fun m r => max m r.PipelineReleaseCounter) 0

/-- Collaborators over the in-memory table: every lookup succeeds, the image is
`registry/repo:abc123` with digest `sha256:deadbeef`, no digest policy, and the template
renders image, tag, pipeline name and release version. -/
def memoryDeps : Deps Table where
  mergeUtil := rfc7396
  RenderJson attrs _ :=
    .ok (.json (.obj [("image", .str attrs.imageName), ("tag", .str attrs.tag),
      ("pipelineName", .str attrs.pipelineName),
      ("releaseVersion", .num attrs.pipelineReleaseCounter)]))
  ResolveDeploymentTypeAndUpdate r := r
  FindPipelineById id w := (.ok { Id := id, DeploymentAppName := "demo-app", CiPipelineId := 3 }, w)
  GetCiArtifact id w :=
    (.ok { Id := id, Image := "registry/repo:abc123", ImageDigest := "sha256:deadbeef" }, w)
  FindPipelineOverrideById id w :=
    (match w.find? (fun r => r.Id == id) with
      | some r => .ok r
      | none => .error (.errorString "pg: no rows in result set"), w)
  GetByIdIncludingInactive _ w := (.ok sampleEnvOverride, w)
  FindEnvironmentById id w := (.ok { Id := id, ClusterId := 1, IsVirtualEnvironment := false }, w)
  GetCurrentPipelineReleaseCounter pipelineId w := (.ok (maxCounter pipelineId w), w)
  Save po w := (.ok { po with Id := w.length + 1 }, w ++ [{ po with Id := w.length + 1 }])
  GetByPipelineIdAndReleaseNo pipelineId releaseNo w :=
    (.ok (w.filter (fun r => r.PipelineId == pipelineId && r.PipelineReleaseCounter == releaseNo)),
      w)
  Update po w := (none, w.map (fun r => if r.Id = po.Id then po else r))
  UpdatePipelineMergedValues id mergedValues _ w :=
    (none, w.map (fun r => if r.Id = id then { r with PipelineMergedValues := mergedValues } else r))
  GetDigestPolicyConfigurations _ w := (.ok { UseDigestForTrigger := false }, w)
  GetAppLabelsForDeployment _ _ _ w := (.ok (some sampleLabels), w)
  HandleImagePullSecretOnApplicationDeployment _ _ _ merged w := (.ok merged, w)
  getDeploymentStrategyByTriggerType _ w := (some (some sampleStrategy, none), w)
  getEnvOverrideByTriggerType _ _ w := (some (some sampleEnvOverride, none), w)
  getAppMetricsByTriggerType _ w := (some (true, none), w)
  getConfigMapAndSecretJsonV2 _ _ _ w :=
    (some ({ MergedJson := some sampleConfigSecret }, none), w)
  updatedExternalCmCsHashForTrigger _ _ merged _ _ w := (some (merged, none), w)
  autoscalingCheckBeforeTrigger _ _ merged _ w := (some (merged, none), w)

/-- A trigger for app 1, environment 2, pipeline 10 without a pre-existing override. -/
def sampleRequest : ValuesOverrideRequest :=
  { PipelineId := 10, AppId := 1, EnvId := 2, CiArtifactId := 5, CdWorkflowId := 8, UserId := 4,
    AppName := "demo", EnvName := "prod", PipelineName := "cd-demo",
    DeploymentType := .DEPLOYMENTTYPE_DEPLOY }

/-- A pipeline-override row with id 1, release 1 of pipeline 10. -/
def sampleRow : PipelineOverride := { Id := 1, PipelineId := 10, PipelineReleaseCounter := 1 }

/-- The in-memory collaborators, except that every lookup by pipeline and release shows a
row with id 0 first, as if another trigger always got there before. -/
def stubbornDeps : Deps Table :=
  { memoryDeps with
    GetByPipelineIdAndReleaseNo := fun pipelineId releaseNo w =>
      (.ok [{ Id := 0, PipelineId := pipelineId, PipelineReleaseCounter := releaseNo }], w) }

/-- As `stubbornDeps`, and the update that would store release counter 6 fails. -/
def failingRepairDeps : Deps Table :=
  { stubbornDeps with
    Update := fun po w =>
      if po.PipelineReleaseCounter = 6 then (some (.errorString "update failed"), w)
      else memoryDeps.Update po w }

/-- The in-memory collaborators with a digest policy that asks for digest pinning. -/
def digestDeps : Deps Table :=
  { memoryDeps with
    GetDigestPolicyConfigurations := fun _ w => (.ok { UseDigestForTrigger := true }, w) }

/-- The artifact of the in-memory collaborators. -/
def sampleArtifact : CiArtifact :=
  { Id := 5, Image := "registry/repo:abc123", ImageDigest := "sha256:deadbeef" }

/-- The in-memory collaborators with a template that nests image and tag under `server`. -/
def nestedTemplateDeps : Deps Table :=
  { memoryDeps with
    RenderJson := fun attrs _ =>
      .ok (.json (.obj [("server", .obj [("image", .str attrs.imageName),
          ("image_tag", .str attrs.tag)]),
        ("pipelineName", .str attrs.pipelineName)])) }

/-- A trigger whose additional override sets a replica count under `server` and a note. -/
def sampleRequestWithOverride : ValuesOverrideRequest :=
  { sampleRequest with
    AdditionalOverride :=
      some (.json (.obj [("server", .obj [("replicas", .num 3)]), ("note", .str "canary")])) }

/-- The in-memory collaborators with an image-descriptor template that does not render. -/
def brokenTemplateDeps : Deps Table :=
  { memoryDeps with
    RenderJson := fun _ _ => .error (.errorString "template: unexpected end of input") }

/-- The in-memory collaborators with a failing app-label fetch. -/
def labelErrorDeps : Deps Table :=
  { memoryDeps with
    GetAppLabelsForDeployment := fun _ _ _ w =>
      (.error (.errorString "app labels unavailable"), w) }

/-- An environment override of a virtual environment whose chart values are not JSON. -/
def malformedVirtualEnvOverride : EnvConfigOverride :=
  { sampleEnvOverride with
    Chart := some { sampleChart with ResolvedGlobalOverride := .malformed },
    Environment := some { Id := 2, ClusterId := 1, IsVirtualEnvironment := true } }

/-- The in-memory collaborators for a virtual environment whose chart values are not JSON. -/
def malformedVirtualDeps : Deps Table :=
  { memoryDeps with
    getEnvOverrideByTriggerType := fun _ _ w => (some (some malformedVirtualEnvOverride, none), w) }

/-- The in-memory collaborators for a cluster environment whose chart values are not JSON;
the autoscaling check fails to parse an empty document, as `json.Unmarshal` does. -/
def malformedClusterDeps : Deps Table :=
  { memoryDeps with
    getEnvOverrideByTriggerType := fun _ _ w =>
      (some (some { malformedVirtualEnvOverride with
        Environment := some { Id := 2, ClusterId := 1, IsVirtualEnvironment := false } }, none), w),
    autoscalingCheckBeforeTrigger := fun _ _ merged _ w =>
      match merged with
      | .json _ => (some (merged, none), w)
      | _ => (some (merged, some (.errorString "unexpected end of JSON input")), w) }

/-! ## Concurrent triggers -/

/-- Where a call of `savePipelineOverride` stands between two calls of the repository: the
call it makes next, with the local variables it holds. -/
inductive SaveState where
  /-- about to read the release counter (line 768) -/
  | start
  /-- about to insert the row (line 783) -/
  | save (po : PipelineOverride)
  /-- in the loop of `checkAndFixDuplicateReleaseNo`, about to look the release up
  (line 802) -/
  | lookup (retryCount : Int) (override : PipelineOverride)
  /-- about to read the release counter again (line 810) -/
  | recount (retryCount : Int) (override : PipelineOverride)
  /-- about to write the new release counter (line 815) -/
  | update (retryCount : Int) (override : PipelineOverride)
  /-- `savePipelineOverride` has returned -/
  | returned (override : Option PipelineOverride) (err : Option Error)
  /-- the call ended in a run-time panic -/
  | panicked

/-- Source: the loop condition of `checkAndFixDuplicateReleaseNo` (line 800) when the release
is not verified, followed by lines 821-823 and 788-791 when the loop is left. -/
def SaveState.loopHead (retryCount : Int) (override : PipelineOverride) : SaveState :=
  if retryCount < 5 then .lookup retryCount override
  else .returned none (some (duplicateVerificationError override.Id retryCount))

/-- Source: `savePipelineOverride` with `checkAndFixDuplicateReleaseNo` (lines 765-825), one
repository call at a time: the call the state stands before, and the statements up to the
next call. -/
def saveStep {σ : Type} (deps : Deps σ) (overrideRequest : ValuesOverrideRequest)
    (envOverrideId : Int) (triggeredAt : Time) : SaveState → σ → SaveState × σ
  | .start, w =>
    match deps.GetCurrentPipelineReleaseCounter overrideRequest.PipelineId w with
    | (.error err, w') => (.returned none (some err), w')
    | (.ok currentReleaseNo, w') =>
      (.save
        { EnvConfigOverrideId := envOverrideId,
          Status := .CHARTSTATUS_NEW,
          PipelineId := overrideRequest.PipelineId,
          CiArtifactId := overrideRequest.CiArtifactId,
          PipelineReleaseCounter := currentReleaseNo + 1,
          CdWorkflowId := overrideRequest.CdWorkflowId,
          AuditLog := { CreatedBy := overrideRequest.UserId, CreatedOn := triggeredAt,
                        UpdatedOn := triggeredAt, UpdatedBy := overrideRequest.UserId },
          DeploymentType := overrideRequest.DeploymentType }, w')
  | .save po, w =>
    match deps.Save po w with
    | (.error err, w') => (.returned none (some err), w')
    | (.ok po, w') => (SaveState.loopHead 0 po, w')
  | .lookup retryCount override, w =>
    let retryCount := retryCount + 1
    match deps.GetByPipelineIdAndReleaseNo override.PipelineId
        override.PipelineReleaseCounter w with
    | (.error err, w') => (.returned none (some err), w')
    | (.ok [], w') => (.panicked, w')
    | (.ok (first :: _), w') =>
      if first.Id = override.Id then (.returned (some override) none, w')
      else (.recount retryCount override, w')
  | .recount retryCount override, w =>
    match deps.GetCurrentPipelineReleaseCounter override.PipelineId w with
    | (.error err, w') => (.returned none (some err), w')
    | (.ok currentReleaseNo, w') =>
      (.update retryCount { override with PipelineReleaseCounter := currentReleaseNo + 1 }, w')
  | .update retryCount override, w =>
    match deps.Update override w with
    | (some err, w') => (.returned none (some err), w')
    | (none, w') => (SaveState.loopHead retryCount override, w')
  | .returned override err, w => (.returned override err, w)
  | .panicked, w => (.panicked, w)

/-- One call of `savePipelineOverride` run on its own for `n` repository calls. -/
def saveRun {σ : Type} (deps : Deps σ) (overrideRequest : ValuesOverrideRequest)
    (envOverrideId : Int) (triggeredAt : Time) : Nat → SaveState → σ → SaveState × σ
  | 0, s, w => (s, w)
  | n + 1, s, w =>
    let r := saveStep deps overrideRequest envOverrideId triggeredAt s w
    saveRun deps overrideRequest envOverrideId triggeredAt n r.1 r.2

/-- How a finished run of the function `savePipelineOverride` reads as a state of the
call. -/
def SaveState.ofResult : Res (Option PipelineOverride × Option Error) → SaveState
  | .val (override, err) => .returned override err
  | .panic => .panicked
  | .outOfFuel => .panicked

/-- How a finished run of the loop of `checkAndFixDuplicateReleaseNo` reads as a state of
the call of `savePipelineOverride`, by lines 821-824 and 788-792. -/
def SaveState.ofLoop :
    Res (Except (PipelineOverride × Error) (Bool × Int × PipelineOverride)) → SaveState
  | .val (.error (_, err)) => .returned none (some err)
  | .val (.ok (true, _, override)) => .returned (some override) none
  | .val (.ok (false, retryCount, override)) =>
    .returned none (some (duplicateVerificationError override.Id retryCount))
  | .panic => .panicked
  | .outOfFuel => .panicked

/-- The arguments of a call of `savePipelineOverride`. -/
structure SaveCall where
  overrideRequest : ValuesOverrideRequest
  envOverrideId : Int
  triggeredAt : Time

/-- Concurrent calls of `savePipelineOverride` over one repository. The schedule names,
step by step, the call that makes its next repository call; each repository call is
atomic. -/
def interleave {σ : Type} (deps : Deps σ) (calls : List SaveCall) :
    List Nat → List SaveState × σ → List SaveState × σ
  | [], c => c
  | i :: rest, (states, w) =>
    match calls.get? i, states.get? i with
    | some call, some s =>
      let r := saveStep deps call.overrideRequest call.envOverrideId call.triggeredAt s w
      interleave deps calls rest (states.set i r.1, r.2)
    | _, _ => interleave deps calls rest (states, w)

/-- A call that has returned a row and a nil error. -/
def SaveState.succeeded : SaveState → Bool
  | .returned (some _) none => true
  | _ => false

/-- The pairs `(PipelineId, PipelineReleaseCounter)` of the rows of a table. -/
def releaseKeys (rows : List PipelineOverride) : List (Int × Int) :=
  rows.map (fun r => (r.PipelineId, r.PipelineReleaseCounter))

/-- No two rows of the table share `(PipelineId, PipelineReleaseCounter)`. -/
def collisionFree (rows : List PipelineOverride) : Bool := decide (releaseKeys rows).Nodup

/-- Modelled from the spec: the pipeline-override repository (absent from the sources) as
section 4.6 describes it. The table keeps the rows in insertion order; the current release
counter is the largest counter of the pipeline; `Save` inserts the row with a fresh id; a
lookup by pipeline and release answers the rows sharing the pair, first by insertion order;
`Update` rewrites the row of that id. There is no unique constraint on the pair. -/
def tableRepository : Deps Table := memoryDeps

/-- The override that a call of `savePipelineOverride` holds while it is in the loop of
`checkAndFixDuplicateReleaseNo`. -/
def SaveState.override : SaveState → Option PipelineOverride
  | .lookup _ override => some override
  | .recount _ override => some override
  | .update _ override => some override
  | _ => none

/-- Three triggers on pipeline 10. -/
def threeCalls : List SaveCall :=
  [ { overrideRequest := sampleRequest, envOverrideId := 7, triggeredAt := 100 },
    { overrideRequest := sampleRequest, envOverrideId := 7, triggeredAt := 101 },
    { overrideRequest := sampleRequest, envOverrideId := 7, triggeredAt := 102 } ]

/-- An interleaving of the three triggers: the first two read the counter and insert their
rows; the first verifies; the second finds the first's row ahead of its own and reads the
counter again; the third reads the counter, inserts and verifies; then the second writes
its new counter and verifies. -/
def racingSchedule : List Nat := [0, 1, 0, 1, 0, 1, 1, 2, 2, 2, 1, 1]

/-! ## Config/secret resolver -/

/-- `bean.ConfigSecretMap` (api/bean/ConfigMapAndSecret.go), the fields read here. -/
structure ConfigSecretMap where
  Name : String := ""
  External : Bool := false
  ExternalType : String := ""
deriving DecidableEq, Repr

/-- `bean.ConfigMapJson`. -/
structure ConfigMapJson where
  Enabled : Bool := false
  Maps : List ConfigSecretMap := []
deriving DecidableEq, Repr

/-- `bean.ConfigSecretJson`; `Secrets` is a slice of pointers, each of which may be nil. -/
structure ConfigSecretJson where
  Enabled : Bool := false
  Secrets : List (Option ConfigSecretMap) := []
deriving DecidableEq, Repr

/-- `bean.ConfigMapRootJson`. -/
structure ConfigMapRootJson where
  ConfigMapJson : ConfigMapJson := {}
deriving DecidableEq, Repr

/-- `bean.ConfigSecretRootJson`. -/
structure ConfigSecretRootJson where
  ConfigSecretJson : ConfigSecretJson := {}
deriving DecidableEq, Repr

/-- Source: `getExternalCmCsFromRootJson` (lines 684-705). The pair holds the two results in
the order of the return statement (line 704): the list built from the config maps first, the
list built from the secrets second. `none` is the nil dereference of a nil entry of
`Secrets`; `KubernetesSecret` is the constant `globalUtil.KubernetesSecret`. -/
def getExternalCmCsFromRootJson (KubernetesSecret : String) (cmRootJson : ConfigMapRootJson)
    (csRootJson : ConfigSecretRootJson) : Option (List String × List String) :=
  let externalCmList : List String :=
    if cmRootJson.ConfigMapJson.Enabled then
      cmRootJson.ConfigMapJson.Maps.foldl
        (fun externalCmList cm =>
          if cm.External then externalCmList ++ [cm.Name] else externalCmList) []
    else []
  let externalCsList : Option (List String) :=
    if csRootJson.ConfigSecretJson.Enabled then
      csRootJson.ConfigSecretJson.Secrets.foldlM
        (fun externalCsList cs =>
          match cs with
          | none => none
          | some cs =>
            if cs.External && cs.ExternalType == KubernetesSecret then
              some (externalCsList ++ [cs.Name])
            else some externalCsList) []
    else some []
  match externalCsList with
  | none => none
  | some externalCsList => some (externalCmList, externalCsList)

/-- From the spec's words: the names, in document order, of the entries of a list that
satisfy a test. -/
def namesWhere (test : ConfigSecretMap → Bool) (entries : List ConfigSecretMap) : List String :=
  (entries.filter test).map (fun entry => entry.Name)

/-- `chartConfig.ConfigMapAppModel`, the fields read here. -/
structure ConfigMapAppModel where
  Id : Int := 0
  ConfigMapData : Text := .empty
  SecretData : Text := .empty

/-- `chartConfig.ConfigMapEnvModel`, the fields read here. -/
structure ConfigMapEnvModel where
  Id : Int := 0
  ConfigMapData : Text := .empty
  SecretData : Text := .empty

/-- `repository3.ConfigmapAndSecretHistory`, the fields read here. -/
structure ConfigmapAndSecretHistory where
  Id : Int := 0
  Data : Text := .empty

/-- The scope of variables (`resourceQualifiers.Scope`), kept as the ids it is built from. -/
structure Scope where
  AppId : Int := 0
  EnvId : Int := 0
  ClusterId : Int := 0
deriving DecidableEq, Repr

/-- `bean3.GetMergedCmAndCsJsonV2Request`, the fields read here. -/
structure GetMergedCmAndCsJsonV2Request where
  AppId : Int
  EnvId : Int
  PipeLineId : Int
  ChartVersion : String
  DeploymentWithConfig : DeploymentConfigurationType
  WfrIdForDeploymentWithSpecificTrigger : Int
  Scope : Scope

/-- The collaborators of `getConfigMapAndSecretJsonV2` besides `mergeUtil.JsonPatch`, and the
helpers and constants it uses that are declared outside the sources. A repository call
answers the Go pair `(pointer, error)`. -/
structure ConfigSecretDeps (σ : Type) where
  /-- the constant `pg.ErrNoRows` -/
  ErrNoRows : Error
  /-- the constant `globalUtil.KubernetesSecret` -/
  KubernetesSecret : String
  /-- the helper `helper.NewMergedCmAndCsJsonV2Response()` -/
  NewMergedCmAndCsJsonV2Response : MergedCmAndCsJsonV2Response
  /-- the helper `helper.GetScopeForVariables` -/
  GetScopeForVariables : ValuesOverrideRequest → EnvConfigOverride → Scope
  /-- the helper `helper.NewMergedCmAndCsJsonV2Request` -/
  NewMergedCmAndCsJsonV2Request :
    ValuesOverrideRequest → EnvConfigOverride → String → Scope → GetMergedCmAndCsJsonV2Request
  /-- the method `mergeUtil.ConfigMapMerge` -/
  ConfigMapMerge : Text → Text → Except Error Text
  /-- the method `mergeUtil.ConfigSecretMergeForCDStages` -/
  ConfigSecretMergeForCDStages : Text → Text → String → Except Error Text
  /-- `encoding/json` filling a `bean.ConfigMapJson` from a well-formed document -/
  decodeConfigMapJson : Json → Except Error ConfigMapJson
  /-- `encoding/json` filling a `bean.ConfigSecretJson` from a well-formed document -/
  decodeConfigSecretJson : Json → Except Error ConfigSecretJson
  /-- the method `configMapRepository.GetByAppIdAppLevel` -/
  GetByAppIdAppLevel : Int → σ → (Option ConfigMapAppModel × Option Error) × σ
  /-- the method `configMapRepository.GetByAppIdAndEnvIdEnvLevel` -/
  GetByAppIdAndEnvIdEnvLevel : Int → Int → σ → (Option ConfigMapEnvModel × Option Error) × σ
  /-- the method `configMapHistoryRepository.GetHistoryByPipelineIdAndWfrId`; the flag tells
  `repository3.SECRET_TYPE` from `repository3.CONFIGMAP_TYPE` -/
  GetHistoryByPipelineIdAndWfrId :
    Int → Int → Bool → σ → (Option ConfigmapAndSecretHistory × Option Error) × σ
  /-- the method `scopedVariableManager.ResolveCMCSTrigger`, handed the two root documents
  that the code marshals for it; it answers the resolved config-map and secret JSON -/
  ResolveCMCSTrigger : DeploymentConfigurationType → Scope → Int → Int → ConfigMapRootJson →
    ConfigSecretRootJson → Int → Int → σ → Except Error (Text × Text) × σ

/-- Go `json.Unmarshal(data, &v)`: no bytes, or bytes that do not parse, are an error; a
well-formed document is decoded by `fromJson`. -/
def Unmarshal {α : Type} (fromJson : Json → Except Error α) : Text → Except Error α
  | .empty => .error (.errorString "unexpected end of JSON input")
  | .malformed => .error (.errorString "invalid character looking for beginning of value")
  | .json j => fromJson j

/-- The error of a call answering `Except`, nil when it succeeded. -/
def errorOf {α : Type} : Except Error α → Option Error
  | .error err => some err
  | .ok _ => none

/-- The test `err != nil && pg.ErrNoRows != err` (lines 599 and 608): the error when the
test holds. Errors are compared by value. -/
def otherThanNoRows (ErrNoRows : Error) : Option Error → Option Error
  | some err => if ErrNoRows ≠ err then some err else none
  | none => none

/-- The local variables of `getConfigMapAndSecretJsonV2` that the fetches fill (lines
589-594), with the values they are declared with. -/
structure FetchedConfig where
  configMapA : Option ConfigMapAppModel := some {}
  configMapE : Option ConfigMapEnvModel := some {}
  configMapHistory : Option ConfigmapAndSecretHistory := some {}
  secretHistory : Option ConfigmapAndSecretHistory := some {}
  configMapJsonApp : Text := .empty
  secretDataJsonApp : Text := .empty
  configMapJsonEnv : Text := .empty
  secretDataJsonEnv : Text := .empty

/-- Source: `getConfigMapAndSecretJsonV2`, lines 597-632: the stored documents by trigger
type. An `error` is the error of an early return; a panic is the dereference of a nil
history. -/
def fetchConfigData {σ : Type} (c : ConfigSecretDeps σ)
    (request : GetMergedCmAndCsJsonV2Request) : M σ (Except Error FetchedConfig) :=
  match request.DeploymentWithConfig with
  | .DEPLOYMENT_CONFIG_TYPE_LAST_SAVED => do
    let (configMapA, err) ← M.call (c.GetByAppIdAppLevel request.AppId)
      (fun r => Event.GetByAppIdAppLevel request.AppId r.2)
    match otherThanNoRows c.ErrNoRows err with
    | some err => pure (.error err)
    | none =>
      let (configMapJsonApp, secretDataJsonApp) : Text × Text :=
        match configMapA with
        | some a => if a.Id > 0 then (a.ConfigMapData, a.SecretData) else (.empty, .empty)
        | none => (.empty, .empty)
      let (configMapE, err) ← M.call (c.GetByAppIdAndEnvIdEnvLevel request.AppId request.EnvId)
        (fun r => Event.GetByAppIdAndEnvIdEnvLevel request.AppId request.EnvId r.2)
      match otherThanNoRows c.ErrNoRows err with
      | some err => pure (.error err)
      | none =>
        let (configMapJsonEnv, secretDataJsonEnv) : Text × Text :=
          match configMapE with
          | some e => if e.Id > 0 then (e.ConfigMapData, e.SecretData) else (.empty, .empty)
          | none => (.empty, .empty)
        pure (.ok { configMapA := configMapA, configMapE := configMapE,
                    configMapJsonApp := configMapJsonApp,
                    secretDataJsonApp := secretDataJsonApp,
                    configMapJsonEnv := configMapJsonEnv,
                    secretDataJsonEnv := secretDataJsonEnv })
  | .DEPLOYMENT_CONFIG_TYPE_SPECIFIC_TRIGGER => do
    let (configMapHistory, err) ← M.call
      (c.GetHistoryByPipelineIdAndWfrId request.PipeLineId
        request.WfrIdForDeploymentWithSpecificTrigger false)
      (fun r => Event.GetHistoryByPipelineIdAndWfrId request.PipeLineId
        request.WfrIdForDeploymentWithSpecificTrigger false r.2)
    match err with
    | some err => pure (.error err)
    | none =>
      match configMapHistory with
      | none => M.panic
      | some ch =>
        let configMapJsonEnv := ch.Data
        let (secretHistory, err) ← M.call
          (c.GetHistoryByPipelineIdAndWfrId request.PipeLineId
            request.WfrIdForDeploymentWithSpecificTrigger true)
          (fun r => Event.GetHistoryByPipelineIdAndWfrId request.PipeLineId
            request.WfrIdForDeploymentWithSpecificTrigger true r.2)
        match err with
        | some err => pure (.error err)
        | none =>
          match secretHistory with
          | none => M.panic
          | some sh =>
            pure (.ok { configMapHistory := some ch, secretHistory := some sh,
                        configMapJsonEnv := configMapJsonEnv, secretDataJsonEnv := sh.Data })
  | .other _ => pure (.ok {})

/-- Source: `getConfigMapAndSecretJsonV2`, lines 633-681: merge the app-level and
environment-level documents, read them into the root documents, resolve the scoped variables
and patch the resolved secret JSON over the resolved config-map JSON. Marshalling the root
documents (lines 660-668) does not fail, and the resolver is handed the documents themselves.
The variable snapshots (lines 673-674) are written to fields of the environment override
that are not read here. -/
def mergeAndResolve {σ : Type} (mergeUtil : MergeUtil) (c : ConfigSecretDeps σ)
    (request : GetMergedCmAndCsJsonV2Request) (f : FetchedConfig)
    (cmAndCsJsonV2Response : MergedCmAndCsJsonV2Response) :
    M σ (MergedCmAndCsJsonV2Response × Option Error) := do
  let merged ← M.call (fun w => (c.ConfigMapMerge f.configMapJsonApp f.configMapJsonEnv, w))
    (fun r => Event.ConfigMapMerge (errorOf r))
  match merged with
  | .error err => pure (cmAndCsJsonV2Response, some err)
  | .ok configMapJson =>
    let merged ← M.call
      (fun w => (c.ConfigSecretMergeForCDStages f.secretDataJsonApp f.secretDataJsonEnv
        request.ChartVersion, w))
      (fun r => Event.ConfigSecretMergeForCDStages (errorOf r))
    match merged with
    | .error err => pure (cmAndCsJsonV2Response, some err)
    | .ok secretDataJson =>
      let configResponse : Except Error ConfigMapJson :=
        if configMapJson.nonEmpty then Unmarshal c.decodeConfigMapJson configMapJson
        else .ok {}
      match configResponse with
      | .error err => pure (cmAndCsJsonV2Response, some err)
      | .ok configResponse =>
        let cmRootJson : ConfigMapRootJson := { ConfigMapJson := configResponse }
        let secretResponse : Except Error ConfigSecretJson :=
          if configMapJson.nonEmpty then Unmarshal c.decodeConfigSecretJson secretDataJson
          else .ok {}
        match secretResponse with
        | .error err => pure (cmAndCsJsonV2Response, some err)
        | .ok secretResponse =>
          let csRootJson : ConfigSecretRootJson := { ConfigSecretJson := secretResponse }
          match f.configMapA, f.configMapE, f.configMapHistory, f.secretHistory with
          | some configMapA, some configMapE, some configMapHistory, some secretHistory => do
            let resolved ← M.call
              (c.ResolveCMCSTrigger request.DeploymentWithConfig request.Scope configMapA.Id
                configMapE.Id cmRootJson csRootJson configMapHistory.Id secretHistory.Id)
              (fun r => Event.ResolveCMCSTrigger (errorOf r))
            match resolved with
            | .error err => pure (cmAndCsJsonV2Response, some err)
            | .ok (resolvedCM, resolvedCS) =>
              match mergeUtil.JsonPatch resolvedCM resolvedCS with
              | .error err => pure ({ cmAndCsJsonV2Response with MergedJson := none }, some err)
              | .ok mergedJson =>
                match getExternalCmCsFromRootJson c.KubernetesSecret cmRootJson csRootJson with
                | none => M.panic
                | some (first, second) =>
                  pure ({ cmAndCsJsonV2Response with
                          MergedJson := some mergedJson,
                          ExternalCmList := first,
                          ExternalCsList := second }, none)
          | _, _, _, _ => M.panic

/-- Source: `getConfigMapAndSecretJsonV2` (lines 586-682). The result is the Go pair
`(*MergedCmAndCsJsonV2Response, error)`; the response is never nil. -/
def getConfigMapAndSecretJsonV2 {σ : Type} (mergeUtil : MergeUtil) (c : ConfigSecretDeps σ)
    (request : GetMergedCmAndCsJsonV2Request) :
    M σ (MergedCmAndCsJsonV2Response × Option Error) := do
  let cmAndCsJsonV2Response := c.NewMergedCmAndCsJsonV2Response
  let fetched ← fetchConfigData c request
  match fetched with
  | .error err => pure (cmAndCsJsonV2Response, some err)
  | .ok f => mergeAndResolve mergeUtil c request f cmAndCsJsonV2Response

/-! ## Live-state adjuster -/

namespace Json

/-- The value a document holds under a path of member names. -/
def getPath : List String → Json → Option Json
  | [], j => some j
  | k :: ks, .obj kvs =>
    match lookup k kvs with
    | some v => getPath ks v
    | none => none
  | _ :: _, _ => none

/-- The objects that hold `v` under a path of member names, one inside the other. -/
def nest : List String → Json → Json
  | [], v => v
  | k :: ks, v => .obj [(k, nest ks v)]

/-- Write `v` into a document under a path of member names: objects on the way are kept
and entered, missing members are created as objects, and the value at the end of the path is
replaced. `none` when the path runs into a value that is not an object. -/
def setPath : List String → Json → Json → Option Json
  | [], _, v => some v
  | k :: ks, .obj kvs, v =>
    match lookup k kvs with
    | some sub =>
      match setPath ks sub v with
      | some sub' => some (.obj (setKey k sub' kvs))
      | none => none
    | none => some (.obj (setKey k (nest ks v) kvs))
  | _ :: _, _, _ => none

end Json

/-- A member name that the path syntax of `sjson` and `gjson` reads as itself: it starts with
a letter and goes on with letters, digits, `_` or `-`. -/
def plainName (s : String) : Bool :=
  match s.data with
  | [] => false
  | c :: cs => c.isAlpha && cs.all (fun d => d.isAlphanum || d == '_' || d == '-')

/-- Bytes, each below 256. -/
abbrev Bytes := List Nat

/-- The lowercase hexadecimal digit of a number below 16. -/
def hexDigit (n : Nat) : Char :=
  if n < 10 then Char.ofNat (48 + n) else Char.ofNat (87 + n)

/-- Go `fmt.Sprintf("%x", bytes)`: two lowercase hexadecimal digits for each byte. -/
def hexLower (bs : Bytes) : String :=
  String.mk (bs.map (fun b => [hexDigit (b % 256 / 16), hexDigit (b % 16)])).flatten

/-- `k8sApiV1.ConfigMap`: the two data fields read here, and the resource version, which
stands for the metadata that is not read. -/
structure ConfigMap where
  Data : List (String × String) := []
  BinaryData : List (String × Bytes) := []
  ResourceVersion : String := ""
deriving DecidableEq, Repr

/-- `k8sApiV1.Secret`: the two data fields read here, and the resource version, which stands
for the metadata that is not read. -/
structure Secret where
  Data : List (String × Bytes) := []
  StringData : List (String × String) := []
  ResourceVersion : String := ""
deriving DecidableEq, Repr

/-- A value of the data map handed to `updateHashToMergedValues`: the anonymous struct of
`getConfigMapsData` or the one of `getSecretsData`. -/
inductive DataEntry where
  | configMap (Data : List (String × String)) (BinaryData : List (String × Bytes))
  | secret (Data : List (String × Bytes)) (StringData : List (String × String))
deriving DecidableEq, Repr

/-- A Go map from names to values; two maps are equal when they hold the same value under
every name. -/
abbrev GoMap (α : Type) := String → Option α

/-- Source: `getConfigMapsData` (lines 898-910). The configmaps of the map are not nil. -/
def getConfigMapsData (configMaps : GoMap ConfigMap) : GoMap DataEntry :=
  fun configMapName =>
    match configMaps configMapName with
    | some configMap => some (.configMap configMap.Data configMap.BinaryData)
    | none => none

/-- Source: `getSecretsData` (lines 913-925). The secrets of the map are not nil. -/
def getSecretsData (secrets : GoMap Secret) : GoMap DataEntry :=
  fun secretName =>
    match secrets secretName with
    | some secret => some (.secret secret.Data secret.StringData)
    | none => none

/-- `k8s.CmCsRequestBean` as `NewCmCsRequestBean` and its setters fill it. -/
structure CmCsRequestBean where
  ClusterId : Int
  Namespace : String
  ExternalCmList : List String := []
  ExternalCsList : List String := []
deriving DecidableEq, Repr

/-- The resource identifier of a `bean4.ResourceRequestBean`. -/
structure ResourceRequestBean where
  ClusterId : Int
  Name : String
  Namespace : String
  Group : String
  Kind : String
  Version : String
deriving DecidableEq, Repr

/-- `globalUtil.HpaResourceRequest`, the fields read here. Replica counts are whole
numbers. -/
structure HpaResourceRequest where
  IsEnable : Bool := false
  ReqMaxReplicas : Int := 0
  ReqMinReplicas : Int := 0
  ResourceName : String := ""
  Group : String := ""
  Kind : String := ""
deriving DecidableEq, Repr

/-- Constant `http.StatusPreconditionFailed` of net/http. -/
def StatusPreconditionFailed : Int := 412

/-- Constant `http.StatusRequestTimeout` of net/http. -/
def StatusRequestTimeout : Int := 408

/-- The cluster service, and the helpers, library functions and constants declared outside
the sources that the live-state checks use. The `Other` functions stand for what `sjson.Set`
and `gjson.Get` do outside the documents and paths spelled out in `sjsonSet` and
`gjsonGet`. -/
structure LiveDeps (σ : Type) where
  /-- the method `k8sCommonService.GetDataFromConfigMaps`; the map may be nil -/
  GetDataFromConfigMaps : CmCsRequestBean → σ → Except Error (Option (GoMap ConfigMap)) × σ
  /-- the method `k8sCommonService.GetDataFromSecrets`; the map may be nil -/
  GetDataFromSecrets : CmCsRequestBean → σ → Except Error (Option (GoMap Secret)) × σ
  /-- the method `k8sCommonService.GetPreferredVersionForAPIGroup` -/
  GetPreferredVersionForAPIGroup : Int → String → σ → (String × Option Error) × σ
  /-- the method `k8sCommonService.GetResource`, seen through the manifest object of its
  response -/
  GetResource : ResourceRequestBean → σ → Except Error (List (String × Json)) × σ
  /-- the function `k8s.ParseK8sClientErrorToApiError` -/
  ParseK8sClientErrorToApiError : Error → Error
  /-- the function `k8sUtil.IsNotFoundError`, which is also asked about a nil error -/
  IsNotFoundError : Option Error → Bool
  /-- the function `k8s.IsResourceNotFoundErr` -/
  IsResourceNotFoundErr : Error → Bool
  /-- the function `k8s.IsBadRequestErr` -/
  IsBadRequestErr : Error → Bool
  /-- the function `k8s.IsServerTimeoutErr` -/
  IsServerTimeoutErr : Error → Bool
  /-- the value of `util.DefaultApiError()` -/
  DefaultApiError : ApiError
  /-- Go `json.Marshal` of a data map -/
  Marshal : GoMap DataEntry → Except Error Bytes
  /-- Go `sha256.Sum256` -/
  Sum256 : Bytes → Bytes
  sjsonSetOther : Text → String → Json → Except Error Text
  gjsonGetOther : Text → String → Option Json
  /-- the constant `appBean.ConfigHashPathKey` -/
  ConfigHashPathKey : String
  /-- the constant `appBean.SecretHashPathKey` -/
  SecretHashPathKey : String
  /-- the helper `helper.GetAutoScalingReplicaCount`; `none` is a panic inside it -/
  GetAutoScalingReplicaCount : List (String × Json) → String → Option HpaResourceRequest
  /-- the function `globalUtil.ParseFloatNumber` -/
  ParseFloatNumber : Json → Except Error Int
  /-- the helper `helper.ExtractParamValue`, answering the Go pair `(value, error)` -/
  ExtractParamValue : List (String × Json) → String → Text → Int × Option Error
  /-- the helper `helper.SetScalingValues`, answering the Go pair `(bytes, error)` -/
  SetScalingValues : List (String × Json) → String → Text → Json → Text × Option Error
  /-- the helper `helper.IsNotFoundErr`, which is also asked about a nil error -/
  IsNotFoundErr : Option Error → Bool
  /-- the constant `helper.KeyNotFoundError` -/
  KeyNotFoundError : String
  /-- the constant `appBean.CustomAutoScalingEnabledPathKey` -/
  CustomAutoScalingEnabledPathKey : String
  /-- the constant `appBean.CustomAutoscalingReplicaCountPathKey` -/
  CustomAutoscalingReplicaCountPathKey : String
  /-- the constant `appBean.CustomAutoscalingMinPathKey` -/
  CustomAutoscalingMinPathKey : String
  /-- the constant `appBean.CustomAutoscalingMaxPathKey` -/
  CustomAutoscalingMaxPathKey : String

/-- Model of `sjson.Set(json, path, value)` for a well-formed document and a path of plain
member names separated by dots, when the values the path runs through are objects: the
value is written under the path. Everything else is left to `sjsonSetOther`. -/
def sjsonSet {σ : Type} (k : LiveDeps σ) (json : Text) (path : String) (value : Json) :
    Except Error Text :=
  let names := Split path '.'
  match json with
  | .json doc =>
    if names.all plainName then
      match doc.setPath names value with
      | some doc' => .ok (.json doc')
      | none => k.sjsonSetOther json path value
    else k.sjsonSetOther json path value
  | _ => k.sjsonSetOther json path value

/-- Model of `gjson.Get(json, path).Value()` for a well-formed document and a path of plain
member names separated by dots: the value under the path, `none` (Go nil) when there is
none. Everything else is left to `gjsonGetOther`. -/
def gjsonGet {σ : Type} (k : LiveDeps σ) (json : Text) (path : String) : Option Json :=
  let names := Split path '.'
  match json with
  | .json doc =>
    if names.all plainName then
      match doc.getPath names with
      | some .null => none
      | r => r
    else k.gjsonGetOther json path
  | _ => k.gjsonGetOther json path

/-- Source: `updateHashToMergedValues` (lines 884-895). The result is the Go pair
`(bytes, error)`. -/
def updateHashToMergedValues {σ : Type} (k : LiveDeps σ) (merged : Text) (path : String)
    (configOrSecretData : GoMap DataEntry) : Text × Option Error :=
  match k.Marshal configOrSecretData with
  | .error err => (merged, some err)
  | .ok mergedByteData =>
    let hash := hexLower (k.Sum256 mergedByteData)
    match sjsonSet k merged path (.str hash) with
    | .error err => (merged, some err)
    | .ok mergedString => (mergedString, none)

/-- Source: `updatedExternalCmCsHashForTrigger`, lines 934-949: the hash of the external
config maps. An `error` is an early return of the function. -/
def stampConfigMapHash {σ : Type} (k : LiveDeps σ) (clusterId : Int) (ns : String)
    (merged : Text) (externalCmList : List String) :
    M σ (Except (Text × Option Error) Text) :=
  if externalCmList.length > 0 then do
    let request : CmCsRequestBean :=
      { ClusterId := clusterId, Namespace := ns, ExternalCmList := externalCmList }
    let resp ← M.call (k.GetDataFromConfigMaps request)
      (fun r => Event.GetDataFromConfigMaps externalCmList (errorOf r))
    match resp with
    | .error err => pure (.error (merged, some (k.ParseK8sClientErrorToApiError err)))
    | .ok none => pure (.ok merged)
    | .ok (some configMaps) =>
      match updateHashToMergedValues k merged k.ConfigHashPathKey
          (getConfigMapsData configMaps) with
      | (merged, some err) => pure (.error (merged, some err))
      | (merged, none) => pure (.ok merged)
  else pure (.ok merged)

/-- Source: `updatedExternalCmCsHashForTrigger`, lines 950-966: the hash of the external
secrets, and the final return. -/
def stampSecretHash {σ : Type} (k : LiveDeps σ) (clusterId : Int) (ns : String)
    (merged : Text) (externalCsList : List String) : M σ (Text × Option Error) :=
  if externalCsList.length > 0 then do
    let request : CmCsRequestBean :=
      { ClusterId := clusterId, Namespace := ns, ExternalCsList := externalCsList }
    let resp ← M.call (k.GetDataFromSecrets request)
      (fun r => Event.GetDataFromSecrets externalCsList (errorOf r))
    match resp with
    | .error err => pure (merged, some (k.ParseK8sClientErrorToApiError err))
    | .ok none => pure (merged, none)
    | .ok (some secrets) =>
      match updateHashToMergedValues k merged k.SecretHashPathKey (getSecretsData secrets) with
      | (merged, some err) => pure (merged, some err)
      | (merged, none) => pure (merged, none)
  else pure (merged, none)

/-- Source: `updatedExternalCmCsHashForTrigger` (lines 931-967). The result is the Go pair
`(bytes, error)`. -/
def updatedExternalCmCsHashForTrigger {σ : Type} (k : LiveDeps σ) (clusterId : Int)
    (ns : String) (merged : Text) (externalCmList externalCsList : List String) :
    M σ (Text × Option Error) := do
  let r ← stampConfigMapHash k clusterId ns merged externalCmList
  match r with
  | .error early => pure early
  | .ok merged => stampSecretHash k clusterId ns merged externalCsList

/-- Modelled from the spec: `helper.FetchRequiredReplicaCount(current, max, min)`
(pkg/deployment/manifest/helper, absent from the sources) clamps the current replica count
into `[minReplicas, maxReplicas]`. -/
def FetchRequiredReplicaCount (currentReplicaCount reqMaxReplicas reqMinReplicas : Int) : Int :=
  if currentReplicaCount > reqMaxReplicas then reqMaxReplicas
  else if currentReplicaCount < reqMinReplicas then reqMinReplicas
  else currentReplicaCount

/-- Source: `getK8sHPAResourceManifest` (lines 827-878). The result is the Go pair
`(manifest, error)`; the builder methods of `util.ApiError` set the field they are named
after. -/
def getK8sHPAResourceManifest {σ : Type} (k : LiveDeps σ) (clusterId : Int) (ns : String)
    (hpaResourceRequest : HpaResourceRequest) :
    M σ (List (String × Json) × Option Error) := do
  let resourceManifest : List (String × Json) := []
  let (version, err) ← M.call
    (k.GetPreferredVersionForAPIGroup clusterId hpaResourceRequest.Group)
    (fun r => Event.GetPreferredVersionForAPIGroup clusterId hpaResourceRequest.Group r.2)
  let versionError : Option Error :=
    match err with
    | some e =>
      if !k.IsNotFoundError err then
        some (.api { k.DefaultApiError with
          HttpStatusCode := StatusPreconditionFailed,
          InternalMessage := e.msg,
          UserDetailMessage := "unable to find preferred version for hpa resource" })
      else none
    | none => none
  match versionError with
  | some apiErr => pure (resourceManifest, some apiErr)
  | none =>
    if k.IsNotFoundError err then
      pure (resourceManifest, some (.api { k.DefaultApiError with
        HttpStatusCode := StatusPreconditionFailed,
        InternalMessage := "unable to find preferred version for hpa resource",
        UserDetailMessage := "unable to find preferred version for hpa resource" }))
    else do
      let k8sReq : ResourceRequestBean :=
        { ClusterId := clusterId, Name := hpaResourceRequest.ResourceName, Namespace := ns,
          Group := hpaResourceRequest.Group, Kind := hpaResourceRequest.Kind,
          Version := version }
      let resp ← M.call (k.GetResource k8sReq)
        (fun r => Event.GetResource clusterId hpaResourceRequest.ResourceName (errorOf r))
      match resp with
      | .error err =>
        if k.IsResourceNotFoundErr err then pure (resourceManifest, none)
        else if k.IsBadRequestErr err then
          pure (resourceManifest, some (.api { k.DefaultApiError with
            HttpStatusCode := StatusPreconditionFailed,
            InternalMessage := err.msg,
            UserDetailMessage := err.msg }))
        else if k.IsServerTimeoutErr err then
          pure (resourceManifest, some (.api { k.DefaultApiError with
            HttpStatusCode := StatusRequestTimeout,
            InternalMessage := err.msg,
            UserDetailMessage := "taking longer than expected, please try again later" }))
        else pure (resourceManifest, some err)
      | .ok manifest => pure (manifest, none)

/-- Go's order of two strings (`a < b`), on their characters: byte by byte, which for UTF-8
text is character by character. -/
def stringLess : List Char → List Char → Bool
  | _, [] => false
  | [], _ :: _ => true
  | a :: as, b :: bs => a.toNat < b.toNat || (a.toNat == b.toNat && stringLess as bs)

/-- The least `e`, among `start`, `start + 1`, ... (`fuel` of them), for which `a / 2 ^ e` has
at most 53 binary digits. -/
def float64Shift (a : Nat) : Nat → Nat → Option Nat
  | 0, _ => none
  | fuel + 1, e => if a / 2 ^ e < 2 ^ 53 then some e else float64Shift a fuel (e + 1)

/-- The `float64` that `encoding/json` reads a whole number as (`strconv.ParseFloat`): the
nearest number with a significand of 53 binary digits, a tie going to the even significand;
`none` when that is beyond the largest `float64`, `(2 ^ 53 - 1) * 2 ^ 971`, which
`json.Unmarshal` reports as an error. -/
def float64OfInt (n : Int) : Option Int :=
  if n.natAbs < 2 ^ 53 then some n
  else
    match float64Shift n.natAbs 972 0 with
    | none => none
    | some e =>
      let q := n.natAbs / 2 ^ e
      let r := n.natAbs % 2 ^ e
      let q' := if 2 * r > 2 ^ e || (2 * r == 2 ^ e && q % 2 == 1) then q + 1 else q
      if q' == 2 ^ 53 && e == 971 then none
      else some (if n < 0 then -((q' * 2 ^ e : Nat) : Int) else ((q' * 2 ^ e : Nat) : Int))

namespace Json

/-- Put the member `(k, v)` into a list of members in front of the first member whose name
comes after `k`. -/
def insertByName (k : String) (v : Json) : List (String × Json) → List (String × Json)
  | [] => [(k, v)]
  | (k', v') :: rest =>
    if stringLess k.data k'.data then (k, v) :: (k', v') :: rest
    else (k', v') :: insertByName k v rest

/-- Go `m[k] = v` on a `map[string]interface{}`. The map is kept as the list of its members
in the order of their names, which is the order `json.Marshal` writes them in. -/
def mapSet (k : String) (v : Json) (m : List (String × Json)) : List (String × Json) :=
  insertByName k v (eraseKey k m)

mutual
/-- Go `json.Unmarshal` of a document into an `interface{}`: a number becomes a `float64`, an
array a `[]interface{}`, an object a `map[string]interface{}`; `none` is the error of a
number beyond the range of `float64`. -/
def decodeValue : Json → Option Json
  | num n => (float64OfInt n).map num
  | arr xs => (decodeList xs).map arr
  | obj kvs => (decodeMap kvs []).map obj
  | j => some j
/-- The elements of an array, decoded one by one. -/
def decodeList : List Json → Option (List Json)
  | [] => some []
  | x :: xs =>
    match decodeValue x, decodeList xs with
    | some y, some ys => some (y :: ys)
    | _, _ => none
/-- The members of an object, stored into the map `m` one by one in the order they are
written: a name written twice keeps its last value. -/
def decodeMap : List (String × Json) → List (String × Json) → Option (List (String × Json))
  | [], m => some m
  | (k, v) :: rest, m =>
    match decodeValue v with
    | some v' => decodeMap rest (mapSet k v' m)
    | none => none
end

end Json

/-- Go `json.Unmarshal(merged, &templateMap)` into a `map[string]interface{}`: an object
gives its members as `encoding/json` decodes them (numbers as `float64`), `null` leaves the
map empty, anything else is an error. -/
def unmarshalMap : Text → Except Error (List (String × Json))
  | .json (.obj kvs) =>
    match Json.decodeMap kvs [] with
    | some m => .ok m
    | none =>
      .error (.errorString "json: cannot unmarshal number into Go value of type float64")
  | .json .null => .ok []
  | .json _ =>
    .error (.errorString "json: cannot unmarshal into Go value of type map[string]interface {}")
  | .empty => .error (.errorString "unexpected end of JSON input")
  | .malformed => .error (.errorString "invalid character looking for beginning of value")

/-- Source: `autoscalingCheckBeforeTrigger`, lines 983-1017: the replica count of the live
HPA. An `error` is an early return of the function; otherwise the template map and the
merged values go on to the custom-chart check. A panic is the failed type assertion of
line 994. Line 1008 stores the replica count in the template map and line 1009 marshals the
map, which does not fail: the merged values that go on are the members of the map. -/
def hpaCheck {σ : Type} (k : LiveDeps σ) (appName : String) (ns : String) (merged : Text)
    (overrideRequest : ValuesOverrideRequest) (templateMap : List (String × Json)) :
    M σ (Except (Text × Option Error) (List (String × Json) × Text)) :=
  let clusterId := overrideRequest.ClusterId
  match k.GetAutoScalingReplicaCount templateMap appName with
  | none => M.panic
  | some hpaResourceRequest =>
    if hpaResourceRequest.IsEnable then do
      let (resourceManifest, err) ←
        getK8sHPAResourceManifest k clusterId ns hpaResourceRequest
      match err with
      | some err => pure (.error (merged, some err))
      | none =>
        if resourceManifest.length > 0 then
          match Json.lookup "status" resourceManifest with
          | some (.obj statusMap) =>
            match Json.lookup "currentReplicas" statusMap with
            | none => pure (.error (merged, none))
            | some .null => pure (.error (merged, none))
            | some currentReplicaVal =>
              match k.ParseFloatNumber currentReplicaVal with
              | .error err => pure (.error (merged, some err))
              | .ok currentReplicaCount =>
                let reqReplicaCount := FetchRequiredReplicaCount currentReplicaCount
                  hpaResourceRequest.ReqMaxReplicas hpaResourceRequest.ReqMinReplicas
                let templateMap := Json.mapSet "replicaCount" (.num reqReplicaCount) templateMap
                pure (.ok (templateMap, .json (.obj templateMap)))
          | _ => M.panic
        else pure (.ok (templateMap, merged))
    else pure (.ok (templateMap, merged))

/-- Source: `getReplicaCountFromCustomChart` (lines 1068-1100). The result is the Go pair
`(replicaCount, error)`. -/
def getReplicaCountFromCustomChart {σ : Type} (k : LiveDeps σ)
    (templateMap : List (String × Json)) (merged : Text) : Int × Option Error :=
  let notFound (key : String) : Error :=
    .api { k.DefaultApiError with
      HttpStatusCode := StatusPreconditionFailed,
      InternalMessage := k.KeyNotFoundError,
      UserDetailMessage := "empty value for key [" ++ key ++ "]" }
  let (autoscalingMinVal, err) :=
    k.ExtractParamValue templateMap k.CustomAutoscalingMinPathKey merged
  if k.IsNotFoundErr err then (0, some (notFound k.CustomAutoscalingMinPathKey))
  else
    match err with
    | some err => (0, some err)
    | none =>
      let (autoscalingMaxVal, err) :=
        k.ExtractParamValue templateMap k.CustomAutoscalingMaxPathKey merged
      if k.IsNotFoundErr err then (0, some (notFound k.CustomAutoscalingMaxPathKey))
      else
        match err with
        | some err => (0, some err)
        | none =>
          let (autoscalingReplicaCountVal, err) :=
            k.ExtractParamValue templateMap k.CustomAutoscalingReplicaCountPathKey merged
          if k.IsNotFoundErr err then
            (0, some (notFound k.CustomAutoscalingReplicaCountPathKey))
          else
            match err with
            | some err => (0, some err)
            | none =>
              (FetchRequiredReplicaCount autoscalingReplicaCountVal autoscalingMaxVal
                autoscalingMinVal, none)

/-- Source: `autoscalingCheckBeforeTrigger`, lines 1019-1065: the check for custom charts
and the final return. `none` is the failed type assertion of line 1046. -/
def customChartCheck {σ : Type} (k : LiveDeps σ) (deploymentType : DeploymentType)
    (templateMap : List (String × Json)) (merged : Text) : Option (Text × Option Error) :=
  match Json.lookup k.CustomAutoScalingEnabledPathKey templateMap with
  | none => some (merged, none)
  | some autoscalingEnabledPath =>
    if deploymentType = .DEPLOYMENTTYPE_STOP then
      match k.SetScalingValues templateMap k.CustomAutoScalingEnabledPathKey merged
          (.bool false) with
      | (merged, some err) => some (merged, some err)
      | (merged, none) =>
        match k.SetScalingValues templateMap k.CustomAutoscalingReplicaCountPathKey merged
            (.num 0) with
        | (merged, some err) => some (merged, some err)
        | (merged, none) =>
          match k.SetScalingValues templateMap k.CustomAutoscalingMinPathKey merged
              (.num 0) with
          | (merged, some err) => some (merged, some err)
          | (merged, none) =>
            match k.SetScalingValues templateMap k.CustomAutoscalingMaxPathKey merged
                (.num 0) with
            | (merged, some err) => some (merged, some err)
            | (merged, none) => some (merged, none)
    else
      match autoscalingEnabledPath with
      | .str path =>
        let autoscalingEnabled : Bool :=
          match gjsonGet k merged path with
          | some (.bool val) => val
          | _ => false
        if autoscalingEnabled then
          match getReplicaCountFromCustomChart k templateMap merged with
          | (_, some err) => some (merged, some err)
          | (replicaCount, none) =>
            match k.SetScalingValues templateMap k.CustomAutoscalingReplicaCountPathKey merged
                (.num replicaCount) with
            | (merged, some err) => some (merged, some err)
            | (merged, none) => some (merged, none)
        else some (merged, none)
      | _ => none

/-- Source: `autoscalingCheckBeforeTrigger` (lines 969-1066). The result is the Go pair
`(bytes, error)`. -/
def autoscalingCheckBeforeTrigger {σ : Type} (k : LiveDeps σ) (appName : String)
    (ns : String) (merged : Text) (overrideRequest : ValuesOverrideRequest) :
    M σ (Text × Option Error) :=
  let deploymentType := overrideRequest.DeploymentType
  match unmarshalMap merged with
  | .error err => pure (merged, some err)
  | .ok templateMap => do
    let r ← hpaCheck k appName ns merged overrideRequest templateMap
    match r with
    | .error early => pure early
    | .ok (templateMap, merged) =>
      match customChartCheck k deploymentType templateMap merged with
      | none => M.panic
      | some r => pure r

/-! ## The service with its own methods -/

/-- A run as a step of the caller: the value and the state it ends with; `none` is a
panic. -/
def M.asStep {σ β : Type} (m : M σ β) : σ → Option β × σ := fun w =>
  let o := m w
  (match o.result with
    | .val b => some b
    | _ => none, o.world)

/-- The collaborators `deps` with other answers for the three methods
`getConfigMapAndSecretJsonV2`, `updatedExternalCmCsHashForTrigger` and
`autoscalingCheckBeforeTrigger`. -/
def withSteps {σ : Type} (deps : Deps σ)
    (resolver : ValuesOverrideRequest → EnvConfigOverride → String → σ →
      Option (MergedCmAndCsJsonV2Response × Option Error) × σ)
    (hashes : Int → String → Text → List String → List String → σ →
      Option (Text × Option Error) × σ)
    (autoscaling : String → String → Text → ValuesOverrideRequest → σ →
      Option (Text × Option Error) × σ) : Deps σ :=
  { deps with
    getConfigMapAndSecretJsonV2 := resolver
    updatedExternalCmCsHashForTrigger := hashes
    autoscalingCheckBeforeTrigger := autoscaling }

/-- The collaborators `deps` with the three methods `getConfigMapAndSecretJsonV2`,
`updatedExternalCmCsHashForTrigger` and `autoscalingCheckBeforeTrigger` as this development
spells them out, over their own collaborators. -/
def serviceDeps {σ : Type} (deps : Deps σ) (c : ConfigSecretDeps σ) (k : LiveDeps σ) : Deps σ :=
  withSteps deps
    (fun overrideRequest envOverride chartVersion =>
      M.asStep (getConfigMapAndSecretJsonV2 deps.mergeUtil c
        (c.NewMergedCmAndCsJsonV2Request overrideRequest envOverride chartVersion
          (c.GetScopeForVariables overrideRequest envOverride))))
    (fun clusterId ns merged externalCmList externalCsList =>
      M.asStep (updatedExternalCmCsHashForTrigger k clusterId ns merged externalCmList
        externalCsList))
    (fun appName ns merged overrideRequest =>
      M.asStep (autoscalingCheckBeforeTrigger k appName ns merged overrideRequest))

/-- Calls that write to the pipeline-override table. -/
def Event.isOverrideWrite : Event → Bool
  | .Save _ _ => true
  | .Update _ _ => true
  | .UpdatePipelineMergedValues _ _ _ => true
  | _ => false

/-- The collaborators `deps`, except that where `getConfigMapAndSecretJsonV2` answers an
error, the same response without merged JSON is answered with a nil error. -/
def withoutConfigSecretError {σ : Type} (deps : Deps σ) : Deps σ :=
  withSteps deps
    (fun overrideRequest envOverride chartVersion w =>
      match deps.getConfigMapAndSecretJsonV2 overrideRequest envOverride chartVersion w with
      | (some (response, some _), w') => (some ({ response with MergedJson := none }, none), w')
      | answer => answer)
    deps.updatedExternalCmCsHashForTrigger deps.autoscalingCheckBeforeTrigger

/-- The collaborators `deps`, except that where `updatedExternalCmCsHashForTrigger` answers
an error, the same merged values are answered with a nil error. -/
def withoutHashError {σ : Type} (deps : Deps σ) : Deps σ :=
  withSteps deps deps.getConfigMapAndSecretJsonV2
    (fun clusterId ns merged externalCmList externalCsList w =>
      match deps.updatedExternalCmCsHashForTrigger clusterId ns merged externalCmList
          externalCsList w with
      | (some (merged', some _), w') => (some (merged', none), w')
      | answer => answer)
    deps.autoscalingCheckBeforeTrigger

/-- The error of a call of the fetch or merge phase of `getConfigMapAndSecretJsonV2` that
the function returns: any error of a history fetch or of one of the two merges, and an error
of a lookup of the stored documents other than `pg.ErrNoRows`. -/
def Event.fetchOrMergeFailure (ErrNoRows : Error) : Event → Option Error
  | .GetByAppIdAppLevel _ err => otherThanNoRows ErrNoRows err
  | .GetByAppIdAndEnvIdEnvLevel _ _ err => otherThanNoRows ErrNoRows err
  | .GetHistoryByPipelineIdAndWfrId _ _ _ err => err
  | .ConfigMapMerge err => err
  | .ConfigSecretMergeForCDStages err => err
  | _ => none

/-- Source: `GetValuesOverrideForTrigger`, lines 270-274: the app-label bytes the
orchestrator keeps after the fetch, nil after an error. -/
def labelBytes : Except Error (Option Text) → Option Text
  | .ok bytes => bytes
  | .error _ => none

/-- Calls of `ResolveCMCSTrigger`. -/
def Event.isResolve : Event → Bool
  | .ResolveCMCSTrigger _ => true
  | _ => false

/-! ## Sample collaborators of the resolver and of the live checks -/

/-- A sample of `encoding/json` filling a `bean.ConfigSecretMap`: the members `name`,
`external` and `externalType` of an object. -/
def sampleDecodeEntry : Json → Option ConfigSecretMap
  | .obj kvs =>
    some
      { Name := (match Json.lookup "name" kvs with
          | some (.str s) => s
          | _ => ""),
        External := (match Json.lookup "external" kvs with
          | some (.bool b) => b
          | _ => false),
        ExternalType := (match Json.lookup "externalType" kvs with
          | some (.str s) => s
          | _ => "") }
  | _ => none

/-- A sample of `encoding/json` filling a `bean.ConfigMapJson`. -/
def sampleDecodeConfigMapJson : Json → Except Error ConfigMapJson
  | .obj kvs =>
    .ok
      { Enabled := (match Json.lookup "enabled" kvs with
          | some (.bool b) => b
          | _ => false),
        Maps := (match Json.lookup "maps" kvs with
          | some (.arr xs) => xs.filterMap sampleDecodeEntry
          | _ => []) }
  | _ => .error (.errorString "json: cannot unmarshal into Go value of type bean.ConfigMapJson")

/-- A sample of `encoding/json` filling a `bean.ConfigSecretJson`; a `null` entry of
`secrets` is a nil pointer. -/
def sampleDecodeConfigSecretJson : Json → Except Error ConfigSecretJson
  | .obj kvs =>
    .ok
      { Enabled := (match Json.lookup "enabled" kvs with
          | some (.bool b) => b
          | _ => false),
        Secrets := (match Json.lookup "secrets" kvs with
          | some (.arr xs) => xs.map sampleDecodeEntry
          | _ => []) }
  | _ =>
    .error (.errorString "json: cannot unmarshal into Go value of type bean.ConfigSecretJson")

/-- Stored config-map data: an external config map and an inline one. -/
def sampleConfigMapData : Text :=
  .json (.obj [("enabled", .bool true),
    ("maps", .arr [.obj [("name", .str "app-config"), ("external", .bool true)],
                   .obj [("name", .str "inline-config"), ("external", .bool false)]])])

/-- Stored secret data: an external Kubernetes secret and an external secret of another
kind. -/
def sampleSecretData : Text :=
  .json (.obj [("enabled", .bool true),
    ("secrets", .arr [.obj [("name", .str "k8s-secret"), ("external", .bool true),
                            ("externalType", .str "KubernetesSecret")],
                      .obj [("name", .str "vault-secret"), ("external", .bool true),
                            ("externalType", .str "ESO_HashiCorpVault")]])])

/-- Sample collaborators of the resolver over the in-memory table: the app-level record
holds `sampleConfigMapData` and `sampleSecretData`, there is no environment-level record,
a merge takes the environment-level document when there is one and the app-level document
otherwise, and the resolver answers a document that sets `cm` and one that sets `cs`. -/
def sampleResolver : ConfigSecretDeps Table where
  ErrNoRows := .errorString "pg: no rows in result set"
  KubernetesSecret := "KubernetesSecret"
  NewMergedCmAndCsJsonV2Response := {}
  GetScopeForVariables req _ := { AppId := req.AppId, EnvId := req.EnvId, ClusterId := req.ClusterId }
  NewMergedCmAndCsJsonV2Request req _ chartVersion scope :=
    { AppId := req.AppId, EnvId := req.EnvId, PipeLineId := req.PipelineId,
      ChartVersion := chartVersion, DeploymentWithConfig := req.DeploymentWithConfig,
      WfrIdForDeploymentWithSpecificTrigger := req.WfrIdForDeploymentWithSpecificTrigger,
      Scope := scope }
  ConfigMapMerge app env := .ok (if env.nonEmpty then env else app)
  ConfigSecretMergeForCDStages app env _ := .ok (if env.nonEmpty then env else app)
  decodeConfigMapJson := sampleDecodeConfigMapJson
  decodeConfigSecretJson := sampleDecodeConfigSecretJson
  GetByAppIdAppLevel _ w :=
    ((some { Id := 1, ConfigMapData := sampleConfigMapData, SecretData := sampleSecretData },
      none), w)
  GetByAppIdAndEnvIdEnvLevel _ _ w :=
    ((some {}, some (.errorString "pg: no rows in result set")), w)
  GetHistoryByPipelineIdAndWfrId _ _ secret w :=
    ((some { Id := 3, Data := if secret then sampleSecretData else sampleConfigMapData }, none),
      w)
  ResolveCMCSTrigger _ _ _ _ _ _ _ _ w :=
    (.ok (.json (.obj [("cm", .num 1)]), .json (.obj [("cs", .num 2)])), w)

/-- The sample resolver with scoped-variable resolution failing. -/
def failingResolver : ConfigSecretDeps Table :=
  { sampleResolver with
    ResolveCMCSTrigger := fun _ _ _ _ _ _ _ _ w =>
      (.error (.errorString "variable not found"), w) }

/-- The sample resolver with a failing lookup of the app-level record. -/
def failingFetchResolver : ConfigSecretDeps Table :=
  { sampleResolver with
    GetByAppIdAppLevel := fun _ w => ((none, some (.errorString "connection refused")), w) }

/-- The sample resolver over stored documents of which the secret part is empty: the merged
config-map JSON is a document, the merged secret JSON is the empty string. -/
def noSecretResolver : ConfigSecretDeps Table :=
  { sampleResolver with
    GetByAppIdAppLevel := fun _ w =>
      ((some { Id := 1, ConfigMapData := sampleConfigMapData, SecretData := .empty }, none), w) }

/-- The sample resolver over stored documents of which the config-map part is empty: the
merged config-map JSON is the empty string, the merged secret JSON is a document. -/
def noConfigMapResolver : ConfigSecretDeps Table :=
  { sampleResolver with
    GetByAppIdAppLevel := fun _ w =>
      ((some { Id := 1, ConfigMapData := .empty, SecretData := sampleSecretData }, none), w) }

/-- The config-map document of a configuration without entries. -/
def emptyConfigMapDocument : Text :=
  .json (.obj [("enabled", .bool false), ("maps", .arr [])])

/-- The secret document of a configuration without entries. -/
def emptySecretDocument : Text :=
  .json (.obj [("enabled", .bool false), ("secrets", .arr [])])

/-- Collaborators of the resolver whose merges put the document of a configuration without
entries in the place of two absent documents, and answer as those of `c` otherwise. -/
def withDocumentMerges (c : ConfigSecretDeps Table) : ConfigSecretDeps Table :=
  { c with
    ConfigMapMerge := fun app env =>
      if app.nonEmpty || env.nonEmpty then c.ConfigMapMerge app env
      else .ok emptyConfigMapDocument
    ConfigSecretMergeForCDStages := fun app env chartVersion =>
      if app.nonEmpty || env.nonEmpty then c.ConfigSecretMergeForCDStages app env chartVersion
      else .ok emptySecretDocument }

/-- The sample resolver for an application without any stored record: both lookups answer
`pg.ErrNoRows` next to an empty record. -/
def noRecordResolver : ConfigSecretDeps Table :=
  withDocumentMerges
    { sampleResolver with
      GetByAppIdAppLevel := fun _ w =>
        ((some {}, some (.errorString "pg: no rows in result set")), w) }

/-- The request of the sample trigger for the resolver. -/
def sampleResolverRequest : GetMergedCmAndCsJsonV2Request :=
  sampleResolver.NewMergedCmAndCsJsonV2Request sampleRequest sampleEnvOverride "4.18.0"
    (sampleResolver.GetScopeForVariables sampleRequest sampleEnvOverride)

/-- Sample collaborators of the live checks: the cluster answers one config map or secret
for each name asked for, HPA version `v2` and a live HPA with `currentReplicas`; the hash
function is a toy; autoscaling and its bounds are read from the member `autoscaling` of the
merged values. -/
def sampleLive (currentReplicas : Int) : LiveDeps Table where
  GetDataFromConfigMaps req w :=
    (.ok (some (fun name =>
      if name ∈ req.ExternalCmList then some { Data := [("LOG_LEVEL", "info")] } else none)), w)
  GetDataFromSecrets req w :=
    (.ok (some (fun name =>
      if name ∈ req.ExternalCsList then some { StringData := [("token", "t0p")] } else none)), w)
  GetPreferredVersionForAPIGroup _ _ w := (("v2", none), w)
  GetResource _ w := (.ok [("status", .obj [("currentReplicas", .num currentReplicas)])], w)
  ParseK8sClientErrorToApiError err :=
    .api { HttpStatusCode := 500, UserMessage := err.msg, InternalMessage := err.msg }
  IsNotFoundError err := err == some (.errorString "not found")
  IsResourceNotFoundErr err := err == .errorString "resource not found"
  IsBadRequestErr err := err == .errorString "bad request"
  IsServerTimeoutErr err := err == .errorString "server timeout"
  DefaultApiError := { HttpStatusCode := 500, UserMessage := "", InternalMessage := "" }
  Marshal data :=
    .ok ((if (data "app-config").isSome then [99, 109] else []) ++
      (if (data "k8s-secret").isSome then [99, 115] else []))
  Sum256 bs := [bs.length % 256, bs.sum % 256, 171]
  sjsonSetOther _ _ _ := .error (.errorString "sjson: path not supported")
  gjsonGetOther _ _ := none
  ConfigHashPathKey := "devtronInternal.containerSpecs.ConfigHash"
  SecretHashPathKey := "devtronInternal.containerSpecs.SecretHash"
  GetAutoScalingReplicaCount templateMap appName :=
    match Json.lookup "autoscaling" templateMap with
    | some (.obj as) =>
      match Json.lookup "enabled" as, Json.lookup "MinReplicas" as,
        Json.lookup "MaxReplicas" as with
      | some (.bool true), some (.num lo), some (.num hi) =>
        some { IsEnable := true, ReqMaxReplicas := hi, ReqMinReplicas := lo,
               ResourceName := appName ++ "-hpa", Group := "autoscaling",
               Kind := "HorizontalPodAutoscaler" }
      | some (.bool true), _, _ => none
      | _, _, _ => some { Group := "autoscaling", Kind := "HorizontalPodAutoscaler" }
    | _ => some { Group := "autoscaling", Kind := "HorizontalPodAutoscaler" }
  ParseFloatNumber v :=
    match v with
    | .num n => .ok n
    | _ => .error (.errorString "invalid number")
  ExtractParamValue _ _ _ := (0, some (.errorString "key not found"))
  SetScalingValues _ _ merged _ := (merged, none)
  IsNotFoundErr err := err == some (.errorString "key not found")
  KeyNotFoundError := "key not found"
  CustomAutoScalingEnabledPathKey := "autoscalingEnabledPath"
  CustomAutoscalingReplicaCountPathKey := "autoscalingReplicaCountPath"
  CustomAutoscalingMinPathKey := "autoscalingMinPath"
  CustomAutoscalingMaxPathKey := "autoscalingMaxPath"

/-- The sample live collaborators with a cluster that cannot be reached for config maps. -/
def unreachableLive : LiveDeps Table :=
  { sampleLive 7 with
    GetDataFromConfigMaps := fun _ w => (.error (.errorString "connection refused"), w) }

/-- The sample live collaborators with a cluster that cannot be reached for secrets. -/
def unreachableSecretsLive : LiveDeps Table :=
  { sampleLive 7 with
    GetDataFromSecrets := fun _ w => (.error (.errorString "connection refused"), w) }

/-- Merged values with autoscaling enabled between 2 and 10 replicas. -/
def sampleAutoscaledValues : Text :=
  .json (.obj [("replicaCount", .num 1),
    ("autoscaling", .obj [("enabled", .bool true), ("MinReplicas", .num 2),
                          ("MaxReplicas", .num 10)])])

/-- A trigger that brings the id of the override row 1. -/
def replayRequest : ValuesOverrideRequest := { sampleRequest with PipelineOverrideId := 1 }

/-- The override row 1 with its merged values stored. -/
def storedRow : PipelineOverride :=
  { Id := 1, EnvConfigOverrideId := 7, PipelineId := 10, PipelineReleaseCounter := 1,
    PipelineMergedValues := .json (.obj [("image", .str "registry/repo"), ("tag", .str "abc123")]) }

/-- A race of two triggers on pipeline 10: both read the counter and insert before either
verifies. -/
def twoCallRace : List Nat := [0, 1, 0, 1, 0, 1, 1, 1, 1]

/-- A config-map root document that is not enabled and lists an external config map. -/
def disabledConfigMapRoot : ConfigMapRootJson :=
  { ConfigMapJson := { Enabled := false, Maps := [{ Name := "app-config", External := true }] } }

/-- A config-map root document with an external and an inline config map. -/
def sampleConfigMapRoot : ConfigMapRootJson :=
  { ConfigMapJson :=
      { Enabled := true,
        Maps := [{ Name := "app-config", External := true },
                 { Name := "inline-config", External := false },
                 { Name := "shared-config", External := true }] } }

/-- A secret root document with an external Kubernetes secret, an external secret of another
kind and an inline secret. -/
def sampleSecretRoot : ConfigSecretRootJson :=
  { ConfigSecretJson :=
      { Enabled := true,
        Secrets := [some { Name := "k8s-secret", External := true,
                           ExternalType := "KubernetesSecret" },
                    some { Name := "vault-secret", External := true,
                           ExternalType := "ESO_HashiCorpVault" },
                    some { Name := "inline-secret", External := false,
                           ExternalType := "KubernetesSecret" }] } }

/-- Source: `GetValuesOverrideForTrigger`, lines 264-268: the response the orchestrator keeps
after `getConfigMapAndSecretJsonV2`, without merged JSON after an error. -/
def keptResponse (response : MergedCmAndCsJsonV2Response) :
    Option Error → MergedCmAndCsJsonV2Response
  | some _ => { response with MergedJson := none }
  | none => response

/-! ## Strategy, environment override and app metrics by trigger type -/

/-- Constant `pg.ErrNoRows` of github.com/go-pg/pg. -/
def pg.ErrNoRows : Error := .errorString "pg: no rows in result set"

/-- Model of `errors.NotFoundf(format)` of github.com/juju/errors, called without arguments:
a not-found error whose message is the format followed by ` not found`. -/
def NotFoundf (format : String) : Error := .notFound (format ++ " not found")

/-- Model of `errors.IsNotFound(err)` of github.com/juju/errors: whether the error was made
by `NotFoundf` (or `NewNotFound`). -/
def IsNotFound : Error → Bool
  | .notFound _ => true
  | _ => false

/-- The value of `&chartConfig.PipelineStrategy{}`. -/
def emptyPipelineStrategy : PipelineStrategy :=
  { Id := 0, PipelineId := 0, Strategy := "", Config := .empty, Default := false,
    Deleted := false }

/-- The value of `&bean2.EnvConfigOverride{}`. -/
def emptyEnvConfigOverride : EnvConfigOverride :=
  { Id := 0, TargetEnvironment := 0, Namespace := "", IsOverride := false,
    ResolvedEnvOverrideValues := .empty, Chart := none, Environment := none }

/-- The `Where` clauses of a query on the table `pipeline_strategy`; every query of the
repository also asks for `deleted = false`. -/
structure StrategyQuery where
  Strategy : Option String := none
  PipelineId : Int
  Default : Option Bool := none
deriving DecidableEq, Repr

/-- The deployed strategy history (`repository.PipelineStrategyHistory`), the fields read
here. -/
structure PipelineStrategyHistory where
  Strategy : String
  Config : Text

/-- The deployed template history (`repository.DeploymentTemplateHistory`), the field read
here. -/
structure DeploymentTemplateHistory where
  IsAppMetricsEnabled : Bool

/-- The collaborators of `getDeploymentStrategyByTriggerType`, `getEnvOverrideByTriggerType`
and `getAppMetricsByTriggerType`. A call answering the Go pair `(pointer, error)` answers
that pair; `Select` is `Model(pipelineStrategy).Where(...).Select()` of go-pg, which fills
the row or answers an error, `pg.ErrNoRows` when no row matches. The two methods that build
the environment override are taken as given; `none` is a panic inside them. -/
structure TriggerTypeDeps (σ : Type) where
  /-- the helper `helper.GetDeploymentTemplateType` -/
  GetDeploymentTemplateType : ValuesOverrideRequest → String
  /-- the method `strategyHistoryRepository.GetHistoryByPipelineIdAndWfrId` -/
  GetStrategyHistoryByPipelineIdAndWfrId :
    Int → Int → σ → (Option PipelineStrategyHistory × Option Error) × σ
  Select : StrategyQuery → σ → Except Error PipelineStrategy × σ
  GetEnvOverrideForSpecificConfigTrigger :
    ValuesOverrideRequest → σ → Option (Option EnvConfigOverride × Option Error) × σ
  getEnvOverrideForLastSavedConfigTrigger :
    ValuesOverrideRequest → Time → σ → Option (Option EnvConfigOverride × Option Error) × σ
  /-- the method `deploymentTemplateHistoryRepository.GetHistoryByPipelineIdAndWfrId` -/
  GetDeploymentTemplateHistoryByPipelineIdAndWfrId :
    Int → Int → σ → (Option DeploymentTemplateHistory × Option Error) × σ
  /-- the method `deployedAppMetricsService.GetMetricsFlagForAPipelineByAppIdAndEnvId` -/
  GetMetricsFlagForAPipelineByAppIdAndEnvId : Int → Int → σ → (Bool × Option Error) × σ

/-- Source: `PipelineConfigRepositoryImpl.FindByStrategyAndPipelineId`
(PipelineConfigRepository.go:84-92). The result is the Go pair `(pipelineStrategy, err)`:
the error of `Select` is returned as it is, next to the struct the query was to fill. -/
def FindByStrategyAndPipelineId {σ : Type} (t : TriggerTypeDeps σ) (strategy : String)
    (pipelineId : Int) : M σ (Option PipelineStrategy × Option Error) := do
  let resp ← M.call
    (t.Select { Strategy := some strategy, PipelineId := pipelineId })
    (fun r => Event.SelectPipelineStrategy pipelineId (errorOf r))
  match resp with
  | .error err => pure (some emptyPipelineStrategy, some err)
  | .ok pipelineStrategy => pure (some pipelineStrategy, none)

/-- Source: `PipelineConfigRepositoryImpl.GetDefaultStrategyByPipelineId`
(PipelineConfigRepository.go:110-124). The result is the Go pair `(pipelineStrategy, err)`;
`pg.ErrNoRows` becomes a nil strategy and a not-found error. -/
def GetDefaultStrategyByPipelineId {σ : Type} (t : TriggerTypeDeps σ) (pipelineId : Int) :
    M σ (Option PipelineStrategy × Option Error) := do
  let resp ← M.call
    (t.Select { PipelineId := pipelineId, Default := some true })
    (fun r => Event.SelectPipelineStrategy pipelineId (errorOf r))
  match resp with
  | .error err =>
    if pg.ErrNoRows = err then pure (none, some (NotFoundf err.msg))
    else pure (some emptyPipelineStrategy, some err)
  | .ok pipelineStrategy => pure (some pipelineStrategy, none)

/-- Source: `getDeploymentStrategyByTriggerType` (lines 313-347). The result is the Go pair
`(*PipelineStrategy, error)`; `errors.Is(err, pg.ErrNoRows)` compares by value; a panic is
the dereference of a nil strategy history. -/
def getDeploymentStrategyByTriggerType {σ : Type} (t : TriggerTypeDeps σ)
    (overrideRequest : ValuesOverrideRequest) : M σ (Option PipelineStrategy × Option Error) :=
  let strategy : PipelineStrategy := emptyPipelineStrategy
  match overrideRequest.DeploymentWithConfig with
  | .DEPLOYMENT_CONFIG_TYPE_SPECIFIC_TRIGGER => do
    let (strategyHistory, err) ← M.call
      (t.GetStrategyHistoryByPipelineIdAndWfrId overrideRequest.PipelineId
        overrideRequest.WfrIdForDeploymentWithSpecificTrigger)
      (fun r => Event.GetStrategyHistoryByPipelineIdAndWfrId overrideRequest.PipelineId
        overrideRequest.WfrIdForDeploymentWithSpecificTrigger r.2)
    match err with
    | some err =>
      if err ≠ pg.ErrNoRows then pure (none, some err)
      else pure (none, none)
    | none =>
      match strategyHistory with
      | none => M.panic
      | some strategyHistory =>
        pure (some { strategy with
          Strategy := strategyHistory.Strategy,
          Config := strategyHistory.Config,
          PipelineId := overrideRequest.PipelineId }, none)
  | .DEPLOYMENT_CONFIG_TYPE_LAST_SAVED => do
    let deploymentTemplateType := t.GetDeploymentTemplateType overrideRequest
    let (strategy, err) ←
      if overrideRequest.ForceTrigger || deploymentTemplateType.length == 0 then
        GetDefaultStrategyByPipelineId t overrideRequest.PipelineId
      else
        FindByStrategyAndPipelineId t deploymentTemplateType overrideRequest.PipelineId
    match err with
    | some err =>
      if IsNotFound err == false then pure (none, some err)
      else pure (strategy, none)
    | none => pure (strategy, none)
  | .other _ => pure (some strategy, none)

/-- Source: `getEnvOverrideByTriggerType` (lines 349-366). The result is the Go pair
`(*EnvConfigOverride, error)`. -/
def getEnvOverrideByTriggerType {σ : Type} (t : TriggerTypeDeps σ)
    (overrideRequest : ValuesOverrideRequest) (triggeredAt : Time) :
    M σ (Option EnvConfigOverride × Option Error) :=
  let envOverride : EnvConfigOverride := emptyEnvConfigOverride
  match overrideRequest.DeploymentWithConfig with
  | .DEPLOYMENT_CONFIG_TYPE_SPECIFIC_TRIGGER => do
    let (envOverride, err) ← M.step (t.GetEnvOverrideForSpecificConfigTrigger overrideRequest)
      Event.GetEnvOverrideForSpecificConfigTrigger
    match err with
    | some err => pure (none, some err)
    | none => pure (envOverride, none)
  | .DEPLOYMENT_CONFIG_TYPE_LAST_SAVED => do
    let (envOverride, err) ← M.step
      (t.getEnvOverrideForLastSavedConfigTrigger overrideRequest triggeredAt)
      Event.getEnvOverrideForLastSavedConfigTrigger
    match err with
    | some err => pure (none, some err)
    | none => pure (envOverride, none)
  | .other _ => pure (some envOverride, none)

/-- Source: `getAppMetricsByTriggerType` (lines 520-542). The result is the Go pair
`(bool, error)`; a panic is the dereference of a nil template history. -/
def getAppMetricsByTriggerType {σ : Type} (t : TriggerTypeDeps σ)
    (overrideRequest : ValuesOverrideRequest) : M σ (Bool × Option Error) :=
  let appMetrics : Bool := false
  match overrideRequest.DeploymentWithConfig with
  | .DEPLOYMENT_CONFIG_TYPE_SPECIFIC_TRIGGER => do
    let (deploymentTemplateHistory, err) ← M.call
      (t.GetDeploymentTemplateHistoryByPipelineIdAndWfrId overrideRequest.PipelineId
        overrideRequest.WfrIdForDeploymentWithSpecificTrigger)
      (fun r => Event.GetDeploymentTemplateHistoryByPipelineIdAndWfrId
        overrideRequest.PipelineId overrideRequest.WfrIdForDeploymentWithSpecificTrigger r.2)
    match err with
    | some err => pure (appMetrics, some err)
    | none =>
      match deploymentTemplateHistory with
      | none => M.panic
      | some deploymentTemplateHistory =>
        pure (deploymentTemplateHistory.IsAppMetricsEnabled, none)
  | .DEPLOYMENT_CONFIG_TYPE_LAST_SAVED => do
    let (isAppMetricsEnabled, err) ← M.call
      (t.GetMetricsFlagForAPipelineByAppIdAndEnvId overrideRequest.AppId overrideRequest.EnvId)
      (fun r => Event.GetMetricsFlagForAPipelineByAppIdAndEnvId overrideRequest.AppId
        overrideRequest.EnvId r.2)
    match err with
    | some err => pure (appMetrics, some err)
    | none => pure (isAppMetricsEnabled, none)
  | .other _ => pure (appMetrics, none)

/-- The collaborators `deps` with the three methods `getDeploymentStrategyByTriggerType`,
`getEnvOverrideByTriggerType` and `getAppMetricsByTriggerType` as this development spells them
out, over their own collaborators. -/
def triggerTypeDeps {σ : Type} (deps : Deps σ) (t : TriggerTypeDeps σ) : Deps σ :=
  { deps with
    getDeploymentStrategyByTriggerType := fun overrideRequest =>
      M.asStep (getDeploymentStrategyByTriggerType t overrideRequest)
    getEnvOverrideByTriggerType := fun overrideRequest triggeredAt =>
      M.asStep (getEnvOverrideByTriggerType t overrideRequest triggeredAt)
    getAppMetricsByTriggerType := fun overrideRequest =>
      M.asStep (getAppMetricsByTriggerType t overrideRequest) }

/-! ## Manifest build -/

/-- Source: `BuildManifestForTrigger` (lines 157-171). The result is the Go triple
`(valuesOverrideResponse, builtChartPath, err)`. `BuildChartAndGetPath` is the method of
`deploymentTemplateService`, answering the Go pair `(path, error)`; it is handed the app name
of the request as `GetValuesOverrideForTrigger` leaves it. The deployment config that line
165 stores in the response is not read here; a panic is that store into a nil response. -/
def BuildManifestForTrigger {σ : Type} (deps : Deps σ)
    (BuildChartAndGetPath : String → Option EnvConfigOverride → σ →
      (String × Option Error) × σ)
    (overrideRequest : ValuesOverrideRequest) (triggeredAt : Time) :
    M σ (Option ValuesOverrideResponse × String × Option Error) := do
  let (valuesOverrideResponse, err) ← GetValuesOverrideForTrigger deps overrideRequest
    triggeredAt
  match err with
  | some err => pure (valuesOverrideResponse, "", some err)
  | none =>
    match valuesOverrideResponse with
    | none => M.panic
    | some valuesOverrideResponse =>
      let appName := (deps.ResolveDeploymentTypeAndUpdate overrideRequest).AppName
      let (builtChartPath, err) ← M.call
        (BuildChartAndGetPath appName valuesOverrideResponse.EnvOverride)
        (fun r => Event.BuildChartAndGetPath appName r.2)
      match err with
      | some err => pure (some valuesOverrideResponse, "", some err)
      | none => pure (some valuesOverrideResponse, builtChartPath, none)

/-! ## Whitelisted URLs -/

/-- Go `strings.Contains(s, substr)`: whether `substr` occurs in `s` at some position.
Strings are compared character by character, which for well-formed UTF-8 is the comparison
of their bytes. -/
def Contains (s substr : String) : Bool :=
  s.data.tails.any (fun t => substr.data.isPrefixOf t)

/-- Go `strings.HasPrefix(s, prefix)`. -/
def HasPrefix (s pfx : String) : Bool := pfx.data.isPrefixOf s.data

/-- Source: the local list `urls` of `WhitelistChecker` (UserAuthService.go:371-389). -/
def WhitelistChecker.urls : List String :=
  [ "/health",
    "/metrics",
    "/orchestrator/webhook/ci/gocd/artifact",
    "/orchestrator/auth/login",
    "/orchestrator/auth/callback",
    "/orchestrator/api/v1/session",
    "/orchestrator/app/ci-pipeline/github-webhook/trigger",
    "/orchestrator/webhook/msg/nats",
    "/orchestrator/devtron/auth/verify",
    "/orchestrator/security/policy/verify/webhook",
    "/orchestrator/sso/list",
    "/",
    "/orchestrator/dashboard-event/dashboardAccessed",
    "/orchestrator/dashboard-event/dashboardLoggedIn",
    "/orchestrator/self-register/check",
    "/orchestrator/self-register",
    "/orchestrator/telemetry/summary" ]

/-- Source: the local list `prefixUrls` of `WhitelistChecker`
(UserAuthService.go:395-403). -/
def WhitelistChecker.prefixUrls : List String :=
  [ "/orchestrator/api/vi/pod/exec/ws",
    "/orchestrator/k8s/pod/exec/sockjs/ws",
    "/orchestrator/api/dex",
    "/orchestrator/auth/callback",
    "/orchestrator/auth/login",
    "/dashboard",
    "/orchestrator/webhook/git" ]

/-- Source: `WhitelistChecker` (UserAuthService.go:370-410). -/
def WhitelistChecker (url : String) : Bool :=
  if WhitelistChecker.urls.any (fun a => a == url) then true
  else if WhitelistChecker.prefixUrls.any (fun a => Contains url a) then true
  else false

/-- From the spec's words: a URL is whitelisted when it equals one of the listed exact paths
or begins with one of the entries of `prefixUrls`. -/
def whitelistedByPrefix (url : String) : Bool :=
  WhitelistChecker.urls.contains url ||
    WhitelistChecker.prefixUrls.any (fun a => HasPrefix url a)

/-! ## Reading the log of the repair loop -/

/-- Two events in a row of the repair loop are in order: a lookup comes right after an update
that returned nil for a row with the pair looked up, and a counter read that answered `c` is
followed at once by the update of a row with counter `c + 1`. -/
def Event.inRepairOrder : Event → Event → Bool
  | .Update u none, .GetByPipelineIdAndReleaseNo pid rc _ =>
    u.PipelineId == pid && u.PipelineReleaseCounter == rc
  | _, .GetByPipelineIdAndReleaseNo _ _ _ => false
  | .GetCurrentPipelineReleaseCounter _ (.ok c), .Update u _ =>
    u.PipelineReleaseCounter == c + 1
  | .GetCurrentPipelineReleaseCounter _ (.ok _), _ => false
  | _, _ => true

/-- Whether every two events in a row of a log are in repair order. -/
def repairOrdered : List Event → Bool
  | a :: b :: rest => a.inRepairOrder b && repairOrdered (b :: rest)
  | _ => true

/-- Whether a log ends with a counter read that succeeded. -/
def endsWithCounterRead (log : List Event) : Bool :=
  match log.getLast? with
  | some (.GetCurrentPipelineReleaseCounter _ (.ok _)) => true
  | _ => false

/-! ## Samples for the trigger-type methods, the manifest build and the live checks -/

/-- A chart builder that answers a path under `/tmp/charts`. -/
def sampleBuildChartAndGetPath (appName : String) (_ : Option EnvConfigOverride) (w : Table) :
    (String × Option Error) × Table :=
  (("/tmp/charts/" ++ appName, none), w)

/-- A chart builder that fails after writing an incomplete chart. -/
def failingBuildChartAndGetPath (appName : String) (_ : Option EnvConfigOverride) (w : Table) :
    (String × Option Error) × Table :=
  (("/tmp/charts/" ++ appName ++ ".part", some (.errorString "chart not found")), w)

/-- Two rows of pipeline 10 that share release counter 1. -/
def duplicateRows : Table :=
  [ { Id := 1, PipelineId := 10, PipelineReleaseCounter := 1 },
    { Id := 2, PipelineId := 10, PipelineReleaseCounter := 1 } ]

/-- The sample cluster without the HPA resource, as for a hibernated application. -/
def hibernatedLive : LiveDeps Table :=
  { sampleLive 7 with
    GetResource := fun _ w => (.error (.errorString "resource not found"), w) }

/-- The sample cluster with a live HPA that has no `status` yet. -/
def noStatusLive : LiveDeps Table :=
  { sampleLive 7 with
    GetResource := fun _ w => (.ok [("metadata", .obj [("name", .str "demo-app-hpa")])], w) }

/-- The sample cluster with a live HPA whose `status` has no `currentReplicas` yet. -/
def pendingLive : LiveDeps Table :=
  { sampleLive 7 with
    GetResource := fun _ w => (.ok [("status", .obj [("desiredReplicas", .num 0)])], w) }

/-- The sample cluster without a preferred version of the API group of the HPA. -/
def noVersionLive : LiveDeps Table :=
  { sampleLive 7 with
    GetPreferredVersionForAPIGroup := fun _ _ w => (("", some (.errorString "not found")), w) }

/-- The sample cluster answering a bad-request error for the HPA. -/
def badRequestLive : LiveDeps Table :=
  { sampleLive 7 with
    GetResource := fun _ w => (.error (.errorString "bad request"), w) }

/-- The sample cluster answering a server timeout for the HPA. -/
def timeoutLive : LiveDeps Table :=
  { sampleLive 7 with
    GetResource := fun _ w => (.error (.errorString "server timeout"), w) }

/-- The sample chart with autoscaling enabled between 2 and 10 replicas. -/
def autoscaledChart : Chart :=
  { sampleChart with ResolvedGlobalOverride := sampleAutoscaledValues }

/-- The in-memory collaborators over the chart with autoscaling enabled. -/
def autoscaledDeps : Deps Table :=
  { memoryDeps with
    getEnvOverrideByTriggerType := fun _ _ w =>
      (some (some { sampleEnvOverride with Chart := some autoscaledChart }, none), w) }

/-- The sample trigger as a deployment of type STOP. -/
def stopRequest : ValuesOverrideRequest :=
  { sampleRequest with DeploymentType := .DEPLOYMENTTYPE_STOP }

/-- Sample collaborators of the trigger-type methods: the pipeline has no strategy row, so
every query on `pipeline_strategy` answers `pg.ErrNoRows`; the request names the strategy
`ROLLING`. -/
def sampleTriggerType : TriggerTypeDeps Table where
  GetDeploymentTemplateType _ := "ROLLING"
  GetStrategyHistoryByPipelineIdAndWfrId _ _ w := ((none, some pg.ErrNoRows), w)
  Select _ w := (.error pg.ErrNoRows, w)
  GetEnvOverrideForSpecificConfigTrigger _ w := (some (some sampleEnvOverride, none), w)
  getEnvOverrideForLastSavedConfigTrigger _ _ w := (some (some sampleEnvOverride, none), w)
  GetDeploymentTemplateHistoryByPipelineIdAndWfrId _ _ w :=
    ((some { IsAppMetricsEnabled := true }, none), w)
  GetMetricsFlagForAPipelineByAppIdAndEnvId _ _ w := ((true, none), w)

/-- The sample trigger with the flag `ForceTrigger`. -/
def forcedRequest : ValuesOverrideRequest := { sampleRequest with ForceTrigger := true }

/-- The sample trigger with a configuration type that is neither constant. -/
def otherConfigRequest : ValuesOverrideRequest :=
  { sampleRequest with DeploymentWithConfig := .other "LATEST_TRIGGER" }

/-! # Theorems -/

set_option maxHeartbeats 1000000

/-! ## JSON merge patch -/

namespace Json

theorem lookup_eraseKey_self (k : String) (t : List (String × Json)) :
    lookup k (eraseKey k t) = none := by
  induction t with
  | nil => rfl
  | cons p rest ih =>
    obtain ⟨k', v⟩ := p
    by_cases h : k' = k
    · simp [eraseKey, h, ih]
    · simp [eraseKey, h, lookup, ih]

theorem lookup_eraseKey_ne {k k' : String} (h : k' ≠ k) (t : List (String × Json)) :
    lookup k (eraseKey k' t) = lookup k t := by
  induction t with
  | nil => rfl
  | cons p rest ih =>
    obtain ⟨k₀, v⟩ := p
    by_cases h0 : k₀ = k'
    · have : k₀ ≠ k := by rw [h0]; exact h
      subst h0
      simp only [eraseKey, if_true, lookup, ih, if_neg this]
      cases lookup k rest <;> rfl
    · simp [eraseKey, h0, lookup, ih]

theorem lookup_append_single (k k' : String) (v : Json) (t : List (String × Json)) :
    lookup k (t ++ [(k', v)]) = if k' = k then some v else lookup k t := by
  induction t with
  | nil => simp [lookup]
  | cons p rest ih =>
    obtain ⟨k₀, v₀⟩ := p
    by_cases h : k' = k
    · subst h
      simp [lookup, ih]
    · simp [lookup, ih, h]

theorem lookup_setKey_self (k : String) (v : Json) (t : List (String × Json)) :
    lookup k (setKey k v t) = some v := by
  simp [setKey, lookup_append_single]

theorem lookup_setKey_ne {k k' : String} (h : k' ≠ k) (v : Json) (t : List (String × Json)) :
    lookup k (setKey k' v t) = lookup k t := by
  simp [setKey, lookup_append_single, h, lookup_eraseKey_ne h]

theorem mergePatch_scalar (target v : Json) (hv : v.isScalar = true) :
    mergePatch target v = v := by
  cases v <;> simp [isScalar] at hv <;> simp [mergePatch]

/-- A patch that does not name `k` leaves member `k` of the target as it is. -/
theorem lookup_mergeFields_absent (k : String) (ps : List (String × Json)) :
    ∀ t, lookup k ps = none → lookup k (mergeFields t ps) = lookup k t := by
  induction ps with
  | nil => intro t _; simp [mergeFields]
  | cons p rest ih =>
    intro t h
    obtain ⟨k', v⟩ := p
    have hrest : lookup k rest = none := by
      simp only [lookup] at h
      cases hr : lookup k rest with
      | none => rfl
      | some w => simp [hr] at h
    have hne : k' ≠ k := by
      intro hk
      simp [lookup, hrest, hk] at h
    cases v <;> simp [mergeFields, ih _ hrest, lookup_eraseKey_ne hne, lookup_setKey_ne hne]

/-- A patch whose member `k` is a non-null scalar sets member `k` of the result to it. -/
theorem lookup_mergeFields_scalar (k : String) (v : Json) (hv : v.isScalar = true)
    (ps : List (String × Json)) :
    ∀ t, lookup k ps = some v → lookup k (mergeFields t ps) = some v := by
  induction ps with
  | nil => intro t h; simp [lookup] at h
  | cons p rest ih =>
    intro t h
    obtain ⟨k', v'⟩ := p
    cases hr : lookup k rest with
    | some w =>
      have hw : w = v := by simpa [lookup, hr] using h
      subst hw
      cases v' <;> simp [mergeFields, ih _ hr]
    | none =>
      have hk : k' = k := by
        by_contra hne
        simp [lookup, hr, hne] at h
      have hv' : v' = v := by simpa [lookup, hr, hk] using h
      subst hk; subst hv'
      cases v' <;> simp [isScalar] at hv <;>
        simp [mergeFields, mergePatch, lookup_mergeFields_absent _ _ _ hr, lookup_setKey_self]

end Json

namespace Json

theorem lookup_insertByName_self (k : String) (v : Json) (l : List (String × Json))
    (h : lookup k l = none) : lookup k (insertByName k v l) = some v := by
  induction l with
  | nil => simp [insertByName, lookup]
  | cons p rest ih =>
    obtain ⟨k', v'⟩ := p
    have hrest : lookup k rest = none := by
      cases hr : lookup k rest with
      | none => rfl
      | some w => simp [lookup, hr] at h
    have hne : k' ≠ k := by
      intro hk
      simp [lookup, hrest, hk] at h
    by_cases hlt : stringLess k.data k'.data = true
    · simp [insertByName, hlt, lookup, hrest, hne]
    · simp [insertByName, hlt, lookup, ih hrest]

theorem lookup_insertByName_ne {k k' : String} (h : k' ≠ k) (v : Json)
    (l : List (String × Json)) : lookup k (insertByName k' v l) = lookup k l := by
  induction l with
  | nil => simp [insertByName, lookup, h]
  | cons p rest ih =>
    obtain ⟨k₀, v₀⟩ := p
    by_cases hlt : stringLess k'.data k₀.data = true
    · simp only [insertByName, hlt, if_true]
      rw [lookup]
      cases hl : lookup k ((k₀, v₀) :: rest) <;> simp [h]
    · simp only [insertByName, hlt]
      simp [lookup, ih]

/-- After `m[k] = v` the map holds `v` under `k`. -/
theorem lookup_mapSet_self (k : String) (v : Json) (m : List (String × Json)) :
    lookup k (mapSet k v m) = some v :=
  lookup_insertByName_self k v _ (lookup_eraseKey_self k m)

/-- The store `m[k'] = v` leaves every other member as it is. -/
theorem lookup_mapSet_ne {k k' : String} (h : k' ≠ k) (v : Json) (m : List (String × Json)) :
    lookup k (mapSet k' v m) = lookup k m := by
  rw [mapSet, lookup_insertByName_ne h, lookup_eraseKey_ne h]

/-- What `encoding/json` leaves in a map under `k`: the decoded value of the last member
written under `k`, or what the map held before. -/
theorem lookup_decodeMap (k : String) (kvs : List (String × Json)) :
    ∀ m0 m, decodeMap kvs m0 = some m →
      lookup k m = match lookup k kvs with
        | some v => decodeValue v
        | none => lookup k m0 := by
  induction kvs with
  | nil =>
    intro m0 m h
    simp only [decodeMap, Option.some.injEq] at h
    subst h
    rfl
  | cons p rest ih =>
    intro m0 m h
    obtain ⟨k', v'⟩ := p
    simp only [decodeMap] at h
    cases hv : decodeValue v' with
    | none => simp [hv] at h
    | some d =>
      simp only [hv] at h
      have := ih _ _ h
      rw [this]
      cases hr : lookup k rest with
      | some w => simp [lookup, hr]
      | none =>
        by_cases hk : k' = k
        · subst hk
          simp [lookup, hr, lookup_mapSet_self, hv]
        · simp [lookup, hr, hk, lookup_mapSet_ne hk]

/-- A patch that gives `k` a value other than null puts under `k` the merge of that value
into some base. -/
theorem lookup_mergeFields_value (k : String) (v : Json) (hv : v ≠ null)
    (ps : List (String × Json)) :
    ∀ t, lookup k ps = some v →
      ∃ base, lookup k (mergeFields t ps) = some (mergePatch base v) := by
  induction ps with
  | nil => intro t h; simp [lookup] at h
  | cons p rest ih =>
    intro t h
    obtain ⟨k', v'⟩ := p
    cases hr : lookup k rest with
    | some w =>
      have hw : w = v := by simpa [lookup, hr] using h
      subst hw
      cases v' <;> simp only [mergeFields] <;> exact ih _ hr
    | none =>
      have hk : k' = k := by
        by_contra hne
        simp [lookup, hr, hne] at h
      have hv' : v' = v := by simpa [lookup, hr, hk] using h
      subst hk; subst hv'
      refine ⟨(lookup k' t).getD null, ?_⟩
      cases v' <;>
        first
        | exact absurd rfl hv
        | simp [mergeFields, lookup_mergeFields_absent _ _ _ hr, lookup_setKey_self]

/-- A patch that gives `k` the value null leaves no member `k`. -/
theorem lookup_mergeFields_null (k : String) (ps : List (String × Json)) :
    ∀ t, lookup k ps = some null → lookup k (mergeFields t ps) = none := by
  induction ps with
  | nil => intro t h; simp [lookup] at h
  | cons p rest ih =>
    intro t h
    obtain ⟨k', v'⟩ := p
    cases hr : lookup k rest with
    | some w =>
      have hw : w = null := by simpa [lookup, hr] using h
      subst hw
      cases v' <;> simp only [mergeFields] <;> exact ih _ hr
    | none =>
      have hk : k' = k := by
        by_contra hne
        simp [lookup, hr, hne] at h
      have hv' : v' = null := by simpa [lookup, hr, hk] using h
      subst hk; subst hv'
      simp [mergeFields, lookup_mergeFields_absent _ _ _ hr, lookup_eraseKey_self]

/-- A patch that is not an object replaces the target. -/
theorem mergePatch_value (target v : Json) (hv : ∀ fs, v ≠ obj fs) : mergePatch target v = v := by
  cases v <;> first | rfl | exact absurd rfl (hv _)

/-- The patch wins at every depth: a value of the patch that is neither null nor an object
stands in the result under the same path. -/
theorem getPath_mergePatch_value (path : List String) :
    ∀ (r v : Json), getPath path r = some v → v ≠ null → (∀ fs, v ≠ obj fs) →
      ∀ t, getPath path (mergePatch t r) = some v := by
  induction path with
  | nil =>
    intro r v h _ hobj t
    simp only [getPath, Option.some.injEq] at h
    subst h
    rw [mergePatch_value t r hobj]
    rfl
  | cons k q ih =>
    intro r v h hnull hobj t
    cases r with
    | obj ps =>
      simp only [getPath] at h
      cases hl : lookup k ps with
      | none => simp [hl] at h
      | some r0 =>
        simp only [hl] at h
        have hr0 : r0 ≠ null := by
          intro hn
          subst hn
          cases q with
          | nil =>
            simp only [getPath, Option.some.injEq] at h
            exact hnull h.symm
          | cons _ _ => simp [getPath] at h
        obtain ⟨base, hbase⟩ := lookup_mergeFields_value k r0 hr0 ps (fields t) hl
        simp only [mergePatch, getPath, hbase]
        exact ih r0 v h hnull hobj base
    | null => simp [getPath] at h
    | bool _ => simp [getPath] at h
    | num _ => simp [getPath] at h
    | str _ => simp [getPath] at h
    | arr _ => simp [getPath] at h

end Json

/-- A whole number of at most 53 binary digits is a `float64`. -/
theorem float64OfInt_small (n : Int) (h : n.natAbs < 2 ^ 53) : float64OfInt n = some n := by
  rw [float64OfInt, if_pos h]

/-! ## Merge engine -/

/-- The source function computes the chain of the documented order. -/
theorem mergeOverrideValues_chain (mergeUtil : MergeUtil)
    (envOverride : EnvConfigOverride) (chart : Chart) (releaseOverrideJson : Text)
    (configMapJson appLabelJsonByte : Option Text) (strategy : Option PipelineStrategy)
    (hChart : envOverride.IsOverride = true ∨ envOverride.Chart = some chart) :
    mergeOverrideValues mergeUtil envOverride releaseOverrideJson configMapJson
        appLabelJsonByte strategy
      = some (asGoPair (mergeChain mergeUtil documentedOrder envOverride chart
          releaseOverrideJson configMapJson appLabelJsonByte strategy)) := by
  have hT : (if !envOverride.IsOverride then
        envOverride.Chart.map (fun c => c.ResolvedGlobalOverride)
      else some envOverride.ResolvedEnvOverrideValues)
      = some (if envOverride.IsOverride then envOverride.ResolvedEnvOverrideValues
          else chart.ResolvedGlobalOverride) := by
    rcases hChart with h | h
    · simp [h]
    · cases hO : envOverride.IsOverride <;> simp [h]
  have tail : ∀ m : Text,
      (match mergeUtil.JsonPatch m releaseOverrideJson with
        | .error err => (Text.empty, some err)
        | .ok merged =>
          match (match configMapJson with
              | some cm => mergeUtil.JsonPatch merged cm
              | none => .ok merged : Except Error Text) with
          | .error err => (Text.empty, some err)
          | .ok merged =>
            match (match appLabelJsonByte with
                | some lbl => mergeUtil.JsonPatch merged lbl
                | none => .ok merged : Except Error Text) with
            | .error err => (Text.empty, some err)
            | .ok merged => (merged, none))
      = asGoPair (patchChain mergeUtil m
          (releaseOverrideJson :: (configMapJson.toList ++ appLabelJsonByte.toList))) := by
    intro m
    cases h3 : mergeUtil.JsonPatch m releaseOverrideJson with
    | error e => simp [patchChain, asGoPair, h3]
    | ok m3 =>
      rcases configMapJson with _ | cm
      · rcases appLabelJsonByte with _ | lbl
        · simp [patchChain, asGoPair, h3]
        · cases h5 : mergeUtil.JsonPatch m3 lbl <;> simp [patchChain, asGoPair, h3, h5]
      · cases h4 : mergeUtil.JsonPatch m3 cm with
        | error e => rcases appLabelJsonByte with _ | lbl <;>
            simp [patchChain, asGoPair, h3, h4]
        | ok m4 =>
          rcases appLabelJsonByte with _ | lbl
          · simp [patchChain, asGoPair, h3, h4]
          · cases h5 : mergeUtil.JsonPatch m4 lbl <;>
              simp [patchChain, asGoPair, h3, h4, h5]
  have hLayers : (documentedOrder.filterMap (layerText envOverride chart releaseOverrideJson
        configMapJson appLabelJsonByte strategy))
      = (if envOverride.IsOverride then envOverride.ResolvedEnvOverrideValues
          else chart.ResolvedGlobalOverride)
        :: ((layerText envOverride chart releaseOverrideJson configMapJson appLabelJsonByte
              strategy Layer.strategyConfig).toList
            ++ releaseOverrideJson :: (configMapJson.toList ++ appLabelJsonByte.toList)) := by
    simp only [documentedOrder, List.filterMap_cons, List.filterMap_nil, layerText]
    cases hs : (match strategy with
      | some s => if s.Config.nonEmpty = true then some s.Config else none
      | none => none : Option Text) <;>
      cases configMapJson <;> cases appLabelJsonByte <;> simp
  unfold mergeOverrideValues
  simp only [hT, mergeChain, hLayers]
  generalize (if envOverride.IsOverride then envOverride.ResolvedEnvOverrideValues
    else chart.ResolvedGlobalOverride) = base
  cases h1 : mergeUtil.JsonPatch GetEmptyJSON base with
  | error e => simp [patchChain, asGoPair, h1]
  | ok m1 =>
    simp only [patchChain, h1]
    rcases strategy with _ | s
    · simpa [layerText] using tail m1
    · by_cases hc : s.Config.nonEmpty = true
      · cases h2 : mergeUtil.JsonPatch m1 s.Config with
        | error e => simp [layerText, hc, patchChain, asGoPair, h2]
        | ok m2 => simpa [layerText, hc, patchChain, h2] using tail m2
      · simpa [layerText, hc] using tail m1

/-- C1: `mergeOverrideValues` is the documented left-to-right merge-patch chain. Whenever the
chart-level values can be read (an environment override, or a chart that is present), its
result is the chain from the empty JSON object over chart-level values, strategy config (only
with a strategy whose config is non-empty), release override, config/secret JSON (only when
non-nil) and app-label JSON (only when non-nil): the composed document when every patch
succeeds, and the error of the first failing patch otherwise. -/
theorem mergeOverrideValues_eq_mergeChain (mergeUtil : MergeUtil)
    (envOverride : EnvConfigOverride) (chart : Chart) (releaseOverrideJson : Text)
    (configMapJson appLabelJsonByte : Option Text) (strategy : Option PipelineStrategy)
    (hChart : envOverride.IsOverride = true ∨ envOverride.Chart = some chart) :
    mergeOverrideValues mergeUtil envOverride releaseOverrideJson configMapJson
        appLabelJsonByte strategy
      = some (asGoPair (mergeChain mergeUtil documentedOrder envOverride chart
          releaseOverrideJson configMapJson appLabelJsonByte strategy)) :=
  mergeOverrideValues_chain mergeUtil envOverride chart releaseOverrideJson configMapJson
    appLabelJsonByte strategy hChart

/-- Witness for C1: the sample trigger (chart fallback, rolling strategy, config/secret JSON,
no labels) satisfies the hypothesis and its merged values are the documented chain. -/
theorem mergeOverrideValues_eq_mergeChain_witness :
    (sampleEnvOverride.IsOverride = true ∨ sampleEnvOverride.Chart = some sampleChart) ∧
    mergeOverrideValues rfc7396 sampleEnvOverride sampleRelease (some sampleConfigSecret) none
        (some sampleStrategy)
      = some (asGoPair (mergeChain rfc7396 documentedOrder sampleEnvOverride sampleChart
          sampleRelease (some sampleConfigSecret) none (some sampleStrategy))) :=
  ⟨Or.inr rfl, mergeOverrideValues_eq_mergeChain rfc7396 sampleEnvOverride sampleChart
    sampleRelease (some sampleConfigSecret) none (some sampleStrategy) (Or.inr rfl)⟩

/-- A chain over a concatenation runs the first part, then the second on its result. -/
theorem patchChain_append (mergeUtil : MergeUtil) (xs ys : List Text) :
    ∀ acc, patchChain mergeUtil acc (xs ++ ys)
      = match patchChain mergeUtil acc xs with
        | .ok m => patchChain mergeUtil m ys
        | .error e => .error e := by
  induction xs with
  | nil => intro acc; simp [patchChain]
  | cons x rest ih =>
    intro acc
    cases h : mergeUtil.JsonPatch acc x with
    | error e => simp [patchChain, h]
    | ok m => simp [patchChain, h, ih]

/-- On two JSON documents the modelled `JsonPatch` is the merge patch. -/
theorem rfc7396_json (t p : Json) :
    rfc7396.JsonPatch (.json t) (.json p) = .ok (.json (Json.mergePatch t p)) := rfl

/-- Over JSON objects every step of the RFC 7396 chain succeeds. -/
theorem patchChain_objects (layers : List Text) :
    ∀ acc : Json, (∀ t ∈ layers, ∃ fs, t = Text.json (.obj fs)) →
      ∃ m, patchChain rfc7396 (.json acc) layers = .ok (.json m) := by
  induction layers with
  | nil => intro acc _; exact ⟨acc, rfl⟩
  | cons x rest ih =>
    intro acc h
    obtain ⟨fs, rfl⟩ := h x (List.mem_cons_self _ _)
    obtain ⟨m, hm⟩ := ih (Json.mergePatch acc (.obj fs))
      (fun t ht => h t (List.mem_cons_of_mem _ ht))
    exact ⟨m, by simp only [patchChain, rfc7396_json, hm]⟩

/-- Layers that are objects without member `k` leave member `k` of the document as it is. -/
theorem patchChain_absent (k : String) (layers : List Text) :
    ∀ acc : Json,
      (∀ t ∈ layers, ∃ fs, t = Text.json (.obj fs) ∧ Json.lookup k fs = none) →
      ∃ m, patchChain rfc7396 (.json acc) layers = .ok (.json m) ∧ m.get k = acc.get k := by
  induction layers with
  | nil => intro acc _; exact ⟨acc, rfl, rfl⟩
  | cons x rest ih =>
    intro acc h
    obtain ⟨fs, rfl, hk⟩ := h x (List.mem_cons_self _ _)
    obtain ⟨m, hm, hget⟩ := ih (Json.mergePatch acc (.obj fs))
      (fun t ht => h t (List.mem_cons_of_mem _ ht))
    refine ⟨m, by simp only [patchChain, rfc7396_json, hm], ?_⟩
    rw [hget]
    simp [Json.get, Json.mergePatch, Json.fields, Json.lookup_mergeFields_absent k fs _ hk]

/-- In a chain of JSON objects, the last layer that names `k`, naming a non-null scalar,
decides member `k` of the result. -/
theorem patchChain_last_scalar (k : String) (v : Json) (hv : v.isScalar = true)
    (pre post : List Text) (fb : List (String × Json)) (acc : Json)
    (hpre : ∀ t ∈ pre, ∃ fs, t = Text.json (.obj fs))
    (hb : Json.lookup k fb = some v)
    (hpost : ∀ t ∈ post, ∃ fs, t = Text.json (.obj fs) ∧ Json.lookup k fs = none) :
    ∃ m, patchChain rfc7396 (.json acc) (pre ++ Text.json (.obj fb) :: post) = .ok (.json m)
      ∧ m.get k = some v := by
  obtain ⟨m1, hm1⟩ := patchChain_objects pre acc hpre
  obtain ⟨m, hm, hget⟩ := patchChain_absent k post (Json.mergePatch m1 (.obj fb)) hpost
  refine ⟨m, ?_, ?_⟩
  · rw [patchChain_append, hm1]
    simp only [patchChain, rfc7396_json, hm]
  · rw [hget]
    simp [Json.get, Json.mergePatch, Json.fields, Json.lookup_mergeFields_scalar k v hv fb _ hb]

/-- Every layer splits the documented order into the layers before it and those after it. -/
theorem documentedOrder_split (b : Layer) :
    ∃ l1 l2, documentedOrder = l1 ++ b :: l2 ∧ ∀ c ∈ l2, b.rank < c.rank := by
  cases b
  · exact ⟨[], [.strategyConfig, .releaseOverride, .configSecret, .appLabel], rfl, by decide⟩
  · exact ⟨[.chartValues], [.releaseOverride, .configSecret, .appLabel], rfl, by decide⟩
  · exact ⟨[.chartValues, .strategyConfig], [.configSecret, .appLabel], rfl, by decide⟩
  · exact ⟨[.chartValues, .strategyConfig, .releaseOverride], [.appLabel], rfl, by decide⟩
  · exact ⟨[.chartValues, .strategyConfig, .releaseOverride, .configSecret], [], rfl,
      by decide⟩

/-- In a chain over the layers taken in any order, all of them JSON objects, the last layer
that names `k`, naming a non-null scalar, decides member `k` of the result. -/
theorem mergeChain_last_scalar (order l1 l2 : List Layer) (b : Layer)
    (envOverride : EnvConfigOverride) (chart : Chart)
    (releaseOverrideJson : Text) (configMapJson appLabelJsonByte : Option Text)
    (strategy : Option PipelineStrategy) (k : String) (fb : List (String × Json)) (vb : Json)
    (hsplit : order = l1 ++ b :: l2)
    (hObjects : ∀ l t, layerText envOverride chart releaseOverrideJson configMapJson
      appLabelJsonByte strategy l = some t → ∃ fs, t = Text.json (.obj fs))
    (hb : layerText envOverride chart releaseOverrideJson configMapJson appLabelJsonByte
      strategy b = some (.json (.obj fb)))
    (hkb : Json.lookup k fb = some vb) (hvb : vb.isScalar = true)
    (hLater : ∀ c ∈ l2, ∀ fs,
      layerText envOverride chart releaseOverrideJson configMapJson appLabelJsonByte
        strategy c = some (.json (.obj fs)) → Json.lookup k fs = none) :
    ∃ m, mergeChain rfc7396 order envOverride chart releaseOverrideJson configMapJson
        appLabelJsonByte strategy = .ok (.json m) ∧ m.get k = some vb := by
  have hpre : ∀ t ∈ l1.filterMap (layerText envOverride chart releaseOverrideJson
      configMapJson appLabelJsonByte strategy), ∃ fs, t = Text.json (.obj fs) := by
    intro t ht
    obtain ⟨l, _, hl⟩ := List.mem_filterMap.mp ht
    exact hObjects l t hl
  have hpost : ∀ t ∈ l2.filterMap (layerText envOverride chart releaseOverrideJson
      configMapJson appLabelJsonByte strategy),
      ∃ fs, t = Text.json (.obj fs) ∧ Json.lookup k fs = none := by
    intro t ht
    obtain ⟨c, hc, hl⟩ := List.mem_filterMap.mp ht
    obtain ⟨fs, rfl⟩ := hObjects c t hl
    exact ⟨fs, rfl, hLater c hc fs hl⟩
  obtain ⟨m, hm, hget⟩ := patchChain_last_scalar k vb hvb _ _ fb (.obj []) hpre hkb hpost
  refine ⟨m, ?_, hget⟩
  rw [mergeChain, hsplit, List.filterMap_append, List.filterMap_cons, hb]
  exact hm

/-- C2 (as amended): later steps win on key conflicts, `JsonPatch` being the RFC 7396 merge.
Let the layers that take part (chart-level values, strategy config, release override,
config/secret JSON, app-label JSON) be JSON objects, and let `b` be the last of them, in that
order, that names the top-level key `k`, giving it a non-null scalar value. Then
`mergeOverrideValues` succeeds and the merged document holds at `k` the value of `b`,
whatever the layers before `b` hold there. So of two layers that give `k` a non-null scalar
the later one decides when no layer after it names `k`: with the strategy config and the
release override this is the release override's value when neither the config/secret JSON
nor the app labels name `k`. -/
theorem mergeOverrideValues_later_layer_wins (envOverride : EnvConfigOverride) (chart : Chart)
    (releaseOverrideJson : Text) (configMapJson appLabelJsonByte : Option Text)
    (strategy : Option PipelineStrategy) (k : String) (b : Layer)
    (fb : List (String × Json)) (vb : Json)
    (hChart : envOverride.IsOverride = true ∨ envOverride.Chart = some chart)
    (hObjects : ∀ l t, layerText envOverride chart releaseOverrideJson configMapJson
      appLabelJsonByte strategy l = some t → ∃ fs, t = Text.json (.obj fs))
    (hb : layerText envOverride chart releaseOverrideJson configMapJson appLabelJsonByte
      strategy b = some (.json (.obj fb)))
    (hkb : Json.lookup k fb = some vb) (hvb : vb.isScalar = true)
    (hLater : ∀ c fs, b.rank < c.rank →
      layerText envOverride chart releaseOverrideJson configMapJson appLabelJsonByte
        strategy c = some (.json (.obj fs)) → Json.lookup k fs = none) :
    ∃ m, mergeOverrideValues rfc7396 envOverride releaseOverrideJson configMapJson
        appLabelJsonByte strategy = some (.json m, none) ∧ m.get k = some vb := by
  obtain ⟨l1, l2, hsplit, hrank⟩ := documentedOrder_split b
  obtain ⟨m, hm, hget⟩ := mergeChain_last_scalar documentedOrder l1 l2 b envOverride chart
    releaseOverrideJson configMapJson appLabelJsonByte strategy k fb vb hsplit hObjects hb hkb
    hvb (fun c hc fs hl => hLater c fs (hrank c hc) hl)
  refine ⟨m, ?_, hget⟩
  rw [mergeOverrideValues_chain rfc7396 envOverride chart releaseOverrideJson configMapJson
    appLabelJsonByte strategy hChart, hm]
  rfl

/-- Witness for C2: strategy config and release override both set `maxSurge`; the labels do
not name it, and the merged document holds the release override's 2. -/
theorem mergeOverrideValues_later_layer_wins_witness :
    ∃ m, mergeOverrideValues rfc7396 sampleEnvOverride sampleRelease none (some sampleLabels)
        (some sampleStrategy) = some (.json m, none) ∧ m.get "maxSurge" = some (.num 2) :=
  mergeOverrideValues_later_layer_wins sampleEnvOverride sampleChart sampleRelease none
    (some sampleLabels) (some sampleStrategy) "maxSurge" .releaseOverride
    [("image", .str "repo/app"), ("maxSurge", .num 2)] (.num 2) (Or.inr rfl)
    (by
      intro l t h
      cases l
      · exact ⟨_, (Option.some.inj h).symm⟩
      · exact ⟨_, (Option.some.inj h).symm⟩
      · exact ⟨_, (Option.some.inj h).symm⟩
      · exact absurd h (by simp [layerText])
      · exact ⟨_, (Option.some.inj h).symm⟩)
    rfl rfl rfl
    (by
      intro c fs hc h
      cases c
      · exact absurd hc (by decide)
      · exact absurd hc (by decide)
      · exact absurd hc (by decide)
      · exact absurd h (by simp [layerText])
      · have hfs : fs = [("appLabels", .obj [("team", .str "core")])] := by
          have h2 := Option.some.inj h
          simp only [sampleLabels, Text.json.injEq, Json.obj.injEq] at h2
          exact h2.symm
        rw [hfs]
        rfl)

/-- Counterexample to C2 as stated: the strategy config gives `maxSurge` the value 1 and the
release override, the later of the two, gives it 2; the app labels name `maxSurge` too, with
3, and the merged document holds 3, not the release override's value. In the same way, with
environment override values that give `maxSurge` 0, the strategy config that gives it 1 and
the release override that gives it 2, the merged document holds 2, not the value of the
strategy config, the later of the first two. -/
theorem mergeOverrideValues_later_layer_counterexample :
    (∃ fs, sampleStrategy.Config = .json (.obj fs) ∧
      Json.lookup "maxSurge" fs = some (.num 1)) ∧
    (∃ fr, sampleRelease = .json (.obj fr) ∧ Json.lookup "maxSurge" fr = some (.num 2)) ∧
    Layer.strategyConfig.rank < Layer.releaseOverride.rank ∧
    (∃ m, mergeOverrideValues rfc7396 sampleEnvOverride sampleRelease none
        (some (.json (.obj [("maxSurge", .num 3)]))) (some sampleStrategy)
        = some (.json m, none) ∧
      m.get "maxSurge" = some (.num 3)) ∧
    Layer.chartValues.rank < Layer.strategyConfig.rank ∧
    (∃ m, mergeOverrideValues rfc7396
        { sampleEnvOverride with
          IsOverride := true,
          ResolvedEnvOverrideValues := .json (.obj [("maxSurge", .num 0)]) }
        sampleRelease none (some sampleLabels) (some sampleStrategy)
        = some (.json m, none) ∧
      m.get "maxSurge" = some (.num 2)) :=
  ⟨⟨_, rfl, rfl⟩, ⟨_, rfl, rfl⟩, by decide, ⟨_, rfl, rfl⟩, by decide, ⟨_, rfl, rfl⟩⟩

/-- C3: the merge order is observable, `JsonPatch` being the RFC 7396 merge. Let the layers
that take part be JSON objects, let the strategy config give the top-level key `k` the
non-null scalar `vs` and the config/secret JSON give it the non-null scalar `vc`, and let
the app labels not name `k`. Then `mergeOverrideValues` holds `vc` at `k`, and the chain in
which step 3 (strategy config) and step 5 (config/secret JSON) are exchanged holds `vs` at
`k`; so when the two values differ, the two results differ at `k`. -/
theorem mergeOverrideValues_order_observable (envOverride : EnvConfigOverride) (chart : Chart)
    (releaseOverrideJson : Text) (configMapJson appLabelJsonByte : Option Text)
    (strategy : Option PipelineStrategy) (k : String)
    (fs fc : List (String × Json)) (vs vc : Json)
    (hChart : envOverride.IsOverride = true ∨ envOverride.Chart = some chart)
    (hObjects : ∀ l t, layerText envOverride chart releaseOverrideJson configMapJson
      appLabelJsonByte strategy l = some t → ∃ fs, t = Text.json (.obj fs))
    (hs : layerText envOverride chart releaseOverrideJson configMapJson appLabelJsonByte
      strategy .strategyConfig = some (.json (.obj fs)))
    (hks : Json.lookup k fs = some vs) (hvs : vs.isScalar = true)
    (hc : layerText envOverride chart releaseOverrideJson configMapJson appLabelJsonByte
      strategy .configSecret = some (.json (.obj fc)))
    (hkc : Json.lookup k fc = some vc) (hvc : vc.isScalar = true)
    (hLabels : ∀ fl, layerText envOverride chart releaseOverrideJson configMapJson
      appLabelJsonByte strategy .appLabel = some (.json (.obj fl)) →
      Json.lookup k fl = none)
    (hne : vs ≠ vc) :
    ∃ m m', mergeOverrideValues rfc7396 envOverride releaseOverrideJson configMapJson
        appLabelJsonByte strategy = some (.json m, none) ∧
      mergeChain rfc7396 swappedOrder envOverride chart releaseOverrideJson configMapJson
        appLabelJsonByte strategy = .ok (.json m') ∧
      m.get k = some vc ∧ m'.get k = some vs ∧ m.get k ≠ m'.get k ∧
      mergeOverrideValues rfc7396 envOverride releaseOverrideJson configMapJson
          appLabelJsonByte strategy
        ≠ some (asGoPair (mergeChain rfc7396 swappedOrder envOverride chart
            releaseOverrideJson configMapJson appLabelJsonByte strategy)) := by
  have hlast : ∀ c ∈ [Layer.appLabel], ∀ fl,
      layerText envOverride chart releaseOverrideJson configMapJson appLabelJsonByte
        strategy c = some (.json (.obj fl)) → Json.lookup k fl = none := by
    intro c hmem fl hl
    rw [List.mem_singleton] at hmem
    subst hmem
    exact hLabels fl hl
  obtain ⟨m, hm, hget⟩ := mergeChain_last_scalar documentedOrder
    [.chartValues, .strategyConfig, .releaseOverride] [.appLabel] .configSecret envOverride
    chart releaseOverrideJson configMapJson appLabelJsonByte strategy k fc vc rfl hObjects hc
    hkc hvc hlast
  obtain ⟨m', hm', hget'⟩ := mergeChain_last_scalar swappedOrder
    [.chartValues, .configSecret, .releaseOverride] [.appLabel] .strategyConfig envOverride
    chart releaseOverrideJson configMapJson appLabelJsonByte strategy k fs vs rfl hObjects hs
    hks hvs hlast
  have hmerge : mergeOverrideValues rfc7396 envOverride releaseOverrideJson configMapJson
      appLabelJsonByte strategy = some (.json m, none) := by
    rw [mergeOverrideValues_chain rfc7396 envOverride chart releaseOverrideJson configMapJson
      appLabelJsonByte strategy hChart, hm]
    rfl
  have hdiff : m.get k ≠ m'.get k := by
    rw [hget, hget']
    intro h
    exact hne (Option.some.inj h).symm
  refine ⟨m, m', hmerge, hm', hget, hget', hdiff, ?_⟩
  rw [hmerge, hm']
  intro h
  have hmm : m = m' := by
    simpa [asGoPair] using h
  exact hdiff (by rw [hmm])

/-- Witness for C3: the sample strategy config sets `k` to 1 and the sample config/secret
JSON sets `k` to 2; there are no labels. The merged values hold 2 at `k`, the chain with
steps 3 and 5 exchanged holds 1. -/
theorem mergeOverrideValues_order_observable_witness :
    ∃ m m', mergeOverrideValues rfc7396 sampleEnvOverride sampleRelease
        (some sampleConfigSecret) none (some sampleStrategy) = some (.json m, none) ∧
      mergeChain rfc7396 swappedOrder sampleEnvOverride sampleChart sampleRelease
        (some sampleConfigSecret) none (some sampleStrategy) = .ok (.json m') ∧
      m.get "k" = some (.num 2) ∧ m'.get "k" = some (.num 1) := by
  obtain ⟨m, m', h1, h2, h3, h4, -, -⟩ :=
    mergeOverrideValues_order_observable sampleEnvOverride sampleChart sampleRelease
      (some sampleConfigSecret) none (some sampleStrategy) "k"
      [("k", .num 1), ("maxSurge", .num 1)] [("k", .num 2)] (.num 1) (.num 2) (Or.inr rfl)
      (by
        intro l t h
        cases l
        · exact ⟨_, (Option.some.inj h).symm⟩
        · exact ⟨_, (Option.some.inj h).symm⟩
        · exact ⟨_, (Option.some.inj h).symm⟩
        · exact ⟨_, (Option.some.inj h).symm⟩
        · exact absurd h (by simp [layerText]))
      rfl rfl rfl rfl rfl rfl
      (by
        intro fl h
        exact absurd h (by simp [layerText]))
      (by intro h; cases h)
  exact ⟨m, m', h1, h2, h3, h4⟩

/-! ## Runs -/

section Runs
variable {σ α β : Type}

theorem M.bind_def (m : M σ α) (f : α → M σ β) : (m >>= f) = M.bind m f := rfl

theorem M.pure_def (a : α) : (Pure.pure a : M σ α) = M.pure a := rfl

/-- The loop is over once the override is verified or five attempts were made. -/
theorem checkAndFixLoop_done (deps : Deps σ) (fuel : Nat) (uv : Bool) (rc : Int)
    (ov : PipelineOverride) (w : σ) (h : uv = true ∨ ¬ rc < 5) :
    checkAndFixLoop deps fuel uv rc ov w = ⟨.val (.ok (uv, rc, ov)), w, []⟩ := by
  have hc : (!uv && decide (rc < 5)) = false := by
    rcases h with h | h
    · simp [h]
    · simp [h]
  cases fuel <;> simp [checkAndFixLoop, hc, M.pure_def, M.pure]

/-- Without budget the model stops, which five units of budget rule out. -/
theorem checkAndFixLoop_zero (deps : Deps σ) (rc : Int) (ov : PipelineOverride) (w : σ)
    (hrc : rc < 5) : checkAndFixLoop deps 0 false rc ov w = ⟨.outOfFuel, w, []⟩ := by
  simp [checkAndFixLoop, hrc, M.outOfFuel]

/-- An attempt whose lookup fails returns the error. -/
theorem checkAndFixLoop_lookup_error (deps : Deps σ) (n : Nat) (rc : Int)
    (ov : PipelineOverride) (w w1 : σ) (err : Error) (hrc : rc < 5)
    (h1 : deps.GetByPipelineIdAndReleaseNo ov.PipelineId ov.PipelineReleaseCounter w
      = (.error err, w1)) :
    checkAndFixLoop deps (n + 1) false rc ov w
      = ⟨.val (.error (ov, err)), w1,
          [.GetByPipelineIdAndReleaseNo ov.PipelineId ov.PipelineReleaseCounter (.error err)]⟩ := by
  simp [checkAndFixLoop, hrc, M.bind_def, M.pure_def, M.bind, M.call, M.pure, h1]

/-- An attempt whose lookup finds no row panics on `overrides[0]`. -/
theorem checkAndFixLoop_lookup_empty (deps : Deps σ) (n : Nat) (rc : Int)
    (ov : PipelineOverride) (w w1 : σ) (hrc : rc < 5)
    (h1 : deps.GetByPipelineIdAndReleaseNo ov.PipelineId ov.PipelineReleaseCounter w
      = (.ok [], w1)) :
    checkAndFixLoop deps (n + 1) false rc ov w
      = ⟨.panic, w1,
          [.GetByPipelineIdAndReleaseNo ov.PipelineId ov.PipelineReleaseCounter (.ok [])]⟩ := by
  simp [checkAndFixLoop, hrc, M.bind_def, M.bind, M.call, M.panic, h1]

/-- An attempt whose lookup shows the override first ends the loop. -/
theorem checkAndFixLoop_verified (deps : Deps σ) (n : Nat) (rc : Int)
    (ov first : PipelineOverride) (rest : List PipelineOverride) (w w1 : σ) (hrc : rc < 5)
    (h1 : deps.GetByPipelineIdAndReleaseNo ov.PipelineId ov.PipelineReleaseCounter w
      = (.ok (first :: rest), w1))
    (hid : first.Id = ov.Id) :
    checkAndFixLoop deps (n + 1) false rc ov w
      = ⟨.val (.ok (true, rc + 1, ov)), w1,
          [.GetByPipelineIdAndReleaseNo ov.PipelineId ov.PipelineReleaseCounter
            (.ok (first :: rest))]⟩ := by
  simp [checkAndFixLoop, hrc, M.bind_def, M.bind, M.call, h1, hid,
    checkAndFixLoop_done deps n true (rc + 1) ov w1 (Or.inl rfl)]

/-- A mismatch whose counter read fails returns the error. -/
theorem checkAndFixLoop_counter_error (deps : Deps σ) (n : Nat) (rc : Int)
    (ov first : PipelineOverride) (rest : List PipelineOverride) (w w1 w2 : σ) (err : Error)
    (hrc : rc < 5)
    (h1 : deps.GetByPipelineIdAndReleaseNo ov.PipelineId ov.PipelineReleaseCounter w
      = (.ok (first :: rest), w1))
    (hid : first.Id ≠ ov.Id)
    (h2 : deps.GetCurrentPipelineReleaseCounter ov.PipelineId w1 = (.error err, w2)) :
    checkAndFixLoop deps (n + 1) false rc ov w
      = ⟨.val (.error (ov, err)), w2,
          [.GetByPipelineIdAndReleaseNo ov.PipelineId ov.PipelineReleaseCounter
            (.ok (first :: rest)),
           .GetCurrentPipelineReleaseCounter ov.PipelineId (.error err)]⟩ := by
  simp [checkAndFixLoop, hrc, M.bind_def, M.pure_def, M.bind, M.call, M.pure, h1, hid, h2]

/-- A mismatch whose update fails returns the error, the counter already changed. -/
theorem checkAndFixLoop_update_error (deps : Deps σ) (n : Nat) (rc c : Int)
    (ov first : PipelineOverride) (rest : List PipelineOverride) (w w1 w2 w3 : σ) (err : Error)
    (hrc : rc < 5)
    (h1 : deps.GetByPipelineIdAndReleaseNo ov.PipelineId ov.PipelineReleaseCounter w
      = (.ok (first :: rest), w1))
    (hid : first.Id ≠ ov.Id)
    (h2 : deps.GetCurrentPipelineReleaseCounter ov.PipelineId w1 = (.ok c, w2))
    (h3 : deps.Update { ov with PipelineReleaseCounter := c + 1 } w2 = (some err, w3)) :
    checkAndFixLoop deps (n + 1) false rc ov w
      = ⟨.val (.error ({ ov with PipelineReleaseCounter := c + 1 }, err)), w3,
          [.GetByPipelineIdAndReleaseNo ov.PipelineId ov.PipelineReleaseCounter
            (.ok (first :: rest)),
           .GetCurrentPipelineReleaseCounter ov.PipelineId (.ok c),
           .Update { ov with PipelineReleaseCounter := c + 1 } (some err)]⟩ := by
  simp [checkAndFixLoop, hrc, M.bind_def, M.pure_def, M.bind, M.call, M.pure, h1, hid, h2, h3]

/-- A repaired mismatch: the counter becomes the current counter plus one, the row is
updated, and the next attempt verifies the new counter. -/
theorem checkAndFixLoop_repair (deps : Deps σ) (n : Nat) (rc c : Int)
    (ov first : PipelineOverride) (rest : List PipelineOverride) (w w1 w2 w3 : σ)
    (hrc : rc < 5)
    (h1 : deps.GetByPipelineIdAndReleaseNo ov.PipelineId ov.PipelineReleaseCounter w
      = (.ok (first :: rest), w1))
    (hid : first.Id ≠ ov.Id)
    (h2 : deps.GetCurrentPipelineReleaseCounter ov.PipelineId w1 = (.ok c, w2))
    (h3 : deps.Update { ov with PipelineReleaseCounter := c + 1 } w2 = (none, w3)) :
    checkAndFixLoop deps (n + 1) false rc ov w
      = ⟨(checkAndFixLoop deps n false (rc + 1)
            { ov with PipelineReleaseCounter := c + 1 } w3).result,
          (checkAndFixLoop deps n false (rc + 1)
            { ov with PipelineReleaseCounter := c + 1 } w3).world,
          .GetByPipelineIdAndReleaseNo ov.PipelineId ov.PipelineReleaseCounter
            (.ok (first :: rest))
          :: .GetCurrentPipelineReleaseCounter ov.PipelineId (.ok c)
          :: .Update { ov with PipelineReleaseCounter := c + 1 } none
          :: (checkAndFixLoop deps n false (rc + 1)
            { ov with PipelineReleaseCounter := c + 1 } w3).log⟩ := by
  simp [checkAndFixLoop, hrc, M.bind_def, M.bind, M.call, h1, hid, h2, h3]

theorem savedRows_append (l1 l2 : List Event) :
    savedRows (l1 ++ l2) = savedRows l1 ++ savedRows l2 := by
  simp [savedRows, List.filterMap_append]

/-- The repair loop never calls `Save`. -/
theorem checkAndFixLoop_savedRows (deps : Deps σ) (fuel : Nat) :
    ∀ (uv : Bool) (rc : Int) (ov : PipelineOverride) (w : σ),
      savedRows (checkAndFixLoop deps fuel uv rc ov w).log = [] := by
  induction fuel with
  | zero =>
    intro uv rc ov w
    by_cases hd : uv = true ∨ ¬ rc < 5
    · rw [checkAndFixLoop_done deps 0 uv rc ov w hd]; rfl
    · have huv : uv = false := by cases uv <;> simp_all
      have hrc : rc < 5 := by by_contra h; exact hd (Or.inr h)
      subst huv
      rw [checkAndFixLoop_zero deps rc ov w hrc]; rfl
  | succ n ih =>
    intro uv rc ov w
    by_cases hd : uv = true ∨ ¬ rc < 5
    · rw [checkAndFixLoop_done deps _ uv rc ov w hd]; rfl
    · have huv : uv = false := by cases uv <;> simp_all
      have hrc : rc < 5 := by by_contra h; exact hd (Or.inr h)
      subst huv
      rcases h1 : deps.GetByPipelineIdAndReleaseNo ov.PipelineId ov.PipelineReleaseCounter w
        with ⟨resp, w1⟩
      rcases resp with err | rows
      · rw [checkAndFixLoop_lookup_error deps n rc ov w w1 err hrc h1]; rfl
      · rcases rows with _ | ⟨first, rest⟩
        · rw [checkAndFixLoop_lookup_empty deps n rc ov w w1 hrc h1]; rfl
        · by_cases hid : first.Id = ov.Id
          · rw [checkAndFixLoop_verified deps n rc ov first rest w w1 hrc h1 hid]; rfl
          · rcases h2 : deps.GetCurrentPipelineReleaseCounter ov.PipelineId w1 with ⟨cresp, w2⟩
            rcases cresp with err | c
            · rw [checkAndFixLoop_counter_error deps n rc ov first rest w w1 w2 err hrc h1 hid
                h2]
              rfl
            · rcases h3 : deps.Update { ov with PipelineReleaseCounter := c + 1 } w2
                with ⟨uresp, w3⟩
              rcases uresp with _ | err
              · rw [checkAndFixLoop_repair deps n rc c ov first rest w w1 w2 w3 hrc h1 hid h2
                  h3]
                exact ih false (rc + 1) _ w3
              · rw [checkAndFixLoop_update_error deps n rc c ov first rest w w1 w2 w3 err hrc
                  h1 hid h2 h3]
                rfl

/-- Log, state and result of `checkAndFixDuplicateReleaseNo` in terms of its loop. -/
theorem checkAndFixDuplicateReleaseNo_run (deps : Deps σ) (ov : PipelineOverride) (w : σ) :
    (checkAndFixDuplicateReleaseNo deps ov w).log = (checkAndFixLoop deps 5 false 0 ov w).log ∧
    (checkAndFixDuplicateReleaseNo deps ov w).world
      = (checkAndFixLoop deps 5 false 0 ov w).world ∧
    (checkAndFixDuplicateReleaseNo deps ov w).result
      = match (checkAndFixLoop deps 5 false 0 ov w).result with
        | .val (.error (ov', err)) => .val (ov', some err)
        | .val (.ok (uniqueVerified, retryCount, ov')) =>
          if uniqueVerified then .val (ov', none)
          else .val (ov', some (.errorString
            ("duplicate verification retry count exide max overrideId: " ++ toString ov'.Id
              ++ " ,count: " ++ toString retryCount)))
        | .panic => .panic
        | .outOfFuel => .outOfFuel := by
  unfold checkAndFixDuplicateReleaseNo
  simp only [M.bind_def, M.pure_def, M.bind]
  rcases hr : (checkAndFixLoop deps 5 false 0 ov w).result with r | _ | _
  · rcases r with ⟨ov', err⟩ | ⟨uv, rc, ov'⟩
    · simp [M.pure]
    · cases uv <;> simp [M.pure]
  · simp
  · simp

/-- The log of `savePipelineOverride` hands `Save` at most the one row it builds. -/
theorem savePipelineOverride_savedRows (deps : Deps σ) (overrideRequest : ValuesOverrideRequest)
    (envOverrideId : Int) (triggeredAt : Time) (w w0 : σ) (currentReleaseNo : Int)
    (h0 : deps.GetCurrentPipelineReleaseCounter overrideRequest.PipelineId w
      = (.ok currentReleaseNo, w0)) :
    savedRows (savePipelineOverride deps overrideRequest envOverrideId triggeredAt w).log
      = [{ EnvConfigOverrideId := envOverrideId,
           Status := .CHARTSTATUS_NEW,
           PipelineId := overrideRequest.PipelineId,
           CiArtifactId := overrideRequest.CiArtifactId,
           PipelineReleaseCounter := currentReleaseNo + 1,
           CdWorkflowId := overrideRequest.CdWorkflowId,
           AuditLog := { CreatedBy := overrideRequest.UserId, CreatedOn := triggeredAt,
                         UpdatedOn := triggeredAt, UpdatedBy := overrideRequest.UserId },
           DeploymentType := overrideRequest.DeploymentType }] := by
  unfold savePipelineOverride
  simp only [M.bind_def, M.pure_def, M.bind, M.call, h0]
  rcases h1 : deps.Save _ w0 with ⟨sresp, w1⟩
  rcases sresp with err | po
  · simp [M.pure, savedRows]
  · simp only []
    have hlog := (checkAndFixDuplicateReleaseNo_run deps po w1).1
    have hno := checkAndFixLoop_savedRows deps 5 false 0 po w1
    rcases hres : (checkAndFixDuplicateReleaseNo deps po w1).result with r | _ | _
    · rcases r with ⟨ov', _ | err⟩
      · simp only [M.bind, hres, M.pure, savedRows_append, hlog, hno]
        simp [savedRows]
      · simp only [M.bind, hres, M.pure, savedRows_append, hlog, hno]
        simp [savedRows]
    · simp only [M.bind, hres, savedRows_append, hlog, hno]
      simp [savedRows]
    · simp only [M.bind, hres, savedRows_append, hlog, hno]
      simp [savedRows]

end Runs

section Loop
variable {σ : Type}

/-- Case analysis of the repair loop with `k` attempts left: a property of its runs holds once
it holds for each way an attempt can go. -/
theorem checkAndFixLoop_attempts (deps : Deps σ)
    (P : Nat → PipelineOverride → σ →
      Outcome σ (Except (PipelineOverride × Error) (Bool × Int × PipelineOverride)) → Prop)
    (hdone : ∀ ov w, P 0 ov w ⟨.val (.ok (false, 5, ov)), w, []⟩)
    (hlookupErr : ∀ k ov w w1 err,
      deps.GetByPipelineIdAndReleaseNo ov.PipelineId ov.PipelineReleaseCounter w
        = (.error err, w1) →
      P (k + 1) ov w ⟨.val (.error (ov, err)), w1,
        [.GetByPipelineIdAndReleaseNo ov.PipelineId ov.PipelineReleaseCounter (.error err)]⟩)
    (hempty : ∀ k ov w w1,
      deps.GetByPipelineIdAndReleaseNo ov.PipelineId ov.PipelineReleaseCounter w
        = (.ok [], w1) →
      P (k + 1) ov w ⟨.panic, w1,
        [.GetByPipelineIdAndReleaseNo ov.PipelineId ov.PipelineReleaseCounter (.ok [])]⟩)
    (hverified : ∀ (k : Nat) ov w w1 first rest,
      deps.GetByPipelineIdAndReleaseNo ov.PipelineId ov.PipelineReleaseCounter w
        = (.ok (first :: rest), w1) →
      first.Id = ov.Id →
      P (k + 1) ov w ⟨.val (.ok (true, 5 - (k : Int), ov)), w1,
        [.GetByPipelineIdAndReleaseNo ov.PipelineId ov.PipelineReleaseCounter
          (.ok (first :: rest))]⟩)
    (hcounterErr : ∀ k ov w w1 w2 first rest err,
      deps.GetByPipelineIdAndReleaseNo ov.PipelineId ov.PipelineReleaseCounter w
        = (.ok (first :: rest), w1) →
      first.Id ≠ ov.Id →
      deps.GetCurrentPipelineReleaseCounter ov.PipelineId w1 = (.error err, w2) →
      P (k + 1) ov w ⟨.val (.error (ov, err)), w2,
        [.GetByPipelineIdAndReleaseNo ov.PipelineId ov.PipelineReleaseCounter
          (.ok (first :: rest)),
         .GetCurrentPipelineReleaseCounter ov.PipelineId (.error err)]⟩)
    (hupdateErr : ∀ k ov w w1 w2 w3 first rest c err,
      deps.GetByPipelineIdAndReleaseNo ov.PipelineId ov.PipelineReleaseCounter w
        = (.ok (first :: rest), w1) →
      first.Id ≠ ov.Id →
      deps.GetCurrentPipelineReleaseCounter ov.PipelineId w1 = (.ok c, w2) →
      deps.Update { ov with PipelineReleaseCounter := c + 1 } w2 = (some err, w3) →
      P (k + 1) ov w ⟨.val (.error ({ ov with PipelineReleaseCounter := c + 1 }, err)), w3,
        [.GetByPipelineIdAndReleaseNo ov.PipelineId ov.PipelineReleaseCounter
          (.ok (first :: rest)),
         .GetCurrentPipelineReleaseCounter ov.PipelineId (.ok c),
         .Update { ov with PipelineReleaseCounter := c + 1 } (some err)]⟩)
    (hrepair : ∀ k ov w w1 w2 w3 first rest c o,
      deps.GetByPipelineIdAndReleaseNo ov.PipelineId ov.PipelineReleaseCounter w
        = (.ok (first :: rest), w1) →
      first.Id ≠ ov.Id →
      deps.GetCurrentPipelineReleaseCounter ov.PipelineId w1 = (.ok c, w2) →
      deps.Update { ov with PipelineReleaseCounter := c + 1 } w2 = (none, w3) →
      P k { ov with PipelineReleaseCounter := c + 1 } w3 o →
      P (k + 1) ov w ⟨o.result, o.world,
        .GetByPipelineIdAndReleaseNo ov.PipelineId ov.PipelineReleaseCounter
          (.ok (first :: rest))
        :: .GetCurrentPipelineReleaseCounter ov.PipelineId (.ok c)
        :: .Update { ov with PipelineReleaseCounter := c + 1 } none :: o.log⟩) :
    ∀ (k : Nat) ov w, P k ov w (checkAndFixLoop deps k false (5 - (k : Int)) ov w) := by
  intro k
  induction k with
  | zero =>
    intro ov w
    have h := checkAndFixLoop_done deps 0 false (5 - ((0 : Nat) : Int)) ov w
      (Or.inr (by norm_num))
    rw [h]
    simpa using hdone ov w
  | succ k ih =>
    intro ov w
    have hrc : (5 - ((k + 1 : Nat) : Int)) < 5 := by push_cast; omega
    have hnext : (5 - ((k + 1 : Nat) : Int)) + 1 = 5 - (k : Int) := by push_cast; omega
    rcases h1 : deps.GetByPipelineIdAndReleaseNo ov.PipelineId ov.PipelineReleaseCounter w
      with ⟨resp, w1⟩
    rcases resp with err | rows
    · rw [checkAndFixLoop_lookup_error deps k _ ov w w1 err hrc h1]
      exact hlookupErr k ov w w1 err h1
    · rcases rows with _ | ⟨first, rest⟩
      · rw [checkAndFixLoop_lookup_empty deps k _ ov w w1 hrc h1]
        exact hempty k ov w w1 h1
      · by_cases hid : first.Id = ov.Id
        · rw [checkAndFixLoop_verified deps k _ ov first rest w w1 hrc h1 hid, hnext]
          exact hverified k ov w w1 first rest h1 hid
        · rcases h2 : deps.GetCurrentPipelineReleaseCounter ov.PipelineId w1 with ⟨cresp, w2⟩
          rcases cresp with err | c
          · rw [checkAndFixLoop_counter_error deps k _ ov first rest w w1 w2 err hrc h1 hid h2]
            exact hcounterErr k ov w w1 w2 first rest err h1 hid h2
          · rcases h3 : deps.Update { ov with PipelineReleaseCounter := c + 1 } w2
              with ⟨uresp, w3⟩
            rcases uresp with _ | err
            · rw [checkAndFixLoop_repair deps k _ c ov first rest w w1 w2 w3 hrc h1 hid h2 h3,
                hnext]
              exact hrepair k ov w w1 w2 w3 first rest c _ h1 hid h2 h3 (ih _ w3)
            · rw [checkAndFixLoop_update_error deps k _ c ov first rest w w1 w2 w3 err hrc h1
                hid h2 h3]
              exact hupdateErr k ov w w1 w2 w3 first rest c err h1 hid h2 h3

theorem lookupCount_cons (ev : Event) (l : List Event) :
    lookupCount (ev :: l) = (if ev.isLookup then 1 else 0) + lookupCount l := by
  cases h : ev.isLookup <;> simp [lookupCount, List.filter_cons, h, Nat.add_comm]

/-- With `k` attempts left the loop ends within its budget after at most `k` lookups. -/
theorem checkAndFixLoop_bound (deps : Deps σ) :
    ∀ (k : Nat) ov w,
      (checkAndFixLoop deps k false (5 - (k : Int)) ov w).result ≠ .outOfFuel ∧
      lookupCount (checkAndFixLoop deps k false (5 - (k : Int)) ov w).log ≤ k := by
  refine checkAndFixLoop_attempts deps
    (fun k _ _ o => o.result ≠ .outOfFuel ∧ lookupCount o.log ≤ k) ?_ ?_ ?_ ?_ ?_ ?_ ?_
  · intro ov w; simp [lookupCount]
  · intro k ov w w1 err _; simp [lookupCount, Event.isLookup]
  · intro k ov w w1 _; simp [lookupCount, Event.isLookup]
  · intro k ov w w1 first rest _ _; simp [lookupCount, Event.isLookup]
  · intro k ov w w1 w2 first rest err _ _ _; simp [lookupCount, Event.isLookup]
  · intro k ov w w1 w2 w3 first rest c err _ _ _ _; simp [lookupCount, Event.isLookup]
  · intro k ov w w1 w2 w3 first rest c o _ _ _ _ ih
    refine ⟨ih.1, ?_⟩
    simp only [lookupCount_cons, Event.isLookup]
    have := ih.2
    simp only [Bool.false_eq_true, if_false, if_true]
    omega

/-- A lookup that shows the override first is the last event, and the loop ends verified. -/
theorem checkAndFixLoop_verified_last (deps : Deps σ) :
    ∀ (k : Nat) ov w,
      ∀ pid rc first rest post,
        (Event.GetByPipelineIdAndReleaseNo pid rc (.ok (first :: rest)) :: post)
          <:+ (checkAndFixLoop deps k false (5 - (k : Int)) ov w).log →
        first.Id = ov.Id →
        post = [] ∧ ∃ rc' ov', (checkAndFixLoop deps k false (5 - (k : Int)) ov w).result
          = .val (.ok (true, rc', ov')) := by
  refine checkAndFixLoop_attempts deps
    (fun _ ov _ o => ∀ pid rc first rest post,
      (Event.GetByPipelineIdAndReleaseNo pid rc (.ok (first :: rest)) :: post) <:+ o.log →
      first.Id = ov.Id →
      post = [] ∧ ∃ rc' ov', o.result = .val (.ok (true, rc', ov'))) ?_ ?_ ?_ ?_ ?_ ?_ ?_
  · intro ov w pid rc first rest post h _
    simp at h
  · intro k ov w w1 err _ pid rc first rest post h _
    simp [List.suffix_cons_iff] at h
  · intro k ov w w1 _ pid rc first rest post h _
    simp [List.suffix_cons_iff] at h
  · intro k ov w w1 first rest _ _ pid rc first' rest' post h _
    simp [List.suffix_cons_iff] at h
    exact ⟨h.2, _, _, rfl⟩
  · intro k ov w w1 w2 first rest err _ hid _ pid rc first' rest' post h hid'
    simp [List.suffix_cons_iff] at h
    obtain ⟨⟨-, -, rfl, -⟩, -⟩ := h
    exact absurd hid' hid
  · intro k ov w w1 w2 w3 first rest c err _ hid _ _ pid rc first' rest' post h hid'
    simp [List.suffix_cons_iff] at h
    obtain ⟨⟨-, -, rfl, -⟩, -⟩ := h
    exact absurd hid' hid
  · intro k ov w w1 w2 w3 first rest c o _ hid _ _ ih pid rc first' rest' post h hid'
    simp only [List.suffix_cons_iff] at h
    rcases h with h | h | h | h
    · simp at h
      obtain ⟨⟨-, -, rfl, -⟩, -⟩ := h
      exact absurd hid' hid
    · simp at h
    · simp at h
    · exact ih pid rc first' rest' post h hid'

/-- When all `k` attempts are used and every lookup shows a different first row, the loop
is left unverified after five attempts, unless a counter read or an update failed, whose
error is then returned. -/
theorem checkAndFixLoop_exhausted (deps : Deps σ) :
    ∀ (k : Nat) ov w,
      lookupCount (checkAndFixLoop deps k false (5 - (k : Int)) ov w).log = k →
      (∀ pid rc resp, Event.GetByPipelineIdAndReleaseNo pid rc resp
          ∈ (checkAndFixLoop deps k false (5 - (k : Int)) ov w).log →
        ∃ first rest, resp = .ok (first :: rest) ∧ first.Id ≠ ov.Id) →
      ∃ ov', ov'.Id = ov.Id ∧
        ((checkAndFixLoop deps k false (5 - (k : Int)) ov w).result
            = .val (.ok (false, 5, ov')) ∨
          ((∃ ev ∈ (checkAndFixLoop deps k false (5 - (k : Int)) ov w).log,
              ev.failed = true) ∧
            ∃ err, (checkAndFixLoop deps k false (5 - (k : Int)) ov w).result
              = .val (.error (ov', err)))) := by
  refine checkAndFixLoop_attempts deps
    (fun k ov _ o => lookupCount o.log = k →
      (∀ pid rc resp, Event.GetByPipelineIdAndReleaseNo pid rc resp ∈ o.log →
        ∃ first rest, resp = .ok (first :: rest) ∧ first.Id ≠ ov.Id) →
      ∃ ov', ov'.Id = ov.Id ∧
        (o.result = .val (.ok (false, 5, ov')) ∨
          ((∃ ev ∈ o.log, ev.failed = true) ∧ ∃ err, o.result = .val (.error (ov', err)))))
    ?_ ?_ ?_ ?_ ?_ ?_ ?_
  · intro ov w _ _
    exact ⟨ov, rfl, Or.inl rfl⟩
  · intro k ov w w1 err _ _ hall
    obtain ⟨first, rest, h, _⟩ := hall _ _ _ (List.mem_singleton.mpr rfl)
    cases h
  · intro k ov w w1 _ _ hall
    obtain ⟨first, rest, h, _⟩ := hall _ _ _ (List.mem_singleton.mpr rfl)
    simp at h
  · intro k ov w w1 first rest _ hid _ hall
    obtain ⟨first', rest', h, hne⟩ := hall _ _ _ (List.mem_singleton.mpr rfl)
    simp at h
    exact absurd (h.1 ▸ hid) hne
  · intro k ov w w1 w2 first rest err _ _ _ _ _
    exact ⟨ov, rfl, Or.inr ⟨⟨_, List.mem_cons_of_mem _ (List.mem_singleton.mpr rfl), rfl⟩,
      err, rfl⟩⟩
  · intro k ov w w1 w2 w3 first rest c err _ _ _ _ _ _
    exact ⟨{ ov with PipelineReleaseCounter := c + 1 }, rfl,
      Or.inr ⟨⟨_, List.mem_cons_of_mem _ (List.mem_cons_of_mem _
        (List.mem_singleton.mpr rfl)), rfl⟩, err, rfl⟩⟩
  · intro k ov w w1 w2 w3 first rest c o _ _ _ _ ih hcount hall
    have hcount' : lookupCount o.log = k := by
      simp only [lookupCount_cons, Event.isLookup, Bool.false_eq_true, if_false,
        if_true] at hcount
      omega
    obtain ⟨ov', hid', hres⟩ := ih hcount' (fun pid rc resp hmem =>
      hall pid rc resp (List.mem_cons_of_mem _ (List.mem_cons_of_mem _
        (List.mem_cons_of_mem _ hmem))))
    refine ⟨ov', hid', ?_⟩
    rcases hres with hres | ⟨⟨ev, hev, hfail⟩, err, hres⟩
    · exact Or.inl hres
    · exact Or.inr ⟨⟨ev, List.mem_cons_of_mem _ (List.mem_cons_of_mem _
        (List.mem_cons_of_mem _ hev)), hfail⟩, err, hres⟩

/-- The repair after a mismatch: the current counter is read and, when the read gives `c`,
the row is updated with counter `c + 1` before anything else; the next lookup, if there is
one, verifies that counter. -/
theorem checkAndFixLoop_repairs (deps : Deps σ) :
    ∀ (k : Nat) ov w,
      ((checkAndFixLoop deps k false (5 - (k : Int)) ov w).log = [] ∨
        ∃ resp post, (checkAndFixLoop deps k false (5 - (k : Int)) ov w).log
          = .GetByPipelineIdAndReleaseNo ov.PipelineId ov.PipelineReleaseCounter resp
            :: post) ∧
      ∀ pid rc first rest post,
        (Event.GetByPipelineIdAndReleaseNo pid rc (.ok (first :: rest)) :: post)
          <:+ (checkAndFixLoop deps k false (5 - (k : Int)) ov w).log →
        first.Id ≠ ov.Id →
        ∃ cresp post1, post = .GetCurrentPipelineReleaseCounter pid cresp :: post1 ∧
          ∀ c, cresp = .ok c →
            ∃ ov' uresp post2, post1 = .Update ov' uresp :: post2 ∧
              ov'.Id = ov.Id ∧ ov'.PipelineId = pid ∧ ov'.PipelineReleaseCounter = c + 1 ∧
              (post2 = [] ∨
                ∃ resp post3, post2 = .GetByPipelineIdAndReleaseNo pid (c + 1) resp :: post3) := by
  refine checkAndFixLoop_attempts deps
    (fun _ ov _ o =>
      (o.log = [] ∨ ∃ resp post, o.log
          = .GetByPipelineIdAndReleaseNo ov.PipelineId ov.PipelineReleaseCounter resp
            :: post) ∧
      ∀ pid rc first rest post,
        (Event.GetByPipelineIdAndReleaseNo pid rc (.ok (first :: rest)) :: post) <:+ o.log →
        first.Id ≠ ov.Id →
        ∃ cresp post1, post = .GetCurrentPipelineReleaseCounter pid cresp :: post1 ∧
          ∀ c, cresp = .ok c →
            ∃ ov' uresp post2, post1 = .Update ov' uresp :: post2 ∧
              ov'.Id = ov.Id ∧ ov'.PipelineId = pid ∧ ov'.PipelineReleaseCounter = c + 1 ∧
              (post2 = [] ∨
                ∃ resp post3, post2 = .GetByPipelineIdAndReleaseNo pid (c + 1) resp :: post3))
    ?_ ?_ ?_ ?_ ?_ ?_ ?_
  · intro ov w
    refine ⟨Or.inl rfl, ?_⟩
    intro pid rc first rest post h _
    simp at h
  · intro k ov w w1 err _
    refine ⟨Or.inr ⟨_, _, rfl⟩, ?_⟩
    intro pid rc first rest post h _
    simp [List.suffix_cons_iff] at h
  · intro k ov w w1 _
    refine ⟨Or.inr ⟨_, _, rfl⟩, ?_⟩
    intro pid rc first rest post h _
    simp [List.suffix_cons_iff] at h
  · intro k ov w w1 first rest _ hid
    refine ⟨Or.inr ⟨_, _, rfl⟩, ?_⟩
    intro pid rc first' rest' post h hne
    simp [List.suffix_cons_iff] at h
    obtain ⟨⟨-, -, rfl, -⟩, -⟩ := h
    exact absurd hid hne
  · intro k ov w w1 w2 first rest err _ _ _
    refine ⟨Or.inr ⟨_, _, rfl⟩, ?_⟩
    intro pid rc first' rest' post h _
    simp [List.suffix_cons_iff] at h
    obtain ⟨⟨rfl, -, -, -⟩, rfl⟩ := h
    exact ⟨_, _, rfl, fun c hc => by cases hc⟩
  · intro k ov w w1 w2 w3 first rest c err _ _ _ _
    refine ⟨Or.inr ⟨_, _, rfl⟩, ?_⟩
    intro pid rc first' rest' post h _
    simp [List.suffix_cons_iff] at h
    obtain ⟨⟨rfl, -, -, -⟩, rfl⟩ := h
    refine ⟨_, _, rfl, fun c' hc => ?_⟩
    cases hc
    exact ⟨_, _, _, rfl, rfl, rfl, rfl, Or.inl rfl⟩
  · intro k ov w w1 w2 w3 first rest c o _ _ _ _ ih
    refine ⟨Or.inr ⟨_, _, rfl⟩, ?_⟩
    intro pid rc first' rest' post h hne
    simp only [List.suffix_cons_iff] at h
    rcases h with h | h | h | h
    · simp at h
      obtain ⟨⟨rfl, -, -, -⟩, rfl⟩ := h
      refine ⟨_, _, rfl, fun c' hc => ?_⟩
      cases hc
      exact ⟨_, _, _, rfl, rfl, rfl, rfl, ih.1⟩
    · simp at h
    · simp at h
    · exact ih.2 pid rc first' rest' post h hne

/-- A larger budget changes nothing: with `k` attempts left, the loop run with any budget of
at least `k` is the run with budget `k`. -/
theorem checkAndFixLoop_budget (deps : Deps σ) :
    ∀ (k n : Nat) ov w, k ≤ n →
      checkAndFixLoop deps n false (5 - (k : Int)) ov w
        = checkAndFixLoop deps k false (5 - (k : Int)) ov w := by
  intro k
  induction k with
  | zero =>
    intro n ov w _
    rw [checkAndFixLoop_done deps n false _ ov w (Or.inr (by norm_num)),
      checkAndFixLoop_done deps 0 false _ ov w (Or.inr (by norm_num))]
  | succ k ih =>
    intro n ov w hn
    obtain ⟨m, rfl⟩ : ∃ m, n = m + 1 := ⟨n - 1, by omega⟩
    have hm : k ≤ m := by omega
    have hrc : (5 - ((k + 1 : Nat) : Int)) < 5 := by push_cast; omega
    have hnext : (5 - ((k + 1 : Nat) : Int)) + 1 = 5 - (k : Int) := by push_cast; omega
    rcases h1 : deps.GetByPipelineIdAndReleaseNo ov.PipelineId ov.PipelineReleaseCounter w
      with ⟨resp, w1⟩
    rcases resp with err | rows
    · rw [checkAndFixLoop_lookup_error deps m _ ov w w1 err hrc h1,
        checkAndFixLoop_lookup_error deps k _ ov w w1 err hrc h1]
    · rcases rows with _ | ⟨first, rest⟩
      · rw [checkAndFixLoop_lookup_empty deps m _ ov w w1 hrc h1,
          checkAndFixLoop_lookup_empty deps k _ ov w w1 hrc h1]
      · by_cases hid : first.Id = ov.Id
        · rw [checkAndFixLoop_verified deps m _ ov first rest w w1 hrc h1 hid,
            checkAndFixLoop_verified deps k _ ov first rest w w1 hrc h1 hid]
        · rcases h2 : deps.GetCurrentPipelineReleaseCounter ov.PipelineId w1 with ⟨cresp, w2⟩
          rcases cresp with err | c
          · rw [checkAndFixLoop_counter_error deps m _ ov first rest w w1 w2 err hrc h1 hid h2,
              checkAndFixLoop_counter_error deps k _ ov first rest w w1 w2 err hrc h1 hid h2]
          · rcases h3 : deps.Update { ov with PipelineReleaseCounter := c + 1 } w2
              with ⟨uresp, w3⟩
            rcases uresp with _ | err
            · rw [checkAndFixLoop_repair deps m _ c ov first rest w w1 w2 w3 hrc h1 hid h2 h3,
                checkAndFixLoop_repair deps k _ c ov first rest w w1 w2 w3 hrc h1 hid h2 h3,
                hnext, ih m _ w3 hm]
            · rw [checkAndFixLoop_update_error deps m _ c ov first rest w w1 w2 w3 err hrc h1
                  hid h2 h3,
                checkAndFixLoop_update_error deps k _ c ov first rest w w1 w2 w3 err hrc h1
                  hid h2 h3]

/-- When the duplicate check returns an error, `savePipelineOverride` returns it with no
row. -/
theorem savePipelineOverride_check_error (deps : Deps σ)
    (overrideRequest : ValuesOverrideRequest) (envOverrideId : Int) (triggeredAt : Time)
    (w0 w1 w : σ) (c : Int) (override ov' : PipelineOverride) (err : Error)
    (h0 : deps.GetCurrentPipelineReleaseCounter overrideRequest.PipelineId w0 = (.ok c, w1))
    (h1 : deps.Save
        { EnvConfigOverrideId := envOverrideId,
          Status := .CHARTSTATUS_NEW,
          PipelineId := overrideRequest.PipelineId,
          CiArtifactId := overrideRequest.CiArtifactId,
          PipelineReleaseCounter := c + 1,
          CdWorkflowId := overrideRequest.CdWorkflowId,
          AuditLog := { CreatedBy := overrideRequest.UserId, CreatedOn := triggeredAt,
                        UpdatedOn := triggeredAt, UpdatedBy := overrideRequest.UserId },
          DeploymentType := overrideRequest.DeploymentType } w1 = (.ok override, w))
    (hres : (checkAndFixDuplicateReleaseNo deps override w).result = .val (ov', some err)) :
    (savePipelineOverride deps overrideRequest envOverrideId triggeredAt w0).result
      = .val (none, some err) := by
  unfold savePipelineOverride
  simp only [M.bind_def, M.pure_def, M.bind, M.call, h0, h1, hres, M.pure]

end Loop

section
variable {σ : Type}

/-- A log that ends with a call of some kind after calls that did not fail still does so
behind three more calls that did not fail. -/
theorem log_ends_after (a b c : Event) (log : List Event) (Q : Event → Prop)
    (ha : a.failed = false) (hb : b.failed = false) (hc : c.failed = false)
    (h : ∃ pre ev, log = pre ++ [ev] ∧ pre.all (fun ev => !ev.failed) = true ∧ Q ev) :
    ∃ pre ev, a :: b :: c :: log = pre ++ [ev] ∧
      pre.all (fun ev => !ev.failed) = true ∧ Q ev := by
  obtain ⟨pre, ev, hlog, hpre, hq⟩ := h
  refine ⟨a :: b :: c :: pre, ev, by rw [hlog]; rfl, ?_, hq⟩
  simp only [List.all_cons, ha, hb, hc, hpre, Bool.not_false, Bool.and_self]

/-- What the loop of `checkAndFixDuplicateReleaseNo` leaves: it changes nothing of the
override but its release counter; when it ends unverified, five attempts were made and no
call failed; when it ends with an error, that is the error of the last call made, a lookup,
a counter read or an update, and no call before it failed. -/
theorem checkAndFixLoop_ends (deps : Deps σ) :
    ∀ (k : Nat) ov w,
      (∀ uv rc ov', (checkAndFixLoop deps k false (5 - (k : Int)) ov w).result
          = .val (.ok (uv, rc, ov')) →
        ov' = { ov with PipelineReleaseCounter := ov'.PipelineReleaseCounter } ∧
        (uv = false → rc = 5) ∧
        (checkAndFixLoop deps k false (5 - (k : Int)) ov w).log.all (fun ev => !ev.failed)
          = true) ∧
      (∀ ov' err, (checkAndFixLoop deps k false (5 - (k : Int)) ov w).result
          = .val (.error (ov', err)) →
        ∃ pre ev, (checkAndFixLoop deps k false (5 - (k : Int)) ov w).log = pre ++ [ev] ∧
          pre.all (fun ev => !ev.failed) = true ∧ ev.callError = some err ∧
          ((∃ pid rc, ev = .GetByPipelineIdAndReleaseNo pid rc (.error err)) ∨
            (∃ pid, ev = .GetCurrentPipelineReleaseCounter pid (.error err)) ∨
            (∃ u, ev = .Update u (some err)))) := by
  refine checkAndFixLoop_attempts deps
    (fun _ ov _ o =>
      (∀ uv rc ov', o.result = .val (.ok (uv, rc, ov')) →
        ov' = { ov with PipelineReleaseCounter := ov'.PipelineReleaseCounter } ∧
        (uv = false → rc = 5) ∧ o.log.all (fun ev => !ev.failed) = true) ∧
      (∀ ov' err, o.result = .val (.error (ov', err)) →
        ∃ pre ev, o.log = pre ++ [ev] ∧ pre.all (fun ev => !ev.failed) = true ∧
          ev.callError = some err ∧
          ((∃ pid rc, ev = .GetByPipelineIdAndReleaseNo pid rc (.error err)) ∨
            (∃ pid, ev = .GetCurrentPipelineReleaseCounter pid (.error err)) ∨
            (∃ u, ev = .Update u (some err))))) ?_ ?_ ?_ ?_ ?_ ?_ ?_
  · intro ov w
    refine ⟨?_, ?_⟩
    · intro uv rc ov' h
      simp only [Res.val.injEq, Except.ok.injEq, Prod.mk.injEq] at h
      obtain ⟨-, hrc, hov⟩ := h
      subst hov
      exact ⟨rfl, fun _ => hrc.symm, rfl⟩
    · intro ov' err h
      simp at h
  · intro k ov w w1 err _
    refine ⟨?_, ?_⟩
    · intro uv rc ov' h
      simp at h
    · intro ov' err' h
      simp only [Res.val.injEq, Except.error.injEq, Prod.mk.injEq] at h
      obtain ⟨-, herr⟩ := h
      subst herr
      exact ⟨[], _, rfl, rfl, rfl, Or.inl ⟨_, _, rfl⟩⟩
  · intro k ov w w1 _
    refine ⟨?_, ?_⟩
    · intro uv rc ov' h
      simp at h
    · intro ov' err h
      simp at h
  · intro k ov w w1 first rest _ _
    refine ⟨?_, ?_⟩
    · intro uv rc ov' h
      simp only [Res.val.injEq, Except.ok.injEq, Prod.mk.injEq] at h
      obtain ⟨huv, -, hov⟩ := h
      subst hov
      subst huv
      exact ⟨rfl, fun h => (by cases h), rfl⟩
    · intro ov' err h
      simp at h
  · intro k ov w w1 w2 first rest err _ _ _
    refine ⟨?_, ?_⟩
    · intro uv rc ov' h
      simp at h
    · intro ov' err' h
      simp only [Res.val.injEq, Except.error.injEq, Prod.mk.injEq] at h
      obtain ⟨-, herr⟩ := h
      subst herr
      exact ⟨[_], _, rfl, rfl, rfl, Or.inr (Or.inl ⟨_, rfl⟩)⟩
  · intro k ov w w1 w2 w3 first rest c err _ _ _ _
    refine ⟨?_, ?_⟩
    · intro uv rc ov' h
      simp at h
    · intro ov' err' h
      simp only [Res.val.injEq, Except.error.injEq, Prod.mk.injEq] at h
      obtain ⟨-, herr⟩ := h
      subst herr
      exact ⟨[_, _], _, rfl, rfl, rfl, Or.inr (Or.inr ⟨_, rfl⟩)⟩
  · intro k ov w w1 w2 w3 first rest c o _ _ _ _ ih
    refine ⟨?_, ?_⟩
    · intro uv rc ov' h
      obtain ⟨h1, h2, h3⟩ := ih.1 uv rc ov' h
      refine ⟨?_, h2, ?_⟩
      · rw [h1]
      · simpa [Event.failed] using h3
    · intro ov' err h
      exact log_ends_after _ _ _ _ _ rfl rfl rfl (ih.2 ov' err h)

/-- The run of `savePipelineOverride` once the counter is read and the row is inserted: the
duplicate check follows on the row that `Save` answered. -/
theorem savePipelineOverride_after_save (deps : Deps σ)
    (overrideRequest : ValuesOverrideRequest) (envOverrideId : Int) (triggeredAt : Time)
    (w w1 w2 : σ) (c : Int) (po : PipelineOverride)
    (h0 : deps.GetCurrentPipelineReleaseCounter overrideRequest.PipelineId w = (.ok c, w1))
    (h1 : deps.Save
        { EnvConfigOverrideId := envOverrideId,
          Status := .CHARTSTATUS_NEW,
          PipelineId := overrideRequest.PipelineId,
          CiArtifactId := overrideRequest.CiArtifactId,
          PipelineReleaseCounter := c + 1,
          CdWorkflowId := overrideRequest.CdWorkflowId,
          AuditLog := { CreatedBy := overrideRequest.UserId, CreatedOn := triggeredAt,
                        UpdatedOn := triggeredAt, UpdatedBy := overrideRequest.UserId },
          DeploymentType := overrideRequest.DeploymentType } w1 = (.ok po, w2)) :
    savePipelineOverride deps overrideRequest envOverrideId triggeredAt w
      = ⟨match (checkAndFixDuplicateReleaseNo deps po w2).result with
          | .val (_, some err) => .val (none, some err)
          | .val (po, none) => .val (some po, none)
          | .panic => .panic
          | .outOfFuel => .outOfFuel,
          (checkAndFixDuplicateReleaseNo deps po w2).world,
          [Event.GetCurrentPipelineReleaseCounter overrideRequest.PipelineId (.ok c),
            Event.Save
              { EnvConfigOverrideId := envOverrideId,
                Status := .CHARTSTATUS_NEW,
                PipelineId := overrideRequest.PipelineId,
                CiArtifactId := overrideRequest.CiArtifactId,
                PipelineReleaseCounter := c + 1,
                CdWorkflowId := overrideRequest.CdWorkflowId,
                AuditLog := { CreatedBy := overrideRequest.UserId, CreatedOn := triggeredAt,
                              UpdatedOn := triggeredAt, UpdatedBy := overrideRequest.UserId },
                DeploymentType := overrideRequest.DeploymentType } (.ok po)]
            ++ (checkAndFixDuplicateReleaseNo deps po w2).log⟩ := by
  unfold savePipelineOverride
  simp only [M.bind_def, M.pure_def, M.bind, M.call, h0, h1]
  rcases hres : (checkAndFixDuplicateReleaseNo deps po w2).result with r | _ | _
  · rcases r with ⟨ov', _ | err⟩ <;> simp [M.pure]
  · simp
  · simp

end

/-- C9: `savePipelineOverride` inserts exactly one PipelineOverride row. (1) When the read
of the current release counter fails, it returns that error after that one call: `Save` is
not called and the table is as the read left it. (2) When the read gives `c`, the next call
is `Save` with the row whose PipelineReleaseCounter is `c + 1`, whose Status is
CHARTSTATUS_NEW, and whose PipelineId, CiArtifactId, CdWorkflowId and DeploymentType are
those of the request and whose EnvConfigOverrideId is the resolved env override's id; when
`Save` fails, its error is returned and nothing else is called. (3) When `Save` answers the
stored row, the only other calls are those of `checkAndFixDuplicateReleaseNo` on that row,
none of which is a `Save`, the table is as the check leaves it, and on a nil error the row
returned is the stored row, with the release counter the check verified. -/
theorem savePipelineOverride_saves_one_row {σ : Type} (deps : Deps σ)
    (overrideRequest : ValuesOverrideRequest) (envOverrideId : Int) (triggeredAt : Time)
    (w : σ) :
    (∀ err w1,
      deps.GetCurrentPipelineReleaseCounter overrideRequest.PipelineId w = (.error err, w1) →
      savePipelineOverride deps overrideRequest envOverrideId triggeredAt w
        = ⟨.val (none, some err), w1,
            [Event.GetCurrentPipelineReleaseCounter overrideRequest.PipelineId
              (.error err)]⟩) ∧
    (∀ c w1 err w2,
      deps.GetCurrentPipelineReleaseCounter overrideRequest.PipelineId w = (.ok c, w1) →
      deps.Save
        { EnvConfigOverrideId := envOverrideId,
          Status := .CHARTSTATUS_NEW,
          PipelineId := overrideRequest.PipelineId,
          CiArtifactId := overrideRequest.CiArtifactId,
          PipelineReleaseCounter := c + 1,
          CdWorkflowId := overrideRequest.CdWorkflowId,
          AuditLog := { CreatedBy := overrideRequest.UserId, CreatedOn := triggeredAt,
                        UpdatedOn := triggeredAt, UpdatedBy := overrideRequest.UserId },
          DeploymentType := overrideRequest.DeploymentType } w1 = (.error err, w2) →
      savePipelineOverride deps overrideRequest envOverrideId triggeredAt w
        = ⟨.val (none, some err), w2,
            [Event.GetCurrentPipelineReleaseCounter overrideRequest.PipelineId (.ok c),
              Event.Save
                { EnvConfigOverrideId := envOverrideId,
                  Status := .CHARTSTATUS_NEW,
                  PipelineId := overrideRequest.PipelineId,
                  CiArtifactId := overrideRequest.CiArtifactId,
                  PipelineReleaseCounter := c + 1,
                  CdWorkflowId := overrideRequest.CdWorkflowId,
                  AuditLog := { CreatedBy := overrideRequest.UserId, CreatedOn := triggeredAt,
                                UpdatedOn := triggeredAt, UpdatedBy := overrideRequest.UserId },
                  DeploymentType := overrideRequest.DeploymentType } (.error err)]⟩) ∧
    (∀ c w1 po w2,
      deps.GetCurrentPipelineReleaseCounter overrideRequest.PipelineId w = (.ok c, w1) →
      deps.Save
        { EnvConfigOverrideId := envOverrideId,
          Status := .CHARTSTATUS_NEW,
          PipelineId := overrideRequest.PipelineId,
          CiArtifactId := overrideRequest.CiArtifactId,
          PipelineReleaseCounter := c + 1,
          CdWorkflowId := overrideRequest.CdWorkflowId,
          AuditLog := { CreatedBy := overrideRequest.UserId, CreatedOn := triggeredAt,
                        UpdatedOn := triggeredAt, UpdatedBy := overrideRequest.UserId },
          DeploymentType := overrideRequest.DeploymentType } w1 = (.ok po, w2) →
      (savePipelineOverride deps overrideRequest envOverrideId triggeredAt w).log
        = [Event.GetCurrentPipelineReleaseCounter overrideRequest.PipelineId (.ok c),
            Event.Save
              { EnvConfigOverrideId := envOverrideId,
                Status := .CHARTSTATUS_NEW,
                PipelineId := overrideRequest.PipelineId,
                CiArtifactId := overrideRequest.CiArtifactId,
                PipelineReleaseCounter := c + 1,
                CdWorkflowId := overrideRequest.CdWorkflowId,
                AuditLog := { CreatedBy := overrideRequest.UserId, CreatedOn := triggeredAt,
                              UpdatedOn := triggeredAt, UpdatedBy := overrideRequest.UserId },
                DeploymentType := overrideRequest.DeploymentType } (.ok po)]
          ++ (checkAndFixDuplicateReleaseNo deps po w2).log ∧
      savedRows (checkAndFixDuplicateReleaseNo deps po w2).log = [] ∧
      (savePipelineOverride deps overrideRequest envOverrideId triggeredAt w).world
        = (checkAndFixDuplicateReleaseNo deps po w2).world ∧
      (∀ ov', (checkAndFixDuplicateReleaseNo deps po w2).result = .val (ov', none) →
        (savePipelineOverride deps overrideRequest envOverrideId triggeredAt w).result
          = .val (some ov', none) ∧
        ov' = { po with PipelineReleaseCounter := ov'.PipelineReleaseCounter }) ∧
      (∀ ov' err, (checkAndFixDuplicateReleaseNo deps po w2).result = .val (ov', some err) →
        (savePipelineOverride deps overrideRequest envOverrideId triggeredAt w).result
          = .val (none, some err))) := by
  refine ⟨?_, ?_, ?_⟩
  · intro err w1 h0
    unfold savePipelineOverride
    simp [M.bind_def, M.pure_def, M.bind, M.call, M.pure, h0]
  · intro c w1 err w2 h0 h1
    unfold savePipelineOverride
    simp [M.bind_def, M.pure_def, M.bind, M.call, M.pure, h0, h1]
  · intro c w1 po w2 h0 h1
    have hrun := savePipelineOverride_after_save deps overrideRequest envOverrideId triggeredAt
      w w1 w2 c po h0 h1
    have h5 : (5 : Int) - ((5 : Nat) : Int) = 0 := by norm_num
    obtain ⟨hlog, -, hres⟩ := checkAndFixDuplicateReleaseNo_run deps po w2
    have hends := checkAndFixLoop_ends deps 5 po w2
    rw [h5] at hends
    refine ⟨by rw [hrun], ?_, by rw [hrun], ?_, ?_⟩
    · rw [hlog]
      exact checkAndFixLoop_savedRows deps 5 false 0 po w2
    · intro ov' hov
      refine ⟨by rw [hrun, hov], ?_⟩
      rw [hres] at hov
      rcases hr : (checkAndFixLoop deps 5 false 0 po w2).result with r | _ | _
      · rw [hr] at hov
        rcases r with ⟨ov'', err⟩ | ⟨uv, rc, ov''⟩
        · simp at hov
        · cases uv
          · simp at hov
          · simp only [if_true, Res.val.injEq, Prod.mk.injEq, and_true] at hov
            subst hov
            exact (hends.1 true rc ov'' hr).1
      · rw [hr] at hov; simp at hov
      · rw [hr] at hov; simp at hov
    · intro ov' err hov
      rw [hrun, hov]

/-- Witness for C9: on the empty table the sample trigger reads counter 0, inserts the row
with release 1 and status NEW, which gets id 1, verifies it with one lookup and returns it;
the table then holds that one row. -/
theorem savePipelineOverride_saves_one_row_witness :
    (savePipelineOverride memoryDeps sampleRequest 7 100 []).result
      = .val (some { Id := 1, EnvConfigOverrideId := 7, Status := .CHARTSTATUS_NEW,
                     PipelineId := 10, CiArtifactId := 5, PipelineReleaseCounter := 1,
                     CdWorkflowId := 8,
                     AuditLog := { CreatedBy := 4, CreatedOn := 100, UpdatedOn := 100,
                                   UpdatedBy := 4 },
                     DeploymentType := .DEPLOYMENTTYPE_DEPLOY }, none) ∧
    (savePipelineOverride memoryDeps sampleRequest 7 100 []).world
      = [{ Id := 1, EnvConfigOverrideId := 7, Status := .CHARTSTATUS_NEW,
           PipelineId := 10, CiArtifactId := 5, PipelineReleaseCounter := 1,
           CdWorkflowId := 8,
           AuditLog := { CreatedBy := 4, CreatedOn := 100, UpdatedOn := 100, UpdatedBy := 4 },
           DeploymentType := .DEPLOYMENTTYPE_DEPLOY }] ∧
    savedRows (savePipelineOverride memoryDeps sampleRequest 7 100 []).log
      = [{ EnvConfigOverrideId := 7, Status := .CHARTSTATUS_NEW,
           PipelineId := 10, CiArtifactId := 5, PipelineReleaseCounter := 1,
           CdWorkflowId := 8,
           AuditLog := { CreatedBy := 4, CreatedOn := 100, UpdatedOn := 100, UpdatedBy := 4 },
           DeploymentType := .DEPLOYMENTTYPE_DEPLOY }] :=
  have h := (savePipelineOverride_saves_one_row memoryDeps sampleRequest 7 100 []).2.2 0 []
    { Id := 1, EnvConfigOverrideId := 7, Status := .CHARTSTATUS_NEW,
      PipelineId := 10, CiArtifactId := 5, PipelineReleaseCounter := 1, CdWorkflowId := 8,
      AuditLog := { CreatedBy := 4, CreatedOn := 100, UpdatedOn := 100, UpdatedBy := 4 },
      DeploymentType := .DEPLOYMENTTYPE_DEPLOY }
    [{ Id := 1, EnvConfigOverrideId := 7, Status := .CHARTSTATUS_NEW,
       PipelineId := 10, CiArtifactId := 5, PipelineReleaseCounter := 1, CdWorkflowId := 8,
       AuditLog := { CreatedBy := 4, CreatedOn := 100, UpdatedOn := 100, UpdatedBy := 4 },
       DeploymentType := .DEPLOYMENTTYPE_DEPLOY }]
    rfl rfl
  ⟨(h.2.2.2.1 _ rfl).1, h.2.2.1.trans rfl, rfl⟩

/-- C10 (as amended): `checkAndFixDuplicateReleaseNo` is bounded at 5 attempts. For every
behaviour of the repository: (1) the call ends after at most 5 calls of
`GetByPipelineIdAndReleaseNo`, and its loop runs the same with any larger budget of the
model; (2) a lookup that shows the override as the first row is the
last call made, and nil is returned; (3) when 5 lookups were made and each showed a
different first row, a non-nil error is returned: it is the duplicate-verification error
(for the override's id, count 5) when no counter read and no row update failed, and
otherwise it is the error of the one call that failed, which is a counter read or a row
update and is the last call made; (4) an
error returned by the check makes `savePipelineOverride` return that error and no row;
(5) after a lookup that shows a different first row the next call reads the current
counter and, when the read gives `c`, the next call updates the override with counter
`c + 1`; a lookup made after that update is for counter `c + 1`. -/
theorem checkAndFixDuplicateReleaseNo_bounded {σ : Type} (deps : Deps σ)
    (override : PipelineOverride) (w : σ) :
    ((checkAndFixDuplicateReleaseNo deps override w).result ≠ .outOfFuel ∧
      lookupCount (checkAndFixDuplicateReleaseNo deps override w).log ≤ 5 ∧
      ∀ n, 5 ≤ n → checkAndFixLoop deps n false 0 override w
        = checkAndFixLoop deps 5 false 0 override w) ∧
    (∀ pid rc first rest post,
      (Event.GetByPipelineIdAndReleaseNo pid rc (.ok (first :: rest)) :: post)
        <:+ (checkAndFixDuplicateReleaseNo deps override w).log →
      first.Id = override.Id →
      post = [] ∧
        ∃ ov', (checkAndFixDuplicateReleaseNo deps override w).result = .val (ov', none)) ∧
    (lookupCount (checkAndFixDuplicateReleaseNo deps override w).log = 5 →
      (checkAndFixDuplicateReleaseNo deps override w).log.all
        (Event.showsOtherFirst override.Id) = true →
      ∃ ov' err, (checkAndFixDuplicateReleaseNo deps override w).result
          = .val (ov', some err) ∧
        ((checkAndFixDuplicateReleaseNo deps override w).log.all
            (fun ev => !ev.failed) = true →
          err = duplicateVerificationError override.Id 5) ∧
        ((checkAndFixDuplicateReleaseNo deps override w).log.all
            (fun ev => !ev.failed) = false →
          ∃ pre ev, (checkAndFixDuplicateReleaseNo deps override w).log = pre ++ [ev] ∧
            pre.all (fun ev => !ev.failed) = true ∧ ev.callError = some err ∧
            ((∃ pid, ev = .GetCurrentPipelineReleaseCounter pid (.error err)) ∨
              (∃ u, ev = .Update u (some err))))) ∧
    (∀ (overrideRequest : ValuesOverrideRequest) (envOverrideId : Int) (triggeredAt : Time)
        (w0 w1 : σ) (c : Int) (ov' : PipelineOverride) (err : Error),
      deps.GetCurrentPipelineReleaseCounter overrideRequest.PipelineId w0 = (.ok c, w1) →
      deps.Save
        { EnvConfigOverrideId := envOverrideId,
          Status := .CHARTSTATUS_NEW,
          PipelineId := overrideRequest.PipelineId,
          CiArtifactId := overrideRequest.CiArtifactId,
          PipelineReleaseCounter := c + 1,
          CdWorkflowId := overrideRequest.CdWorkflowId,
          AuditLog := { CreatedBy := overrideRequest.UserId, CreatedOn := triggeredAt,
                        UpdatedOn := triggeredAt, UpdatedBy := overrideRequest.UserId },
          DeploymentType := overrideRequest.DeploymentType } w1 = (.ok override, w) →
      (checkAndFixDuplicateReleaseNo deps override w).result = .val (ov', some err) →
      (savePipelineOverride deps overrideRequest envOverrideId triggeredAt w0).result
        = .val (none, some err)) ∧
    (∀ pid rc first rest post,
      (Event.GetByPipelineIdAndReleaseNo pid rc (.ok (first :: rest)) :: post)
        <:+ (checkAndFixDuplicateReleaseNo deps override w).log →
      first.Id ≠ override.Id →
      ∃ cresp post1, post = .GetCurrentPipelineReleaseCounter pid cresp :: post1 ∧
        ∀ c, cresp = .ok c →
          ∃ ov' uresp post2, post1 = .Update ov' uresp :: post2 ∧
            ov'.Id = override.Id ∧ ov'.PipelineId = pid ∧
            ov'.PipelineReleaseCounter = c + 1 ∧
            (post2 = [] ∨
              ∃ resp post3,
                post2 = .GetByPipelineIdAndReleaseNo pid (c + 1) resp :: post3)) := by
  have h5 : (5 : Int) - ((5 : Nat) : Int) = 0 := by norm_num
  obtain ⟨hlog, -, hres⟩ := checkAndFixDuplicateReleaseNo_run deps override w
  have hbound := checkAndFixLoop_bound deps 5 override w
  have hver := checkAndFixLoop_verified_last deps 5 override w
  have hex := checkAndFixLoop_exhausted deps 5 override w
  have hrep := checkAndFixLoop_repairs deps 5 override w
  have hends := checkAndFixLoop_ends deps 5 override w
  rw [h5] at hbound hver hex hrep hends
  rw [hlog]
  have hbudget : ∀ n, 5 ≤ n → checkAndFixLoop deps n false 0 override w
      = checkAndFixLoop deps 5 false 0 override w := by
    intro n hn
    have h := checkAndFixLoop_budget deps 5 n override w hn
    rw [h5] at h
    exact h
  refine ⟨⟨?_, hbound.2, hbudget⟩, ?_, ?_, ?_, hrep.2⟩
  · rw [hres]
    intro h
    rcases hr : (checkAndFixLoop deps 5 false 0 override w).result with r | _ | _
    · rw [hr] at h
      rcases r with ⟨ov', err⟩ | ⟨uv, rc, ov'⟩
      · simp at h
      · cases uv <;> simp at h
    · rw [hr] at h; simp at h
    · exact hbound.1 hr
  · intro pid rc first rest post hsuf hid
    obtain ⟨hpost, rc', ov', hr⟩ := hver pid rc first rest post hsuf hid
    exact ⟨hpost, ov', by rw [hres, hr]; simp⟩
  · intro hcount hall
    have hall' : ∀ pid rc resp, Event.GetByPipelineIdAndReleaseNo pid rc resp
        ∈ (checkAndFixLoop deps 5 false 0 override w).log →
        ∃ first rest, resp = .ok (first :: rest) ∧ first.Id ≠ override.Id := by
      intro pid rc resp hmem
      have := List.all_eq_true.mp hall _ hmem
      rcases resp with err | rows
      · simp [Event.showsOtherFirst] at this
      · rcases rows with _ | ⟨first, rest⟩
        · simp [Event.showsOtherFirst] at this
        · exact ⟨first, rest, rfl, by simpa [Event.showsOtherFirst] using this⟩
    obtain ⟨ov', hid, hr | ⟨⟨ev, hev, hfail⟩, err, hr⟩⟩ := hex hcount hall'
    · refine ⟨ov', duplicateVerificationError ov'.Id 5, ?_, fun _ => by rw [hid], ?_⟩
      · rw [hres, hr]
        simp [duplicateVerificationError]
      · intro hbad
        rw [(hends.1 false 5 ov' hr).2.2] at hbad
        cases hbad
    · refine ⟨ov', err, by rw [hres, hr], fun hok => ?_, fun _ => ?_⟩
      · have := List.all_eq_true.mp hok ev hev
        simp [hfail] at this
      · obtain ⟨pre, last, hl, hpre, hce, hkind⟩ := hends.2 ov' err hr
        refine ⟨pre, last, hl, hpre, hce, ?_⟩
        rcases hkind with ⟨pid, rc, hlast⟩ | hkind
        · have hmem : last ∈ (checkAndFixLoop deps 5 false 0 override w).log := by
            rw [hl]; simp
          rw [hlast] at hmem
          obtain ⟨first, rest, hresp, -⟩ := hall' pid rc _ hmem
          cases hresp
        · exact hkind
  · intro overrideRequest envOverrideId triggeredAt w0 w1 c ov' err h0 h1 hr
    exact savePipelineOverride_check_error deps overrideRequest envOverrideId triggeredAt
      w0 w1 w c override ov' err h0 h1 hr

/-- Witness for C10: against a repository whose lookups always show another row first, the
check makes 5 lookups, no call fails, and the duplicate-verification error for override 1
with count 5 is returned. -/
theorem checkAndFixDuplicateReleaseNo_bounded_witness :
    ∃ ov' err, (checkAndFixDuplicateReleaseNo stubbornDeps sampleRow [sampleRow]).result
        = .val (ov', some err) ∧
      err = .errorString
        "duplicate verification retry count exide max overrideId: 1 ,count: 5" := by
  obtain ⟨ov', err, hr, hd, -⟩ :=
    (checkAndFixDuplicateReleaseNo_bounded stubbornDeps sampleRow [sampleRow]).2.2.1 rfl rfl
  exact ⟨ov', err, hr, hd rfl⟩

/-- Counterexample to C10 as stated: all 5 lookups show a different first row, the fifth
update fails, and the error returned is the update's, not the duplicate-verification
error. -/
theorem checkAndFixDuplicateReleaseNo_counterexample :
    lookupCount (checkAndFixDuplicateReleaseNo failingRepairDeps sampleRow [sampleRow]).log = 5 ∧
    (checkAndFixDuplicateReleaseNo failingRepairDeps sampleRow [sampleRow]).log.all
      (Event.showsOtherFirst sampleRow.Id) = true ∧
    (checkAndFixDuplicateReleaseNo failingRepairDeps sampleRow [sampleRow]).result
      = .val ({ sampleRow with PipelineReleaseCounter := 6 },
          some (.errorString "update failed")) ∧
    Error.errorString "update failed" ≠ duplicateVerificationError sampleRow.Id 5 :=
  ⟨rfl, rfl, rfl, by decide⟩

/-! ## Release override renderer -/

/-- The pieces of a split are some pieces followed by a last one without the separator;
putting the separator back after each of the former gives the text again; and a text that
holds the separator has at least two pieces. -/
theorem splitChars_spec (sep : Char) (cs : List Char) :
    ∃ init last, splitChars sep cs = init ++ [last] ∧ sep ∉ last ∧
      (init.map (fun p => p ++ [sep])).flatten ++ last = cs ∧ (sep ∈ cs → init ≠ []) := by
  induction cs with
  | nil => exact ⟨[], [], rfl, by simp, rfl, by simp⟩
  | cons c cs ih =>
    obtain ⟨init, last, hsplit, hlast, hjoin, hne⟩ := ih
    by_cases hc : c = sep
    · refine ⟨[] :: init, last, by simp [splitChars, hc, hsplit], hlast, ?_, by simp⟩
      simp [hjoin, hc]
    · rcases init with _ | ⟨p, ps⟩
      · refine ⟨[], c :: last, by simp [splitChars, hc, hsplit], ?_, ?_, ?_⟩
        · simp [hlast, Ne.symm hc]
        · simpa using hjoin
        · intro hmem
          have hcs : sep ∈ cs := by
            rcases List.mem_cons.mp hmem with h | h
            · exact absurd h.symm hc
            · exact h
          exact absurd rfl (hne hcs)
      · refine ⟨(c :: p) :: ps, last, by simp [splitChars, hc, hsplit], hlast, ?_, by simp⟩
        simpa using hjoin

/-- The element right after a prefix. -/
theorem getD_append_length {α : Type} (a : List α) (y : α) (b : List α) (d : α) :
    (a ++ y :: b).getD a.length d = y := by
  induction a with
  | nil => rfl
  | cons x xs ih => simpa using ih

/-- The loop over the pieces before the last-but-one appends each piece and a colon. -/
theorem joinImageName_prefix (N : Int) (pre : List (List Char)) :
    ∀ (rest : List (List Char)) (acc : String), (pre.length : Int) ≤ N - 2 →
      ((List.range pre.length).foldl
        (fun (imageName : String) (i : Nat) =>
          if (i : Int) ≠ N - 2 then
            imageName ++ ((pre ++ rest).map String.mk).getD i "" ++ ":"
          else
            imageName ++ ((pre ++ rest).map String.mk).getD i "")
        acc).data
        = acc.data ++ (pre.map (fun p => p ++ [':'])).flatten := by
  induction pre using List.reverseRecOn with
  | nil => intro rest acc _; simp
  | append_singleton pre y ih =>
    intro rest acc hN
    have hlen : (pre.length : Int) ≤ N - 2 := by
      simp only [List.length_append, List.length_singleton] at hN
      push_cast at hN
      omega
    have hne : (pre.length : Int) ≠ N - 2 := by
      simp only [List.length_append, List.length_singleton] at hN
      push_cast at hN
      omega
    have ih' := ih (y :: rest) acc hlen
    simp only [List.length_append, List.length_singleton, List.range_succ, List.foldl_append,
      List.foldl_cons, List.foldl_nil, List.append_assoc, List.singleton_append] at ih' ⊢
    simp only [hne, ne_eq, not_false_eq_true, if_true, String.data_append, ih']
    have hget : ((pre ++ y :: rest).map String.mk).getD pre.length "" = String.mk y := by
      have h := getD_append_length (pre.map String.mk) (String.mk y) (rest.map String.mk) ""
      rw [List.length_map] at h
      rw [List.map_append, List.map_cons]
      exact h
    rw [hget]
    simp

/-- The image name the loop builds: the pieces before the last, joined by colons. -/
theorem joinImageName_data (pre : List (List Char)) (x last : List Char) :
    (joinImageName ((pre ++ [x, last]).map String.mk)
      (((pre ++ [x, last]).map String.mk).length : Int)).data
      = (pre.map (fun p => p ++ [':'])).flatten ++ x := by
  have hlen : ((((pre ++ [x, last]).map String.mk).length : Int) - 1).toNat
      = pre.length + 1 := by
    simp only [List.length_map, List.length_append, List.length_cons, List.length_nil]
    push_cast
    omega
  have hN : (pre.length : Int)
      ≤ (((pre ++ [x, last]).map String.mk).length : Int) - 2 := by
    simp only [List.length_map, List.length_append, List.length_cons, List.length_nil]
    push_cast
    omega
  have hlast : ¬ ((pre.length : Int)
      ≠ (((pre ++ [x, last]).map String.mk).length : Int) - 2) := by
    simp only [List.length_map, List.length_append, List.length_cons, List.length_nil]
    push_cast
    omega
  have hpre := joinImageName_prefix
    (((pre ++ [x, last]).map String.mk).length : Int) pre [x, last] "" hN
  have hget : ((pre ++ [x, last]).map String.mk).getD pre.length "" = String.mk x := by
    have h := getD_append_length (pre.map String.mk) (String.mk x) ([last].map String.mk) ""
    rw [List.length_map] at h
    simpa using h
  unfold joinImageName
  rw [hlen, List.range_succ, List.foldl_append]
  simp only [List.foldl_cons, List.foldl_nil, hlast, if_false]
  rw [String.data_append, hget, hpre]
  simp

/-- Name and tag of an image that holds a colon: the split at the last colon, the tag
followed by `@digest` under a digest policy. -/
theorem releaseImageAndTag_split {σ : Type} (deps : Deps σ)
    (overrideRequest : ValuesOverrideRequest) (artifact : CiArtifact) (w w1 : σ)
    (cfg : DigestPolicyConfigurationResponse)
    (hcolon : ':' ∈ artifact.Image.data)
    (hpolicy : deps.GetDigestPolicyConfigurations overrideRequest.PipelineId w = (.ok cfg, w1)) :
    ∃ imageName tag : String,
      imageName ++ ":" ++ tag = artifact.Image ∧ ':' ∉ tag.data ∧
      releaseImageAndTag deps overrideRequest (some artifact) w
        = ⟨.val (.ok (imageName,
              if cfg.UseDigestForTrigger then tag ++ "@" ++ artifact.ImageDigest else tag)),
            w1, [Event.GetDigestPolicyConfigurations overrideRequest.PipelineId]⟩ := by
  obtain ⟨init, last, hsplit, hlast, hjoin, hne⟩ := splitChars_spec ':' artifact.Image.data
  rcases List.eq_nil_or_concat init with h | ⟨pre, x, rfl⟩
  · exact absurd h (hne hcolon)
  · have hparts : Split artifact.Image ':' = (pre ++ [x, last]).map String.mk := by
      simp [Split, hsplit]
    have hgetLast : ((pre ++ [x, last]).map String.mk).getD
        ((((pre ++ [x, last]).map String.mk).length : Int) - 1).toNat "" = String.mk last := by
      have h := getD_append_length ((pre ++ [x]).map String.mk) (String.mk last) [] ""
      have hidx : ((((pre ++ [x, last]).map String.mk).length : Int) - 1).toNat
          = ((pre ++ [x]).map String.mk).length := by
        simp only [List.length_map, List.length_append, List.length_cons, List.length_nil]
        push_cast
        omega
      rw [hidx]
      simpa using h
    refine ⟨joinImageName ((pre ++ [x, last]).map String.mk)
      (((pre ++ [x, last]).map String.mk).length : Int), String.mk last, ?_, hlast, ?_⟩
    · apply String.ext
      rw [String.data_append, String.data_append, joinImageName_data, ← hjoin]
      simp
    · simp only [releaseImageAndTag, M.bind_def, M.pure_def, M.bind, M.call, hpolicy, hparts,
        hgetLast, M.pure]
      simp

section Render
variable {σ : Type}

/-- After name and tag are found, `getReleaseOverride` is the rendering step on them. -/
theorem getReleaseOverride_of_imageAndTag (deps : Deps σ) (envOverride : EnvConfigOverride)
    (overrideRequest : ValuesOverrideRequest) (artifact : Option CiArtifact)
    (pipelineReleaseCounter : Int) (strategy : Option PipelineStrategy) (appMetrics : Bool)
    (w w1 : σ) (imageName tag : String) (log : List Event)
    (h : releaseImageAndTag deps overrideRequest artifact w
      = ⟨.val (.ok (imageName, tag)), w1, log⟩) :
    getReleaseOverride deps envOverride overrideRequest artifact pipelineReleaseCounter
        strategy appMetrics w
      = ⟨(renderReleaseOverride deps envOverride overrideRequest imageName tag
            (match strategy with
              | some s => s.Strategy
              | none => "")
            pipelineReleaseCounter appMetrics w1).result,
          (renderReleaseOverride deps envOverride overrideRequest imageName tag
            (match strategy with
              | some s => s.Strategy
              | none => "")
            pipelineReleaseCounter appMetrics w1).world,
          log ++ (renderReleaseOverride deps envOverride overrideRequest imageName tag
            (match strategy with
              | some s => s.Strategy
              | none => "")
            pipelineReleaseCounter appMetrics w1).log⟩ := by
  simp only [getReleaseOverride, M.bind_def, M.bind, h]

/-- The rendering step, the chart being present: a failed rendering is a 422 error, a
user override is patched with the rendered fragment, and without one the fragment is
returned. -/
theorem renderReleaseOverride_run (deps : Deps σ) (envOverride : EnvConfigOverride)
    (overrideRequest : ValuesOverrideRequest) (imageName tag deploymentStrategy : String)
    (pipelineReleaseCounter : Int) (appMetrics : Bool) (chart : Chart) (w : σ)
    (hChart : envOverride.Chart = some chart) :
    renderReleaseOverride deps envOverride overrideRequest imageName tag deploymentStrategy
        pipelineReleaseCounter appMetrics w
      = ⟨.val
          (match deps.RenderJson
              { imageName := imageName, tag := tag,
                pipelineName := overrideRequest.PipelineName,
                deploymentStrategy := deploymentStrategy, appId := overrideRequest.AppId,
                envId := overrideRequest.EnvId,
                pipelineReleaseCounter := pipelineReleaseCounter, appMetrics := appMetrics }
              chart.ImageDescriptorTemplate with
            | .error err =>
              (Text.empty, some (.api
                { HttpStatusCode := 422,
                  UserMessage := "unable to render ImageDescriptorTemplate",
                  InternalMessage := err.msg }))
            | .ok rendered =>
              match overrideRequest.AdditionalOverride with
              | some userOverride => asGoPair (deps.mergeUtil.JsonPatch userOverride rendered)
              | none => (rendered, none)),
          w, []⟩ := by
  unfold renderReleaseOverride
  rw [hChart]
  simp only []
  rcases deps.RenderJson _ chart.ImageDescriptorTemplate with err | rendered
  · rfl
  · rcases overrideRequest.AdditionalOverride with _ | userOverride
    · rfl
    · simp only []
      rcases deps.mergeUtil.JsonPatch userOverride rendered with err | data <;> rfl

end Render

/-- C6: `getReleaseOverride` splits the artifact image at its last colon. For every image
that holds a colon, with the digest-policy lookup answering `cfg`, there are a name and a tag
with `name ++ ":" ++ tag` the image and no colon in the tag, such that the function is the
rendering of the template with that name and with the tag, followed by `@` and the image
digest when `cfg.UseDigestForTrigger` is true and unchanged when it is false: whatever
`RenderJson` makes of these attributes is what comes back when no additional override is
given. -/
theorem getReleaseOverride_image_split {σ : Type} (deps : Deps σ)
    (envOverride : EnvConfigOverride) (overrideRequest : ValuesOverrideRequest)
    (artifact : CiArtifact) (pipelineReleaseCounter : Int) (strategy : Option PipelineStrategy)
    (appMetrics : Bool) (w w1 : σ) (cfg : DigestPolicyConfigurationResponse)
    (hcolon : ':' ∈ artifact.Image.data)
    (hpolicy : deps.GetDigestPolicyConfigurations overrideRequest.PipelineId w = (.ok cfg, w1)) :
    ∃ imageName tag : String,
      imageName ++ ":" ++ tag = artifact.Image ∧ ':' ∉ tag.data ∧
      (getReleaseOverride deps envOverride overrideRequest (some artifact)
          pipelineReleaseCounter strategy appMetrics w).result
        = (renderReleaseOverride deps envOverride overrideRequest imageName
            (if cfg.UseDigestForTrigger then tag ++ "@" ++ artifact.ImageDigest else tag)
            (match strategy with
              | some s => s.Strategy
              | none => "")
            pipelineReleaseCounter appMetrics w1).result ∧
      ∀ (chart : Chart) (rendered : Text), envOverride.Chart = some chart →
        overrideRequest.AdditionalOverride = none →
        deps.RenderJson
          { imageName := imageName,
            tag := if cfg.UseDigestForTrigger then tag ++ "@" ++ artifact.ImageDigest else tag,
            pipelineName := overrideRequest.PipelineName,
            deploymentStrategy :=
              (match strategy with
                | some s => s.Strategy
                | none => ""),
            appId := overrideRequest.AppId, envId := overrideRequest.EnvId,
            pipelineReleaseCounter := pipelineReleaseCounter, appMetrics := appMetrics }
          chart.ImageDescriptorTemplate = .ok rendered →
        (getReleaseOverride deps envOverride overrideRequest (some artifact)
          pipelineReleaseCounter strategy appMetrics w).result = .val (rendered, none) := by
  obtain ⟨imageName, tag, hjoin, htag, hrun⟩ :=
    releaseImageAndTag_split deps overrideRequest artifact w w1 cfg hcolon hpolicy
  have hget := getReleaseOverride_of_imageAndTag deps envOverride overrideRequest
    (some artifact) pipelineReleaseCounter strategy appMetrics w w1 imageName _ _ hrun
  refine ⟨imageName, tag, hjoin, htag, by rw [hget], ?_⟩
  intro chart rendered hChart hnone hrender
  rw [hget, renderReleaseOverride_run deps envOverride overrideRequest imageName _ _
    pipelineReleaseCounter appMetrics chart w1 hChart]
  simp only [hrender, hnone]

/-- Witness for C6: the image `registry/repo:abc123` holds a colon and the in-memory digest
policy answers, so the split exists for the sample trigger. -/
theorem getReleaseOverride_image_split_witness :
    ∃ imageName tag : String,
      imageName ++ ":" ++ tag = "registry/repo:abc123" ∧ ':' ∉ tag.data ∧
      (getReleaseOverride memoryDeps sampleEnvOverride sampleRequest (some sampleArtifact) 1
          (some sampleStrategy) true []).result
        = (renderReleaseOverride memoryDeps sampleEnvOverride sampleRequest imageName tag
            "ROLLING" 1 true []).result := by
  obtain ⟨imageName, tag, h1, h2, h3, -⟩ :=
    getReleaseOverride_image_split memoryDeps sampleEnvOverride sampleRequest sampleArtifact 1
      (some sampleStrategy) true [] [] { UseDigestForTrigger := false } (by decide) rfl
  exact ⟨imageName, tag, h1, h2, h3⟩

/-- The spec's example without a digest policy: image `registry/repo:abc123` renders name
`registry/repo` and tag `abc123`. -/
theorem getReleaseOverride_example_tag :
    (getReleaseOverride memoryDeps sampleEnvOverride sampleRequest (some sampleArtifact) 1
        (some sampleStrategy) true []).result
      = .val (.json (.obj [("image", .str "registry/repo"), ("tag", .str "abc123"),
          ("pipelineName", .str "cd-demo"), ("releaseVersion", .num 1)]), none) := rfl

/-- The spec's example with digest pinning: digest `sha256:deadbeef` gives the tag
`abc123@sha256:deadbeef`. -/
theorem getReleaseOverride_example_digest :
    (getReleaseOverride digestDeps sampleEnvOverride sampleRequest (some sampleArtifact) 1
        (some sampleStrategy) true []).result
      = .val (.json (.obj [("image", .str "registry/repo"),
          ("tag", .str "abc123@sha256:deadbeef"),
          ("pipelineName", .str "cd-demo"), ("releaseVersion", .num 1)]), none) := rfl

/-- C7: with name and tag found, the chart present and the template rendered to `rendered`,
`getReleaseOverride` returns `JsonPatch(userOverride, rendered)` when `AdditionalOverride`
is present (the user override is the base, the rendered fragment the patch) and `rendered`
unchanged when it is nil. `JsonPatch` being the RFC 7396 merge of two JSON objects: every
value that the rendered fragment holds under a path of member names, at the top or nested
(a string, a number, a boolean or an array, such as the image or the tag), is what the
returned JSON holds under that path, whatever the user override holds there; every
top-level key the rendered fragment does not name holds what the user override holds
there; and a key the rendered fragment sets to null is absent from the result. -/
theorem getReleaseOverride_additional_override {σ : Type} (deps : Deps σ)
    (envOverride : EnvConfigOverride) (overrideRequest : ValuesOverrideRequest)
    (artifact : Option CiArtifact) (pipelineReleaseCounter : Int)
    (strategy : Option PipelineStrategy) (appMetrics : Bool) (w w1 : σ)
    (imageName tag : String) (log : List Event) (chart : Chart) (rendered : Text)
    (hrun : releaseImageAndTag deps overrideRequest artifact w
      = ⟨.val (.ok (imageName, tag)), w1, log⟩)
    (hChart : envOverride.Chart = some chart)
    (hrender : deps.RenderJson
      { imageName := imageName, tag := tag, pipelineName := overrideRequest.PipelineName,
        deploymentStrategy :=
          (match strategy with
            | some s => s.Strategy
            | none => ""),
        appId := overrideRequest.AppId, envId := overrideRequest.EnvId,
        pipelineReleaseCounter := pipelineReleaseCounter, appMetrics := appMetrics }
      chart.ImageDescriptorTemplate = .ok rendered) :
    (∀ userOverride, overrideRequest.AdditionalOverride = some userOverride →
      (getReleaseOverride deps envOverride overrideRequest artifact pipelineReleaseCounter
        strategy appMetrics w).result
        = .val (asGoPair (deps.mergeUtil.JsonPatch userOverride rendered))) ∧
    (overrideRequest.AdditionalOverride = none →
      (getReleaseOverride deps envOverride overrideRequest artifact pipelineReleaseCounter
        strategy appMetrics w).result = .val (rendered, none)) ∧
    (∀ fu fr, deps.mergeUtil = rfc7396 →
      overrideRequest.AdditionalOverride = some (.json (.obj fu)) →
      rendered = .json (.obj fr) →
      ∃ out, (getReleaseOverride deps envOverride overrideRequest artifact
          pipelineReleaseCounter strategy appMetrics w).result = .val (.json out, none) ∧
        (∀ path v, (Json.obj fr).getPath path = some v → v ≠ .null → (∀ fs, v ≠ .obj fs) →
          out.getPath path = some v) ∧
        (∀ k, Json.lookup k fr = none → out.get k = Json.lookup k fu) ∧
        (∀ k, Json.lookup k fr = some .null → out.get k = none)) := by
  have hget := getReleaseOverride_of_imageAndTag deps envOverride overrideRequest artifact
    pipelineReleaseCounter strategy appMetrics w w1 imageName tag log hrun
  rw [hget, renderReleaseOverride_run deps envOverride overrideRequest imageName tag _
    pipelineReleaseCounter appMetrics chart w1 hChart]
  clear hget
  have hrendered : deps.RenderJson
      { imageName := imageName, tag := tag, pipelineName := overrideRequest.PipelineName,
        deploymentStrategy := (strategy.map (fun s => s.Strategy)).getD "",
        appId := overrideRequest.AppId, envId := overrideRequest.EnvId,
        pipelineReleaseCounter := pipelineReleaseCounter, appMetrics := appMetrics }
      chart.ImageDescriptorTemplate = .ok rendered := by
    rcases strategy with _ | s <;> exact hrender
  clear hrender
  rcases strategy with _ | s <;>
  · simp only [Option.map, Option.getD] at hrendered
    simp only [hrendered]
    refine ⟨?_, ?_, ?_⟩
    · intro userOverride hu
      simp only [hu]
    · intro hn
      simp only [hn]
    · intro fu fr hmu hu hr
      refine ⟨Json.mergePatch (.obj fu) (.obj fr), ?_, ?_⟩
      · simp only [hu, hmu, hr, rfc7396_json, asGoPair]
      · refine ⟨fun path v hv hnull hobj => ?_, fun k hnone => ?_, fun k hk => ?_⟩
        · exact Json.getPath_mergePatch_value path (.obj fr) v hv hnull hobj (.obj fu)
        · simp [Json.get, Json.mergePatch, Json.fields,
            Json.lookup_mergeFields_absent k fr fu hnone]
        · simp [Json.get, Json.mergePatch, Json.fields,
            Json.lookup_mergeFields_null k fr fu hk]

/-- Witness for C7: the template nests image and tag under `server`, where the user override
sets `replicas`. The returned JSON holds the rendered image and tag under `server`, keeps the
user's `note`, and is the document in which the user's `replicas` stands next to them. -/
theorem getReleaseOverride_additional_override_witness :
    ∃ out, (getReleaseOverride nestedTemplateDeps sampleEnvOverride sampleRequestWithOverride
        (some sampleArtifact) 1 none true []).result = .val (.json out, none) ∧
      out.getPath ["server", "image"] = some (.str "registry/repo") ∧
      out.getPath ["server", "image_tag"] = some (.str "abc123") ∧
      out.getPath ["pipelineName"] = some (.str "cd-demo") ∧
      out.get "note" = some (.str "canary") ∧
      out = .obj [("note", .str "canary"),
          ("server", .obj [("replicas", .num 3), ("image", .str "registry/repo"),
            ("image_tag", .str "abc123")]),
          ("pipelineName", .str "cd-demo")] := by
  obtain ⟨out, hres, hpath, hkeep, -⟩ :=
    (getReleaseOverride_additional_override nestedTemplateDeps sampleEnvOverride
      sampleRequestWithOverride (some sampleArtifact) 1 none true [] [] "registry/repo" "abc123"
      [Event.GetDigestPolicyConfigurations 10] sampleChart
      (.json (.obj [("server", .obj [("image", .str "registry/repo"),
          ("image_tag", .str "abc123")]),
        ("pipelineName", .str "cd-demo")]))
      rfl rfl rfl).2.2
      [("server", .obj [("replicas", .num 3)]), ("note", .str "canary")]
      [("server", .obj [("image", .str "registry/repo"), ("image_tag", .str "abc123")]),
        ("pipelineName", .str "cd-demo")]
      rfl rfl rfl
  have hval : (getReleaseOverride nestedTemplateDeps sampleEnvOverride sampleRequestWithOverride
      (some sampleArtifact) 1 none true []).result
      = .val (.json (.obj [("note", .str "canary"),
          ("server", .obj [("replicas", .num 3), ("image", .str "registry/repo"),
            ("image_tag", .str "abc123")]),
          ("pipelineName", .str "cd-demo")]), none) := rfl
  refine ⟨out, hres,
    hpath ["server", "image"] _ rfl (by intro h; cases h) (by intro fs h; cases h),
    hpath ["server", "image_tag"] _ rfl (by intro h; cases h) (by intro fs h; cases h),
    hpath ["pipelineName"] _ rfl (by intro h; cases h) (by intro fs h; cases h),
    hkeep "note" rfl, ?_⟩
  rw [hval] at hres
  cases hres
  rfl

/-! ## Orchestrator -/

section Orchestrator
variable {σ : Type}

/-- The repair loop only makes allocator calls. -/
theorem checkAndFixLoop_allocator (deps : Deps σ) :
    ∀ (k : Nat) ov w,
      (checkAndFixLoop deps k false (5 - (k : Int)) ov w).log.all Event.isAllocator = true := by
  refine checkAndFixLoop_attempts deps (fun _ _ _ o => o.log.all Event.isAllocator = true)
    ?_ ?_ ?_ ?_ ?_ ?_ ?_
  · intro ov w; rfl
  · intro k ov w w1 err _; rfl
  · intro k ov w w1 _; rfl
  · intro k ov w w1 first rest _ _; rfl
  · intro k ov w w1 w2 first rest err _ _ _; rfl
  · intro k ov w w1 w2 w3 first rest c err _ _ _ _; rfl
  · intro k ov w w1 w2 w3 first rest c o _ _ _ _ ih
    simpa [List.all_cons, Event.isAllocator] using ih

/-- `savePipelineOverride` only makes allocator calls. -/
theorem savePipelineOverride_allocator (deps : Deps σ)
    (overrideRequest : ValuesOverrideRequest) (envOverrideId : Int) (triggeredAt : Time)
    (w : σ) :
    (savePipelineOverride deps overrideRequest envOverrideId triggeredAt w).log.all
      Event.isAllocator = true := by
  have h5 : (5 : Int) - ((5 : Nat) : Int) = 0 := by norm_num
  unfold savePipelineOverride
  rcases h0 : deps.GetCurrentPipelineReleaseCounter overrideRequest.PipelineId w
    with ⟨resp, w0⟩
  rcases resp with err | c
  · simp only [M.bind_def, M.pure_def, M.bind, M.call, h0, M.pure]
    rfl
  · simp only [M.bind_def, M.pure_def, M.bind, M.call, h0]
    rcases h1 : deps.Save _ w0 with ⟨sresp, w1⟩
    rcases sresp with err | po
    · simp only [M.pure]
      rfl
    · have hlog := (checkAndFixDuplicateReleaseNo_run deps po w1).1
      have hall := checkAndFixLoop_allocator deps 5 po w1
      rw [h5] at hall
      rcases hres : (checkAndFixDuplicateReleaseNo deps po w1).result with r | _ | _
      · rcases r with ⟨ov', _ | err⟩ <;>
          simp [M.bind, hres, M.pure, hlog, hall, Event.isAllocator]
      · simp [M.bind, hres, hlog, hall, Event.isAllocator]
      · simp [M.bind, hres, hlog, hall, Event.isAllocator]

/-- An allocator call is neither the merge step nor the write of merged values. -/
theorem Event.isAllocator_not_merge (ev : Event) (h : ev.isAllocator = true) :
    ev.isMerge = false ∧ ev.isUpdateMergedValues = false := by
  cases ev <;> simp [Event.isAllocator, Event.isMerge, Event.isUpdateMergedValues] at h ⊢

/-- A trigger without a pre-existing override whose steps succeed up to the release
override: when `getReleaseOverride` returns an error, the orchestrator returns it and stops. -/
theorem GetValuesOverrideForTrigger_release_error_new (deps : Deps σ)
    (overrideRequest req : ValuesOverrideRequest) (triggeredAt : Time)
    (w w1 w2 w3 w4 w5 w6 w7 : σ) (pipeline : Pipeline) (artifact : CiArtifact)
    (strategy : Option PipelineStrategy) (envOverride : EnvConfigOverride)
    (po : PipelineOverride) (appMetrics : Bool) (releaseJson : Text) (err : Error)
    (log5 log7 : List Event)
    (hreq : deps.ResolveDeploymentTypeAndUpdate overrideRequest = req)
    (hnew : ¬ req.PipelineOverrideId > 0)
    (h1 : deps.FindPipelineById req.PipelineId w = (.ok pipeline, w1))
    (h2 : deps.GetCiArtifact req.CiArtifactId w1 = (.ok artifact, w2))
    (h3 : deps.getDeploymentStrategyByTriggerType { req with Image := artifact.Image } w2
      = (some (strategy, none), w3))
    (h4 : deps.getEnvOverrideByTriggerType { req with Image := artifact.Image } triggeredAt w3
      = (some (some envOverride, none), w4))
    (h5 : savePipelineOverride deps { req with Image := artifact.Image } envOverride.Id
        triggeredAt w4 = ⟨.val (some po, none), w5, log5⟩)
    (h6 : deps.getAppMetricsByTriggerType
        { req with Image := artifact.Image, PipelineOverrideId := po.Id } w5
      = (some (appMetrics, none), w6))
    (h7 : getReleaseOverride deps envOverride
        { req with Image := artifact.Image, PipelineOverrideId := po.Id } (some artifact)
        po.PipelineReleaseCounter strategy appMetrics w6
      = ⟨.val (releaseJson, some err), w7, log7⟩) :
    GetValuesOverrideForTrigger deps overrideRequest triggeredAt w
      = ⟨.val (some
            { Pipeline := some pipeline, Artifact := some artifact,
              PipelineStrategy := strategy, EnvOverride := some envOverride,
              PipelineOverride :=
                some { po with Pipeline := some pipeline, CiArtifact := some artifact },
              ReleaseOverrideJSON := releaseJson },
            some err),
          w7,
          [Event.FindPipelineById req.PipelineId, Event.GetCiArtifact req.CiArtifactId,
            Event.getDeploymentStrategyByTriggerType, Event.getEnvOverrideByTriggerType]
            ++ log5 ++ [Event.getAppMetricsByTriggerType] ++ log7⟩ := by
  have hdec : decide (req.PipelineOverrideId > 0) = false := by simpa using hnew
  simp [GetValuesOverrideForTrigger, resolveEnvOverride, M.bind_def, M.pure_def, M.bind,
    M.call, M.step, M.pure, hreq, hdec, h1, h2, h3, h4, h5, h6, h7]

/-- A trigger that brings its override id and whose steps succeed up to the release
override: when `getReleaseOverride` returns an error, the orchestrator returns it and stops. -/
theorem GetValuesOverrideForTrigger_release_error_replay (deps : Deps σ)
    (overrideRequest req : ValuesOverrideRequest) (triggeredAt : Time)
    (w w1 w2 w3 w4 w5 w6 w7 w8 : σ) (pipeline : Pipeline) (artifact : CiArtifact)
    (strategy : Option PipelineStrategy) (envOverride : EnvConfigOverride)
    (environment : Environment) (po : PipelineOverride) (appMetrics : Bool)
    (releaseJson : Text) (err : Error) (log7 : List Event)
    (hreq : deps.ResolveDeploymentTypeAndUpdate overrideRequest = req)
    (hold : req.PipelineOverrideId > 0)
    (h1 : deps.FindPipelineById req.PipelineId w = (.ok pipeline, w1))
    (h2 : deps.GetCiArtifact req.CiArtifactId w1 = (.ok artifact, w2))
    (h3 : deps.getDeploymentStrategyByTriggerType { req with Image := artifact.Image } w2
      = (some (strategy, none), w3))
    (h4 : deps.FindPipelineOverrideById req.PipelineOverrideId w3 = (.ok po, w4))
    (h5 : deps.GetByIdIncludingInactive po.EnvConfigOverrideId w4 = (.ok envOverride, w5))
    (h6 : deps.FindEnvironmentById envOverride.TargetEnvironment w5 = (.ok environment, w6))
    (h7 : deps.getAppMetricsByTriggerType { req with Image := artifact.Image } w6
      = (some (appMetrics, none), w7))
    (h8 : getReleaseOverride deps { envOverride with Environment := some environment }
        { req with Image := artifact.Image } (some artifact)
        po.PipelineReleaseCounter strategy appMetrics w7
      = ⟨.val (releaseJson, some err), w8, log7⟩) :
    GetValuesOverrideForTrigger deps overrideRequest triggeredAt w
      = ⟨.val (some
            { Pipeline := some pipeline, Artifact := some artifact,
              PipelineStrategy := strategy,
              EnvOverride := some { envOverride with Environment := some environment },
              PipelineOverride := some po,
              ReleaseOverrideJSON := releaseJson },
            some err),
          w8,
          [Event.FindPipelineById req.PipelineId, Event.GetCiArtifact req.CiArtifactId,
            Event.getDeploymentStrategyByTriggerType,
            Event.FindPipelineOverrideById req.PipelineOverrideId,
            Event.GetByIdIncludingInactive po.EnvConfigOverrideId,
            Event.FindEnvironmentById envOverride.TargetEnvironment,
            Event.getAppMetricsByTriggerType] ++ log7⟩ := by
  have hdec : decide (req.PipelineOverrideId > 0) = true := by simpa using hold
  simp [GetValuesOverrideForTrigger, resolveEnvOverride, setEnvironmentModelInEnvOverride,
    M.bind_def, M.pure_def, M.bind, M.call, M.step, M.pure, hreq, hdec, h1, h2, h3, h4, h5,
    h6, h7, h8]

/-- Finding name and tag neither merges nor writes merged values. -/
theorem releaseImageAndTag_log (deps : Deps σ) (overrideRequest : ValuesOverrideRequest)
    (artifact : Option CiArtifact) (w : σ) :
    (releaseImageAndTag deps overrideRequest artifact w).log.all
      (fun ev => !ev.isMerge && !ev.isUpdateMergedValues) = true := by
  rcases artifact with _ | artifact
  · rfl
  · simp only [releaseImageAndTag, M.bind_def, M.pure_def, M.bind, M.call]
    rcases deps.GetDigestPolicyConfigurations overrideRequest.PipelineId w with ⟨resp, w1⟩
    rcases resp with err | cfg <;> rfl

/-- A failed rendering: `getReleaseOverride` returns an empty string and a 422 error. -/
theorem getReleaseOverride_render_error (deps : Deps σ) (envOverride : EnvConfigOverride)
    (overrideRequest : ValuesOverrideRequest) (artifact : Option CiArtifact)
    (pipelineReleaseCounter : Int) (strategy : Option PipelineStrategy) (appMetrics : Bool)
    (w w1 : σ) (imageName tag : String) (log : List Event) (chart : Chart) (rerr : Error)
    (hrun : releaseImageAndTag deps overrideRequest artifact w
      = ⟨.val (.ok (imageName, tag)), w1, log⟩)
    (hChart : envOverride.Chart = some chart)
    (hrender : deps.RenderJson
      { imageName := imageName, tag := tag, pipelineName := overrideRequest.PipelineName,
        deploymentStrategy :=
          (match strategy with
            | some s => s.Strategy
            | none => ""),
        appId := overrideRequest.AppId, envId := overrideRequest.EnvId,
        pipelineReleaseCounter := pipelineReleaseCounter, appMetrics := appMetrics }
      chart.ImageDescriptorTemplate = .error rerr) :
    getReleaseOverride deps envOverride overrideRequest artifact pipelineReleaseCounter
        strategy appMetrics w
      = ⟨.val (Text.empty, some (.api
            { HttpStatusCode := 422,
              UserMessage := "unable to render ImageDescriptorTemplate",
              InternalMessage := rerr.msg })),
          w1, log⟩ := by
  rw [getReleaseOverride_of_imageAndTag deps envOverride overrideRequest artifact
    pipelineReleaseCounter strategy appMetrics w w1 imageName tag log hrun,
    renderReleaseOverride_run deps envOverride overrideRequest imageName tag _
      pipelineReleaseCounter appMetrics chart w1 hChart]
  simp [hrender]

end Orchestrator

/-- C8: when rendering the image-descriptor template fails, (1) `getReleaseOverride` returns
an empty string and an ApiError whose HttpStatusCode is 422, and `GetValuesOverrideForTrigger`
returns that error, with empty merged values, and its run has neither a merge step nor a
call of `UpdatePipelineMergedValues`: (2) for a trigger without a pre-existing override whose
earlier steps succeeded, and (3) for a trigger that brings its override id. -/
theorem GetValuesOverrideForTrigger_render_error {σ : Type} (deps : Deps σ) :
    (∀ (envOverride : EnvConfigOverride) (overrideRequest : ValuesOverrideRequest)
        (artifact : Option CiArtifact) (pipelineReleaseCounter : Int)
        (strategy : Option PipelineStrategy) (appMetrics : Bool) (w w1 : σ)
        (imageName tag : String) (log : List Event) (chart : Chart) (rerr : Error),
      releaseImageAndTag deps overrideRequest artifact w
        = ⟨.val (.ok (imageName, tag)), w1, log⟩ →
      envOverride.Chart = some chart →
      deps.RenderJson
        { imageName := imageName, tag := tag, pipelineName := overrideRequest.PipelineName,
          deploymentStrategy :=
            (match strategy with
              | some s => s.Strategy
              | none => ""),
          appId := overrideRequest.AppId, envId := overrideRequest.EnvId,
          pipelineReleaseCounter := pipelineReleaseCounter, appMetrics := appMetrics }
        chart.ImageDescriptorTemplate = .error rerr →
      (getReleaseOverride deps envOverride overrideRequest artifact pipelineReleaseCounter
          strategy appMetrics w).result
        = .val (Text.empty, some (.api
            { HttpStatusCode := 422,
              UserMessage := "unable to render ImageDescriptorTemplate",
              InternalMessage := rerr.msg }))) ∧
    (∀ (overrideRequest req : ValuesOverrideRequest) (triggeredAt : Time)
        (w w1 w2 w3 w4 w5 w6 w7 : σ) (pipeline : Pipeline) (artifact : CiArtifact)
        (strategy : Option PipelineStrategy) (envOverride : EnvConfigOverride)
        (po : PipelineOverride) (appMetrics : Bool) (log5 log7 : List Event)
        (imageName tag : String) (chart : Chart) (rerr : Error),
      deps.ResolveDeploymentTypeAndUpdate overrideRequest = req →
      ¬ req.PipelineOverrideId > 0 →
      deps.FindPipelineById req.PipelineId w = (.ok pipeline, w1) →
      deps.GetCiArtifact req.CiArtifactId w1 = (.ok artifact, w2) →
      deps.getDeploymentStrategyByTriggerType { req with Image := artifact.Image } w2
        = (some (strategy, none), w3) →
      deps.getEnvOverrideByTriggerType { req with Image := artifact.Image } triggeredAt w3
        = (some (some envOverride, none), w4) →
      savePipelineOverride deps { req with Image := artifact.Image } envOverride.Id
        triggeredAt w4 = ⟨.val (some po, none), w5, log5⟩ →
      deps.getAppMetricsByTriggerType
        { req with Image := artifact.Image, PipelineOverrideId := po.Id } w5
        = (some (appMetrics, none), w6) →
      releaseImageAndTag deps { req with Image := artifact.Image, PipelineOverrideId := po.Id }
        (some artifact) w6 = ⟨.val (.ok (imageName, tag)), w7, log7⟩ →
      envOverride.Chart = some chart →
      deps.RenderJson
        { imageName := imageName, tag := tag, pipelineName := req.PipelineName,
          deploymentStrategy :=
            (match strategy with
              | some s => s.Strategy
              | none => ""),
          appId := req.AppId, envId := req.EnvId,
          pipelineReleaseCounter := po.PipelineReleaseCounter, appMetrics := appMetrics }
        chart.ImageDescriptorTemplate = .error rerr →
      (GetValuesOverrideForTrigger deps overrideRequest triggeredAt w).result
        = .val (some
            { MergedValues := Text.empty, ReleaseOverrideJSON := Text.empty,
              Pipeline := some pipeline, Artifact := some artifact,
              PipelineStrategy := strategy, EnvOverride := some envOverride,
              PipelineOverride :=
                some { po with Pipeline := some pipeline, CiArtifact := some artifact } },
            some (.api
              { HttpStatusCode := 422,
                UserMessage := "unable to render ImageDescriptorTemplate",
                InternalMessage := rerr.msg })) ∧
      (GetValuesOverrideForTrigger deps overrideRequest triggeredAt w).log.all
        (fun ev => !ev.isMerge && !ev.isUpdateMergedValues) = true) ∧
    (∀ (overrideRequest req : ValuesOverrideRequest) (triggeredAt : Time)
        (w w1 w2 w3 w4 w5 w6 w7 w8 : σ) (pipeline : Pipeline) (artifact : CiArtifact)
        (strategy : Option PipelineStrategy) (envOverride : EnvConfigOverride)
        (environment : Environment) (po : PipelineOverride) (appMetrics : Bool)
        (log7 : List Event) (imageName tag : String) (chart : Chart) (rerr : Error),
      deps.ResolveDeploymentTypeAndUpdate overrideRequest = req →
      req.PipelineOverrideId > 0 →
      deps.FindPipelineById req.PipelineId w = (.ok pipeline, w1) →
      deps.GetCiArtifact req.CiArtifactId w1 = (.ok artifact, w2) →
      deps.getDeploymentStrategyByTriggerType { req with Image := artifact.Image } w2
        = (some (strategy, none), w3) →
      deps.FindPipelineOverrideById req.PipelineOverrideId w3 = (.ok po, w4) →
      deps.GetByIdIncludingInactive po.EnvConfigOverrideId w4 = (.ok envOverride, w5) →
      deps.FindEnvironmentById envOverride.TargetEnvironment w5 = (.ok environment, w6) →
      deps.getAppMetricsByTriggerType { req with Image := artifact.Image } w6
        = (some (appMetrics, none), w7) →
      releaseImageAndTag deps { req with Image := artifact.Image } (some artifact) w7
        = ⟨.val (.ok (imageName, tag)), w8, log7⟩ →
      envOverride.Chart = some chart →
      deps.RenderJson
        { imageName := imageName, tag := tag, pipelineName := req.PipelineName,
          deploymentStrategy :=
            (match strategy with
              | some s => s.Strategy
              | none => ""),
          appId := req.AppId, envId := req.EnvId,
          pipelineReleaseCounter := po.PipelineReleaseCounter, appMetrics := appMetrics }
        chart.ImageDescriptorTemplate = .error rerr →
      (GetValuesOverrideForTrigger deps overrideRequest triggeredAt w).result
        = .val (some
            { MergedValues := Text.empty, ReleaseOverrideJSON := Text.empty,
              Pipeline := some pipeline, Artifact := some artifact,
              PipelineStrategy := strategy,
              EnvOverride := some { envOverride with Environment := some environment },
              PipelineOverride := some po },
            some (.api
              { HttpStatusCode := 422,
                UserMessage := "unable to render ImageDescriptorTemplate",
                InternalMessage := rerr.msg })) ∧
      (GetValuesOverrideForTrigger deps overrideRequest triggeredAt w).log.all
        (fun ev => !ev.isMerge && !ev.isUpdateMergedValues) = true) := by
  refine ⟨?_, ?_, ?_⟩
  · intro envOverride overrideRequest artifact counter strategy appMetrics w w1 imageName tag
      log chart rerr hrun hChart hrender
    rw [getReleaseOverride_render_error deps envOverride overrideRequest artifact counter
      strategy appMetrics w w1 imageName tag log chart rerr hrun hChart hrender]
  · intro overrideRequest req triggeredAt w w1 w2 w3 w4 w5 w6 w7 pipeline artifact strategy
      envOverride po appMetrics log5 log7 imageName tag chart rerr hreq hnew h1 h2 h3 h4 h5 h6
      hrun hChart hrender
    have h7 := getReleaseOverride_render_error deps envOverride
      { req with Image := artifact.Image, PipelineOverrideId := po.Id } (some artifact)
      po.PipelineReleaseCounter strategy appMetrics w6 w7 imageName tag log7 chart rerr hrun
      hChart hrender
    have hrunAll := GetValuesOverrideForTrigger_release_error_new deps overrideRequest req
      triggeredAt w w1 w2 w3 w4 w5 w6 w7 pipeline artifact strategy envOverride po appMetrics
      _ _ log5 log7 hreq hnew h1 h2 h3 h4 h5 h6 h7
    have hlog5 := savePipelineOverride_allocator deps { req with Image := artifact.Image }
      envOverride.Id triggeredAt w4
    rw [h5] at hlog5
    have hlog7 := releaseImageAndTag_log deps
      { req with Image := artifact.Image, PipelineOverrideId := po.Id } (some artifact) w6
    rw [hrun] at hlog7
    rw [hrunAll]
    refine ⟨rfl, ?_⟩
    have hlog5' : log5.all (fun ev => !ev.isMerge && !ev.isUpdateMergedValues) = true :=
      List.all_eq_true.mpr (fun ev hev => by
        have h := Event.isAllocator_not_merge ev (List.all_eq_true.mp hlog5 ev hev)
        rw [h.1, h.2]
        rfl)
    rw [List.all_append, List.all_append, List.all_append, hlog7, hlog5']
    rfl
  · intro overrideRequest req triggeredAt w w1 w2 w3 w4 w5 w6 w7 w8 pipeline artifact strategy
      envOverride environment po appMetrics log7 imageName tag chart rerr hreq hold h1 h2 h3
      h4 h5 h6 h7 hrun hChart hrender
    have h8 := getReleaseOverride_render_error deps
      { envOverride with Environment := some environment }
      { req with Image := artifact.Image } (some artifact)
      po.PipelineReleaseCounter strategy appMetrics w7 w8 imageName tag log7 chart rerr hrun
      hChart hrender
    have hrunAll := GetValuesOverrideForTrigger_release_error_replay deps overrideRequest req
      triggeredAt w w1 w2 w3 w4 w5 w6 w7 w8 pipeline artifact strategy envOverride environment
      po appMetrics _ _ log7 hreq hold h1 h2 h3 h4 h5 h6 h7 h8
    have hlog7 := releaseImageAndTag_log deps { req with Image := artifact.Image }
      (some artifact) w7
    rw [hrun] at hlog7
    rw [hrunAll]
    refine ⟨rfl, ?_⟩
    rw [List.all_append, hlog7, Bool.and_true]
    rfl

/-- Witness for C8: with a template that does not render, the sample trigger returns the 422
error after allocating release 1, and nothing is merged or written back. -/
theorem GetValuesOverrideForTrigger_render_error_witness :
    (∃ resp, (GetValuesOverrideForTrigger brokenTemplateDeps sampleRequest 100 []).result
      = .val (some resp, some (.api
          { HttpStatusCode := 422,
            UserMessage := "unable to render ImageDescriptorTemplate",
            InternalMessage := "template: unexpected end of input" }))
      ∧ resp.MergedValues = Text.empty) ∧
    (GetValuesOverrideForTrigger brokenTemplateDeps sampleRequest 100 []).log.all
      (fun ev => !ev.isMerge && !ev.isUpdateMergedValues) = true := by
  obtain ⟨hres, hlog⟩ :=
    (GetValuesOverrideForTrigger_render_error brokenTemplateDeps).2.1 sampleRequest
      sampleRequest 100 [] [] [] [] [] _ _ _
      { Id := 10, DeploymentAppName := "demo-app", CiPipelineId := 3 } sampleArtifact
      (some sampleStrategy) sampleEnvOverride _ true _ _ "registry/repo" "abc123" sampleChart
      (.errorString "template: unexpected end of input")
      rfl (by decide) rfl rfl rfl rfl rfl rfl rfl rfl rfl
  exact ⟨⟨_, hres, rfl⟩, hlog⟩

/-- C4 (code bug): a failing patch step does not abort the trigger. With chart values that
are not JSON the first patch of `mergeOverrideValues` fails and it returns the merge error
with no bytes; `GetValuesOverrideForTrigger` never reads that error. For a virtual
environment it goes on to the image-pull-secret step, calls `UpdatePipelineMergedValues` with
empty merged values and returns a nil error; for a cluster environment it runs the live
checks on the empty document and returns the error of the autoscaling check, not the merge
error. -/
theorem GetValuesOverrideForTrigger_merge_error_dropped :
    (∀ release cm lbl strategy,
      mergeOverrideValues rfc7396 malformedVirtualEnvOverride release cm lbl strategy
        = some (Text.empty, some (.errorString "Invalid JSON Patch"))) ∧
    (∃ resp, (GetValuesOverrideForTrigger malformedVirtualDeps sampleRequest 100 []).result
        = .val (some resp, none) ∧ resp.MergedValues = Text.empty) ∧
    (GetValuesOverrideForTrigger malformedVirtualDeps sampleRequest 100 []).log.any
      Event.isUpdateMergedValues = true ∧
    (∃ resp, (GetValuesOverrideForTrigger malformedClusterDeps sampleRequest 100 []).result
        = .val (some resp, some (.errorString "unexpected end of JSON input"))) :=
  ⟨fun _ _ _ _ => rfl, ⟨_, rfl, rfl⟩, rfl, ⟨_, rfl⟩⟩

/-- C5 (code bug): a failing app-label fetch is returned as the trigger's error. With the
label fetch failing and every other step succeeding, `GetValuesOverrideForTrigger` merges
without the label layer and persists the merged values, and then returns the label error
instead of nil. -/
theorem GetValuesOverrideForTrigger_label_error_returned :
    (∃ resp merged,
      (GetValuesOverrideForTrigger labelErrorDeps sampleRequest 100 []).result
        = .val (some resp, some (.errorString "app labels unavailable")) ∧
      resp.MergedValues = .json merged ∧ merged.get "appLabels" = none ∧
      merged.get "tag" = some (.str "abc123")) ∧
    (GetValuesOverrideForTrigger labelErrorDeps sampleRequest 100 []).log.any
      Event.isUpdateMergedValues = true ∧
    (∃ resp, (GetValuesOverrideForTrigger memoryDeps sampleRequest 100 []).result
      = .val (some resp, none)) :=
  ⟨⟨_, _, rfl, rfl, rfl, rfl⟩, rfl, ⟨_, rfl⟩⟩

/-! ## Lemmas on the service methods, the trigger log and concurrent calls -/

section
variable {σ α β : Type}

/-- The log of two steps in a row. -/
theorem M.bind_log (m : M σ α) (f : α → M σ β) (w : σ) :
    (M.bind m f w).log
      = (m w).log ++ (match (m w).result with
          | .val a => (f a (m w).world).log
          | _ => []) := by
  unfold M.bind
  rcases m w with ⟨r, w1, l⟩
  rcases r with a | _ | _ <;> simp

/-- The rendering step calls no collaborator with state. -/
theorem renderReleaseOverride_log (deps : Deps σ) (envOverride : EnvConfigOverride)
    (overrideRequest : ValuesOverrideRequest) (imageName tag deploymentStrategy : String)
    (pipelineReleaseCounter : Int) (appMetrics : Bool) (w : σ) :
    (renderReleaseOverride deps envOverride overrideRequest imageName tag deploymentStrategy
        pipelineReleaseCounter appMetrics w).log = [] := by
  unfold renderReleaseOverride
  rcases envOverride.Chart with _ | chart
  · rfl
  · simp only []
    rcases deps.RenderJson _ _ with e | ov
    · rfl
    · rcases overrideRequest.AdditionalOverride with _ | u
      · rfl
      · simp only []
        rcases deps.mergeUtil.JsonPatch u ov with e | d <;> rfl

/-- Finding name and tag makes no call but the digest-policy lookup. -/
theorem releaseImageAndTag_calls (deps : Deps σ) (overrideRequest : ValuesOverrideRequest)
    (artifact : Option CiArtifact) (w : σ) :
    (releaseImageAndTag deps overrideRequest artifact w).log = [] ∨
    (releaseImageAndTag deps overrideRequest artifact w).log
      = [Event.GetDigestPolicyConfigurations overrideRequest.PipelineId] := by
  rcases artifact with _ | artifact
  · left; rfl
  · right
    simp only [releaseImageAndTag, M.bind_def, M.pure_def, M.bind, M.call]
    rcases deps.GetDigestPolicyConfigurations overrideRequest.PipelineId w with ⟨resp, w1⟩
    rcases resp with err | cfg <;> rfl

/-- The release override renderer makes no call but the digest-policy lookup. -/
theorem getReleaseOverride_calls (deps : Deps σ) (envOverride : EnvConfigOverride)
    (overrideRequest : ValuesOverrideRequest) (artifact : Option CiArtifact)
    (pipelineReleaseCounter : Int) (strategy : Option PipelineStrategy) (appMetrics : Bool)
    (w : σ) :
    (getReleaseOverride deps envOverride overrideRequest artifact pipelineReleaseCounter
        strategy appMetrics w).log = [] ∨
    (getReleaseOverride deps envOverride overrideRequest artifact pipelineReleaseCounter
        strategy appMetrics w).log
      = [Event.GetDigestPolicyConfigurations overrideRequest.PipelineId] := by
  have hlog : (getReleaseOverride deps envOverride overrideRequest artifact
      pipelineReleaseCounter strategy appMetrics w).log
      = (releaseImageAndTag deps overrideRequest artifact w).log := by
    simp only [getReleaseOverride, M.bind_def, M.bind_log]
    rcases releaseImageAndTag deps overrideRequest artifact w with ⟨r, w1, l⟩
    rcases r with r | _ | _
    · rcases r with e | ⟨imageName, tag⟩
      · cases envOverride.Environment <;> simp [M.pure_def, M.pure, M.panic]
      · simp [renderReleaseOverride_log]
    · simp
    · simp
  rw [hlog]
  exact releaseImageAndTag_calls deps overrideRequest artifact w

/-- The replay path, step by step: a trigger that brings its override id makes no write to
the pipeline-override table, and when it returns a nil error its merged values are those of
the row that `FindById` answered. -/
theorem GetValuesOverrideForTrigger_replay_run (deps : Deps σ)
    (overrideRequest req : ValuesOverrideRequest) (triggeredAt : Time) (w : σ)
    (hreq : deps.ResolveDeploymentTypeAndUpdate overrideRequest = req)
    (hold : req.PipelineOverrideId > 0) :
    (GetValuesOverrideForTrigger deps overrideRequest triggeredAt w).log.all
      (fun ev => !ev.isOverrideWrite && !ev.isAllocator) = true ∧
    ∀ resp, (GetValuesOverrideForTrigger deps overrideRequest triggeredAt w).result
        = .val (some resp, none) →
      ∃ pipeline artifact strategy po w1 w2 w3 w4,
        deps.FindPipelineById req.PipelineId w = (.ok pipeline, w1) ∧
        deps.GetCiArtifact req.CiArtifactId w1 = (.ok artifact, w2) ∧
        deps.getDeploymentStrategyByTriggerType { req with Image := artifact.Image } w2
          = (some (strategy, none), w3) ∧
        deps.FindPipelineOverrideById req.PipelineOverrideId w3 = (.ok po, w4) ∧
        resp.MergedValues = po.PipelineMergedValues ∧
        resp.PipelineOverride = some po := by
  have hdec : decide (req.PipelineOverrideId > 0) = true := by simpa using hold
  simp only [GetValuesOverrideForTrigger, resolveEnvOverride, setEnvironmentModelInEnvOverride,
    M.bind_def, M.pure_def, hreq, hdec]
  rcases h1 : deps.FindPipelineById req.PipelineId w with ⟨r1, w1⟩
  rcases r1 with e | pipeline
  · simp [M.bind, M.call, M.pure, h1, Event.isOverrideWrite, Event.isAllocator]
  rcases h2 : deps.GetCiArtifact req.CiArtifactId w1 with ⟨r2, w2⟩
  rcases r2 with e | artifact
  · simp [M.bind, M.call, M.pure, h1, h2, Event.isOverrideWrite, Event.isAllocator]
  rcases h3 : deps.getDeploymentStrategyByTriggerType { req with Image := artifact.Image } w2
    with ⟨r3, w3⟩
  rcases r3 with _ | ⟨strategy, e3⟩
  · simp [M.bind, M.call, M.step, M.pure, h1, h2, h3, Event.isOverrideWrite, Event.isAllocator]
  rcases e3 with _ | e3
  swap
  · simp [M.bind, M.call, M.step, M.pure, h1, h2, h3, Event.isOverrideWrite, Event.isAllocator]
  rcases h4 : deps.FindPipelineOverrideById req.PipelineOverrideId w3 with ⟨r4, w4⟩
  rcases r4 with e | po
  · simp [M.bind, M.call, M.step, M.pure, h1, h2, h3, h4, Event.isOverrideWrite,
      Event.isAllocator]
  rcases h5 : deps.GetByIdIncludingInactive po.EnvConfigOverrideId w4 with ⟨r5, w5⟩
  rcases r5 with e | envOverride
  · simp [M.bind, M.call, M.step, M.pure, h1, h2, h3, h4, h5, Event.isOverrideWrite,
      Event.isAllocator]
  rcases h6 : deps.FindEnvironmentById envOverride.TargetEnvironment w5 with ⟨r6, w6⟩
  rcases r6 with e | environment
  · simp [M.bind, M.call, M.step, M.pure, h1, h2, h3, h4, h5, h6, Event.isOverrideWrite,
      Event.isAllocator]
  rcases h7 : deps.getAppMetricsByTriggerType { req with Image := artifact.Image } w6
    with ⟨r7, w7⟩
  rcases r7 with _ | ⟨appMetrics, e7⟩
  · simp [M.bind, M.call, M.step, M.pure, h1, h2, h3, h4, h5, h6, h7, Event.isOverrideWrite,
      Event.isAllocator]
  rcases e7 with _ | e7
  swap
  · simp [M.bind, M.call, M.step, M.pure, h1, h2, h3, h4, h5, h6, h7, Event.isOverrideWrite,
      Event.isAllocator]
  have hcalls := getReleaseOverride_calls deps { envOverride with Environment := some environment }
    { req with Image := artifact.Image } (some artifact) po.PipelineReleaseCounter strategy
    appMetrics w7
  rcases h8 : getReleaseOverride deps { envOverride with Environment := some environment }
    { req with Image := artifact.Image } (some artifact) po.PipelineReleaseCounter strategy
    appMetrics w7 with ⟨r8, w8, l8⟩
  rw [h8] at hcalls
  have hl8 : l8.all (fun ev => !ev.isOverrideWrite && !ev.isAllocator) = true := by
    rcases hcalls with h | h <;> simp at h <;> subst h <;> rfl
  have hl8' : ∀ x ∈ l8, x.isOverrideWrite = false ∧ x.isAllocator = false := by
    intro x hx
    simpa using List.all_eq_true.mp hl8 x hx
  rcases r8 with ⟨releaseJson, e8⟩ | _ | _
  · rcases e8 with _ | e8
    · refine ⟨?_, ?_⟩
      · simpa [M.bind, M.call, M.step, M.pure, h1, h2, h3, h4, h5, h6, h7, h8,
          Event.isOverrideWrite, Event.isAllocator] using hl8'
      · intro resp hresp
        simp [M.bind, M.call, M.step, M.pure, h1, h2, h3, h4, h5, h6, h7, h8] at hresp
        subst hresp
        exact ⟨pipeline, artifact, strategy, po, w1, w2, w3, w4, rfl, h2, h3, h4, rfl, rfl⟩
    · simpa [M.bind, M.call, M.step, M.pure, h1, h2, h3, h4, h5, h6, h7, h8,
        Event.isOverrideWrite, Event.isAllocator] using hl8'
  · simpa [M.bind, M.call, M.step, M.pure, h1, h2, h3, h4, h5, h6, h7, h8,
      Event.isOverrideWrite, Event.isAllocator] using hl8'
  · simpa [M.bind, M.call, M.step, M.pure, h1, h2, h3, h4, h5, h6, h7, h8,
      Event.isOverrideWrite, Event.isAllocator] using hl8'
end

section
variable {σ : Type}

section Steps
variable (deps : Deps σ)
  (a : ValuesOverrideRequest → EnvConfigOverride → String → σ →
      Option (MergedCmAndCsJsonV2Response × Option Error) × σ)
  (b : Int → String → Text → List String → List String → σ →
      Option (Text × Option Error) × σ)
  (c : String → String → Text → ValuesOverrideRequest → σ →
      Option (Text × Option Error) × σ)

theorem checkAndFixLoop_withSteps (fuel : Nat) :
    ∀ uv rc ov, checkAndFixLoop (withSteps deps a b c) fuel uv rc ov
      = checkAndFixLoop deps fuel uv rc ov := by
  induction fuel with
  | zero => intro uv rc ov; rfl
  | succ n ih =>
    intro uv rc ov
    funext w
    simp only [checkAndFixLoop, ih]
    rfl

theorem savePipelineOverride_withSteps (overrideRequest : ValuesOverrideRequest)
    (envOverrideId : Int) (triggeredAt : Time) :
    savePipelineOverride (withSteps deps a b c) overrideRequest envOverrideId triggeredAt
      = savePipelineOverride deps overrideRequest envOverrideId triggeredAt := by
  simp only [savePipelineOverride, checkAndFixDuplicateReleaseNo, checkAndFixLoop_withSteps]
  rfl

theorem getReleaseOverride_withSteps (envOverride : EnvConfigOverride)
    (overrideRequest : ValuesOverrideRequest) (artifact : Option CiArtifact)
    (pipelineReleaseCounter : Int) (strategy : Option PipelineStrategy) (appMetrics : Bool) :
    getReleaseOverride (withSteps deps a b c) envOverride overrideRequest artifact
        pipelineReleaseCounter strategy appMetrics
      = getReleaseOverride deps envOverride overrideRequest artifact
        pipelineReleaseCounter strategy appMetrics := rfl

theorem resolveEnvOverride_withSteps (overrideRequest : ValuesOverrideRequest)
    (triggeredAt : Time) (created : Bool) (resp : ValuesOverrideResponse) :
    resolveEnvOverride (withSteps deps a b c) overrideRequest triggeredAt created resp
      = resolveEnvOverride deps overrideRequest triggeredAt created resp := rfl

theorem M.bind_congr {α β : Type} (m : M σ α) (f g : α → M σ β) (w : σ)
    (h : ∀ a, (m w).result = .val a → f a (m w).world = g a (m w).world) :
    M.bind m f w = M.bind m g w := by
  unfold M.bind
  rcases hm : m w with ⟨r, w1, l⟩
  rcases r with x | _ | _
  · have := h x (by rw [hm])
    rw [hm] at this
    simp only [this]
  · rfl
  · rfl

/-- Where the environment override of a trigger without override id comes from. -/
theorem resolveEnvOverride_new (overrideRequest : ValuesOverrideRequest) (triggeredAt : Time)
    (resp : ValuesOverrideResponse) (w : σ) (po : Option PipelineOverride)
    (envOverride : EnvConfigOverride)
    (h : (resolveEnvOverride deps overrideRequest triggeredAt false resp w).result
      = .val (.ok (po, some envOverride))) :
    ∃ w', deps.getEnvOverrideByTriggerType overrideRequest triggeredAt w
      = (some (some envOverride, none), w') := by
  rcases hstep : deps.getEnvOverrideByTriggerType overrideRequest triggeredAt w with ⟨r, w'⟩
  simp only [resolveEnvOverride, M.bind_def, M.pure_def, M.bind, M.step, hstep,
    Bool.false_eq_true, if_false] at h
  rcases r with _ | ⟨e, err⟩
  · simp at h
  · rcases err with _ | err
    · simp [M.pure] at h
      exact ⟨w', by rw [h.2]⟩
    · simp [M.pure] at h

/-- Changing the three methods changes a trigger only through the block that runs when the
override was created by the trigger, and only for an environment override that
`getEnvOverrideByTriggerType` can answer. -/
theorem GetValuesOverrideForTrigger_withSteps (Q : EnvConfigOverride → Prop)
    (hQ : ∀ req t w e w', deps.getEnvOverrideByTriggerType req t w
      = (some (some e, none), w') → Q e)
    (hblock : ∀ overrideRequest envOverride pipeline artifact pipelineOverride strategy
        releaseOverrideJson valuesOverrideResponse w, Q envOverride →
      valuesForNewOverride (withSteps deps a b c) overrideRequest envOverride pipeline
          artifact pipelineOverride strategy releaseOverrideJson valuesOverrideResponse w
        = valuesForNewOverride deps overrideRequest envOverride pipeline artifact
          pipelineOverride strategy releaseOverrideJson valuesOverrideResponse w)
    (overrideRequest : ValuesOverrideRequest) (triggeredAt : Time) (w : σ) :
    GetValuesOverrideForTrigger (withSteps deps a b c) overrideRequest triggeredAt w
      = GetValuesOverrideForTrigger deps overrideRequest triggeredAt w := by
  unfold GetValuesOverrideForTrigger
  simp only [savePipelineOverride_withSteps, getReleaseOverride_withSteps,
    resolveEnvOverride_withSteps, M.bind_def, M.pure_def]
  have hR : (withSteps deps a b c).ResolveDeploymentTypeAndUpdate
      = deps.ResolveDeploymentTypeAndUpdate := rfl
  have hP : (withSteps deps a b c).FindPipelineById = deps.FindPipelineById := rfl
  have hA : (withSteps deps a b c).GetCiArtifact = deps.GetCiArtifact := rfl
  have hS : (withSteps deps a b c).getDeploymentStrategyByTriggerType
      = deps.getDeploymentStrategyByTriggerType := rfl
  have hM : (withSteps deps a b c).getAppMetricsByTriggerType
      = deps.getAppMetricsByTriggerType := rfl
  simp only [hR, hP, hA, hS, hM]
  generalize deps.ResolveDeploymentTypeAndUpdate overrideRequest = req
  refine M.bind_congr _ _ _ w (fun r1 _ => ?_)
  rcases r1 with e | pipeline
  · rfl
  simp only []
  refine M.bind_congr _ _ _ _ (fun r2 _ => ?_)
  rcases r2 with e | artifact
  · rfl
  simp only []
  refine M.bind_congr _ _ _ _ (fun r3 _ => ?_)
  rcases r3 with ⟨strategy, _ | e⟩
  swap
  · rfl
  simp only []
  by_cases hc : req.PipelineOverrideId > 0
  · have hdec : decide (req.PipelineOverrideId > 0) = true := by simpa using hc
    simp only [hdec]
    rfl
  · have hdec : decide (req.PipelineOverrideId > 0) = false := by simpa using hc
    simp only [hdec]
    refine M.bind_congr _ _ _ _ (fun r4 h4 => ?_)
    rcases r4 with early | ⟨po, _ | envOverride⟩
    · rfl
    · rfl
    obtain ⟨w', hw'⟩ := resolveEnvOverride_new deps _ _ _ _ _ _ h4
    have hq : Q envOverride := hQ _ _ _ _ _ hw'
    simp only []
    refine M.bind_congr _ _ _ _ (fun r5 _ => ?_)
    rcases r5 with early | ⟨req5, _ | po5⟩
    · rfl
    · rfl
    simp only []
    refine M.bind_congr _ _ _ _ (fun r6 _ => ?_)
    rcases r6 with ⟨appMetrics, _ | e⟩
    swap
    · rfl
    simp only []
    refine M.bind_congr _ _ _ _ (fun r7 _ => ?_)
    rcases r7 with ⟨releaseJson, _ | e⟩
    swap
    · rfl
    simp only [Bool.not_false, if_true]
    exact hblock _ _ _ _ _ _ _ _ _ hq

end Steps

/-- An error of `getConfigMapAndSecretJsonV2` changes nothing in the block that follows
but the merged JSON, which is dropped. -/
theorem valuesForNewOverride_withoutConfigSecretError (deps : Deps σ)
    (overrideRequest : ValuesOverrideRequest)
    (envOverride : EnvConfigOverride) (pipeline : Pipeline) (artifact : CiArtifact)
    (pipelineOverride : PipelineOverride) (strategy : Option PipelineStrategy)
    (releaseOverrideJson : Text) (valuesOverrideResponse : ValuesOverrideResponse) (w : σ) :
    valuesForNewOverride (withoutConfigSecretError deps) overrideRequest envOverride pipeline
        artifact pipelineOverride strategy releaseOverrideJson valuesOverrideResponse w
      = valuesForNewOverride deps overrideRequest envOverride pipeline artifact
        pipelineOverride strategy releaseOverrideJson valuesOverrideResponse w := by
  unfold valuesForNewOverride
  rcases envOverride.Chart with _ | chart
  · rfl
  · simp only [M.bind_def, M.bind, M.step, withoutConfigSecretError, withSteps]
    rcases h : deps.getConfigMapAndSecretJsonV2 overrideRequest envOverride chart.ChartVersion w
      with ⟨r, w1⟩
    rcases r with _ | ⟨response, _ | e⟩
    · rfl
    · rfl
    · rfl

/-- An error of `getConfigMapAndSecretJsonV2` is never the error of a trigger: the trigger
runs as if the method had answered the same response, without merged JSON, and no error. -/
theorem GetValuesOverrideForTrigger_withoutConfigSecretError (deps : Deps σ)
    (overrideRequest : ValuesOverrideRequest) (triggeredAt : Time) (w : σ) :
    GetValuesOverrideForTrigger (withoutConfigSecretError deps) overrideRequest triggeredAt w
      = GetValuesOverrideForTrigger deps overrideRequest triggeredAt w :=
  GetValuesOverrideForTrigger_withSteps deps _ _ _ (fun _ => True) (fun _ _ _ _ _ _ => trivial)
    (fun overrideRequest envOverride pipeline artifact pipelineOverride strategy
        releaseOverrideJson valuesOverrideResponse w _ =>
      valuesForNewOverride_withoutConfigSecretError deps overrideRequest envOverride pipeline
        artifact pipelineOverride strategy releaseOverrideJson valuesOverrideResponse w)
    overrideRequest triggeredAt w

/-- An error of `updatedExternalCmCsHashForTrigger` changes nothing in the block. -/
theorem valuesForNewOverride_withoutHashError (deps : Deps σ)
    (overrideRequest : ValuesOverrideRequest)
    (envOverride : EnvConfigOverride) (pipeline : Pipeline) (artifact : CiArtifact)
    (pipelineOverride : PipelineOverride) (strategy : Option PipelineStrategy)
    (releaseOverrideJson : Text) (valuesOverrideResponse : ValuesOverrideResponse) (w : σ) :
    valuesForNewOverride (withoutHashError deps) overrideRequest envOverride pipeline
        artifact pipelineOverride strategy releaseOverrideJson valuesOverrideResponse w
      = valuesForNewOverride deps overrideRequest envOverride pipeline artifact
        pipelineOverride strategy releaseOverrideJson valuesOverrideResponse w := by
  unfold valuesForNewOverride
  rcases envOverride.Chart with _ | chart
  · rfl
  simp only [M.bind_def]
  have hC : (withoutHashError deps).getConfigMapAndSecretJsonV2
      = deps.getConfigMapAndSecretJsonV2 := rfl
  have hL : (withoutHashError deps).GetAppLabelsForDeployment
      = deps.GetAppLabelsForDeployment := rfl
  have hU : (withoutHashError deps).mergeUtil = deps.mergeUtil := rfl
  simp only [hC, hL, hU]
  refine M.bind_congr _ _ _ w (fun r1 _ => ?_)
  refine M.bind_congr _ _ _ _ (fun r2 _ => ?_)
  refine M.bind_congr _ _ _ _ (fun r3 _ => ?_)
  rcases mergeOverrideValues deps.mergeUtil envOverride releaseOverrideJson _ _ strategy
    with _ | ⟨mergedValues, merr⟩
  · rfl
  simp only []
  rcases envOverride.Environment with _ | environment
  · rfl
  simp only []
  by_cases hv : environment.IsVirtualEnvironment = true
  · simp only [hv]
    rfl
  · have hv' : environment.IsVirtualEnvironment = false := by simpa using hv
    simp only [hv', Bool.not_false, if_true]
    generalize hw : (M.emit Event.mergeOverrideValues _).world = w3
    simp only [M.bind, M.step, withoutHashError, withSteps]
    rcases h : deps.updatedExternalCmCsHashForTrigger overrideRequest.ClusterId
      envOverride.Namespace mergedValues _ _ w3 with ⟨r, w4⟩
    rcases r with _ | ⟨merged', _ | e⟩
    · rfl
    · rfl
    · rfl

end

section
variable {σ : Type}

theorem GetValuesOverrideForTrigger_withoutHashError (deps : Deps σ)
    (overrideRequest : ValuesOverrideRequest) (triggeredAt : Time) (w : σ) :
    GetValuesOverrideForTrigger (withoutHashError deps) overrideRequest triggeredAt w
      = GetValuesOverrideForTrigger deps overrideRequest triggeredAt w :=
  GetValuesOverrideForTrigger_withSteps deps _ _ _ (fun _ => True) (fun _ _ _ _ _ _ => trivial)
    (fun overrideRequest envOverride pipeline artifact pipelineOverride strategy
        releaseOverrideJson valuesOverrideResponse w _ =>
      valuesForNewOverride_withoutHashError deps overrideRequest envOverride pipeline
        artifact pipelineOverride strategy releaseOverrideJson valuesOverrideResponse w)
    overrideRequest triggeredAt w

/-- The log of two steps in a row satisfies what the logs of both satisfy. -/
theorem M.bind_log_all {α β : Type} (p : Event → Bool) (m : M σ α) (f : α → M σ β) (w : σ)
    (hm : (m w).log.all p = true)
    (hf : ∀ a, (m w).result = .val a → (f a (m w).world).log.all p = true) :
    (M.bind m f w).log.all p = true := by
  rw [M.bind_log, List.all_append, hm, Bool.true_and]
  rcases hr : (m w).result with a | _ | _
  · exact hf a hr
  · rfl
  · rfl

end

section
variable {σ : Type}

end

section
variable {σ : Type}

/-- What the merge-and-resolve phase returns when one of its calls fails. -/
theorem mergeAndResolve_errors (mergeUtil : MergeUtil) (c : ConfigSecretDeps σ)
    (request : GetMergedCmAndCsJsonV2Request) (f : FetchedConfig)
    (resp : MergedCmAndCsJsonV2Response) (w : σ) :
    (∀ e, Event.ResolveCMCSTrigger (some e) ∈ (mergeAndResolve mergeUtil c request f resp w).log →
      (mergeAndResolve mergeUtil c request f resp w).result = .val (resp, some e)) ∧
    (∀ ev ∈ (mergeAndResolve mergeUtil c request f resp w).log, ∀ e,
      ev.fetchOrMergeFailure c.ErrNoRows = some e →
      (mergeAndResolve mergeUtil c request f resp w).result = .val (resp, some e) ∧
      (mergeAndResolve mergeUtil c request f resp w).log.all (fun ev => !ev.isResolve) = true) := by
  unfold mergeAndResolve
  simp only [M.bind_def, M.pure_def]
  rcases h1 : c.ConfigMapMerge f.configMapJsonApp f.configMapJsonEnv with e1 | configMapJson
  · simp [M.bind, M.call, M.pure, h1, errorOf, Event.fetchOrMergeFailure, Event.isResolve]
  rcases h2 : c.ConfigSecretMergeForCDStages f.secretDataJsonApp f.secretDataJsonEnv
    request.ChartVersion with e2 | secretDataJson
  · simp [M.bind, M.call, M.pure, h1, h2, errorOf, Event.fetchOrMergeFailure, Event.isResolve]
  rcases h3 : (if configMapJson.nonEmpty then Unmarshal c.decodeConfigMapJson configMapJson
      else (.ok {} : Except Error ConfigMapJson)) with e3 | configResponse
  · simp [M.bind, M.call, M.pure, h1, h2, h3, errorOf, Event.fetchOrMergeFailure,
      Event.isResolve]
  rcases h4 : (if configMapJson.nonEmpty then Unmarshal c.decodeConfigSecretJson secretDataJson
      else (.ok {} : Except Error ConfigSecretJson)) with e4 | secretResponse
  · simp [M.bind, M.call, M.pure, h1, h2, h3, h4, errorOf, Event.fetchOrMergeFailure,
      Event.isResolve]
  rcases hA : f.configMapA with _ | configMapA
  · simp [M.bind, M.call, M.pure, M.panic, h1, h2, h3, h4, hA, errorOf,
      Event.fetchOrMergeFailure, Event.isResolve]
  rcases hE : f.configMapE with _ | configMapE
  · simp [M.bind, M.call, M.pure, M.panic, h1, h2, h3, h4, hA, hE, errorOf,
      Event.fetchOrMergeFailure, Event.isResolve]
  rcases hH : f.configMapHistory with _ | configMapHistory
  · simp [M.bind, M.call, M.pure, M.panic, h1, h2, h3, h4, hA, hE, hH, errorOf,
      Event.fetchOrMergeFailure, Event.isResolve]
  rcases hS : f.secretHistory with _ | secretHistory
  · simp [M.bind, M.call, M.pure, M.panic, h1, h2, h3, h4, hA, hE, hH, hS, errorOf,
      Event.fetchOrMergeFailure, Event.isResolve]
  rcases h5 : c.ResolveCMCSTrigger request.DeploymentWithConfig request.Scope configMapA.Id
    configMapE.Id { ConfigMapJson := configResponse } { ConfigSecretJson := secretResponse }
    configMapHistory.Id secretHistory.Id w with ⟨r5, w5⟩
  rcases r5 with e5 | ⟨resolvedCM, resolvedCS⟩
  · simp [M.bind, M.call, M.pure, M.panic, h1, h2, h3, h4, hA, hE, hH, hS, h5, errorOf,
      Event.fetchOrMergeFailure, Event.isResolve]
  rcases h6 : mergeUtil.JsonPatch resolvedCM resolvedCS with e6 | mergedJson
  · simp [M.bind, M.call, M.pure, M.panic, h1, h2, h3, h4, hA, hE, hH, hS, h5, h6, errorOf,
      Event.fetchOrMergeFailure, Event.isResolve]
  rcases h7 : getExternalCmCsFromRootJson c.KubernetesSecret
    { ConfigMapJson := configResponse } { ConfigSecretJson := secretResponse }
    with _ | ⟨first, second⟩
  · simp [M.bind, M.call, M.pure, M.panic, h1, h2, h3, h4, hA, hE, hH, hS, h5, h6, h7,
      errorOf, Event.fetchOrMergeFailure, Event.isResolve]
  · simp [M.bind, M.call, M.pure, M.panic, h1, h2, h3, h4, hA, hE, hH, hS, h5, h6, h7,
      errorOf, Event.fetchOrMergeFailure, Event.isResolve]

/-- The fetch phase: it does not call the resolver, and a failed fetch is what it returns. -/
theorem fetchConfigData_errors (c : ConfigSecretDeps σ)
    (request : GetMergedCmAndCsJsonV2Request) (w : σ) :
    (fetchConfigData c request w).log.all (fun ev => !ev.isResolve) = true ∧
    (∀ ev ∈ (fetchConfigData c request w).log, ∀ e,
      ev.fetchOrMergeFailure c.ErrNoRows = some e →
      (fetchConfigData c request w).result = .val (.error e)) := by
  unfold fetchConfigData
  rcases request.DeploymentWithConfig with _ | _ | name
  · simp only [M.bind_def, M.pure_def]
    rcases h1 : c.GetByAppIdAppLevel request.AppId w with ⟨⟨configMapA, err1⟩, w1⟩
    rcases hn1 : otherThanNoRows c.ErrNoRows err1 with _ | e1
    swap
    · simp [M.bind, M.call, M.pure, h1, hn1, Event.fetchOrMergeFailure, Event.isResolve]
    rcases h2 : c.GetByAppIdAndEnvIdEnvLevel request.AppId request.EnvId w1
      with ⟨⟨configMapE, err2⟩, w2⟩
    rcases hn2 : otherThanNoRows c.ErrNoRows err2 with _ | e2
    · simp [M.bind, M.call, M.pure, h1, hn1, h2, hn2, Event.fetchOrMergeFailure,
        Event.isResolve]
    · simp [M.bind, M.call, M.pure, h1, hn1, h2, hn2, Event.fetchOrMergeFailure,
        Event.isResolve]
  · simp only [M.bind_def, M.pure_def]
    rcases h1 : c.GetHistoryByPipelineIdAndWfrId request.PipeLineId
      request.WfrIdForDeploymentWithSpecificTrigger false w with ⟨⟨configMapHistory, err1⟩, w1⟩
    rcases err1 with _ | e1
    swap
    · simp [M.bind, M.call, M.pure, h1, Event.fetchOrMergeFailure, Event.isResolve]
    rcases configMapHistory with _ | ch
    · simp [M.bind, M.call, M.pure, M.panic, h1, Event.fetchOrMergeFailure, Event.isResolve]
    rcases h2 : c.GetHistoryByPipelineIdAndWfrId request.PipeLineId
      request.WfrIdForDeploymentWithSpecificTrigger true w1 with ⟨⟨secretHistory, err2⟩, w2⟩
    rcases err2 with _ | e2
    swap
    · simp [M.bind, M.call, M.pure, h1, h2, Event.fetchOrMergeFailure, Event.isResolve]
    rcases secretHistory with _ | sh
    · simp [M.bind, M.call, M.pure, M.panic, h1, h2, Event.fetchOrMergeFailure,
        Event.isResolve]
    · simp [M.bind, M.call, M.pure, M.panic, h1, h2, Event.fetchOrMergeFailure,
        Event.isResolve]
  · simp [M.pure_def, M.pure]

/-- What `getConfigMapAndSecretJsonV2` returns when one of its calls fails: the error of a
failed `ResolveCMCSTrigger`, and the error of a failed fetch or merge, after which the
resolver is not called. -/
theorem getConfigMapAndSecretJsonV2_errors (mergeUtil : MergeUtil) (c : ConfigSecretDeps σ)
    (request : GetMergedCmAndCsJsonV2Request) (w : σ) :
    (∀ e, Event.ResolveCMCSTrigger (some e)
        ∈ (getConfigMapAndSecretJsonV2 mergeUtil c request w).log →
      (getConfigMapAndSecretJsonV2 mergeUtil c request w).result
        = .val (c.NewMergedCmAndCsJsonV2Response, some e)) ∧
    (∀ ev ∈ (getConfigMapAndSecretJsonV2 mergeUtil c request w).log, ∀ e,
      ev.fetchOrMergeFailure c.ErrNoRows = some e →
      (getConfigMapAndSecretJsonV2 mergeUtil c request w).result
        = .val (c.NewMergedCmAndCsJsonV2Response, some e) ∧
      (getConfigMapAndSecretJsonV2 mergeUtil c request w).log.all
        (fun ev => !ev.isResolve) = true) := by
  obtain ⟨hf1, hf2⟩ := fetchConfigData_errors c request w
  unfold getConfigMapAndSecretJsonV2
  simp only [M.bind_def, M.pure_def]
  rcases hfetch : fetchConfigData c request w with ⟨r, w1, l1⟩
  rw [hfetch] at hf1 hf2
  simp only at hf1 hf2
  have hnr : ∀ e, Event.ResolveCMCSTrigger (some e) ∉ l1 := by
    intro e he
    have := List.all_eq_true.mp hf1 _ he
    simp [Event.isResolve] at this
  rcases r with r | _ | _
  · rcases r with e0 | f
    · refine ⟨?_, ?_⟩
      · intro e he
        simp [M.bind, hfetch, M.pure] at he
        exact absurd he (hnr e)
      · intro ev hev e hfail
        simp [M.bind, hfetch, M.pure] at hev
        have := hf2 ev hev e hfail
        simp at this
        subst this
        simp [M.bind, hfetch, M.pure]
        simpa using hf1
    · obtain ⟨hm1, hm2⟩ := mergeAndResolve_errors mergeUtil c request f
        c.NewMergedCmAndCsJsonV2Response w1
      refine ⟨?_, ?_⟩
      · intro e he
        simp [M.bind, hfetch] at he
        rcases he with he | he
        · exact absurd he (hnr e)
        · simpa [M.bind, hfetch] using hm1 e he
      · intro ev hev e hfail
        simp [M.bind, hfetch] at hev
        rcases hev with hev | hev
        · have := hf2 ev hev e hfail
          simp at this
        · obtain ⟨hres, hlog⟩ := hm2 ev hev e hfail
          simp [M.bind, hfetch, hres]
          refine ⟨?_, ?_⟩
          · simpa using hf1
          · simpa using hlog
  · refine ⟨?_, ?_⟩
    · intro e he
      simp [M.bind, hfetch] at he
      exact absurd he (hnr e)
    · intro ev hev e hfail
      simp [M.bind, hfetch] at hev
      have := hf2 ev hev e hfail
      simp at this
  · refine ⟨?_, ?_⟩
    · intro e he
      simp [M.bind, hfetch] at he
      exact absurd he (hnr e)
    · intro ev hev e hfail
      simp [M.bind, hfetch] at hev
      have := hf2 ev hev e hfail
      simp at this
end

section
variable {σ : Type}

theorem saveRun_returned (deps : Deps σ) (req : ValuesOverrideRequest) (e : Int) (t : Time)
    (n : Nat) (ov : Option PipelineOverride) (err : Option Error) (w : σ) :
    saveRun deps req e t n (.returned ov err) w = (.returned ov err, w) := by
  induction n with
  | zero => rfl
  | succ n ih => simp only [saveRun, saveStep]; exact ih

theorem saveRun_panicked (deps : Deps σ) (req : ValuesOverrideRequest) (e : Int) (t : Time)
    (n : Nat) (w : σ) :
    saveRun deps req e t n .panicked w = (.panicked, w) := by
  induction n with
  | zero => rfl
  | succ n ih => simp only [saveRun, saveStep]; exact ih

theorem saveRun_ofLoop (deps : Deps σ) (req : ValuesOverrideRequest) (e : Int) (t : Time)
    (n : Nat) (r) (w : σ) :
    saveRun deps req e t n (SaveState.ofLoop r) w = (SaveState.ofLoop r, w) := by
  rcases r with (⟨_, _⟩ | ⟨_ | _, _, _⟩) | _ | _ <;>
    first
    | exact saveRun_returned deps req e t n _ _ w
    | exact saveRun_panicked deps req e t n w

/-- The repair loop, one repository call at a time, ends as the loop of the function. -/
theorem saveRun_loop (deps : Deps σ) (req : ValuesOverrideRequest) (e : Int) (t : Time) :
    ∀ (k n : Nat) ov w, 3 * k ≤ n →
      saveRun deps req e t n (SaveState.loopHead (5 - (k : Int)) ov) w
        = (SaveState.ofLoop (checkAndFixLoop deps k false (5 - (k : Int)) ov w).result,
            (checkAndFixLoop deps k false (5 - (k : Int)) ov w).world) := by
  intro k
  induction k with
  | zero =>
    intro n ov w _
    rw [checkAndFixLoop_done deps 0 false _ ov w (Or.inr (by norm_num))]
    have : SaveState.loopHead (5 - ((0 : Nat) : Int)) ov
        = .returned none (some (duplicateVerificationError ov.Id (5 - ((0 : Nat) : Int)))) := by
      simp [SaveState.loopHead]
    rw [this]
    exact saveRun_returned deps req e t n _ _ w
  | succ k ih =>
    intro n ov w hn
    obtain ⟨m, rfl⟩ : ∃ m, n = m + 3 := ⟨n - 3, by omega⟩
    have hm : 3 * k ≤ m := by omega
    have hrc : (5 - ((k + 1 : Nat) : Int)) < 5 := by push_cast; omega
    have hnext : (5 - ((k + 1 : Nat) : Int)) + 1 = 5 - (k : Int) := by push_cast; omega
    have hhead : SaveState.loopHead (5 - ((k + 1 : Nat) : Int)) ov
        = .lookup (5 - ((k + 1 : Nat) : Int)) ov := by
      simp only [SaveState.loopHead, if_pos hrc]
    rw [hhead]
    rcases h1 : deps.GetByPipelineIdAndReleaseNo ov.PipelineId ov.PipelineReleaseCounter w
      with ⟨resp, w1⟩
    rcases resp with err | rows
    · rw [checkAndFixLoop_lookup_error deps k _ ov w w1 err hrc h1]
      simp only [saveRun, saveStep, h1]
      exact saveRun_returned deps req e t _ _ _ w1
    · rcases rows with _ | ⟨first, rest⟩
      · rw [checkAndFixLoop_lookup_empty deps k _ ov w w1 hrc h1]
        simp only [saveRun, saveStep, h1]
        exact saveRun_panicked deps req e t _ w1
      · by_cases hid : first.Id = ov.Id
        · rw [checkAndFixLoop_verified deps k _ ov first rest w w1 hrc h1 hid]
          simp only [saveRun, saveStep, h1, if_pos hid]
          exact saveRun_returned deps req e t _ _ _ w1
        · rcases h2 : deps.GetCurrentPipelineReleaseCounter ov.PipelineId w1 with ⟨cresp, w2⟩
          rcases cresp with err | c
          · rw [checkAndFixLoop_counter_error deps k _ ov first rest w w1 w2 err hrc h1 hid h2]
            simp only [saveRun, saveStep, h1, if_neg hid, h2]
            exact saveRun_returned deps req e t _ _ _ w2
          · rcases h3 : deps.Update { ov with PipelineReleaseCounter := c + 1 } w2
              with ⟨uresp, w3⟩
            rcases uresp with _ | err
            · rw [checkAndFixLoop_repair deps k _ c ov first rest w w1 w2 w3 hrc h1 hid h2 h3]
              simp only [saveRun, saveStep, h1, if_neg hid, h2, h3, hnext]
              have := ih m { ov with PipelineReleaseCounter := c + 1 } w3 hm
              simpa [hnext] using this
            · rw [checkAndFixLoop_update_error deps k _ c ov first rest w w1 w2 w3 err hrc h1
                hid h2 h3]
              simp only [saveRun, saveStep, h1, if_neg hid, h2, h3]
              exact saveRun_returned deps req e t _ _ _ w3

/-- A call of `savePipelineOverride` made one repository call at a time and left alone ends,
after at most 17 calls, as the function does: same result, same repository. -/
theorem saveRun_savePipelineOverride (deps : Deps σ) (req : ValuesOverrideRequest) (e : Int)
    (t : Time) (n : Nat) (hn : 17 ≤ n) (w : σ) :
    saveRun deps req e t n .start w
      = (SaveState.ofResult (savePipelineOverride deps req e t w).result,
          (savePipelineOverride deps req e t w).world) := by
  obtain ⟨m, rfl⟩ : ∃ m, n = m + 2 := ⟨n - 2, by omega⟩
  have h5 : (5 : Int) - ((5 : Nat) : Int) = 0 := by norm_num
  unfold savePipelineOverride
  rcases h0 : deps.GetCurrentPipelineReleaseCounter req.PipelineId w with ⟨resp, w0⟩
  rcases resp with err | c
  · simp only [saveRun, saveStep, h0, M.bind_def, M.pure_def, M.bind, M.call, M.pure]
    exact saveRun_returned deps req e t _ _ _ w0
  · simp only [saveRun, saveStep, h0, M.bind_def, M.pure_def, M.bind, M.call]
    rcases h1 : deps.Save _ w0 with ⟨sresp, w1⟩
    rcases sresp with err | po
    · simp only [M.pure]
      exact saveRun_returned deps req e t _ _ _ w1
    · have hloop := saveRun_loop deps req e t 5 m po w1 (by omega)
      rw [h5] at hloop
      rw [hloop]
      obtain ⟨-, hw, hr⟩ := checkAndFixDuplicateReleaseNo_run deps po w1
      rcases hres : (checkAndFixLoop deps 5 false 0 po w1).result with r | _ | _
      · rw [hres] at hr
        rcases r with ⟨ov', err⟩ | ⟨uv, rc, ov'⟩
        · simp [M.bind, hr, hw, M.pure, SaveState.ofLoop, SaveState.ofResult]
        · cases uv
          · simp [M.bind, hr, hw, M.pure, SaveState.ofLoop, SaveState.ofResult,
              duplicateVerificationError]
          · simp [M.bind, hr, hw, M.pure, SaveState.ofLoop, SaveState.ofResult]
      · rw [hres] at hr
        simp [M.bind, hr, hw, SaveState.ofLoop, SaveState.ofResult]
      · rw [hres] at hr
        simp [M.bind, hr, hw, SaveState.ofLoop, SaveState.ofResult]
end

namespace Json

/-- Reading the nested objects back under their path gives the value. -/
theorem getPath_nest (names : List String) (v : Json) : getPath names (nest names v) = some v := by
  induction names with
  | nil => rfl
  | cons k ks ih => simp [nest, getPath, lookup, ih]

/-- The nested objects hold nothing under a path that leaves theirs. -/
theorem getPath_nest_other (v : Json) :
    ∀ names other : List String, ¬ names <+: other → ¬ other <+: names →
      getPath other (nest names v) = none := by
  intro names
  induction names with
  | nil => intro other h; exact absurd List.nil_prefix h
  | cons k ks ih =>
    intro other h1 h2
    rcases other with _ | ⟨k', ks'⟩
    · exact absurd List.nil_prefix h2
    · by_cases hk : k = k'
      · subst hk
        have h1' : ¬ ks <+: ks' := fun h => h1 ((List.prefix_cons_inj k).mpr h)
        have h2' : ¬ ks' <+: ks := fun h => h2 ((List.prefix_cons_inj k).mpr h)
        simp [nest, getPath, lookup, ih ks' h1' h2']
      · simp [nest, getPath, lookup, hk]

/-- What is written under a path is read back under it. -/
theorem getPath_setPath_self (v : Json) :
    ∀ (names : List String) (doc doc' : Json), setPath names doc v = some doc' →
      getPath names doc' = some v := by
  intro names
  induction names with
  | nil => intro doc doc' h; simp [setPath] at h; subst h; rfl
  | cons k ks ih =>
    intro doc doc' h
    cases doc with
    | obj kvs =>
      simp only [setPath] at h
      rcases hl : lookup k kvs with _ | sub
      · simp only [hl, Option.some.injEq] at h
        subst h
        simp [getPath, lookup_setKey_self, getPath_nest]
      · simp only [hl] at h
        rcases hs : setPath ks sub v with _ | sub'
        · simp [hs] at h
        · simp only [hs, Option.some.injEq] at h
          subst h
          simp [getPath, lookup_setKey_self, ih sub sub' hs]
    | null => simp [setPath] at h
    | bool _ => simp [setPath] at h
    | num _ => simp [setPath] at h
    | str _ => simp [setPath] at h
    | arr _ => simp [setPath] at h

/-- A write under a path leaves what is under every path that leaves it. -/
theorem getPath_setPath_other (v : Json) :
    ∀ (names other : List String) (doc doc' : Json), setPath names doc v = some doc' →
      ¬ names <+: other → ¬ other <+: names → getPath other doc' = getPath other doc := by
  intro names
  induction names with
  | nil => intro other doc doc' _ h; exact absurd List.nil_prefix h
  | cons k ks ih =>
    intro other doc doc' h h1 h2
    rcases other with _ | ⟨k', ks'⟩
    · exact absurd List.nil_prefix h2
    cases doc with
    | obj kvs =>
      simp only [setPath] at h
      by_cases hk : k = k'
      · subst hk
        have h1' : ¬ ks <+: ks' := fun h => h1 ((List.prefix_cons_inj k).mpr h)
        have h2' : ¬ ks' <+: ks := fun h => h2 ((List.prefix_cons_inj k).mpr h)
        rcases hl : lookup k kvs with _ | sub
        · simp only [hl, Option.some.injEq] at h
          subst h
          simp [getPath, lookup_setKey_self, hl, getPath_nest_other v ks ks' h1' h2']
        · simp only [hl] at h
          rcases hs : setPath ks sub v with _ | sub'
          · simp [hs] at h
          · simp only [hs, Option.some.injEq] at h
            subst h
            simp [getPath, lookup_setKey_self, hl, ih ks' sub sub' hs h1' h2']
      · have hdoc : ∃ x, doc' = .obj (setKey k x kvs) := by
          rcases hl : lookup k kvs with _ | sub
          · simp only [hl, Option.some.injEq] at h
            exact ⟨_, h.symm⟩
          · simp only [hl] at h
            rcases hs : setPath ks sub v with _ | sub'
            · simp [hs] at h
            · simp only [hs, Option.some.injEq] at h
              exact ⟨_, h.symm⟩
        obtain ⟨x, hx⟩ := hdoc
        subst hx
        simp [getPath, lookup_setKey_ne hk]
    | null => simp [setPath] at h
    | bool _ => simp [setPath] at h
    | num _ => simp [setPath] at h
    | str _ => simp [setPath] at h
    | arr _ => simp [setPath] at h

/-- Whether a write under a path succeeds does not depend on the value written. -/
theorem setPath_isSome_congr (v v' : Json) :
    ∀ (names : List String) (doc : Json),
      (setPath names doc v).isSome = (setPath names doc v').isSome := by
  intro names
  induction names with
  | nil => intro doc; rfl
  | cons k ks ih =>
    intro doc
    cases doc with
    | obj kvs =>
      simp only [setPath]
      rcases hl : lookup k kvs with _ | sub
      · rfl
      · have := ih sub
        rcases hs : setPath ks sub v with _ | sub' <;>
          rcases hs' : setPath ks sub v' with _ | sub'' <;> simp [hs, hs'] at this ⊢
    | null => rfl
    | bool _ => rfl
    | num _ => rfl
    | str _ => rfl
    | arr _ => rfl

/-- A write into nested objects under a path that leaves theirs succeeds. -/
theorem setPath_nest_isSome (v v' : Json) :
    ∀ names other : List String, ¬ names <+: other → ¬ other <+: names →
      (setPath other (nest names v) v').isSome = true := by
  intro names
  induction names with
  | nil => intro other h; exact absurd List.nil_prefix h
  | cons k ks ih =>
    intro other h1 h2
    rcases other with _ | ⟨k', ks'⟩
    · exact absurd List.nil_prefix h2
    · by_cases hk : k = k'
      · subst hk
        have h1' : ¬ ks <+: ks' := fun h => h1 ((List.prefix_cons_inj k).mpr h)
        have h2' : ¬ ks' <+: ks := fun h => h2 ((List.prefix_cons_inj k).mpr h)
        have := ih ks' h1' h2'
        rcases hs : setPath ks' (nest ks v) v' with _ | s
        · simp [hs] at this
        · simp [nest, setPath, lookup, hs]
      · simp [nest, setPath, lookup, hk]

/-- A write that succeeds on a document succeeds after a write under a path that leaves
its own. -/
theorem setPath_isSome_after (v v' : Json) :
    ∀ (names other : List String) (doc doc' : Json), setPath names doc v = some doc' →
      ¬ names <+: other → ¬ other <+: names →
      (setPath other doc v').isSome = true → (setPath other doc' v').isSome = true := by
  intro names
  induction names with
  | nil => intro other doc doc' _ h; exact absurd List.nil_prefix h
  | cons k ks ih =>
    intro other doc doc' h h1 h2 hok
    rcases other with _ | ⟨k', ks'⟩
    · exact absurd List.nil_prefix h2
    cases doc with
    | obj kvs =>
      simp only [setPath] at h
      by_cases hk : k = k'
      · subst hk
        have h1' : ¬ ks <+: ks' := fun h => h1 ((List.prefix_cons_inj k).mpr h)
        have h2' : ¬ ks' <+: ks := fun h => h2 ((List.prefix_cons_inj k).mpr h)
        rcases hl : lookup k kvs with _ | sub
        · simp only [hl, Option.some.injEq] at h
          subst h
          have := setPath_nest_isSome v v' ks ks' h1' h2'
          rcases hs : setPath ks' (nest ks v) v' with _ | s
          · simp [hs] at this
          · simp [setPath, lookup_setKey_self, hs]
        · simp only [hl] at h
          rcases hs : setPath ks sub v with _ | sub'
          · simp [hs] at h
          · simp only [hs, Option.some.injEq] at h
            subst h
            have hok' : (setPath ks' sub v').isSome = true := by
              simp only [setPath, hl] at hok
              rcases hs2 : setPath ks' sub v' with _ | s
              · simp [hs2] at hok
              · rfl
            have := ih ks' sub sub' hs h1' h2' hok'
            rcases hs3 : setPath ks' sub' v' with _ | s
            · simp [hs3] at this
            · simp [setPath, lookup_setKey_self, hs3]
      · have hdoc : ∃ x, doc' = .obj (setKey k x kvs) := by
          rcases hl : lookup k kvs with _ | sub
          · simp only [hl, Option.some.injEq] at h
            exact ⟨_, h.symm⟩
          · simp only [hl] at h
            rcases hs : setPath ks sub v with _ | sub'
            · simp [hs] at h
            · simp only [hs, Option.some.injEq] at h
              exact ⟨_, h.symm⟩
        obtain ⟨x, hx⟩ := hdoc
        subst hx
        simp only [setPath, lookup_setKey_ne hk] at hok ⊢
        rcases hl : lookup k' kvs with _ | sub
        · rfl
        · simp only [hl] at hok ⊢
          rcases hs : setPath ks' sub v' with _ | s
          · simp [hs] at hok
          · rfl
    | null => simp [setPath] at h
    | bool _ => simp [setPath] at h
    | num _ => simp [setPath] at h
    | str _ => simp [setPath] at h
    | arr _ => simp [setPath] at h

end Json

/-- A hexadecimal digit is one of `0` to `9` and `a` to `f`. -/
theorem hexDigit_mem : ∀ n, n < 16 → hexDigit n ∈ "0123456789abcdef".data := by
  decide

/-- The output of `%x` has two characters for each byte, each a lowercase hexadecimal
digit. -/
theorem hexLower_spec (bs : Bytes) :
    (hexLower bs).length = 2 * bs.length ∧
    ∀ ch ∈ (hexLower bs).data, ch ∈ "0123456789abcdef".data := by
  induction bs with
  | nil => exact ⟨rfl, fun ch h => by simp [hexLower] at h⟩
  | cons b rest ih =>
    obtain ⟨ih1, ih2⟩ := ih
    refine ⟨?_, ?_⟩
    · simp only [hexLower, String.length, List.map_cons, List.flatten_cons, List.length_append,
        List.length_cons, List.length_nil] at ih1 ⊢
      omega
    · intro ch hch
      simp only [hexLower, List.map_cons, List.flatten_cons, List.mem_append, List.mem_cons,
        List.mem_singleton, List.not_mem_nil, or_false] at hch
      rcases hch with (h | h) | h
      · rw [h]; exact hexDigit_mem _ (Nat.div_lt_of_lt_mul (by omega))
      · rw [h]; exact hexDigit_mem _ (Nat.mod_lt _ (by decide))
      · exact ih2 ch h

/-! ## Concurrency, resolver and live-state claims -/

/-- C11 (code bug): release counters are not collision-free under concurrent triggers. One
call of `savePipelineOverride` made one repository call at a time and left alone ends as the
function does; but over the repository of section 4.6 three triggers on pipeline 10,
interleaved as `racingSchedule`, all return a row and a nil error and leave two rows that
share `(PipelineId, PipelineReleaseCounter) = (10, 2)`: the second trigger reads the counter
for its repair before the third inserts its row, and writes it after the third has verified;
being the older row, it then verifies too. -/
theorem savePipelineOverride_concurrent_collision :
    (∀ (overrideRequest : ValuesOverrideRequest) (envOverrideId : Int) (triggeredAt : Time)
        (w : Table),
      saveRun tableRepository overrideRequest envOverrideId triggeredAt 17 .start w
        = (SaveState.ofResult
            (savePipelineOverride tableRepository overrideRequest envOverrideId
              triggeredAt w).result,
          (savePipelineOverride tableRepository overrideRequest envOverrideId
            triggeredAt w).world)) ∧
    (interleave tableRepository threeCalls racingSchedule
      ([.start, .start, .start], [])).1.all SaveState.succeeded = true ∧
    releaseKeys (interleave tableRepository threeCalls racingSchedule
      ([.start, .start, .start], [])).2 = [(10, 1), (10, 2), (10, 2)] ∧
    collisionFree (interleave tableRepository threeCalls racingSchedule
      ([.start, .start, .start], [])).2 = false :=
  ⟨fun overrideRequest envOverrideId triggeredAt w =>
      saveRun_savePipelineOverride tableRepository overrideRequest envOverrideId triggeredAt 17
        (Nat.le_refl 17) w,
    rfl, rfl, rfl⟩

/-- A plain race of two triggers is repaired: the younger row moves to the next counter. -/
theorem savePipelineOverride_two_call_race :
    (interleave tableRepository (threeCalls.take 2) twoCallRace
      ([.start, .start], [])).1.all SaveState.succeeded = true ∧
    releaseKeys (interleave tableRepository (threeCalls.take 2) twoCallRace
      ([.start, .start], [])).2 = [(10, 1), (10, 2)] :=
  ⟨rfl, rfl⟩

/-- C12: replay is idempotent. For a request whose PipelineOverrideId is positive, (1) the
run of `GetValuesOverrideForTrigger` calls neither `Save`, `Update` nor
`UpdatePipelineMergedValues` (nor any other call of the allocator); (2) when it returns a nil
error, the returned MergedValues is the PipelineMergedValues of the row that
`pipelineOverrideRepository.FindById` answered for that id, and that row is the returned
PipelineOverride; (3) hence two invocations with the same override id, between which the
stored merged values of that row do not change, return the same merged values. -/
theorem GetValuesOverrideForTrigger_replay_idempotent {σ : Type} (deps : Deps σ)
    (overrideRequest : ValuesOverrideRequest) (triggeredAt : Time)
    (hold : (deps.ResolveDeploymentTypeAndUpdate overrideRequest).PipelineOverrideId > 0) :
    (∀ w, (GetValuesOverrideForTrigger deps overrideRequest triggeredAt w).log.all
      (fun ev => !ev.isOverrideWrite && !ev.isAllocator) = true) ∧
    (∀ w resp, (GetValuesOverrideForTrigger deps overrideRequest triggeredAt w).result
        = .val (some resp, none) →
      ∃ pipeline artifact strategy po w1 w2 w3 w4,
        deps.FindPipelineById (deps.ResolveDeploymentTypeAndUpdate overrideRequest).PipelineId w
          = (.ok pipeline, w1) ∧
        deps.GetCiArtifact (deps.ResolveDeploymentTypeAndUpdate overrideRequest).CiArtifactId w1
          = (.ok artifact, w2) ∧
        deps.getDeploymentStrategyByTriggerType
            { deps.ResolveDeploymentTypeAndUpdate overrideRequest with Image := artifact.Image }
            w2
          = (some (strategy, none), w3) ∧
        deps.FindPipelineOverrideById
            (deps.ResolveDeploymentTypeAndUpdate overrideRequest).PipelineOverrideId w3
          = (.ok po, w4) ∧
        resp.MergedValues = po.PipelineMergedValues ∧
        resp.PipelineOverride = some po) ∧
    (∀ (triggeredAt' : Time) (w w' : σ) (resp resp' : ValuesOverrideResponse),
      (∀ v v' po po',
        (deps.FindPipelineOverrideById
          (deps.ResolveDeploymentTypeAndUpdate overrideRequest).PipelineOverrideId v).1
            = .ok po →
        (deps.FindPipelineOverrideById
          (deps.ResolveDeploymentTypeAndUpdate overrideRequest).PipelineOverrideId v').1
            = .ok po' →
        po.PipelineMergedValues = po'.PipelineMergedValues) →
      (GetValuesOverrideForTrigger deps overrideRequest triggeredAt w).result
        = .val (some resp, none) →
      (GetValuesOverrideForTrigger deps overrideRequest triggeredAt' w').result
        = .val (some resp', none) →
      resp.MergedValues = resp'.MergedValues) := by
  refine ⟨?_, ?_, ?_⟩
  · intro w
    exact (GetValuesOverrideForTrigger_replay_run deps overrideRequest _ triggeredAt w rfl
      hold).1
  · intro w resp hresp
    exact (GetValuesOverrideForTrigger_replay_run deps overrideRequest _ triggeredAt w rfl
      hold).2 resp hresp
  · intro triggeredAt' w w' resp resp' hstore hresp hresp'
    obtain ⟨_, _, _, po, _, _, w3, _, _, _, _, hpo, hm, _⟩ :=
      (GetValuesOverrideForTrigger_replay_run deps overrideRequest _ triggeredAt w rfl
        hold).2 resp hresp
    obtain ⟨_, _, _, po', _, _, w3', _, _, _, _, hpo', hm', _⟩ :=
      (GetValuesOverrideForTrigger_replay_run deps overrideRequest _ triggeredAt' w' rfl
        hold).2 resp' hresp'
    rw [hm, hm']
    exact hstore w3 w3' po po' (by rw [hpo]) (by rw [hpo'])

/-- Witness for C12: replaying override 1 over the table that stores it writes nothing,
leaves the table as it was, and returns the stored merged values, also when run again on the
table the first run leaves. -/
theorem GetValuesOverrideForTrigger_replay_idempotent_witness :
    (GetValuesOverrideForTrigger memoryDeps replayRequest 100 [storedRow]).log.all
      (fun ev => !ev.isOverrideWrite && !ev.isAllocator) = true ∧
    (∃ resp, (GetValuesOverrideForTrigger memoryDeps replayRequest 100 [storedRow]).result
        = .val (some resp, none) ∧
      resp.MergedValues = storedRow.PipelineMergedValues) ∧
    (∃ resp, (GetValuesOverrideForTrigger memoryDeps replayRequest 200
        (GetValuesOverrideForTrigger memoryDeps replayRequest 100 [storedRow]).world).result
        = .val (some resp, none) ∧
      resp.MergedValues = storedRow.PipelineMergedValues) :=
  ⟨(GetValuesOverrideForTrigger_replay_idempotent memoryDeps replayRequest 100
      (by decide)).1 [storedRow],
    ⟨_, rfl, rfl⟩, ⟨_, rfl, rfl⟩⟩

/-- C13 (corrected): a failure of scoped-variable resolution does not abort the trigger.
(1) When `ResolveCMCSTrigger` returns an error, `getConfigMapAndSecretJsonV2` returns that
error with the response it started from. (2) `GetValuesOverrideForTrigger` does not return
it: over the service's own `getConfigMapAndSecretJsonV2`, every trigger runs exactly as if
that method had answered, instead of any error, the same response without merged JSON and
a nil error. -/
theorem getConfigMapAndSecretJsonV2_resolve_error {σ : Type} (deps : Deps σ)
    (c : ConfigSecretDeps σ) (k : LiveDeps σ) :
    (∀ request w e,
      Event.ResolveCMCSTrigger (some e)
        ∈ (getConfigMapAndSecretJsonV2 deps.mergeUtil c request w).log →
      (getConfigMapAndSecretJsonV2 deps.mergeUtil c request w).result
        = .val (c.NewMergedCmAndCsJsonV2Response, some e)) ∧
    (∀ overrideRequest triggeredAt w,
      GetValuesOverrideForTrigger (serviceDeps deps c k) overrideRequest triggeredAt w
        = GetValuesOverrideForTrigger (withoutConfigSecretError (serviceDeps deps c k))
            overrideRequest triggeredAt w) :=
  ⟨fun request w e he => (getConfigMapAndSecretJsonV2_errors deps.mergeUtil c request w).1 e he,
    fun overrideRequest triggeredAt w =>
      (GetValuesOverrideForTrigger_withoutConfigSecretError (serviceDeps deps c k)
        overrideRequest triggeredAt w).symm⟩

/-- Witness for C13: with resolution failing, the resolver returns the resolution error and
an empty response. -/
theorem getConfigMapAndSecretJsonV2_resolve_error_witness :
    (getConfigMapAndSecretJsonV2 rfc7396 failingResolver sampleResolverRequest []).result
      = .val ({}, some (.errorString "variable not found")) :=
  (getConfigMapAndSecretJsonV2_resolve_error memoryDeps failingResolver (sampleLive 7)).1
    sampleResolverRequest [] (.errorString "variable not found")
    (by
      rw [show (getConfigMapAndSecretJsonV2 memoryDeps.mergeUtil failingResolver
          sampleResolverRequest []).log
        = [Event.GetByAppIdAppLevel 1 none,
            Event.GetByAppIdAndEnvIdEnvLevel 1 2
              (some (.errorString "pg: no rows in result set")),
            Event.ConfigMapMerge none, Event.ConfigSecretMergeForCDStages none,
            Event.ResolveCMCSTrigger (some (.errorString "variable not found"))] from rfl]
      simp)

/-- Counterexample for C13 as stated: scoped-variable resolution fails whenever the resolver
of the sample trigger is run, and yet the trigger returns a nil error, with merged values
that lack the config/secret layer, and persists them. -/
theorem GetValuesOverrideForTrigger_resolve_error_counterexample :
    (∀ w, (getConfigMapAndSecretJsonV2 rfc7396 failingResolver sampleResolverRequest w).result
      = .val ({}, some (.errorString "variable not found"))) ∧
    (∀ w, (serviceDeps memoryDeps failingResolver (sampleLive 7)).getConfigMapAndSecretJsonV2
        { sampleRequest with Image := "registry/repo:abc123", PipelineOverrideId := 1 }
        sampleEnvOverride "4.18.0" w
      = (some ({}, some (.errorString "variable not found")), w)) ∧
    (∃ resp merged,
      (GetValuesOverrideForTrigger (serviceDeps memoryDeps failingResolver (sampleLive 7))
        sampleRequest 100 []).result = .val (some resp, none) ∧
      resp.MergedValues = .json merged ∧ merged.get "cm" = none ∧
      merged.get "tag" = some (.str "abc123")) ∧
    (GetValuesOverrideForTrigger (serviceDeps memoryDeps failingResolver (sampleLive 7))
      sampleRequest 100 []).log.any Event.isUpdateMergedValues = true :=
  ⟨fun _ => rfl, fun _ => rfl, ⟨_, _, rfl, rfl, rfl, rfl⟩, rfl⟩

section
variable {σ : Type}

/-- After a failed `getConfigMapAndSecretJsonV2` the block goes on: it fetches the app labels,
merges without config/secret JSON, and hands the result of that merge to the next step. -/
theorem valuesForNewOverride_after_config_error (deps : Deps σ)
    (overrideRequest : ValuesOverrideRequest)
    (envOverride : EnvConfigOverride) (pipeline : Pipeline) (artifact : CiArtifact)
    (pipelineOverride : PipelineOverride) (strategy : Option PipelineStrategy)
    (releaseOverrideJson : Text) (valuesOverrideResponse : ValuesOverrideResponse)
    (w w1 w2 : σ) (chart : Chart) (environment : Environment)
    (response : MergedCmAndCsJsonV2Response) (err : Error)
    (labels : Except Error (Option Text)) (mergedValues : Text) (mergeErr : Option Error)
    (hChart : envOverride.Chart = some chart)
    (hEnv : envOverride.Environment = some environment)
    (hcm : deps.getConfigMapAndSecretJsonV2 overrideRequest envOverride chart.ChartVersion w
      = (some (response, some err), w1))
    (hlabels : deps.GetAppLabelsForDeployment overrideRequest.AppId overrideRequest.AppName
      overrideRequest.EnvName w1 = (labels, w2))
    (hmerge : mergeOverrideValues deps.mergeUtil envOverride releaseOverrideJson none
      (labelBytes labels) strategy = some (mergedValues, mergeErr)) :
    ∃ rest,
      (valuesForNewOverride deps overrideRequest envOverride pipeline artifact
        pipelineOverride strategy releaseOverrideJson valuesOverrideResponse w).log
      = [Event.getConfigMapAndSecretJsonV2,
          Event.GetAppLabelsForDeployment overrideRequest.AppId,
          Event.mergeOverrideValues,
          if environment.IsVirtualEnvironment then
            Event.HandleImagePullSecretOnApplicationDeployment mergedValues
          else Event.updatedExternalCmCsHashForTrigger mergedValues] ++ rest := by
  unfold valuesForNewOverride
  rw [hChart]
  simp only [M.bind_def, M.pure_def]
  rcases labels with e | bytes
  · simp only [labelBytes] at hmerge
    by_cases hv : environment.IsVirtualEnvironment = true
    · simp only [M.bind_log, M.step, M.call, M.emit, M.pure, hcm, hlabels, hmerge, hEnv, hv,
        List.cons_append, List.nil_append, List.append_assoc, Bool.not_true,
        Bool.false_eq_true, if_false, if_true]
      exact ⟨_, rfl⟩
    · have hv' : environment.IsVirtualEnvironment = false := by simpa using hv
      simp only [M.bind_log, M.step, M.call, M.emit, M.pure, hcm, hlabels, hmerge, hEnv,
        hv', List.cons_append, List.nil_append, List.append_assoc, Bool.not_false,
        Bool.false_eq_true, if_false, if_true]
      split <;> exact ⟨_, rfl⟩
  · simp only [labelBytes] at hmerge
    by_cases hv : environment.IsVirtualEnvironment = true
    · simp only [M.bind_log, M.step, M.call, M.emit, M.pure, hcm, hlabels, hmerge, hEnv, hv,
        List.cons_append, List.nil_append, List.append_assoc, Bool.not_true,
        Bool.false_eq_true, if_false, if_true]
      exact ⟨_, rfl⟩
    · have hv' : environment.IsVirtualEnvironment = false := by simpa using hv
      simp only [M.bind_log, M.step, M.call, M.emit, M.pure, hcm, hlabels, hmerge, hEnv,
        hv', List.cons_append, List.nil_append, List.append_assoc, Bool.not_false,
        Bool.false_eq_true, if_false, if_true]
      split <;> exact ⟨_, rfl⟩

end

/-- C14: a config/secret fetch or merge failure is non-fatal. (1) When a repository or
history fetch fails (in last-saved mode: with an error other than `pg.ErrNoRows`), or
`ConfigMapMerge` or `ConfigSecretMergeForCDStages` fails, `getConfigMapAndSecretJsonV2`
returns that error without calling the resolver. (2) After an error of
`getConfigMapAndSecretJsonV2` the orchestrator proceeds: it fetches the app labels, runs
`mergeOverrideValues` with a nil config/secret JSON, and hands the result of that merge to the
next step. (3) That failure alone does not make `GetValuesOverrideForTrigger` return an
error: every trigger runs exactly as if the method had answered the same response without
merged JSON and a nil error. -/
theorem getConfigMapAndSecretJsonV2_fetch_error_not_fatal {σ : Type} (deps : Deps σ)
    (c : ConfigSecretDeps σ) :
    (∀ request w ev e,
      ev ∈ (getConfigMapAndSecretJsonV2 deps.mergeUtil c request w).log →
      ev.fetchOrMergeFailure c.ErrNoRows = some e →
      (getConfigMapAndSecretJsonV2 deps.mergeUtil c request w).result
        = .val (c.NewMergedCmAndCsJsonV2Response, some e) ∧
      (getConfigMapAndSecretJsonV2 deps.mergeUtil c request w).log.all
        (fun ev => !ev.isResolve) = true) ∧
    (∀ (overrideRequest : ValuesOverrideRequest)
        (envOverride : EnvConfigOverride) (pipeline : Pipeline) (artifact : CiArtifact)
        (pipelineOverride : PipelineOverride) (strategy : Option PipelineStrategy)
        (releaseOverrideJson : Text) (valuesOverrideResponse : ValuesOverrideResponse)
        (w w1 w2 : σ) (chart : Chart) (environment : Environment)
        (response : MergedCmAndCsJsonV2Response) (err : Error)
        (labels : Except Error (Option Text)) (mergedValues : Text)
        (mergeErr : Option Error),
      envOverride.Chart = some chart →
      envOverride.Environment = some environment →
      deps.getConfigMapAndSecretJsonV2 overrideRequest envOverride chart.ChartVersion w
        = (some (response, some err), w1) →
      deps.GetAppLabelsForDeployment overrideRequest.AppId overrideRequest.AppName
        overrideRequest.EnvName w1 = (labels, w2) →
      mergeOverrideValues deps.mergeUtil envOverride releaseOverrideJson none
        (labelBytes labels) strategy = some (mergedValues, mergeErr) →
      ∃ rest,
        (valuesForNewOverride deps overrideRequest envOverride pipeline artifact
          pipelineOverride strategy releaseOverrideJson valuesOverrideResponse w).log
        = [Event.getConfigMapAndSecretJsonV2,
            Event.GetAppLabelsForDeployment overrideRequest.AppId,
            Event.mergeOverrideValues,
            if environment.IsVirtualEnvironment then
              Event.HandleImagePullSecretOnApplicationDeployment mergedValues
            else Event.updatedExternalCmCsHashForTrigger mergedValues] ++ rest) ∧
    (∀ overrideRequest triggeredAt w,
      GetValuesOverrideForTrigger deps overrideRequest triggeredAt w
        = GetValuesOverrideForTrigger (withoutConfigSecretError deps) overrideRequest
            triggeredAt w) :=
  ⟨fun request w ev e hev hfail =>
      (getConfigMapAndSecretJsonV2_errors deps.mergeUtil c request w).2 ev hev e hfail,
    fun overrideRequest envOverride pipeline artifact pipelineOverride strategy
        releaseOverrideJson valuesOverrideResponse w w1 w2 chart environment response err
        labels mergedValues mergeErr hChart hEnv hcm hlabels hmerge =>
      valuesForNewOverride_after_config_error deps overrideRequest envOverride pipeline
        artifact pipelineOverride strategy releaseOverrideJson valuesOverrideResponse w w1 w2
        chart environment response err labels mergedValues mergeErr hChart hEnv hcm hlabels
        hmerge,
    fun overrideRequest triggeredAt w =>
      (GetValuesOverrideForTrigger_withoutConfigSecretError deps overrideRequest triggeredAt
        w).symm⟩

/-- Witness for C14: with the lookup of the app-level record failing, the resolver returns
that error after its first call, and the sample trigger over it returns a nil error and
persists merged values without the config/secret layer. -/
theorem getConfigMapAndSecretJsonV2_fetch_error_not_fatal_witness :
    ((getConfigMapAndSecretJsonV2 rfc7396 failingFetchResolver sampleResolverRequest []).result
        = .val ({}, some (.errorString "connection refused")) ∧
      (getConfigMapAndSecretJsonV2 rfc7396 failingFetchResolver sampleResolverRequest []).log.all
        (fun ev => !ev.isResolve) = true) ∧
    (∃ resp merged,
      (GetValuesOverrideForTrigger (serviceDeps memoryDeps failingFetchResolver (sampleLive 7))
        sampleRequest 100 []).result = .val (some resp, none) ∧
      resp.MergedValues = .json merged ∧ merged.get "cm" = none ∧
      merged.get "tag" = some (.str "abc123")) ∧
    (GetValuesOverrideForTrigger (serviceDeps memoryDeps failingFetchResolver (sampleLive 7))
      sampleRequest 100 []).log.any Event.isUpdateMergedValues = true :=
  ⟨(getConfigMapAndSecretJsonV2_fetch_error_not_fatal memoryDeps failingFetchResolver).1
      sampleResolverRequest [] (Event.GetByAppIdAppLevel 1 (some (.errorString "connection refused")))
      (.errorString "connection refused")
      (by
        rw [show (getConfigMapAndSecretJsonV2 memoryDeps.mergeUtil failingFetchResolver
            sampleResolverRequest []).log
          = [Event.GetByAppIdAppLevel 1 (some (.errorString "connection refused"))] from rfl]
        simp)
      (by decide),
    ⟨_, _, rfl, rfl, rfl, rfl⟩, rfl⟩

/-- The loop over the config maps (lines 689-693) appends the names of the external ones. -/
theorem foldl_external_names (maps : List ConfigSecretMap) (init : List String) :
    maps.foldl
        (fun externalCmList cm =>
          if cm.External then externalCmList ++ [cm.Name] else externalCmList) init
      = init ++ namesWhere (fun cm => cm.External) maps := by
  induction maps generalizing init with
  | nil => simp [namesWhere]
  | cons cm rest ih =>
    rw [List.foldl_cons, ih]
    by_cases h : cm.External = true
    · simp [namesWhere, h]
    · simp [namesWhere, h]

/-- The loop over the secrets (lines 696-702) appends the names that pass the test, and
panics at a nil entry. -/
theorem foldlM_external_names (test : ConfigSecretMap → Bool)
    (secrets : List (Option ConfigSecretMap)) (init : List String) :
    secrets.foldlM
        (fun externalCsList cs =>
          match cs with
          | none => none
          | some cs =>
            if test cs then some (externalCsList ++ [cs.Name]) else some externalCsList) init
      = if none ∈ secrets then none
        else some (init ++ namesWhere test (secrets.filterMap id)) := by
  induction secrets generalizing init with
  | nil => simp [namesWhere]
  | cons cs rest ih =>
    rcases cs with _ | cs
    · simp
    · rw [List.foldlM_cons]
      by_cases h : test cs = true
      · simp only [h, if_true]
        show (rest.foldlM _ (init ++ [cs.Name])) = _
        rw [ih]
        by_cases hn : none ∈ rest
        · simp [hn]
        · simp [hn, namesWhere, h]
      · simp only [h]
        show (rest.foldlM _ init) = _
        rw [ih]
        by_cases hn : none ∈ rest
        · simp [hn]
        · simp [hn, namesWhere, h]

/-- C15: in last-saved mode absence of config data is not an error. The lookups of the
app-level and of the environment-level record answer a record next to a nil error or next
to `pg.ErrNoRows`, for every record and so for every combination of present and absent
config-map and secret data. (1) The fetch returns no error; what goes to the merges is the
config-map and the secret data of a record that has an id, and the empty string for a
record that has none. (2) When the two merges answer documents and the config-map document
is decoded, the secret document is decoded too: an error of its decoder is the error
returned, and when it is decoded, the resolver and the final patch succeed and no entry of
the secrets is nil, `getConfigMapAndSecretJsonV2` returns a nil error with the merged JSON
and the two lists of external names, after exactly the two lookups, the two merges and the
resolver call. -/
theorem getConfigMapAndSecretJsonV2_absence_not_error {σ : Type} (mergeUtil : MergeUtil)
    (c : ConfigSecretDeps σ) (request : GetMergedCmAndCsJsonV2Request) (w w1 w2 : σ)
    (a : ConfigMapAppModel) (e : ConfigMapEnvModel) (ea ee : Option Error)
    (hmode : request.DeploymentWithConfig = .DEPLOYMENT_CONFIG_TYPE_LAST_SAVED)
    (hA : c.GetByAppIdAppLevel request.AppId w = ((some a, ea), w1))
    (hea : ea = none ∨ ea = some c.ErrNoRows)
    (hE : c.GetByAppIdAndEnvIdEnvLevel request.AppId request.EnvId w1 = ((some e, ee), w2))
    (hee : ee = none ∨ ee = some c.ErrNoRows) :
    fetchConfigData c request w
      = ⟨.val (.ok { configMapA := some a, configMapE := some e,
                     configMapJsonApp := if a.Id > 0 then a.ConfigMapData else .empty,
                     secretDataJsonApp := if a.Id > 0 then a.SecretData else .empty,
                     configMapJsonEnv := if e.Id > 0 then e.ConfigMapData else .empty,
                     secretDataJsonEnv := if e.Id > 0 then e.SecretData else .empty }),
          w2,
          [Event.GetByAppIdAppLevel request.AppId ea,
            Event.GetByAppIdAndEnvIdEnvLevel request.AppId request.EnvId ee]⟩ ∧
    (∀ (dcm dcs : Json) (cmj : ConfigMapJson),
      c.ConfigMapMerge (if a.Id > 0 then a.ConfigMapData else .empty)
        (if e.Id > 0 then e.ConfigMapData else .empty) = .ok (.json dcm) →
      c.ConfigSecretMergeForCDStages (if a.Id > 0 then a.SecretData else .empty)
        (if e.Id > 0 then e.SecretData else .empty) request.ChartVersion = .ok (.json dcs) →
      c.decodeConfigMapJson dcm = .ok cmj →
      (∀ err, c.decodeConfigSecretJson dcs = .error err →
        getConfigMapAndSecretJsonV2 mergeUtil c request w
          = ⟨.val (c.NewMergedCmAndCsJsonV2Response, some err), w2,
              [Event.GetByAppIdAppLevel request.AppId ea,
                Event.GetByAppIdAndEnvIdEnvLevel request.AppId request.EnvId ee,
                Event.ConfigMapMerge none, Event.ConfigSecretMergeForCDStages none]⟩) ∧
      (∀ (csj : ConfigSecretJson) (resolvedCM resolvedCS mergedJson : Text) (w3 : σ),
        c.decodeConfigSecretJson dcs = .ok csj →
        none ∉ csj.Secrets →
        c.ResolveCMCSTrigger request.DeploymentWithConfig request.Scope a.Id e.Id
          { ConfigMapJson := cmj } { ConfigSecretJson := csj } 0 0 w2
          = (.ok (resolvedCM, resolvedCS), w3) →
        mergeUtil.JsonPatch resolvedCM resolvedCS = .ok mergedJson →
        getConfigMapAndSecretJsonV2 mergeUtil c request w
          = ⟨.val ({ c.NewMergedCmAndCsJsonV2Response with
                      MergedJson := some mergedJson,
                      ExternalCmList :=
                        if cmj.Enabled then namesWhere (fun cm => cm.External) cmj.Maps
                        else [],
                      ExternalCsList :=
                        if csj.Enabled then
                          namesWhere
                            (fun cs => cs.External && cs.ExternalType == c.KubernetesSecret)
                            (csj.Secrets.filterMap id)
                        else [] }, none), w3,
              [Event.GetByAppIdAppLevel request.AppId ea,
                Event.GetByAppIdAndEnvIdEnvLevel request.AppId request.EnvId ee,
                Event.ConfigMapMerge none, Event.ConfigSecretMergeForCDStages none,
                Event.ResolveCMCSTrigger none]⟩)) := by
  have hoa : otherThanNoRows c.ErrNoRows ea = none := by
    rcases hea with h | h <;> simp [h, otherThanNoRows]
  have hoe : otherThanNoRows c.ErrNoRows ee = none := by
    rcases hee with h | h <;> simp [h, otherThanNoRows]
  have hfetch : fetchConfigData c request w
      = ⟨.val (.ok { configMapA := some a, configMapE := some e,
                     configMapJsonApp := if a.Id > 0 then a.ConfigMapData else .empty,
                     secretDataJsonApp := if a.Id > 0 then a.SecretData else .empty,
                     configMapJsonEnv := if e.Id > 0 then e.ConfigMapData else .empty,
                     secretDataJsonEnv := if e.Id > 0 then e.SecretData else .empty }),
          w2,
          [Event.GetByAppIdAppLevel request.AppId ea,
            Event.GetByAppIdAndEnvIdEnvLevel request.AppId request.EnvId ee]⟩ := by
    unfold fetchConfigData
    by_cases ha : a.Id > 0 <;> by_cases he : e.Id > 0 <;>
      simp [hmode, M.bind_def, M.pure_def, M.bind, M.call, M.pure, hA, hE, hoa, hoe, ha, he]
  refine ⟨hfetch, ?_⟩
  intro dcm dcs cmj hcm hcs hdcm
  refine ⟨?_, ?_⟩
  · intro err hdcs
    unfold getConfigMapAndSecretJsonV2 mergeAndResolve
    simp [M.bind_def, M.pure_def, M.bind, M.call, M.pure, hfetch, hcm, hcs, hdcm, hdcs,
      Unmarshal, Text.nonEmpty, errorOf]
  · intro csj resolvedCM resolvedCS mergedJson w3 hdcs hnil hres hpatch
    have hlists : getExternalCmCsFromRootJson c.KubernetesSecret { ConfigMapJson := cmj }
        { ConfigSecretJson := csj }
        = some (if cmj.Enabled then namesWhere (fun cm => cm.External) cmj.Maps else [],
            if csj.Enabled then
              namesWhere (fun cs => cs.External && cs.ExternalType == c.KubernetesSecret)
                (csj.Secrets.filterMap id)
            else []) := by
      have key := foldlM_external_names
        (fun cs => cs.External && cs.ExternalType == c.KubernetesSecret) csj.Secrets []
      unfold getExternalCmCsFromRootJson
      simp only [foldl_external_names, List.nil_append]
      simp only [hnil, if_false, List.nil_append] at key
      by_cases hen : csj.Enabled = true
      · simp only [hen, if_true]
        generalize hfold : (List.foldlM _ [] csj.Secrets : Option (List String)) = res
        have hres' : res = some
            (namesWhere (fun cs => cs.External && cs.ExternalType == c.KubernetesSecret)
              (csj.Secrets.filterMap id)) := by
          rw [← hfold]; exact key
        rw [hres']
      · simp [hen]
    unfold getConfigMapAndSecretJsonV2 mergeAndResolve
    simp [M.bind_def, M.pure_def, M.bind, M.call, M.pure, hfetch, hcm, hcs, hdcm, hdcs,
      Unmarshal, Text.nonEmpty, errorOf, hres, hpatch, hlists]

/-- Witness for C15: an application without any stored record (both lookups answer
`pg.ErrNoRows`), whose merges answer the documents of a configuration without entries,
gets a nil error, the merged JSON and no external name; with config-map data stored and no
secret data, and with secret data stored and no config-map data, the result is a nil error
too, and the external Kubernetes secret of the stored secret data is listed. -/
theorem getConfigMapAndSecretJsonV2_absence_not_error_witness :
    (getConfigMapAndSecretJsonV2 rfc7396 noRecordResolver sampleResolverRequest []).result
      = .val ({ MergedJson := some (.json (.obj [("cm", .num 1), ("cs", .num 2)])),
                ExternalCmList := [], ExternalCsList := [] }, none) ∧
    (getConfigMapAndSecretJsonV2 rfc7396 (withDocumentMerges noSecretResolver)
        sampleResolverRequest []).result
      = .val ({ MergedJson := some (.json (.obj [("cm", .num 1), ("cs", .num 2)])),
                ExternalCmList := ["app-config"], ExternalCsList := [] }, none) ∧
    (getConfigMapAndSecretJsonV2 rfc7396 (withDocumentMerges noConfigMapResolver)
        sampleResolverRequest []).result
      = .val ({ MergedJson := some (.json (.obj [("cm", .num 1), ("cs", .num 2)])),
                ExternalCmList := [], ExternalCsList := ["k8s-secret"] }, none) :=
  ⟨congrArg Outcome.result
      (((getConfigMapAndSecretJsonV2_absence_not_error rfc7396 noRecordResolver
        sampleResolverRequest [] [] [] {} {}
        (some (.errorString "pg: no rows in result set"))
        (some (.errorString "pg: no rows in result set"))
        rfl rfl (Or.inr rfl) rfl (Or.inr rfl)).2
        (.obj [("enabled", .bool false), ("maps", .arr [])])
        (.obj [("enabled", .bool false), ("secrets", .arr [])])
        {} rfl rfl rfl).2
        {} (.json (.obj [("cm", .num 1)])) (.json (.obj [("cs", .num 2)]))
        (.json (.obj [("cm", .num 1), ("cs", .num 2)])) []
        rfl (by decide) rfl rfl),
    rfl, rfl⟩

/-- C16 (corrected): `getExternalCmCsFromRootJson` lists the external names of the enabled
documents only. For every config-map document and every secret document whose entries are
all non-nil: (1) its first result is the names, in document order, of the config maps with
`External = true` when the config-map document is enabled and the empty list when it is
not, and its second result is the names, in document order, of the secrets with
`External = true` and `ExternalType = KubernetesSecret` when the secret document is enabled
and the empty list when it is not. (2) Every name of the second result is the name of a
secret of the document with `External = true` and `ExternalType = KubernetesSecret`, so a
secret of another `ExternalType` does not put its name there. (3) When
`getConfigMapAndSecretJsonV2` gets past the merges with a nil error, the response holds the
first result in `ExternalCmList` and the second in `ExternalCsList`. -/
theorem getExternalCmCsFromRootJson_lists (KubernetesSecret : String)
    (cmRootJson : ConfigMapRootJson) (csRootJson : ConfigSecretRootJson)
    (hEntries : none ∉ csRootJson.ConfigSecretJson.Secrets) :
    (∃ first second,
      getExternalCmCsFromRootJson KubernetesSecret cmRootJson csRootJson = some (first, second) ∧
      first = (if cmRootJson.ConfigMapJson.Enabled then
          namesWhere (fun cm => cm.External) cmRootJson.ConfigMapJson.Maps else []) ∧
      second = (if csRootJson.ConfigSecretJson.Enabled then
          namesWhere (fun cs => cs.External && cs.ExternalType == KubernetesSecret)
            (csRootJson.ConfigSecretJson.Secrets.filterMap id) else [])) ∧
    (∀ first second,
      getExternalCmCsFromRootJson KubernetesSecret cmRootJson csRootJson = some (first, second) →
      ∀ name ∈ second, ∃ cs, some cs ∈ csRootJson.ConfigSecretJson.Secrets ∧
        cs.Name = name ∧ cs.External = true ∧ cs.ExternalType = KubernetesSecret) ∧
    (∀ {σ : Type} (mergeUtil : MergeUtil) (c : ConfigSecretDeps σ)
        (request : GetMergedCmAndCsJsonV2Request) (f : FetchedConfig)
        (resp : MergedCmAndCsJsonV2Response) (w : σ) (r : MergedCmAndCsJsonV2Response),
      (mergeAndResolve mergeUtil c request f resp w).result = .val (r, none) →
      ∃ configMapJson secretDataJson configResponse secretResponse,
        c.ConfigMapMerge f.configMapJsonApp f.configMapJsonEnv = .ok configMapJson ∧
        c.ConfigSecretMergeForCDStages f.secretDataJsonApp f.secretDataJsonEnv
          request.ChartVersion = .ok secretDataJson ∧
        (if configMapJson.nonEmpty then Unmarshal c.decodeConfigMapJson configMapJson
          else .ok {}) = .ok configResponse ∧
        (if configMapJson.nonEmpty then Unmarshal c.decodeConfigSecretJson secretDataJson
          else .ok {}) = .ok secretResponse ∧
        getExternalCmCsFromRootJson c.KubernetesSecret { ConfigMapJson := configResponse }
            { ConfigSecretJson := secretResponse }
          = some (r.ExternalCmList, r.ExternalCsList)) := by
  have hchar : getExternalCmCsFromRootJson KubernetesSecret cmRootJson csRootJson
      = if csRootJson.ConfigSecretJson.Enabled = true
            ∧ none ∈ csRootJson.ConfigSecretJson.Secrets then none
        else some
          ((if cmRootJson.ConfigMapJson.Enabled then
              namesWhere (fun cm => cm.External) cmRootJson.ConfigMapJson.Maps else []),
           (if csRootJson.ConfigSecretJson.Enabled then
              namesWhere (fun cs => cs.External && cs.ExternalType == KubernetesSecret)
                (csRootJson.ConfigSecretJson.Secrets.filterMap id) else [])) := by
    have key := foldlM_external_names
      (fun cs => cs.External && cs.ExternalType == KubernetesSecret)
      csRootJson.ConfigSecretJson.Secrets []
    unfold getExternalCmCsFromRootJson
    simp only [foldl_external_names, List.nil_append]
    by_cases hen : csRootJson.ConfigSecretJson.Enabled = true
    · simp only [hen, if_true, true_and]
      by_cases hn : none ∈ csRootJson.ConfigSecretJson.Secrets
      · simp only [hn, if_true] at key ⊢
        generalize hfold : (List.foldlM _ [] csRootJson.ConfigSecretJson.Secrets
          : Option (List String)) = res
        have hres : res = none := by rw [← hfold]; exact key
        rw [hres]
      · simp only [hn, if_false, List.nil_append] at key ⊢
        generalize hfold : (List.foldlM _ [] csRootJson.ConfigSecretJson.Secrets
          : Option (List String)) = res
        have hres : res = some
            (namesWhere (fun cs => cs.External && cs.ExternalType == KubernetesSecret)
              (csRootJson.ConfigSecretJson.Secrets.filterMap id)) := by
          rw [← hfold]; exact key
        rw [hres]
    · simp [hen]
  have h : ¬ (csRootJson.ConfigSecretJson.Enabled = true
      ∧ none ∈ csRootJson.ConfigSecretJson.Secrets) := fun hc => hEntries hc.2
  refine ⟨?_, ?_, ?_⟩
  · rw [hchar]
    simp only [h, if_false]
    exact ⟨_, _, rfl, rfl, rfl⟩
  · intro first second hsome
    rw [hchar] at hsome
    · simp only [h, if_false, Option.some.injEq, Prod.mk.injEq] at hsome
      obtain ⟨h1, h2⟩ := hsome
      intro name hmem
      rw [← h2] at hmem
      by_cases hen : csRootJson.ConfigSecretJson.Enabled = true
      · simp only [hen, if_true, namesWhere, List.mem_map, List.mem_filter,
          List.mem_filterMap, id] at hmem
        obtain ⟨cs, ⟨⟨o, ho, hoo⟩, htest⟩, hname⟩ := hmem
        subst hoo
        simp only [Bool.and_eq_true, beq_iff_eq] at htest
        exact ⟨cs, ho, hname, htest.1, htest.2⟩
      · simp [hen] at hmem
  · intro σ mergeUtil c request f resp w r
    unfold mergeAndResolve
    simp only [M.bind_def, M.pure_def]
    rcases h1 : c.ConfigMapMerge f.configMapJsonApp f.configMapJsonEnv with e1 | configMapJson
    · simp [M.bind, M.call, M.pure, h1]
    rcases h2 : c.ConfigSecretMergeForCDStages f.secretDataJsonApp f.secretDataJsonEnv
      request.ChartVersion with e2 | secretDataJson
    · simp [M.bind, M.call, M.pure, h1, h2]
    rcases h3 : (if configMapJson.nonEmpty then Unmarshal c.decodeConfigMapJson configMapJson
        else (.ok {} : Except Error ConfigMapJson)) with e3 | configResponse
    · simp [M.bind, M.call, M.pure, h1, h2, h3]
    rcases h4 : (if configMapJson.nonEmpty then Unmarshal c.decodeConfigSecretJson secretDataJson
        else (.ok {} : Except Error ConfigSecretJson)) with e4 | secretResponse
    · simp [M.bind, M.call, M.pure, h1, h2, h3, h4]
    rcases hA : f.configMapA with _ | configMapA
    · simp [M.bind, M.call, M.pure, M.panic, h1, h2, h3, h4, hA]
    rcases hE : f.configMapE with _ | configMapE
    · simp [M.bind, M.call, M.pure, M.panic, h1, h2, h3, h4, hA, hE]
    rcases hH : f.configMapHistory with _ | configMapHistory
    · simp [M.bind, M.call, M.pure, M.panic, h1, h2, h3, h4, hA, hE, hH]
    rcases hS : f.secretHistory with _ | secretHistory
    · simp [M.bind, M.call, M.pure, M.panic, h1, h2, h3, h4, hA, hE, hH, hS]
    rcases h5 : c.ResolveCMCSTrigger request.DeploymentWithConfig request.Scope configMapA.Id
      configMapE.Id { ConfigMapJson := configResponse } { ConfigSecretJson := secretResponse }
      configMapHistory.Id secretHistory.Id w with ⟨r5, w5⟩
    rcases r5 with e5 | ⟨resolvedCM, resolvedCS⟩
    · simp [M.bind, M.call, M.pure, M.panic, h1, h2, h3, h4, hA, hE, hH, hS, h5]
    rcases h6 : mergeUtil.JsonPatch resolvedCM resolvedCS with e6 | mergedJson
    · simp [M.bind, M.call, M.pure, M.panic, h1, h2, h3, h4, hA, hE, hH, hS, h5, h6]
    rcases h7 : getExternalCmCsFromRootJson c.KubernetesSecret
      { ConfigMapJson := configResponse } { ConfigSecretJson := secretResponse }
      with _ | ⟨first, second⟩
    · simp [M.bind, M.call, M.pure, M.panic, h1, h2, h3, h4, hA, hE, hH, hS, h5, h6, h7]
    · simp only [M.bind, M.call, M.pure, M.panic, h1, h2, h3, h4, hA, hE, hH, hS, h5, h6, h7]
      intro hr
      simp only [Res.val.injEq, Prod.mk.injEq, and_true] at hr
      subst hr
      exact ⟨configMapJson, secretDataJson, configResponse, secretResponse, rfl, rfl, h3, h4,
        h7⟩

/-- Witness for C16: the sample documents give `app-config` and `shared-config`, and
`k8s-secret` without `vault-secret`. -/
theorem getExternalCmCsFromRootJson_lists_witness :
    getExternalCmCsFromRootJson "KubernetesSecret" sampleConfigMapRoot sampleSecretRoot
      = some (["app-config", "shared-config"], ["k8s-secret"]) ∧
    ["app-config", "shared-config"]
      = namesWhere (fun cm => cm.External) sampleConfigMapRoot.ConfigMapJson.Maps ∧
    "vault-secret" ∉ ["k8s-secret"] :=
  ⟨rfl,
    by
      obtain ⟨first, second, hres, hfirst, -⟩ :=
        (getExternalCmCsFromRootJson_lists "KubernetesSecret" sampleConfigMapRoot
          sampleSecretRoot (by decide)).1
      have hval : getExternalCmCsFromRootJson "KubernetesSecret" sampleConfigMapRoot
          sampleSecretRoot = some (["app-config", "shared-config"], ["k8s-secret"]) := rfl
      rw [hval] at hres
      cases hres
      simpa [sampleConfigMapRoot] using hfirst,
    by decide⟩

/-- Counterexample for C16 as stated: a config-map document that is not enabled lists the
external config map `app-config`, and the first result is empty. -/
theorem getExternalCmCsFromRootJson_disabled_counterexample :
    namesWhere (fun cm => cm.External) disabledConfigMapRoot.ConfigMapJson.Maps
      = ["app-config"] ∧
    getExternalCmCsFromRootJson "KubernetesSecret" disabledConfigMapRoot {} = some ([], []) :=
  ⟨rfl, rfl⟩

/-- A successful run of the hash stamping of one kind. -/
theorem updateHashToMergedValues_ok {σ : Type} (k : LiveDeps σ) (doc doc' : Json)
    (path : String) (data : GoMap DataEntry) (bytes : Bytes)
    (hm : k.Marshal data = .ok bytes)
    (hp : (Split path '.').all plainName = true)
    (hs : doc.setPath (Split path '.') (.str (hexLower (k.Sum256 bytes))) = some doc') :
    updateHashToMergedValues k (.json doc) path data = (.json doc', none) := by
  simp [updateHashToMergedValues, sjsonSet, hm, hp, hs]

/-- C18: hash stamping. (1) When the data map marshals to `bytes`, `updateHashToMergedValues`
on a document and a path of plain member names that runs through objects returns a document
and no error; the document holds, under the path, the string of the lowercase hexadecimal
digits of `Sum256 bytes`, two for each byte, which `gjson.Get` reads back; and it holds under
every path that leaves the given one what the input held. (2) When the cluster answers both
fetches, `updatedExternalCmCsHashForTrigger` returns a document that holds the hash of the
config-map data under `ConfigHashPathKey`, the hash of the secret data under
`SecretHashPathKey`, and under every path that leaves both what the input held. (3) The
hash is a function of the data: config maps that agree on `Data` and `BinaryData` under every
name stamp the same document, whatever else differs. -/
theorem updateHashToMergedValues_stamps {σ : Type} (k : LiveDeps σ) :
    (∀ (doc : Json) (path : String) (data : GoMap DataEntry) (bytes : Bytes),
      k.Marshal data = .ok bytes →
      (Split path '.').all plainName = true →
      (doc.setPath (Split path '.') .null).isSome = true →
      ∃ doc', updateHashToMergedValues k (.json doc) path data = (.json doc', none) ∧
        doc'.getPath (Split path '.') = some (.str (hexLower (k.Sum256 bytes))) ∧
        gjsonGet k (.json doc') path = some (.str (hexLower (k.Sum256 bytes))) ∧
        (hexLower (k.Sum256 bytes)).length = 2 * (k.Sum256 bytes).length ∧
        (∀ ch ∈ (hexLower (k.Sum256 bytes)).data, ch ∈ "0123456789abcdef".data) ∧
        ∀ other, ¬ Split path '.' <+: other → ¬ other <+: Split path '.' →
          doc'.getPath other = doc.getPath other) ∧
    (∀ (clusterId : Int) (ns : String) (doc : Json) (externalCmList externalCsList : List String)
        (w w1 w2 : σ) (configMaps : GoMap ConfigMap) (secrets : GoMap Secret)
        (cmBytes csBytes : Bytes),
      externalCmList ≠ [] → externalCsList ≠ [] →
      k.GetDataFromConfigMaps
        { ClusterId := clusterId, Namespace := ns, ExternalCmList := externalCmList } w
        = (.ok (some configMaps), w1) →
      k.GetDataFromSecrets
        { ClusterId := clusterId, Namespace := ns, ExternalCsList := externalCsList } w1
        = (.ok (some secrets), w2) →
      k.Marshal (getConfigMapsData configMaps) = .ok cmBytes →
      k.Marshal (getSecretsData secrets) = .ok csBytes →
      (Split k.ConfigHashPathKey '.').all plainName = true →
      (Split k.SecretHashPathKey '.').all plainName = true →
      ¬ Split k.ConfigHashPathKey '.' <+: Split k.SecretHashPathKey '.' →
      ¬ Split k.SecretHashPathKey '.' <+: Split k.ConfigHashPathKey '.' →
      (doc.setPath (Split k.ConfigHashPathKey '.') .null).isSome = true →
      (doc.setPath (Split k.SecretHashPathKey '.') .null).isSome = true →
      ∃ doc',
        (updatedExternalCmCsHashForTrigger k clusterId ns (.json doc) externalCmList
          externalCsList w).result = .val (.json doc', none) ∧
        doc'.getPath (Split k.ConfigHashPathKey '.')
          = some (.str (hexLower (k.Sum256 cmBytes))) ∧
        doc'.getPath (Split k.SecretHashPathKey '.')
          = some (.str (hexLower (k.Sum256 csBytes))) ∧
        ∀ other, ¬ Split k.ConfigHashPathKey '.' <+: other →
          ¬ other <+: Split k.ConfigHashPathKey '.' →
          ¬ Split k.SecretHashPathKey '.' <+: other →
          ¬ other <+: Split k.SecretHashPathKey '.' →
          doc'.getPath other = doc.getPath other) ∧
    (∀ (merged : Text) (path : String) (configMaps configMaps' : GoMap ConfigMap),
      (∀ name, (configMaps name).map (fun cm => (cm.Data, cm.BinaryData))
        = (configMaps' name).map (fun cm => (cm.Data, cm.BinaryData))) →
      updateHashToMergedValues k merged path (getConfigMapsData configMaps)
        = updateHashToMergedValues k merged path (getConfigMapsData configMaps')) := by
  have hone : ∀ (doc : Json) (path : String) (data : GoMap DataEntry) (bytes : Bytes),
      k.Marshal data = .ok bytes →
      (Split path '.').all plainName = true →
      (doc.setPath (Split path '.') .null).isSome = true →
      ∃ doc', doc.setPath (Split path '.') (.str (hexLower (k.Sum256 bytes))) = some doc' ∧
        updateHashToMergedValues k (.json doc) path data = (.json doc', none) := by
    intro doc path data bytes hm hp hs
    rw [Json.setPath_isSome_congr .null (.str (hexLower (k.Sum256 bytes)))] at hs
    rcases hset : doc.setPath (Split path '.') (.str (hexLower (k.Sum256 bytes))) with _ | doc'
    · simp [hset] at hs
    · exact ⟨doc', rfl, updateHashToMergedValues_ok k doc doc' path data bytes hm hp hset⟩
  refine ⟨?_, ?_, ?_⟩
  · intro doc path data bytes hm hp hs
    obtain ⟨doc', hset, hrun⟩ := hone doc path data bytes hm hp hs
    have hget := Json.getPath_setPath_self _ _ _ _ hset
    refine ⟨doc', hrun, hget, ?_, (hexLower_spec _).1, (hexLower_spec _).2, ?_⟩
    · simp [gjsonGet, hp, hget]
    · intro other h1 h2
      exact Json.getPath_setPath_other _ _ _ _ _ hset h1 h2
  · intro clusterId ns doc externalCmList externalCsList w w1 w2 configMaps secrets cmBytes
      csBytes hcm hcs hfetch1 hfetch2 hm1 hm2 hp1 hp2 hd1 hd2 hs1 hs2
    obtain ⟨doc1, hset1, hrun1⟩ := hone doc _ _ cmBytes hm1 hp1 hs1
    have hs2' : (doc1.setPath (Split k.SecretHashPathKey '.') .null).isSome = true :=
      Json.setPath_isSome_after _ _ _ _ _ _ hset1 hd1 hd2 hs2
    obtain ⟨doc2, hset2, hrun2⟩ := hone doc1 _ _ csBytes hm2 hp2 hs2'
    have hlen1 : externalCmList.length > 0 := List.length_pos.mpr hcm
    have hlen2 : externalCsList.length > 0 := List.length_pos.mpr hcs
    refine ⟨doc2, ?_, ?_, Json.getPath_setPath_self _ _ _ _ hset2, ?_⟩
    · simp [updatedExternalCmCsHashForTrigger, stampConfigMapHash, stampSecretHash,
        M.bind_def, M.pure_def, M.bind, M.call, M.pure, hlen1, hlen2, hfetch1, hfetch2, hrun1,
        hrun2]
    · rw [Json.getPath_setPath_other _ _ _ _ _ hset2 hd2 hd1]
      exact Json.getPath_setPath_self _ _ _ _ hset1
    · intro other h1 h2 h3 h4
      rw [Json.getPath_setPath_other _ _ _ _ _ hset2 h3 h4,
        Json.getPath_setPath_other _ _ _ _ _ hset1 h1 h2]
  · intro merged path configMaps configMaps' h
    have : getConfigMapsData configMaps = getConfigMapsData configMaps' := by
      funext name
      have hn := h name
      simp only [getConfigMapsData]
      rcases h1 : configMaps name with _ | a <;> rcases h2 : configMaps' name with _ | b <;>
        simp [h1, h2] at hn ⊢
      exact hn
    rw [this]

/-- Witness for C18: over the sample cluster the release override gets the hash `02d0ab` of
the config-map data and the hash `02d6ab` of the secret data, each under its own path, and
keeps its member `image`. -/
theorem updateHashToMergedValues_stamps_witness :
    ∃ doc',
      (updatedExternalCmCsHashForTrigger (sampleLive 7) 1 "demo" sampleRelease ["app-config"]
        ["k8s-secret"] []).result = .val (.json doc', none) ∧
      doc'.getPath ["devtronInternal", "containerSpecs", "ConfigHash"]
        = some (.str "02d0ab") ∧
      doc'.getPath ["devtronInternal", "containerSpecs", "SecretHash"]
        = some (.str "02d6ab") ∧
      doc'.getPath ["image"] = some (.str "repo/app") := by
  obtain ⟨doc', h1, h2, h3, h4⟩ :=
    (updateHashToMergedValues_stamps (sampleLive 7)).2.1 1 "demo"
      (.obj [("image", .str "repo/app"), ("maxSurge", .num 2)]) ["app-config"] ["k8s-secret"]
      [] [] []
      (fun name => if name ∈ ["app-config"] then some { Data := [("LOG_LEVEL", "info")] }
        else none)
      (fun name => if name ∈ ["k8s-secret"] then some { StringData := [("token", "t0p")] }
        else none)
      [99, 109] [99, 115] (by decide) (by decide) rfl rfl rfl rfl (by decide) (by decide)
      (by decide) (by decide) (by decide) (by decide)
  exact ⟨doc', h1, h2, h3, (h4 ["image"] (by decide) (by decide) (by decide) (by decide)).trans rfl⟩

section
variable {σ : Type}

/-- After `updatedExternalCmCsHashForTrigger` the block goes on to the autoscaling check with
the merged values that method returned, whether it returned an error or not. -/
theorem valuesForNewOverride_after_hash_step (deps : Deps σ)
    (overrideRequest : ValuesOverrideRequest)
    (envOverride : EnvConfigOverride) (pipeline : Pipeline) (artifact : CiArtifact)
    (pipelineOverride : PipelineOverride) (strategy : Option PipelineStrategy)
    (releaseOverrideJson : Text) (valuesOverrideResponse : ValuesOverrideResponse)
    (w w1 w2 w3 : σ) (chart : Chart) (environment : Environment)
    (response : MergedCmAndCsJsonV2Response) (configErr : Option Error)
    (labels : Except Error (Option Text)) (mergedValues : Text) (mergeErr : Option Error)
    (stamped : Text) (hashErr : Option Error)
    (hChart : envOverride.Chart = some chart)
    (hEnv : envOverride.Environment = some environment)
    (hv : environment.IsVirtualEnvironment = false)
    (hcm : deps.getConfigMapAndSecretJsonV2 overrideRequest envOverride chart.ChartVersion w
      = (some (response, configErr), w1))
    (hlabels : deps.GetAppLabelsForDeployment overrideRequest.AppId overrideRequest.AppName
      overrideRequest.EnvName w1 = (labels, w2))
    (hmerge : mergeOverrideValues deps.mergeUtil envOverride releaseOverrideJson
      (keptResponse response configErr).MergedJson (labelBytes labels) strategy
      = some (mergedValues, mergeErr))
    (hhash : deps.updatedExternalCmCsHashForTrigger overrideRequest.ClusterId
      envOverride.Namespace mergedValues (keptResponse response configErr).ExternalCmList
      (keptResponse response configErr).ExternalCsList w2 = (some (stamped, hashErr), w3)) :
    ∃ rest,
      (valuesForNewOverride deps overrideRequest envOverride pipeline artifact
        pipelineOverride strategy releaseOverrideJson valuesOverrideResponse w).log
      = [Event.getConfigMapAndSecretJsonV2,
          Event.GetAppLabelsForDeployment overrideRequest.AppId,
          Event.mergeOverrideValues,
          Event.updatedExternalCmCsHashForTrigger mergedValues,
          Event.autoscalingCheckBeforeTrigger stamped] ++ rest := by
  unfold valuesForNewOverride
  rw [hChart]
  simp only [M.bind_def, M.pure_def]
  rcases labels with e | bytes <;> rcases configErr with _ | ce <;>
    simp only [labelBytes, keptResponse] at hmerge hhash
  all_goals
    simp only [M.bind_log, M.step, M.call, M.emit, M.pure, hcm, hlabels, hmerge, hEnv,
      hv, hhash, List.cons_append, List.nil_append, List.append_assoc, Bool.not_false,
      Bool.false_eq_true, if_false, if_true]
    split <;> exact ⟨_, rfl⟩

/-- The run of `updatedExternalCmCsHashForTrigger` when the fetch of the config maps
fails. -/
theorem updatedExternalCmCsHashForTrigger_configMaps_error (k : LiveDeps σ) (clusterId : Int)
    (ns : String) (merged : Text) (externalCmList externalCsList : List String) (w w1 : σ)
    (err : Error) (hne : externalCmList ≠ [])
    (hfetch : k.GetDataFromConfigMaps
      { ClusterId := clusterId, Namespace := ns, ExternalCmList := externalCmList } w
      = (.error err, w1)) :
    updatedExternalCmCsHashForTrigger k clusterId ns merged externalCmList externalCsList w
      = ⟨.val (merged, some (k.ParseK8sClientErrorToApiError err)), w1,
          [Event.GetDataFromConfigMaps externalCmList (some err)]⟩ := by
  have hlen : externalCmList.length > 0 := List.length_pos.mpr hne
  simp [updatedExternalCmCsHashForTrigger, stampConfigMapHash, M.bind_def, M.pure_def, M.bind,
    M.call, M.pure, hlen, hfetch, errorOf]

/-- The run of `updatedExternalCmCsHashForTrigger` when the fetch of the secrets fails. -/
theorem updatedExternalCmCsHashForTrigger_secrets_error (k : LiveDeps σ) (clusterId : Int)
    (ns : String) (merged merged1 : Text) (externalCmList externalCsList : List String)
    (w w1 w2 : σ) (log1 : List Event) (err : Error) (hne : externalCsList ≠ [])
    (hstamp : stampConfigMapHash k clusterId ns merged externalCmList w
      = ⟨.val (.ok merged1), w1, log1⟩)
    (hfetch : k.GetDataFromSecrets
      { ClusterId := clusterId, Namespace := ns, ExternalCsList := externalCsList } w1
      = (.error err, w2)) :
    updatedExternalCmCsHashForTrigger k clusterId ns merged externalCmList externalCsList w
      = ⟨.val (merged1, some (k.ParseK8sClientErrorToApiError err)), w2,
          log1 ++ [Event.GetDataFromSecrets externalCsList (some err)]⟩ := by
  have hlen : externalCsList.length > 0 := List.length_pos.mpr hne
  simp [updatedExternalCmCsHashForTrigger, stampSecretHash, M.bind_def, M.pure_def, M.bind,
    M.call, M.pure, hlen, hstamp, hfetch, errorOf]

end
/-- C19: external hash stamping is non-blocking. (1) When `GetDataFromConfigMaps` fails,
`updatedExternalCmCsHashForTrigger` returns its input unchanged with the parsed error, and
does not ask for the secrets. (2) When `GetDataFromSecrets` fails, it returns the merged
values it had after the config-map stage with the parsed error. (3) In the block of the
orchestrator, whatever merged values and error the method returns, the next step is
`autoscalingCheckBeforeTrigger` on those merged values. (4) The error is never the error of
a trigger: every trigger runs exactly as if the method had answered the same merged values
and a nil error. -/
theorem updatedExternalCmCsHashForTrigger_fetch_error_not_fatal {σ : Type} (deps : Deps σ)
    (c : ConfigSecretDeps σ) (k : LiveDeps σ) :
    (∀ (clusterId : Int) (ns : String) (merged : Text)
        (externalCmList externalCsList : List String) (w w1 : σ) (err : Error),
      externalCmList ≠ [] →
      k.GetDataFromConfigMaps
        { ClusterId := clusterId, Namespace := ns, ExternalCmList := externalCmList } w
        = (.error err, w1) →
      updatedExternalCmCsHashForTrigger k clusterId ns merged externalCmList externalCsList w
        = ⟨.val (merged, some (k.ParseK8sClientErrorToApiError err)), w1,
            [Event.GetDataFromConfigMaps externalCmList (some err)]⟩) ∧
    (∀ (clusterId : Int) (ns : String) (merged merged1 : Text)
        (externalCmList externalCsList : List String) (w w1 w2 : σ) (log1 : List Event)
        (err : Error),
      externalCsList ≠ [] →
      stampConfigMapHash k clusterId ns merged externalCmList w
        = ⟨.val (.ok merged1), w1, log1⟩ →
      k.GetDataFromSecrets
        { ClusterId := clusterId, Namespace := ns, ExternalCsList := externalCsList } w1
        = (.error err, w2) →
      updatedExternalCmCsHashForTrigger k clusterId ns merged externalCmList externalCsList w
        = ⟨.val (merged1, some (k.ParseK8sClientErrorToApiError err)), w2,
            log1 ++ [Event.GetDataFromSecrets externalCsList (some err)]⟩) ∧
    (∀ (overrideRequest : ValuesOverrideRequest)
        (envOverride : EnvConfigOverride) (pipeline : Pipeline) (artifact : CiArtifact)
        (pipelineOverride : PipelineOverride) (strategy : Option PipelineStrategy)
        (releaseOverrideJson : Text) (valuesOverrideResponse : ValuesOverrideResponse)
        (w w1 w2 : σ) (chart : Chart) (environment : Environment)
        (response : MergedCmAndCsJsonV2Response) (configErr : Option Error)
        (labels : Except Error (Option Text)) (mergedValues : Text)
        (mergeErr : Option Error) (stamped : Text) (hashErr : Option Error),
      envOverride.Chart = some chart →
      envOverride.Environment = some environment →
      environment.IsVirtualEnvironment = false →
      (serviceDeps deps c k).getConfigMapAndSecretJsonV2 overrideRequest envOverride
        chart.ChartVersion w = (some (response, configErr), w1) →
      deps.GetAppLabelsForDeployment overrideRequest.AppId overrideRequest.AppName
        overrideRequest.EnvName w1 = (labels, w2) →
      mergeOverrideValues deps.mergeUtil envOverride releaseOverrideJson
        (keptResponse response configErr).MergedJson (labelBytes labels) strategy
        = some (mergedValues, mergeErr) →
      (updatedExternalCmCsHashForTrigger k overrideRequest.ClusterId envOverride.Namespace
        mergedValues (keptResponse response configErr).ExternalCmList
        (keptResponse response configErr).ExternalCsList w2).result
        = .val (stamped, hashErr) →
      ∃ rest,
        (valuesForNewOverride (serviceDeps deps c k) overrideRequest envOverride pipeline
          artifact pipelineOverride strategy releaseOverrideJson valuesOverrideResponse w).log
        = [Event.getConfigMapAndSecretJsonV2,
            Event.GetAppLabelsForDeployment overrideRequest.AppId,
            Event.mergeOverrideValues,
            Event.updatedExternalCmCsHashForTrigger mergedValues,
            Event.autoscalingCheckBeforeTrigger stamped] ++ rest) ∧
    (∀ overrideRequest triggeredAt w,
      GetValuesOverrideForTrigger (serviceDeps deps c k) overrideRequest triggeredAt w
        = GetValuesOverrideForTrigger (withoutHashError (serviceDeps deps c k))
            overrideRequest triggeredAt w) :=
  ⟨fun clusterId ns merged externalCmList externalCsList w w1 err hne hfetch =>
      updatedExternalCmCsHashForTrigger_configMaps_error k clusterId ns merged externalCmList
        externalCsList w w1 err hne hfetch,
    fun clusterId ns merged merged1 externalCmList externalCsList w w1 w2 log1 err hne hstamp
        hfetch =>
      updatedExternalCmCsHashForTrigger_secrets_error k clusterId ns merged merged1
        externalCmList externalCsList w w1 w2 log1 err hne hstamp hfetch,
    fun overrideRequest envOverride pipeline artifact pipelineOverride strategy
        releaseOverrideJson valuesOverrideResponse w w1 w2 chart environment response
        configErr labels mergedValues mergeErr stamped hashErr hChart hEnv hv hcm hlabels
        hmerge hhash =>
      valuesForNewOverride_after_hash_step (serviceDeps deps c k) overrideRequest envOverride
        pipeline artifact pipelineOverride strategy releaseOverrideJson valuesOverrideResponse
        w w1 w2
        (updatedExternalCmCsHashForTrigger k overrideRequest.ClusterId envOverride.Namespace
          mergedValues (keptResponse response configErr).ExternalCmList
          (keptResponse response configErr).ExternalCsList w2).world
        chart environment response configErr labels mergedValues mergeErr stamped
        hashErr hChart hEnv hv hcm hlabels hmerge
        (by
          show M.asStep _ w2 = _
          simp only [M.asStep, hhash]),
    fun overrideRequest triggeredAt w =>
      (GetValuesOverrideForTrigger_withoutHashError (serviceDeps deps c k) overrideRequest
        triggeredAt w).symm⟩

/-- Witness for C19: with a cluster that cannot be reached for config maps, the method
returns the release override as it got it and the parsed error; the sample trigger over that
cluster goes on to the autoscaling check and returns a nil error. -/
theorem updatedExternalCmCsHashForTrigger_fetch_error_not_fatal_witness :
    updatedExternalCmCsHashForTrigger unreachableLive 1 "demo" sampleRelease ["app-config"]
        ["k8s-secret"] []
      = ⟨.val (sampleRelease,
            some (.api { HttpStatusCode := 500, UserMessage := "connection refused",
                         InternalMessage := "connection refused" })), [],
          [Event.GetDataFromConfigMaps ["app-config"]
            (some (.errorString "connection refused"))]⟩ ∧
    (∃ resp,
      (GetValuesOverrideForTrigger (serviceDeps memoryDeps sampleResolver unreachableLive)
        sampleRequest 100 []).result = .val (some resp, none)) ∧
    (GetValuesOverrideForTrigger (serviceDeps memoryDeps sampleResolver unreachableLive)
      sampleRequest 100 []).log.any
        (fun ev => ev matches Event.autoscalingCheckBeforeTrigger _) = true :=
  ⟨(updatedExternalCmCsHashForTrigger_fetch_error_not_fatal memoryDeps sampleResolver
      unreachableLive).1 1 "demo" sampleRelease ["app-config"] ["k8s-secret"] [] []
      (.errorString "connection refused") (by decide) rfl,
    ⟨_, rfl⟩, rfl⟩

/-- The clamp of `FetchRequiredReplicaCount`, case by case. -/
theorem FetchRequiredReplicaCount_clamp (c hi lo : Int) (h : lo ≤ hi) :
    (lo ≤ c → c ≤ hi → FetchRequiredReplicaCount c hi lo = c) ∧
    (c > hi → FetchRequiredReplicaCount c hi lo = hi) ∧
    (c < lo → FetchRequiredReplicaCount c hi lo = lo) ∧
    lo ≤ FetchRequiredReplicaCount c hi lo ∧ FetchRequiredReplicaCount c hi lo ≤ hi := by
  unfold FetchRequiredReplicaCount
  refine ⟨?_, ?_, ?_, ?_, ?_⟩
  · intro h1 h2
    rw [if_neg (by omega), if_neg (by omega)]
  · intro h1
    rw [if_pos h1]
  · intro h1
    rw [if_neg (by omega), if_pos h1]
  · split
    · exact h
    · split <;> omega
  · split
    · exact Int.le_refl _
    · split <;> omega

section
variable {σ : Type}

/-- What holds of the value of the first step carries over to the result of a sequence. -/
theorem M.bind_result {α β : Type} (Q : α → Prop) (P : Res β → Prop) (m : M σ α)
    (f : α → M σ β) (w : σ) (hp : P .panic) (ho : P .outOfFuel)
    (hm : ∀ a, (m w).result = .val a → Q a)
    (hf : ∀ a, Q a → P (f a (m w).world).result) :
    P (M.bind m f w).result := by
  unfold M.bind
  rcases hr : m w with ⟨r, w1, l⟩
  rcases r with a | _ | _
  · have hq := hm a (by rw [hr])
    have := hf a hq
    rw [hr] at this
    exact this
  · exact hp
  · exact ho

/-- A trigger that returns a nil error returns a response. -/
theorem valuesForNewOverride_response (deps : Deps σ)
    (overrideRequest : ValuesOverrideRequest)
    (envOverride : EnvConfigOverride) (pipeline : Pipeline) (artifact : CiArtifact)
    (pipelineOverride : PipelineOverride) (strategy : Option PipelineStrategy)
    (releaseOverrideJson : Text) (valuesOverrideResponse : ValuesOverrideResponse) (w : σ) :
    ∀ x, (valuesForNewOverride deps overrideRequest envOverride pipeline artifact
        pipelineOverride strategy releaseOverrideJson valuesOverrideResponse w).result
      = .val (x, none) → x.isSome = true := by
  unfold valuesForNewOverride
  rcases envOverride.Chart with _ | chart
  · intro x h; simp [M.panic] at h
  simp only [M.bind_def, M.pure_def]
  refine M.bind_result (fun _ => True) (fun (res : Res (Option ValuesOverrideResponse × Option Error)) =>
      ∀ x, res = .val (x, none) → x.isSome = true)
    _ _ w (by simp) (by simp) (fun _ _ => trivial) (fun r1 _ => ?_)
  refine M.bind_result (fun _ => True) (fun (res : Res (Option ValuesOverrideResponse × Option Error)) =>
      ∀ x, res = .val (x, none) → x.isSome = true)
    _ _ _ (by simp) (by simp) (fun _ _ => trivial) (fun r2 _ => ?_)
  refine M.bind_result (fun _ => True) (fun (res : Res (Option ValuesOverrideResponse × Option Error)) =>
      ∀ x, res = .val (x, none) → x.isSome = true)
    _ _ _ (by simp) (by simp) (fun _ _ => trivial) (fun r3 _ => ?_)
  rcases mergeOverrideValues deps.mergeUtil envOverride releaseOverrideJson _ _ strategy
    with _ | ⟨mergedValues, merr⟩
  · intro x h; simp [M.panic] at h
  simp only []
  rcases envOverride.Environment with _ | environment
  · intro x h; simp [M.panic] at h
  simp only []
  refine M.bind_result (fun _ => True) (fun (res : Res (Option ValuesOverrideResponse × Option Error)) =>
      ∀ x, res = .val (x, none) → x.isSome = true)
    _ _ _ (by simp) (by simp) (fun _ _ => trivial) (fun r4 _ => ?_)
  rcases r4 with e | mv
  · intro x h; simp [M.pure] at h
  simp only []
  refine M.bind_result (fun _ => True) (fun (res : Res (Option ValuesOverrideResponse × Option Error)) =>
      ∀ x, res = .val (x, none) → x.isSome = true)
    _ _ _ (by simp) (by simp) (fun _ _ => trivial) (fun r5 _ => ?_)
  rcases r5 with e | mv'
  · intro x h; simp [M.pure] at h
  simp only []
  refine M.bind_result (fun _ => True) (fun (res : Res (Option ValuesOverrideResponse × Option Error)) =>
      ∀ x, res = .val (x, none) → x.isSome = true)
    _ _ _ (by simp) (by simp) (fun _ _ => trivial) (fun r6 _ => ?_)
  rcases r6 with _ | e
  · intro x h
    simp only [M.pure, Res.val.injEq, Prod.mk.injEq] at h
    rw [← h.1]; rfl
  · intro x h; simp [M.pure] at h

/-- A trigger that returns a nil error returns a response. -/
theorem GetValuesOverrideForTrigger_response (deps : Deps σ)
    (overrideRequest : ValuesOverrideRequest) (triggeredAt : Time) (w : σ) :
    ∀ x, (GetValuesOverrideForTrigger deps overrideRequest triggeredAt w).result
      = .val (x, none) → x.isSome = true := by
  unfold GetValuesOverrideForTrigger
  simp only [M.bind_def, M.pure_def]
  generalize deps.ResolveDeploymentTypeAndUpdate overrideRequest = req
  refine M.bind_result (fun _ => True) (fun (res : Res (Option ValuesOverrideResponse × Option Error)) =>
      ∀ x, res = .val (x, none) → x.isSome = true)
    _ _ w (by simp) (by simp) (fun _ _ => trivial) (fun r1 _ => ?_)
  rcases r1 with e | pipeline
  · intro x h; simp [M.pure] at h
  simp only []
  refine M.bind_result (fun _ => True) (fun (res : Res (Option ValuesOverrideResponse × Option Error)) =>
      ∀ x, res = .val (x, none) → x.isSome = true)
    _ _ _ (by simp) (by simp) (fun _ _ => trivial) (fun r2 _ => ?_)
  rcases r2 with e | artifact
  · intro x h; simp [M.pure] at h
  simp only []
  refine M.bind_result (fun _ => True) (fun (res : Res (Option ValuesOverrideResponse × Option Error)) =>
      ∀ x, res = .val (x, none) → x.isSome = true)
    _ _ _ (by simp) (by simp) (fun _ _ => trivial) (fun r3 _ => ?_)
  rcases r3 with ⟨strategy, _ | e⟩
  swap
  · intro x h; simp [M.pure] at h
  simp only []
  refine M.bind_result
    (fun (r : Except (Option ValuesOverrideResponse × Option Error)
          (Option PipelineOverride × Option EnvConfigOverride)) =>
      ∀ early, r = Except.error early → ∃ e, early.2 = some e)
    (fun (res : Res (Option ValuesOverrideResponse × Option Error)) =>
      ∀ x, res = .val (x, none) → x.isSome = true)
    _ _ _ (by simp) (by simp) ?_ (fun r4 h4 => ?_)
  · -- the early returns of resolveEnvOverride carry an error
    unfold resolveEnvOverride setEnvironmentModelInEnvOverride
    simp only [M.bind_def, M.pure_def]
    split
    · refine M.bind_result (fun _ => True)
        (fun (res : Res (Except (Option ValuesOverrideResponse × Option Error)
          (Option PipelineOverride × Option EnvConfigOverride))) =>
          ∀ a, res = .val a → ∀ early, a = Except.error early → ∃ e, early.2 = some e)
        _ _ _ (by simp) (by simp) (fun _ _ => trivial) (fun a _ => ?_)
      rcases a with e | po
      · intro a h early hearly
        simp only [M.pure, Res.val.injEq] at h
        subst h
        simp only [Except.error.injEq] at hearly
        subst hearly
        exact ⟨e, rfl⟩
      simp only []
      refine M.bind_result (fun _ => True)
        (fun (res : Res (Except (Option ValuesOverrideResponse × Option Error)
          (Option PipelineOverride × Option EnvConfigOverride))) =>
          ∀ a, res = .val a → ∀ early, a = Except.error early → ∃ e, early.2 = some e)
        _ _ _ (by simp) (by simp) (fun _ _ => trivial) (fun a _ => ?_)
      rcases a with e | envOverride
      · intro a h early hearly
        simp only [M.pure, Res.val.injEq] at h
        subst h
        simp only [Except.error.injEq] at hearly
        subst hearly
        exact ⟨e, rfl⟩
      simp only []
      refine M.bind_result (fun _ => True)
        (fun (res : Res (Except (Option ValuesOverrideResponse × Option Error)
          (Option PipelineOverride × Option EnvConfigOverride))) =>
          ∀ a, res = .val a → ∀ early, a = Except.error early → ∃ e, early.2 = some e)
        _ _ _ (by simp) (by simp) (fun _ _ => trivial) (fun a _ => ?_)
      rcases a with ⟨envOverride', _ | e⟩
      · intro a h early hearly
        simp only [M.pure, Res.val.injEq] at h
        subst h
        simp at hearly
      · intro a h early hearly
        simp only [M.pure, Res.val.injEq] at h
        subst h
        simp only [Except.error.injEq] at hearly
        subst hearly
        exact ⟨e, rfl⟩
    · refine M.bind_result (fun _ => True)
        (fun (res : Res (Except (Option ValuesOverrideResponse × Option Error)
          (Option PipelineOverride × Option EnvConfigOverride))) =>
          ∀ a, res = .val a → ∀ early, a = Except.error early → ∃ e, early.2 = some e)
        _ _ _ (by simp) (by simp) (fun _ _ => trivial) (fun a _ => ?_)
      rcases a with ⟨envOverride', _ | e⟩
      · intro a h early hearly
        simp only [M.pure, Res.val.injEq] at h
        subst h
        simp at hearly
      · intro a h early hearly
        simp only [M.pure, Res.val.injEq] at h
        subst h
        simp only [Except.error.injEq] at hearly
        subst hearly
        exact ⟨e, rfl⟩
  rcases r4 with early | ⟨po, _ | envOverride⟩
  · obtain ⟨e, he⟩ := h4 early rfl
    intro x h
    simp only [M.pure, Res.val.injEq] at h
    rw [h] at he
    simp at he
  · intro x h; simp [M.panic] at h
  simp only []
  refine M.bind_result
    (fun (r : Except (Option ValuesOverrideResponse × Option Error)
          (ValuesOverrideRequest × Option PipelineOverride)) =>
      ∀ early, r = Except.error early → ∃ e, early.2 = some e)
    (fun (res : Res (Option ValuesOverrideResponse × Option Error)) =>
      ∀ x, res = .val (x, none) → x.isSome = true)
    _ _ _ (by simp) (by simp) ?_ (fun r5 h5 => ?_)
  · split
    · refine M.bind_result (fun _ => True)
        (fun (res : Res (Except (Option ValuesOverrideResponse × Option Error)
          (ValuesOverrideRequest × Option PipelineOverride))) =>
          ∀ a, res = .val a → ∀ early, a = Except.error early → ∃ e, early.2 = some e)
        _ _ _ (by simp) (by simp) (fun _ _ => trivial) (fun a _ => ?_)
      rcases a with ⟨_ | po, _ | e⟩
      · intro a h; simp [M.panic] at h
      · intro a h early hearly
        simp only [M.pure, Res.val.injEq] at h
        subst h
        simp only [Except.error.injEq] at hearly
        subst hearly
        exact ⟨e, rfl⟩
      · intro a h early hearly
        simp only [M.pure, Res.val.injEq] at h
        subst h
        simp at hearly
      · intro a h early hearly
        simp only [M.pure, Res.val.injEq] at h
        subst h
        simp only [Except.error.injEq] at hearly
        subst hearly
        exact ⟨e, rfl⟩
    · intro a h early hearly
      simp only [M.pure, Res.val.injEq] at h
      subst h
      simp at hearly
  rcases r5 with early | ⟨req5, _ | po5⟩
  · obtain ⟨e, he⟩ := h5 early rfl
    intro x h
    simp only [M.pure, Res.val.injEq] at h
    rw [h] at he
    simp at he
  · intro x h; simp [M.panic] at h
  simp only []
  refine M.bind_result (fun _ => True) (fun (res : Res (Option ValuesOverrideResponse × Option Error)) =>
      ∀ x, res = .val (x, none) → x.isSome = true)
    _ _ _ (by simp) (by simp) (fun _ _ => trivial) (fun r6 _ => ?_)
  rcases r6 with ⟨appMetrics, _ | e⟩
  swap
  · intro x h; simp [M.pure] at h
  simp only []
  refine M.bind_result (fun _ => True) (fun (res : Res (Option ValuesOverrideResponse × Option Error)) =>
      ∀ x, res = .val (x, none) → x.isSome = true)
    _ _ _ (by simp) (by simp) (fun _ _ => trivial) (fun r7 _ => ?_)
  rcases r7 with ⟨releaseJson, _ | e⟩
  swap
  · intro x h; simp [M.pure] at h
  simp only []
  split
  · exact valuesForNewOverride_response deps _ _ _ _ _ _ _ _ _
  · intro x h
    simp only [M.pure, Res.val.injEq, Prod.mk.injEq] at h
    rw [← h.1]; rfl

end

section
variable {σ : Type}

/-- How `autoscalingCheckBeforeTrigger` ends after the custom-chart check. -/
theorem autoscalingCheckBeforeTrigger_disabled (k : LiveDeps σ) (appName ns : String)
    (merged : Text) (overrideRequest : ValuesOverrideRequest)
    (templateMap : List (String × Json)) (hpa : HpaResourceRequest) (w : σ)
    (hun : unmarshalMap merged = .ok templateMap)
    (hhpa : k.GetAutoScalingReplicaCount templateMap appName = some hpa)
    (hen : hpa.IsEnable = false) :
    autoscalingCheckBeforeTrigger k appName ns merged overrideRequest w
      = ⟨match customChartCheck k overrideRequest.DeploymentType templateMap merged with
          | none => .panic
          | some r => .val r, w, []⟩ := by
  unfold autoscalingCheckBeforeTrigger hpaCheck
  simp only [hun, hhpa, hen, M.bind_def, M.pure_def, M.bind, M.pure, Bool.false_eq_true,
    if_false, List.append_nil, List.nil_append]
  rcases customChartCheck k overrideRequest.DeploymentType templateMap merged with _ | r
  · rfl
  · rfl

/-- An error of `getK8sHPAResourceManifest` is returned by `autoscalingCheckBeforeTrigger`
with the merged values it was given. -/
theorem autoscalingCheckBeforeTrigger_manifest_error (k : LiveDeps σ) (appName ns : String)
    (merged : Text) (overrideRequest : ValuesOverrideRequest)
    (templateMap : List (String × Json)) (hpa : HpaResourceRequest) (w w1 : σ)
    (manifest : List (String × Json)) (e : Error) (l : List Event)
    (hun : unmarshalMap merged = .ok templateMap)
    (hhpa : k.GetAutoScalingReplicaCount templateMap appName = some hpa)
    (hen : hpa.IsEnable = true)
    (hm : getK8sHPAResourceManifest k overrideRequest.ClusterId ns hpa w
      = ⟨.val (manifest, some e), w1, l⟩) :
    autoscalingCheckBeforeTrigger k appName ns merged overrideRequest w
      = ⟨.val (merged, some e), w1, l⟩ := by
  unfold autoscalingCheckBeforeTrigger hpaCheck
  simp [hun, hhpa, hen, M.bind_def, M.pure_def, M.bind, M.pure, hm]

/-- With an empty manifest the HPA step changes nothing and the custom-chart check
follows. -/
theorem autoscalingCheckBeforeTrigger_manifest_empty (k : LiveDeps σ) (appName ns : String)
    (merged : Text) (overrideRequest : ValuesOverrideRequest)
    (templateMap : List (String × Json)) (hpa : HpaResourceRequest) (w w1 : σ)
    (l : List Event)
    (hun : unmarshalMap merged = .ok templateMap)
    (hhpa : k.GetAutoScalingReplicaCount templateMap appName = some hpa)
    (hen : hpa.IsEnable = true)
    (hm : getK8sHPAResourceManifest k overrideRequest.ClusterId ns hpa w
      = ⟨.val ([], none), w1, l⟩) :
    hpaCheck k appName ns merged overrideRequest templateMap w
      = ⟨.val (.ok (templateMap, merged)), w1, l⟩ ∧
    autoscalingCheckBeforeTrigger k appName ns merged overrideRequest w
      = ⟨match customChartCheck k overrideRequest.DeploymentType templateMap merged with
          | none => .panic
          | some r => .val r, w1, l⟩ := by
  have h1 : hpaCheck k appName ns merged overrideRequest templateMap w
      = ⟨.val (.ok (templateMap, merged)), w1, l⟩ := by
    unfold hpaCheck
    simp [hhpa, hen, M.bind_def, M.pure_def, M.bind, M.pure, hm]
  refine ⟨h1, ?_⟩
  unfold autoscalingCheckBeforeTrigger
  simp only [hun, M.bind_def, M.pure_def, M.bind, h1]
  rcases customChartCheck k overrideRequest.DeploymentType templateMap merged with _ | r
  · simp [M.panic]
  · simp [M.pure]

/-- A manifest that is not empty and has no object under `status` is a panic. -/
theorem autoscalingCheckBeforeTrigger_no_status (k : LiveDeps σ) (appName ns : String)
    (merged : Text) (overrideRequest : ValuesOverrideRequest)
    (templateMap : List (String × Json)) (hpa : HpaResourceRequest) (w w1 : σ)
    (manifest : List (String × Json)) (l : List Event)
    (hun : unmarshalMap merged = .ok templateMap)
    (hhpa : k.GetAutoScalingReplicaCount templateMap appName = some hpa)
    (hen : hpa.IsEnable = true)
    (hm : getK8sHPAResourceManifest k overrideRequest.ClusterId ns hpa w
      = ⟨.val (manifest, none), w1, l⟩)
    (hne : manifest ≠ [])
    (hstatus : ∀ statusMap, Json.lookup "status" manifest ≠ some (.obj statusMap)) :
    autoscalingCheckBeforeTrigger k appName ns merged overrideRequest w = ⟨.panic, w1, l⟩ := by
  have hlen : manifest.length > 0 := List.length_pos.mpr hne
  unfold autoscalingCheckBeforeTrigger hpaCheck
  simp only [hun, hhpa, hen, M.bind_def, M.pure_def, M.bind, hm, if_true, hlen]
  rcases hs : Json.lookup "status" manifest with _ | v
  · simp [M.panic]
  · cases v with
    | obj statusMap => exact absurd hs (hstatus statusMap)
    | null => simp [M.panic]
    | bool _ => simp [M.panic]
    | num _ => simp [M.panic]
    | str _ => simp [M.panic]
    | arr _ => simp [M.panic]

/-- A manifest whose `status` has no `currentReplicas`, or a null one, ends the function with
the merged values it was given and a nil error. -/
theorem autoscalingCheckBeforeTrigger_no_currentReplicas (k : LiveDeps σ)
    (appName ns : String) (merged : Text) (overrideRequest : ValuesOverrideRequest)
    (templateMap : List (String × Json)) (hpa : HpaResourceRequest) (w w1 : σ)
    (manifest statusMap : List (String × Json)) (l : List Event)
    (hun : unmarshalMap merged = .ok templateMap)
    (hhpa : k.GetAutoScalingReplicaCount templateMap appName = some hpa)
    (hen : hpa.IsEnable = true)
    (hm : getK8sHPAResourceManifest k overrideRequest.ClusterId ns hpa w
      = ⟨.val (manifest, none), w1, l⟩)
    (hstatus : Json.lookup "status" manifest = some (.obj statusMap))
    (hcur : Json.lookup "currentReplicas" statusMap = none ∨
      Json.lookup "currentReplicas" statusMap = some .null) :
    autoscalingCheckBeforeTrigger k appName ns merged overrideRequest w
      = ⟨.val (merged, none), w1, l⟩ := by
  have hlen : manifest.length > 0 := by
    rcases manifest with _ | ⟨p, rest⟩
    · simp [Json.lookup] at hstatus
    · simp
  unfold autoscalingCheckBeforeTrigger hpaCheck
  rcases hcur with hcur | hcur <;>
    simp [hun, hhpa, hen, M.bind_def, M.pure_def, M.bind, M.pure, hm, hlen, hstatus, hcur]

/-- A manifest whose `status.currentReplicas` parses to `c` gives the template map with
`replicaCount` set to the clamped count, and the custom-chart check follows on it. -/
theorem autoscalingCheckBeforeTrigger_currentReplicas (k : LiveDeps σ)
    (appName ns : String) (merged : Text) (overrideRequest : ValuesOverrideRequest)
    (templateMap : List (String × Json)) (hpa : HpaResourceRequest) (w w1 : σ)
    (manifest statusMap : List (String × Json)) (l : List Event)
    (currentReplicaVal : Json) (c : Int)
    (hun : unmarshalMap merged = .ok templateMap)
    (hhpa : k.GetAutoScalingReplicaCount templateMap appName = some hpa)
    (hen : hpa.IsEnable = true)
    (hm : getK8sHPAResourceManifest k overrideRequest.ClusterId ns hpa w
      = ⟨.val (manifest, none), w1, l⟩)
    (hstatus : Json.lookup "status" manifest = some (.obj statusMap))
    (hcur : Json.lookup "currentReplicas" statusMap = some currentReplicaVal)
    (hnull : currentReplicaVal ≠ .null)
    (hparse : k.ParseFloatNumber currentReplicaVal = .ok c) :
    autoscalingCheckBeforeTrigger k appName ns merged overrideRequest w
      = ⟨match customChartCheck k overrideRequest.DeploymentType
            (Json.mapSet "replicaCount"
              (.num (FetchRequiredReplicaCount c hpa.ReqMaxReplicas hpa.ReqMinReplicas))
              templateMap)
            (.json (.obj (Json.mapSet "replicaCount"
              (.num (FetchRequiredReplicaCount c hpa.ReqMaxReplicas hpa.ReqMinReplicas))
              templateMap))) with
          | none => .panic
          | some r => .val r, w1, l⟩ := by
  have hlen : manifest.length > 0 := by
    rcases manifest with _ | ⟨p, rest⟩
    · simp [Json.lookup] at hstatus
    · simp
  unfold autoscalingCheckBeforeTrigger hpaCheck
  rcases hcc : customChartCheck k overrideRequest.DeploymentType
      (Json.mapSet "replicaCount"
        (.num (FetchRequiredReplicaCount c hpa.ReqMaxReplicas hpa.ReqMinReplicas))
        templateMap)
      (.json (.obj (Json.mapSet "replicaCount"
        (.num (FetchRequiredReplicaCount c hpa.ReqMaxReplicas hpa.ReqMinReplicas))
        templateMap))) with _ | r <;>
  cases currentReplicaVal <;>
    first
    | exact absurd rfl hnull
    | simp [hun, hhpa, hen, M.bind_def, M.pure_def, M.bind, M.pure, M.panic, hm, hlen,
        hstatus, hcur, hparse, hcc]

/-- The runs of `getK8sHPAResourceManifest`, by what the cluster answers. -/
theorem getK8sHPAResourceManifest_runs (k : LiveDeps σ) (clusterId : Int) (ns : String)
    (hpa : HpaResourceRequest) (w : σ) :
    (∀ version e w1,
      k.GetPreferredVersionForAPIGroup clusterId hpa.Group w = ((version, some e), w1) →
      k.IsNotFoundError (some e) = false →
      getK8sHPAResourceManifest k clusterId ns hpa w
        = ⟨.val ([], some (.api { k.DefaultApiError with
              HttpStatusCode := StatusPreconditionFailed,
              InternalMessage := e.msg,
              UserDetailMessage := "unable to find preferred version for hpa resource" })),
            w1, [Event.GetPreferredVersionForAPIGroup clusterId hpa.Group (some e)]⟩) ∧
    (∀ version err w1,
      k.GetPreferredVersionForAPIGroup clusterId hpa.Group w = ((version, err), w1) →
      k.IsNotFoundError err = true →
      getK8sHPAResourceManifest k clusterId ns hpa w
        = ⟨.val ([], some (.api { k.DefaultApiError with
              HttpStatusCode := StatusPreconditionFailed,
              InternalMessage := "unable to find preferred version for hpa resource",
              UserDetailMessage := "unable to find preferred version for hpa resource" })),
            w1, [Event.GetPreferredVersionForAPIGroup clusterId hpa.Group err]⟩) ∧
    (∀ version w1 resp w2,
      k.GetPreferredVersionForAPIGroup clusterId hpa.Group w = ((version, none), w1) →
      k.IsNotFoundError none = false →
      k.GetResource
        { ClusterId := clusterId, Name := hpa.ResourceName, Namespace := ns,
          Group := hpa.Group, Kind := hpa.Kind, Version := version } w1 = (resp, w2) →
      getK8sHPAResourceManifest k clusterId ns hpa w
        = ⟨.val
            (match resp with
              | .ok manifest => (manifest, none)
              | .error err =>
                if k.IsResourceNotFoundErr err then ([], none)
                else if k.IsBadRequestErr err then
                  ([], some (.api { k.DefaultApiError with
                    HttpStatusCode := StatusPreconditionFailed,
                    InternalMessage := err.msg,
                    UserDetailMessage := err.msg }))
                else if k.IsServerTimeoutErr err then
                  ([], some (.api { k.DefaultApiError with
                    HttpStatusCode := StatusRequestTimeout,
                    InternalMessage := err.msg,
                    UserDetailMessage := "taking longer than expected, please try again later" }))
                else ([], some err)),
            w2,
            [Event.GetPreferredVersionForAPIGroup clusterId hpa.Group none,
              Event.GetResource clusterId hpa.ResourceName (errorOf resp)]⟩) := by
  refine ⟨?_, ?_, ?_⟩
  · intro version e w1 hv hnf
    simp [getK8sHPAResourceManifest, M.bind_def, M.pure_def, M.bind, M.call, M.pure, hv, hnf]
  · intro version err w1 hv hnf
    rcases err with _ | e
    · simp [getK8sHPAResourceManifest, M.bind_def, M.pure_def, M.bind, M.call, M.pure, hv, hnf]
    · simp [getK8sHPAResourceManifest, M.bind_def, M.pure_def, M.bind, M.call, M.pure, hv, hnf]
  · intro version w1 resp w2 hv hnf hr
    rcases resp with err | manifest
    · by_cases h1 : k.IsResourceNotFoundErr err = true
      · simp [getK8sHPAResourceManifest, M.bind_def, M.pure_def, M.bind, M.call, M.pure, hv,
          hnf, hr, h1, errorOf]
      · by_cases h2 : k.IsBadRequestErr err = true
        · simp [getK8sHPAResourceManifest, M.bind_def, M.pure_def, M.bind, M.call, M.pure, hv,
            hnf, hr, h1, h2, errorOf]
        · by_cases h3 : k.IsServerTimeoutErr err = true
          · simp [getK8sHPAResourceManifest, M.bind_def, M.pure_def, M.bind, M.call, M.pure,
              hv, hnf, hr, h1, h2, h3, errorOf]
          · simp [getK8sHPAResourceManifest, M.bind_def, M.pure_def, M.bind, M.call, M.pure,
              hv, hnf, hr, h1, h2, h3, errorOf]
    · simp [getK8sHPAResourceManifest, M.bind_def, M.pure_def, M.bind, M.call, M.pure, hv,
        hnf, hr, errorOf]

end

/-- C20: autoscaling preservation clamps the live replica count. (1) When `json.Unmarshal`
reads the merged values as the map `templateMap`, autoscaling is enabled there with bounds
`min ≤ max`, the cluster answers a live HPA manifest whose `status.currentReplicas` parses
to `c`, and the map does not name a custom autoscaling path, `autoscalingCheckBeforeTrigger`
returns, with a nil error, the marshalled map with `replicaCount` set to `c` when
`min ≤ c ≤ max`, to `max` when `c > max` and to `min` when `c < min`, so to a number in
`[min, max]`; every other member of the result is the member of the map. (2) The map holds
under each name what `encoding/json` decodes from the last member of that name in the
merged values, where a number is read as a `float64`: a whole number below `2 ^ 53` in size
is itself, and 9007199254740993 is read as 9007199254740992. (3) For a custom chart,
`getReplicaCountFromCustomChart` returns the same clamp of the replica count of the chart
into its bounds. -/
theorem autoscalingCheckBeforeTrigger_clamps {σ : Type} (k : LiveDeps σ) :
    (∀ (appName ns : String) (merged : Text) (templateMap : List (String × Json))
        (overrideRequest : ValuesOverrideRequest) (w w1 w2 : σ) (hpa : HpaResourceRequest)
        (version : String) (manifest statusMap : List (String × Json)) (currentReplicaVal : Json)
        (c : Int),
      unmarshalMap merged = .ok templateMap →
      k.GetAutoScalingReplicaCount templateMap appName = some hpa →
      hpa.IsEnable = true →
      k.GetPreferredVersionForAPIGroup overrideRequest.ClusterId hpa.Group w
        = ((version, none), w1) →
      k.IsNotFoundError none = false →
      k.GetResource
        { ClusterId := overrideRequest.ClusterId, Name := hpa.ResourceName, Namespace := ns,
          Group := hpa.Group, Kind := hpa.Kind, Version := version } w1
        = (.ok manifest, w2) →
      Json.lookup "status" manifest = some (.obj statusMap) →
      Json.lookup "currentReplicas" statusMap = some currentReplicaVal →
      currentReplicaVal ≠ .null →
      k.ParseFloatNumber currentReplicaVal = .ok c →
      hpa.ReqMinReplicas ≤ hpa.ReqMaxReplicas →
      k.CustomAutoScalingEnabledPathKey ≠ "replicaCount" →
      Json.lookup k.CustomAutoScalingEnabledPathKey templateMap = none →
      ∃ doc r,
        (autoscalingCheckBeforeTrigger k appName ns merged overrideRequest w).result
          = .val (.json (.obj doc), none) ∧
        doc = Json.mapSet "replicaCount" (.num r) templateMap ∧
        Json.lookup "replicaCount" doc = some (.num r) ∧
        (∀ key, key ≠ "replicaCount" → Json.lookup key doc = Json.lookup key templateMap) ∧
        (hpa.ReqMinReplicas ≤ c → c ≤ hpa.ReqMaxReplicas → r = c) ∧
        (c > hpa.ReqMaxReplicas → r = hpa.ReqMaxReplicas) ∧
        (c < hpa.ReqMinReplicas → r = hpa.ReqMinReplicas) ∧
        hpa.ReqMinReplicas ≤ r ∧ r ≤ hpa.ReqMaxReplicas) ∧
    ((∀ (members templateMap : List (String × Json)) (key : String),
        unmarshalMap (.json (.obj members)) = .ok templateMap →
        Json.lookup key templateMap = (Json.lookup key members).bind Json.decodeValue) ∧
      (∀ n : Int, n.natAbs < 2 ^ 53 → Json.decodeValue (.num n) = some (.num n)) ∧
      Json.decodeValue (.num 9007199254740993) = some (.num 9007199254740992)) ∧
    (∀ (templateMap : List (String × Json)) (merged : Text) (lo hi rc : Int),
      k.IsNotFoundErr none = false →
      k.ExtractParamValue templateMap k.CustomAutoscalingMinPathKey merged = (lo, none) →
      k.ExtractParamValue templateMap k.CustomAutoscalingMaxPathKey merged = (hi, none) →
      k.ExtractParamValue templateMap k.CustomAutoscalingReplicaCountPathKey merged
        = (rc, none) →
      lo ≤ hi →
      ∃ r, getReplicaCountFromCustomChart k templateMap merged = (r, none) ∧
        (lo ≤ rc → rc ≤ hi → r = rc) ∧ (rc > hi → r = hi) ∧ (rc < lo → r = lo) ∧
        lo ≤ r ∧ r ≤ hi) := by
  refine ⟨?_, ⟨?_, ?_, ?_⟩, ?_⟩
  · intro appName ns merged templateMap overrideRequest w w1 w2 hpa version manifest statusMap
      currentReplicaVal c hun hhpa hen hver hnf hres hstatus hcur hnull hparse hle hkey hcustom
    have hlen : manifest.length > 0 := by
      rcases manifest with _ | ⟨p, rest⟩
      · simp [Json.lookup] at hstatus
      · simp
    have hcustom' : Json.lookup k.CustomAutoScalingEnabledPathKey
        (Json.mapSet "replicaCount"
          (.num (FetchRequiredReplicaCount c hpa.ReqMaxReplicas hpa.ReqMinReplicas))
          templateMap) = none := by
      rw [Json.lookup_mapSet_ne (Ne.symm hkey)]
      exact hcustom
    obtain ⟨c1, c2, c3, c4, c5⟩ :=
      FetchRequiredReplicaCount_clamp c hpa.ReqMaxReplicas hpa.ReqMinReplicas hle
    refine ⟨Json.mapSet "replicaCount"
        (.num (FetchRequiredReplicaCount c hpa.ReqMaxReplicas hpa.ReqMinReplicas))
        templateMap,
      FetchRequiredReplicaCount c hpa.ReqMaxReplicas hpa.ReqMinReplicas, ?_, rfl,
      Json.lookup_mapSet_self _ _ _, ?_, c1, c2, c3, c4, c5⟩
    · cases currentReplicaVal with
      | null => exact absurd rfl hnull
      | bool b =>
        simp [autoscalingCheckBeforeTrigger, hun, hpaCheck, getK8sHPAResourceManifest,
          customChartCheck, M.bind_def, M.pure_def, M.bind, M.call, M.pure, hhpa, hen, hver,
          hnf, hres, hlen, hstatus, hcur, hparse, hcustom']
      | num n =>
        simp [autoscalingCheckBeforeTrigger, hun, hpaCheck, getK8sHPAResourceManifest,
          customChartCheck, M.bind_def, M.pure_def, M.bind, M.call, M.pure, hhpa, hen, hver,
          hnf, hres, hlen, hstatus, hcur, hparse, hcustom']
      | str s =>
        simp [autoscalingCheckBeforeTrigger, hun, hpaCheck, getK8sHPAResourceManifest,
          customChartCheck, M.bind_def, M.pure_def, M.bind, M.call, M.pure, hhpa, hen, hver,
          hnf, hres, hlen, hstatus, hcur, hparse, hcustom']
      | arr xs =>
        simp [autoscalingCheckBeforeTrigger, hun, hpaCheck, getK8sHPAResourceManifest,
          customChartCheck, M.bind_def, M.pure_def, M.bind, M.call, M.pure, hhpa, hen, hver,
          hnf, hres, hlen, hstatus, hcur, hparse, hcustom']
      | obj kvs =>
        simp [autoscalingCheckBeforeTrigger, hun, hpaCheck, getK8sHPAResourceManifest,
          customChartCheck, M.bind_def, M.pure_def, M.bind, M.call, M.pure, hhpa, hen, hver,
          hnf, hres, hlen, hstatus, hcur, hparse, hcustom']
    · intro key hne
      exact Json.lookup_mapSet_ne (Ne.symm hne) _ _
  · intro members templateMap key hun
    have hdec : Json.decodeMap members [] = some templateMap := by
      simp only [unmarshalMap] at hun
      rcases hd : Json.decodeMap members [] with _ | m
      · rw [hd] at hun; cases hun
      · rw [hd] at hun
        simp only [Except.ok.injEq] at hun
        rw [hun]
    have h := Json.lookup_decodeMap key members [] templateMap hdec
    rw [h]
    rcases Json.lookup key members with _ | v
    · rfl
    · rfl
  · intro n hn
    simp [Json.decodeValue, float64OfInt_small n hn]
  · rfl
  · intro templateMap merged lo hi rc hnf hlo hhi hrc hle
    obtain ⟨c1, c2, c3, c4, c5⟩ := FetchRequiredReplicaCount_clamp rc hi lo hle
    exact ⟨FetchRequiredReplicaCount rc hi lo,
      by simp [getReplicaCountFromCustomChart, hlo, hhi, hrc, hnf], c1, c2, c3, c4, c5⟩

/-- Witness for C20: with bounds 2 and 10, a live HPA at 7 replicas gives `replicaCount` 7
and a live HPA at 15 replicas gives `replicaCount` 10; the other member of the sample
values, `autoscaling`, is in the result as `json.Unmarshal` read it. -/
theorem autoscalingCheckBeforeTrigger_clamps_witness :
    (∃ doc,
      (autoscalingCheckBeforeTrigger (sampleLive 7) "demo-app" "demo" sampleAutoscaledValues
        sampleRequest []).result = .val (.json (.obj doc), none) ∧
      Json.lookup "replicaCount" doc = some (.num 7) ∧
      Json.lookup "autoscaling" doc
        = some (.obj [("MaxReplicas", .num 10), ("MinReplicas", .num 2),
            ("enabled", .bool true)])) ∧
    (∃ doc,
      (autoscalingCheckBeforeTrigger (sampleLive 15) "demo-app" "demo" sampleAutoscaledValues
        sampleRequest []).result = .val (.json (.obj doc), none) ∧
      Json.lookup "replicaCount" doc = some (.num 10)) := by
  refine ⟨?_, ?_⟩
  · obtain ⟨doc, r, h1, _, h2, h3, h4, _, _, _, _⟩ :=
      (autoscalingCheckBeforeTrigger_clamps (sampleLive 7)).1 "demo-app" "demo"
        sampleAutoscaledValues
        [("autoscaling", .obj [("MaxReplicas", .num 10), ("MinReplicas", .num 2),
            ("enabled", .bool true)]),
          ("replicaCount", .num 1)]
        sampleRequest [] [] []
        { IsEnable := true, ReqMaxReplicas := 10, ReqMinReplicas := 2,
          ResourceName := "demo-app-hpa", Group := "autoscaling",
          Kind := "HorizontalPodAutoscaler" }
        "v2" [("status", .obj [("currentReplicas", .num 7)])] [("currentReplicas", .num 7)]
        (.num 7) 7 rfl rfl rfl rfl rfl rfl rfl rfl (by simp) rfl (by decide) (by decide) rfl
    exact ⟨doc, h1, by rw [h2, h4 (by decide) (by decide)],
      by rw [h3 "autoscaling" (by decide)]; rfl⟩
  · obtain ⟨doc, r, h1, _, h2, _, _, h5, _, _, _⟩ :=
      (autoscalingCheckBeforeTrigger_clamps (sampleLive 15)).1 "demo-app" "demo"
        sampleAutoscaledValues
        [("autoscaling", .obj [("MaxReplicas", .num 10), ("MinReplicas", .num 2),
            ("enabled", .bool true)]),
          ("replicaCount", .num 1)]
        sampleRequest [] [] []
        { IsEnable := true, ReqMaxReplicas := 10, ReqMinReplicas := 2,
          ResourceName := "demo-app-hpa", Group := "autoscaling",
          Kind := "HorizontalPodAutoscaler" }
        "v2" [("status", .obj [("currentReplicas", .num 15)])] [("currentReplicas", .num 15)]
        (.num 15) 15 rfl rfl rfl rfl rfl rfl rfl rfl (by simp) rfl (by decide) (by decide) rfl
    exact ⟨doc, h1, by rw [h2, h5 (by decide)]⟩

/-- C21 (code bug): the HPA step of `autoscalingCheckBeforeTrigger` does not look at the
deployment type. With autoscaling enabled and a live manifest whose `status.currentReplicas`
parses to `c`, for every deployment type, `DEPLOYMENTTYPE_STOP` included, (1) the HPA step
is the same run as for the request with any other deployment type; (2) the function ends as
the custom-chart check does, for that deployment type, on the values with `replicaCount` set
to the clamped live count; (3) when the merged values name no custom autoscaling path, a
deployment of type `DEPLOYMENTTYPE_STOP` returns, with a nil error, values whose
`replicaCount` is the clamped live count. -/
theorem hpaCheck_ignores_deployment_type {σ : Type} (k : LiveDeps σ) (appName ns : String)
    (merged : Text) (overrideRequest : ValuesOverrideRequest)
    (templateMap : List (String × Json)) (hpa : HpaResourceRequest) (w w1 : σ)
    (manifest statusMap : List (String × Json)) (l : List Event)
    (currentReplicaVal : Json) (c : Int)
    (hun : unmarshalMap merged = .ok templateMap)
    (hhpa : k.GetAutoScalingReplicaCount templateMap appName = some hpa)
    (hen : hpa.IsEnable = true)
    (hm : getK8sHPAResourceManifest k overrideRequest.ClusterId ns hpa w
      = ⟨.val (manifest, none), w1, l⟩)
    (hstatus : Json.lookup "status" manifest = some (.obj statusMap))
    (hcur : Json.lookup "currentReplicas" statusMap = some currentReplicaVal)
    (hnull : currentReplicaVal ≠ .null)
    (hparse : k.ParseFloatNumber currentReplicaVal = .ok c) :
    (∀ deploymentType,
      hpaCheck k appName ns merged { overrideRequest with DeploymentType := deploymentType }
          templateMap w
        = hpaCheck k appName ns merged overrideRequest templateMap w) ∧
    (∀ deploymentType,
      autoscalingCheckBeforeTrigger k appName ns merged
          { overrideRequest with DeploymentType := deploymentType } w
        = ⟨match customChartCheck k deploymentType
              (Json.mapSet "replicaCount"
                (.num (FetchRequiredReplicaCount c hpa.ReqMaxReplicas hpa.ReqMinReplicas))
                templateMap)
              (.json (.obj (Json.mapSet "replicaCount"
                (.num (FetchRequiredReplicaCount c hpa.ReqMaxReplicas hpa.ReqMinReplicas))
                templateMap))) with
            | none => .panic
            | some r => .val r, w1, l⟩) ∧
    (Json.lookup k.CustomAutoScalingEnabledPathKey templateMap = none →
      k.CustomAutoScalingEnabledPathKey ≠ "replicaCount" →
      ∃ doc,
        (autoscalingCheckBeforeTrigger k appName ns merged
          { overrideRequest with DeploymentType := .DEPLOYMENTTYPE_STOP } w).result
          = .val (.json (.obj doc), none) ∧
        Json.lookup "replicaCount" doc
          = some (.num (FetchRequiredReplicaCount c hpa.ReqMaxReplicas
              hpa.ReqMinReplicas))) := by
  have hrun : ∀ deploymentType,
      autoscalingCheckBeforeTrigger k appName ns merged
          { overrideRequest with DeploymentType := deploymentType } w
        = ⟨match customChartCheck k deploymentType
              (Json.mapSet "replicaCount"
                (.num (FetchRequiredReplicaCount c hpa.ReqMaxReplicas hpa.ReqMinReplicas))
                templateMap)
              (.json (.obj (Json.mapSet "replicaCount"
                (.num (FetchRequiredReplicaCount c hpa.ReqMaxReplicas hpa.ReqMinReplicas))
                templateMap))) with
            | none => .panic
            | some r => .val r, w1, l⟩ := by
    intro deploymentType
    exact autoscalingCheckBeforeTrigger_currentReplicas k appName ns merged
      { overrideRequest with DeploymentType := deploymentType } templateMap hpa w w1 manifest
      statusMap l currentReplicaVal c hun hhpa hen hm hstatus hcur hnull hparse
  refine ⟨fun _ => rfl, hrun, ?_⟩
  intro hcustom hkey
  refine ⟨Json.mapSet "replicaCount"
      (.num (FetchRequiredReplicaCount c hpa.ReqMaxReplicas hpa.ReqMinReplicas)) templateMap,
    ?_, Json.lookup_mapSet_self _ _ _⟩
  rw [hrun .DEPLOYMENTTYPE_STOP]
  have hcustom' : Json.lookup k.CustomAutoScalingEnabledPathKey
      (Json.mapSet "replicaCount"
        (.num (FetchRequiredReplicaCount c hpa.ReqMaxReplicas hpa.ReqMinReplicas))
        templateMap) = none := by
    rw [Json.lookup_mapSet_ne (Ne.symm hkey)]
    exact hcustom
  simp [customChartCheck, hcustom']

/-- Witness for C21: the deployment type is STOP, autoscaling is enabled in the merged values
with `replicaCount` 1, the live HPA reports 7 replicas, and the result holds `replicaCount`
7, the live count; the trigger returns merged values with it. -/
theorem hpaCheck_ignores_deployment_type_witness :
    stopRequest.DeploymentType = .DEPLOYMENTTYPE_STOP ∧
    (∃ doc, sampleAutoscaledValues = .json doc ∧ doc.get "replicaCount" = some (.num 1)) ∧
    (∃ doc,
      (autoscalingCheckBeforeTrigger (sampleLive 7) "demo-app" "demo" sampleAutoscaledValues
        stopRequest []).result = .val (.json (.obj doc), none) ∧
      Json.lookup "replicaCount" doc = some (.num 7)) ∧
    (∃ resp doc,
      (GetValuesOverrideForTrigger (serviceDeps autoscaledDeps sampleResolver (sampleLive 7))
        stopRequest 100 []).result = .val (some resp, none) ∧
      resp.MergedValues = .json doc ∧ doc.get "replicaCount" = some (.num 7)) :=
  ⟨rfl, ⟨_, rfl, rfl⟩,
    (hpaCheck_ignores_deployment_type (sampleLive 7) "demo-app" "demo" sampleAutoscaledValues
      sampleRequest
      [("autoscaling", .obj [("MaxReplicas", .num 10), ("MinReplicas", .num 2),
          ("enabled", .bool true)]),
        ("replicaCount", .num 1)]
      { IsEnable := true, ReqMaxReplicas := 10, ReqMinReplicas := 2,
        ResourceName := "demo-app-hpa", Group := "autoscaling",
        Kind := "HorizontalPodAutoscaler" }
      [] [] [("status", .obj [("currentReplicas", .num 7)])] [("currentReplicas", .num 7)] _
      (.num 7) 7 rfl rfl rfl rfl rfl rfl (by simp) rfl).2.2 rfl (by decide),
    ⟨_, _, rfl, rfl, rfl⟩⟩

/-- C22: a missing HPA resource is a valid no-op. When `GetPreferredVersionForAPIGroup`
answers a version and `GetResource` fails with an error that `IsResourceNotFoundErr`
recognises, (1) `getK8sHPAResourceManifest` returns an empty manifest and a nil error;
(2) with autoscaling enabled, the HPA step of `autoscalingCheckBeforeTrigger` returns no
error and hands on the template map and the merged values as they were; (3) the function
then ends as the custom-chart check does on the unchanged values, and when the merged values
name no custom autoscaling path it returns them unchanged with a nil error. -/
theorem getK8sHPAResourceManifest_resource_not_found {σ : Type} (k : LiveDeps σ)
    (appName ns : String) (merged : Text) (overrideRequest : ValuesOverrideRequest)
    (templateMap : List (String × Json)) (hpa : HpaResourceRequest) (w w1 w2 : σ)
    (version : String) (err : Error)
    (hun : unmarshalMap merged = .ok templateMap)
    (hhpa : k.GetAutoScalingReplicaCount templateMap appName = some hpa)
    (hen : hpa.IsEnable = true)
    (hversion : k.GetPreferredVersionForAPIGroup overrideRequest.ClusterId hpa.Group w
      = ((version, none), w1))
    (hnil : k.IsNotFoundError none = false)
    (hresource : k.GetResource
      { ClusterId := overrideRequest.ClusterId, Name := hpa.ResourceName, Namespace := ns,
        Group := hpa.Group, Kind := hpa.Kind, Version := version } w1 = (.error err, w2))
    (hnotFound : k.IsResourceNotFoundErr err = true) :
    getK8sHPAResourceManifest k overrideRequest.ClusterId ns hpa w
      = ⟨.val ([], none), w2,
          [Event.GetPreferredVersionForAPIGroup overrideRequest.ClusterId hpa.Group none,
            Event.GetResource overrideRequest.ClusterId hpa.ResourceName (some err)]⟩ ∧
    hpaCheck k appName ns merged overrideRequest templateMap w
      = ⟨.val (.ok (templateMap, merged)), w2,
          [Event.GetPreferredVersionForAPIGroup overrideRequest.ClusterId hpa.Group none,
            Event.GetResource overrideRequest.ClusterId hpa.ResourceName (some err)]⟩ ∧
    autoscalingCheckBeforeTrigger k appName ns merged overrideRequest w
      = ⟨match customChartCheck k overrideRequest.DeploymentType templateMap merged with
          | none => .panic
          | some r => .val r, w2,
          [Event.GetPreferredVersionForAPIGroup overrideRequest.ClusterId hpa.Group none,
            Event.GetResource overrideRequest.ClusterId hpa.ResourceName (some err)]⟩ ∧
    (Json.lookup k.CustomAutoScalingEnabledPathKey templateMap = none →
      (autoscalingCheckBeforeTrigger k appName ns merged overrideRequest w).result
        = .val (merged, none)) := by
  have hm : getK8sHPAResourceManifest k overrideRequest.ClusterId ns hpa w
      = ⟨.val ([], none), w2,
          [Event.GetPreferredVersionForAPIGroup overrideRequest.ClusterId hpa.Group none,
            Event.GetResource overrideRequest.ClusterId hpa.ResourceName (some err)]⟩ := by
    rw [(getK8sHPAResourceManifest_runs k overrideRequest.ClusterId ns hpa w).2.2 version w1
      (.error err) w2 hversion hnil hresource]
    simp [hnotFound, errorOf]
  obtain ⟨h1, h2⟩ := autoscalingCheckBeforeTrigger_manifest_empty k appName ns merged
    overrideRequest templateMap hpa w w2 _ hun hhpa hen hm
  refine ⟨hm, h1, h2, ?_⟩
  intro hcustom
  rw [h2]
  simp [customChartCheck, hcustom]

/-- Witness for C22: over the sample cluster without the HPA resource the merged values come
back unchanged, `replicaCount` 1 included, with a nil error. -/
theorem getK8sHPAResourceManifest_resource_not_found_witness :
    (autoscalingCheckBeforeTrigger hibernatedLive "demo-app" "demo" sampleAutoscaledValues
      sampleRequest []).result = .val (sampleAutoscaledValues, none) :=
  (getK8sHPAResourceManifest_resource_not_found hibernatedLive "demo-app" "demo"
    sampleAutoscaledValues sampleRequest
    [("autoscaling", .obj [("MaxReplicas", .num 10), ("MinReplicas", .num 2),
        ("enabled", .bool true)]),
      ("replicaCount", .num 1)]
    { IsEnable := true, ReqMaxReplicas := 10, ReqMinReplicas := 2,
      ResourceName := "demo-app-hpa", Group := "autoscaling",
      Kind := "HorizontalPodAutoscaler" }
    [] [] [] "v2" (.errorString "resource not found") rfl rfl rfl rfl rfl rfl rfl).2.2.2 rfl

section
variable {σ : Type}

/-- An error of `autoscalingCheckBeforeTrigger` ends the block at once: it is returned with
the response as it stands, and neither the image-pull-secret step nor
`UpdatePipelineMergedValues` is reached. -/
theorem valuesForNewOverride_autoscaling_error (deps : Deps σ)
    (overrideRequest : ValuesOverrideRequest)
    (envOverride : EnvConfigOverride) (pipeline : Pipeline) (artifact : CiArtifact)
    (pipelineOverride : PipelineOverride) (strategy : Option PipelineStrategy)
    (releaseOverrideJson : Text) (valuesOverrideResponse : ValuesOverrideResponse)
    (w w1 w2 w3 w4 : σ) (chart : Chart) (environment : Environment)
    (response : MergedCmAndCsJsonV2Response) (configErr : Option Error)
    (labels : Except Error (Option Text)) (mergedValues : Text) (mergeErr : Option Error)
    (stamped : Text) (hashErr : Option Error) (scaled : Text) (e : Error)
    (hChart : envOverride.Chart = some chart)
    (hEnv : envOverride.Environment = some environment)
    (hv : environment.IsVirtualEnvironment = false)
    (hcm : deps.getConfigMapAndSecretJsonV2 overrideRequest envOverride chart.ChartVersion w
      = (some (response, configErr), w1))
    (hlabels : deps.GetAppLabelsForDeployment overrideRequest.AppId overrideRequest.AppName
      overrideRequest.EnvName w1 = (labels, w2))
    (hmerge : mergeOverrideValues deps.mergeUtil envOverride releaseOverrideJson
      (keptResponse response configErr).MergedJson (labelBytes labels) strategy
      = some (mergedValues, mergeErr))
    (hhash : deps.updatedExternalCmCsHashForTrigger overrideRequest.ClusterId
      envOverride.Namespace mergedValues (keptResponse response configErr).ExternalCmList
      (keptResponse response configErr).ExternalCsList w2 = (some (stamped, hashErr), w3))
    (hauto : deps.autoscalingCheckBeforeTrigger pipeline.DeploymentAppName
      envOverride.Namespace stamped overrideRequest w3 = (some (scaled, some e), w4)) :
    valuesForNewOverride deps overrideRequest envOverride pipeline artifact
        pipelineOverride strategy releaseOverrideJson valuesOverrideResponse w
      = ⟨.val (some valuesOverrideResponse, some e), w4,
          [Event.getConfigMapAndSecretJsonV2,
            Event.GetAppLabelsForDeployment overrideRequest.AppId,
            Event.mergeOverrideValues,
            Event.updatedExternalCmCsHashForTrigger mergedValues,
            Event.autoscalingCheckBeforeTrigger stamped]⟩ := by
  unfold valuesForNewOverride
  rw [hChart]
  simp only [M.bind_def, M.pure_def]
  rcases labels with e | bytes <;> rcases configErr with _ | ce <;>
    simp only [labelBytes, keptResponse] at hmerge hhash <;>
    simp [M.bind, M.step, M.call, M.emit, M.pure, hcm, hlabels, hmerge, hEnv, hv, hhash, hauto]

end
/-- C23 (corrected): errors of the HPA read. (1) Any error of
`GetPreferredVersionForAPIGroup`, a not-found error included, makes
`getK8sHPAResourceManifest` return an `ApiError` with HTTP status 412 without asking for the
resource. (2) An error of `GetResource` is classified in this order: a resource-not-found
error gives an empty manifest and a nil error; otherwise a bad-request error gives an
`ApiError` with status 412; otherwise a server-timeout error gives an `ApiError` with status
408; any other error is returned as it is. (3) With autoscaling enabled,
`autoscalingCheckBeforeTrigger` returns every error of `getK8sHPAResourceManifest` with the
merged values it was given. (4) In the block of the orchestrator, on an environment that is
not virtual, every error of `autoscalingCheckBeforeTrigger` is returned at once, before the
merged values are persisted. -/
theorem getK8sHPAResourceManifest_error_classes {σ : Type} (deps : Deps σ)
    (c : ConfigSecretDeps σ) (k : LiveDeps σ) :
    (∀ (clusterId : Int) (ns : String) (hpa : HpaResourceRequest) (w w1 : σ)
        (version : String) (err : Error),
      k.GetPreferredVersionForAPIGroup clusterId hpa.Group w = ((version, some err), w1) →
      ∃ apiErr,
        getK8sHPAResourceManifest k clusterId ns hpa w
          = ⟨.val ([], some (.api apiErr)), w1,
              [Event.GetPreferredVersionForAPIGroup clusterId hpa.Group (some err)]⟩ ∧
        apiErr.HttpStatusCode = 412) ∧
    (∀ (clusterId : Int) (ns : String) (hpa : HpaResourceRequest) (w w1 w2 : σ)
        (version : String) (err : Error),
      k.GetPreferredVersionForAPIGroup clusterId hpa.Group w = ((version, none), w1) →
      k.IsNotFoundError none = false →
      k.GetResource
        { ClusterId := clusterId, Name := hpa.ResourceName, Namespace := ns,
          Group := hpa.Group, Kind := hpa.Kind, Version := version } w1 = (.error err, w2) →
      (getK8sHPAResourceManifest k clusterId ns hpa w).result
        = .val ([],
            if k.IsResourceNotFoundErr err then none
            else if k.IsBadRequestErr err then
              some (.api { k.DefaultApiError with
                HttpStatusCode := 412, InternalMessage := err.msg,
                UserDetailMessage := err.msg })
            else if k.IsServerTimeoutErr err then
              some (.api { k.DefaultApiError with
                HttpStatusCode := 408, InternalMessage := err.msg,
                UserDetailMessage := "taking longer than expected, please try again later" })
            else some err)) ∧
    (∀ (appName ns : String) (merged : Text) (overrideRequest : ValuesOverrideRequest)
        (templateMap : List (String × Json)) (hpa : HpaResourceRequest) (w : σ)
        (manifest : List (String × Json)) (e : Error),
      unmarshalMap merged = .ok templateMap →
      k.GetAutoScalingReplicaCount templateMap appName = some hpa →
      hpa.IsEnable = true →
      (getK8sHPAResourceManifest k overrideRequest.ClusterId ns hpa w).result
        = .val (manifest, some e) →
      (autoscalingCheckBeforeTrigger k appName ns merged overrideRequest w).result
        = .val (merged, some e)) ∧
    (∀ (overrideRequest : ValuesOverrideRequest)
        (envOverride : EnvConfigOverride) (pipeline : Pipeline) (artifact : CiArtifact)
        (pipelineOverride : PipelineOverride) (strategy : Option PipelineStrategy)
        (releaseOverrideJson : Text) (valuesOverrideResponse : ValuesOverrideResponse)
        (w w1 w2 : σ) (chart : Chart) (environment : Environment)
        (response : MergedCmAndCsJsonV2Response) (configErr : Option Error)
        (labels : Except Error (Option Text)) (mergedValues : Text)
        (mergeErr : Option Error) (stamped : Text) (hashErr : Option Error) (scaled : Text)
        (e : Error),
      envOverride.Chart = some chart →
      envOverride.Environment = some environment →
      environment.IsVirtualEnvironment = false →
      (serviceDeps deps c k).getConfigMapAndSecretJsonV2 overrideRequest envOverride
        chart.ChartVersion w = (some (response, configErr), w1) →
      deps.GetAppLabelsForDeployment overrideRequest.AppId overrideRequest.AppName
        overrideRequest.EnvName w1 = (labels, w2) →
      mergeOverrideValues deps.mergeUtil envOverride releaseOverrideJson
        (keptResponse response configErr).MergedJson (labelBytes labels) strategy
        = some (mergedValues, mergeErr) →
      (updatedExternalCmCsHashForTrigger k overrideRequest.ClusterId envOverride.Namespace
        mergedValues (keptResponse response configErr).ExternalCmList
        (keptResponse response configErr).ExternalCsList w2).result
        = .val (stamped, hashErr) →
      (autoscalingCheckBeforeTrigger k pipeline.DeploymentAppName envOverride.Namespace stamped
        overrideRequest
        (updatedExternalCmCsHashForTrigger k overrideRequest.ClusterId envOverride.Namespace
          mergedValues (keptResponse response configErr).ExternalCmList
          (keptResponse response configErr).ExternalCsList w2).world).result
        = .val (scaled, some e) →
      (valuesForNewOverride (serviceDeps deps c k) overrideRequest envOverride pipeline
        artifact pipelineOverride strategy releaseOverrideJson valuesOverrideResponse
        w).result = .val (some valuesOverrideResponse, some e) ∧
      (valuesForNewOverride (serviceDeps deps c k) overrideRequest envOverride pipeline
        artifact pipelineOverride strategy releaseOverrideJson valuesOverrideResponse
        w).log.any Event.isUpdateMergedValues = false) := by
  refine ⟨?_, ?_, ?_, ?_⟩
  · intro clusterId ns hpa w w1 version err hv
    by_cases hnf : k.IsNotFoundError (some err) = true
    · exact ⟨_, (getK8sHPAResourceManifest_runs k clusterId ns hpa w).2.1 version (some err) w1
        hv hnf, rfl⟩
    · exact ⟨_, (getK8sHPAResourceManifest_runs k clusterId ns hpa w).1 version err w1 hv
        (by simpa using hnf), rfl⟩
  · intro clusterId ns hpa w w1 w2 version err hv hnil hr
    rw [(getK8sHPAResourceManifest_runs k clusterId ns hpa w).2.2 version w1 (.error err) w2
      hv hnil hr]
    simp only [StatusPreconditionFailed, StatusRequestTimeout]
    split <;> [rfl; (split <;> [rfl; (split <;> rfl)])]
  · intro appName ns merged overrideRequest templateMap hpa w manifest e hun hhpa hen hm
    rcases ho : getK8sHPAResourceManifest k overrideRequest.ClusterId ns hpa w
      with ⟨r, w1, l⟩
    rw [ho] at hm
    simp only at hm
    subst hm
    rw [autoscalingCheckBeforeTrigger_manifest_error k appName ns merged overrideRequest
      templateMap hpa w w1 manifest e l hun hhpa hen ho]
  · intro overrideRequest envOverride pipeline artifact pipelineOverride strategy
      releaseOverrideJson valuesOverrideResponse w w1 w2 chart environment response configErr
      labels mergedValues mergeErr stamped hashErr scaled e hChart hEnv hv hcm hlabels hmerge
      hhash hauto
    have hrun := valuesForNewOverride_autoscaling_error (serviceDeps deps c k) overrideRequest
      envOverride pipeline artifact pipelineOverride strategy releaseOverrideJson
      valuesOverrideResponse w w1 w2
      (updatedExternalCmCsHashForTrigger k overrideRequest.ClusterId envOverride.Namespace
        mergedValues (keptResponse response configErr).ExternalCmList
        (keptResponse response configErr).ExternalCsList w2).world
      (autoscalingCheckBeforeTrigger k pipeline.DeploymentAppName envOverride.Namespace stamped
        overrideRequest
        (updatedExternalCmCsHashForTrigger k overrideRequest.ClusterId envOverride.Namespace
          mergedValues (keptResponse response configErr).ExternalCmList
          (keptResponse response configErr).ExternalCsList w2).world).world
      chart environment response configErr labels mergedValues mergeErr stamped hashErr scaled
      e hChart hEnv hv hcm hlabels hmerge
      (by
        show M.asStep _ w2 = _
        simp only [M.asStep, hhash])
      (by
        show M.asStep _ _ = _
        simp only [M.asStep, hauto])
    rw [hrun]
    exact ⟨rfl, rfl⟩

/-- Witness for C23: over the sample cluster a bad-request error of `GetResource` comes back
as an `ApiError` with status 412 and a server timeout as one with status 408. -/
theorem getK8sHPAResourceManifest_error_classes_witness :
    (getK8sHPAResourceManifest badRequestLive 1 "demo"
        { IsEnable := true, ResourceName := "demo-app-hpa", Group := "autoscaling",
          Kind := "HorizontalPodAutoscaler" } []).result
      = .val ([], some (.api {
          HttpStatusCode := 412, UserMessage := "",
          InternalMessage := "bad request", UserDetailMessage := "bad request" })) ∧
    (getK8sHPAResourceManifest timeoutLive 1 "demo"
        { IsEnable := true, ResourceName := "demo-app-hpa", Group := "autoscaling",
          Kind := "HorizontalPodAutoscaler" } []).result
      = .val ([], some (.api {
          HttpStatusCode := 408, UserMessage := "",
          InternalMessage := "server timeout",
          UserDetailMessage := "taking longer than expected, please try again later" })) :=
  ⟨(getK8sHPAResourceManifest_error_classes memoryDeps sampleResolver badRequestLive).2.1 1
      "demo" _ [] [] [] "v2" (.errorString "bad request") rfl rfl rfl,
    rfl⟩

/-- Counterexample for C23 as stated: `GetPreferredVersionForAPIGroup` answers a not-found
error, which `IsNotFoundError` recognises, and `getK8sHPAResourceManifest` returns an
`ApiError` with status 412, which the sample trigger returns without persisting merged
values. -/
theorem getK8sHPAResourceManifest_version_not_found_counterexample :
    noVersionLive.IsNotFoundError (some (.errorString "not found")) = true ∧
    (getK8sHPAResourceManifest noVersionLive 1 "demo"
        { IsEnable := true, ResourceName := "demo-app-hpa", Group := "autoscaling",
          Kind := "HorizontalPodAutoscaler" } [])
      = ⟨.val ([], some (.api {
              HttpStatusCode := 412, UserMessage := "",
              InternalMessage := "unable to find preferred version for hpa resource",
              UserDetailMessage := "unable to find preferred version for hpa resource" })),
          [], [Event.GetPreferredVersionForAPIGroup 1 "autoscaling"
            (some (.errorString "not found"))]⟩ ∧
    (∃ resp,
      (GetValuesOverrideForTrigger (serviceDeps autoscaledDeps sampleResolver noVersionLive)
        sampleRequest 100 []).result
        = .val (some resp, some (.api {
            HttpStatusCode := 412, UserMessage := "",
            InternalMessage := "unable to find preferred version for hpa resource",
            UserDetailMessage := "unable to find preferred version for hpa resource" }))) ∧
    (GetValuesOverrideForTrigger (serviceDeps autoscaledDeps sampleResolver noVersionLive)
      sampleRequest 100 []).log.any Event.isUpdateMergedValues = false :=
  ⟨rfl, rfl, ⟨_, rfl⟩, rfl⟩

section
variable {σ : Type}

/-- The default lookup of the LAST_SAVED branch that finds no row: a nil strategy and a nil
error. -/
theorem getDeploymentStrategyByTriggerType_default_absent (t : TriggerTypeDeps σ)
    (r : ValuesOverrideRequest) (w w1 : σ)
    (hcfg : r.DeploymentWithConfig = .DEPLOYMENT_CONFIG_TYPE_LAST_SAVED)
    (hdefault : (r.ForceTrigger || (t.GetDeploymentTemplateType r).length == 0) = true)
    (hsel : t.Select { PipelineId := r.PipelineId, Default := some true } w
      = (.error pg.ErrNoRows, w1)) :
    getDeploymentStrategyByTriggerType t r w
      = ⟨.val (none, none), w1,
          [Event.SelectPipelineStrategy r.PipelineId (some pg.ErrNoRows)]⟩ := by
  unfold getDeploymentStrategyByTriggerType
  rw [hcfg]
  simp only [hdefault, if_true, GetDefaultStrategyByPipelineId, M.bind_def, M.pure_def,
    M.bind, M.call, hsel, M.pure]
  rfl

/-- The named lookup of the LAST_SAVED branch that finds no row: a nil strategy and the error
`pg.ErrNoRows`. -/
theorem getDeploymentStrategyByTriggerType_named_absent (t : TriggerTypeDeps σ)
    (r : ValuesOverrideRequest) (w w1 : σ)
    (hcfg : r.DeploymentWithConfig = .DEPLOYMENT_CONFIG_TYPE_LAST_SAVED)
    (hnamed : (r.ForceTrigger || (t.GetDeploymentTemplateType r).length == 0) = false)
    (hsel : t.Select
        { Strategy := some (t.GetDeploymentTemplateType r), PipelineId := r.PipelineId } w
      = (.error pg.ErrNoRows, w1)) :
    getDeploymentStrategyByTriggerType t r w
      = ⟨.val (none, some pg.ErrNoRows), w1,
          [Event.SelectPipelineStrategy r.PipelineId (some pg.ErrNoRows)]⟩ := by
  unfold getDeploymentStrategyByTriggerType
  rw [hcfg]
  simp only [hnamed, FindByStrategyAndPipelineId, M.bind_def, M.pure_def,
    M.bind, M.call, hsel, M.pure, Bool.false_eq_true, if_false]
  rfl

end

/-- C24 (code_bug): strategy absence in the LAST_SAVED branch. (1) When the default strategy
is looked up and the query finds no row, `getDeploymentStrategyByTriggerType` returns a nil
strategy and a nil error, and the step of the orchestrator goes on with no strategy.
(2) When a named strategy is looked up and the query finds no row, the error `pg.ErrNoRows`
of the query is not a not-found error of `errors.IsNotFound`, and
`getDeploymentStrategyByTriggerType` returns it with a nil strategy. (3) The orchestrator
then returns `pg.ErrNoRows` right after the strategy step. -/
theorem getDeploymentStrategyByTriggerType_no_strategy_row {σ : Type} (deps : Deps σ)
    (t : TriggerTypeDeps σ) :
    (∀ (r : ValuesOverrideRequest) (w w1 : σ),
      r.DeploymentWithConfig = .DEPLOYMENT_CONFIG_TYPE_LAST_SAVED →
      (r.ForceTrigger || (t.GetDeploymentTemplateType r).length == 0) = true →
      t.Select { PipelineId := r.PipelineId, Default := some true } w
        = (.error pg.ErrNoRows, w1) →
      getDeploymentStrategyByTriggerType t r w
        = ⟨.val (none, none), w1,
            [Event.SelectPipelineStrategy r.PipelineId (some pg.ErrNoRows)]⟩ ∧
      (triggerTypeDeps deps t).getDeploymentStrategyByTriggerType r w
        = (some (none, none), w1)) ∧
    (∀ (r : ValuesOverrideRequest) (w w1 : σ),
      r.DeploymentWithConfig = .DEPLOYMENT_CONFIG_TYPE_LAST_SAVED →
      (r.ForceTrigger || (t.GetDeploymentTemplateType r).length == 0) = false →
      t.Select
          { Strategy := some (t.GetDeploymentTemplateType r), PipelineId := r.PipelineId } w
        = (.error pg.ErrNoRows, w1) →
      IsNotFound pg.ErrNoRows = false ∧
      getDeploymentStrategyByTriggerType t r w
        = ⟨.val (none, some pg.ErrNoRows), w1,
            [Event.SelectPipelineStrategy r.PipelineId (some pg.ErrNoRows)]⟩) ∧
    (∀ (overrideRequest req : ValuesOverrideRequest) (triggeredAt : Time) (w w1 w2 w3 : σ)
        (pipeline : Pipeline) (artifact : CiArtifact),
      deps.ResolveDeploymentTypeAndUpdate overrideRequest = req →
      deps.FindPipelineById req.PipelineId w = (.ok pipeline, w1) →
      deps.GetCiArtifact req.CiArtifactId w1 = (.ok artifact, w2) →
      req.DeploymentWithConfig = .DEPLOYMENT_CONFIG_TYPE_LAST_SAVED →
      (req.ForceTrigger ||
        (t.GetDeploymentTemplateType { req with Image := artifact.Image }).length == 0)
        = false →
      t.Select
          { Strategy := some (t.GetDeploymentTemplateType { req with Image := artifact.Image }),
            PipelineId := req.PipelineId } w2
        = (.error pg.ErrNoRows, w3) →
      GetValuesOverrideForTrigger (triggerTypeDeps deps t) overrideRequest triggeredAt w
        = ⟨.val (some { Pipeline := some pipeline, Artifact := some artifact,
                        PipelineStrategy := none },
              some pg.ErrNoRows),
            w3,
            [Event.FindPipelineById req.PipelineId, Event.GetCiArtifact req.CiArtifactId,
              Event.getDeploymentStrategyByTriggerType]⟩) := by
  refine ⟨?_, ?_, ?_⟩
  · intro r w w1 hcfg hdefault hsel
    have hrun := getDeploymentStrategyByTriggerType_default_absent t r w w1 hcfg hdefault hsel
    refine ⟨hrun, ?_⟩
    show M.asStep (getDeploymentStrategyByTriggerType t r) w = _
    simp only [M.asStep, hrun]
  · intro r w w1 hcfg hnamed hsel
    exact ⟨rfl, getDeploymentStrategyByTriggerType_named_absent t r w w1 hcfg hnamed hsel⟩
  · intro overrideRequest req triggeredAt w w1 w2 w3 pipeline artifact hreq h1 h2 hcfg hnamed
      hsel
    have hrun := getDeploymentStrategyByTriggerType_named_absent t
      { req with Image := artifact.Image } w2 w3 hcfg hnamed hsel
    have hreq2 : (triggerTypeDeps deps t).ResolveDeploymentTypeAndUpdate overrideRequest
        = req := hreq
    have h1b : (triggerTypeDeps deps t).FindPipelineById req.PipelineId w
        = (.ok pipeline, w1) := h1
    have h2b : (triggerTypeDeps deps t).GetCiArtifact req.CiArtifactId w1
        = (.ok artifact, w2) := h2
    have h3 : (triggerTypeDeps deps t).getDeploymentStrategyByTriggerType
        { req with Image := artifact.Image } w2 = (some (none, some pg.ErrNoRows), w3) := by
      show M.asStep (getDeploymentStrategyByTriggerType t { req with Image := artifact.Image })
        w2 = _
      simp only [M.asStep, hrun]
    simp [GetValuesOverrideForTrigger, M.bind_def, M.pure_def, M.bind,
      M.call, M.step, M.pure, hreq2, h1b, h2b, h3]

/-- Witness for C24: over the sample pipeline, which has no strategy row, the trigger that
names the strategy `ROLLING` returns `pg.ErrNoRows` after three calls, and the same trigger
with `ForceTrigger` goes through with no strategy. -/
theorem getDeploymentStrategyByTriggerType_no_strategy_row_witness :
    GetValuesOverrideForTrigger (triggerTypeDeps memoryDeps sampleTriggerType) sampleRequest
        100 []
      = ⟨.val (some { Pipeline := some { Id := 10, DeploymentAppName := "demo-app",
                                          CiPipelineId := 3 },
                      Artifact := some sampleArtifact, PipelineStrategy := none },
            some pg.ErrNoRows),
          [],
          [Event.FindPipelineById 10, Event.GetCiArtifact 5,
            Event.getDeploymentStrategyByTriggerType]⟩ ∧
    (∃ resp,
      (GetValuesOverrideForTrigger (triggerTypeDeps memoryDeps sampleTriggerType)
        forcedRequest 100 []).result = .val (some resp, none) ∧
      resp.PipelineStrategy = none) :=
  ⟨(getDeploymentStrategyByTriggerType_no_strategy_row memoryDeps sampleTriggerType).2.2
      sampleRequest sampleRequest 100 [] [] [] [] _ sampleArtifact rfl rfl rfl rfl rfl rfl,
    _, rfl, rfl⟩

/-- C25: no incomplete manifest reaches the chart builder. (1) When
`GetValuesOverrideForTrigger` returns an error, `BuildManifestForTrigger` returns its
response, an empty chart path and that error, and makes no further call. (2) When it returns
a nil error, it returns a response, and `BuildManifestForTrigger` makes exactly one further
call, `BuildChartAndGetPath`, and returns the response with the path it answers, or with
an empty path and its error. (3) When it panics, so does `BuildManifestForTrigger`, without a
further call. (4) So an error is always returned with an empty chart path. -/
theorem BuildManifestForTrigger_builds_on_success {σ : Type} (deps : Deps σ)
    (BuildChartAndGetPath : String → Option EnvConfigOverride → σ →
      (String × Option Error) × σ)
    (overrideRequest : ValuesOverrideRequest) (triggeredAt : Time) (w : σ) :
    (∀ resp e,
      (GetValuesOverrideForTrigger deps overrideRequest triggeredAt w).result
        = .val (resp, some e) →
      BuildManifestForTrigger deps BuildChartAndGetPath overrideRequest triggeredAt w
        = ⟨.val (resp, "", some e),
            (GetValuesOverrideForTrigger deps overrideRequest triggeredAt w).world,
            (GetValuesOverrideForTrigger deps overrideRequest triggeredAt w).log⟩) ∧
    (∀ resp,
      (GetValuesOverrideForTrigger deps overrideRequest triggeredAt w).result
        = .val (resp, none) →
      ∃ r, resp = some r ∧
        ∀ path err w',
          BuildChartAndGetPath (deps.ResolveDeploymentTypeAndUpdate overrideRequest).AppName
            r.EnvOverride (GetValuesOverrideForTrigger deps overrideRequest triggeredAt w).world
            = ((path, err), w') →
          BuildManifestForTrigger deps BuildChartAndGetPath overrideRequest triggeredAt w
            = ⟨.val (some r, if err.isNone then path else "", err), w',
                (GetValuesOverrideForTrigger deps overrideRequest triggeredAt w).log ++
                  [Event.BuildChartAndGetPath
                    (deps.ResolveDeploymentTypeAndUpdate overrideRequest).AppName err]⟩) ∧
    ((GetValuesOverrideForTrigger deps overrideRequest triggeredAt w).result = .panic →
      BuildManifestForTrigger deps BuildChartAndGetPath overrideRequest triggeredAt w
        = ⟨.panic, (GetValuesOverrideForTrigger deps overrideRequest triggeredAt w).world,
            (GetValuesOverrideForTrigger deps overrideRequest triggeredAt w).log⟩) ∧
    (∀ resp path e,
      (BuildManifestForTrigger deps BuildChartAndGetPath overrideRequest triggeredAt w).result
        = .val (resp, path, some e) → path = "") := by
  have hA : ∀ resp e,
      (GetValuesOverrideForTrigger deps overrideRequest triggeredAt w).result
        = .val (resp, some e) →
      BuildManifestForTrigger deps BuildChartAndGetPath overrideRequest triggeredAt w
        = ⟨.val (resp, "", some e),
            (GetValuesOverrideForTrigger deps overrideRequest triggeredAt w).world,
            (GetValuesOverrideForTrigger deps overrideRequest triggeredAt w).log⟩ := by
    intro resp e h
    unfold BuildManifestForTrigger
    simp only [M.bind_def, M.pure_def, M.bind]
    rcases ho : GetValuesOverrideForTrigger deps overrideRequest triggeredAt w with ⟨r, w1, l⟩
    rw [ho] at h
    simp only at h
    subst h
    simp [M.pure]
  have hB : ∀ r,
      (GetValuesOverrideForTrigger deps overrideRequest triggeredAt w).result
        = .val (some r, none) →
      ∀ path err w',
        BuildChartAndGetPath (deps.ResolveDeploymentTypeAndUpdate overrideRequest).AppName
          r.EnvOverride (GetValuesOverrideForTrigger deps overrideRequest triggeredAt w).world
          = ((path, err), w') →
        BuildManifestForTrigger deps BuildChartAndGetPath overrideRequest triggeredAt w
          = ⟨.val (some r, if err.isNone then path else "", err), w',
              (GetValuesOverrideForTrigger deps overrideRequest triggeredAt w).log ++
                [Event.BuildChartAndGetPath
                  (deps.ResolveDeploymentTypeAndUpdate overrideRequest).AppName err]⟩ := by
    intro r h path err w' hb
    unfold BuildManifestForTrigger
    simp only [M.bind_def, M.pure_def, M.bind]
    rcases ho : GetValuesOverrideForTrigger deps overrideRequest triggeredAt w with ⟨r0, w1, l⟩
    rw [ho] at h hb
    simp only at h hb
    subst h
    rcases err with _ | e <;> simp [M.bind, M.call, M.pure, hb]
  have hC : (GetValuesOverrideForTrigger deps overrideRequest triggeredAt w).result = .panic →
      BuildManifestForTrigger deps BuildChartAndGetPath overrideRequest triggeredAt w
        = ⟨.panic, (GetValuesOverrideForTrigger deps overrideRequest triggeredAt w).world,
            (GetValuesOverrideForTrigger deps overrideRequest triggeredAt w).log⟩ := by
    intro h
    unfold BuildManifestForTrigger
    simp only [M.bind_def, M.pure_def, M.bind]
    rcases ho : GetValuesOverrideForTrigger deps overrideRequest triggeredAt w with ⟨r0, w1, l⟩
    rw [ho] at h
    simp only at h
    subst h
    rfl
  refine ⟨hA, ?_, hC, ?_⟩
  · intro resp h
    have hsome := GetValuesOverrideForTrigger_response deps overrideRequest triggeredAt w resp h
    rcases resp with _ | r
    · simp at hsome
    · exact ⟨r, rfl, hB r h⟩
  · intro resp path e hres
    rcases ho : (GetValuesOverrideForTrigger deps overrideRequest triggeredAt w).result
      with ⟨x, err⟩ | _ | _
    · rcases err with _ | e0
      · have hsome := GetValuesOverrideForTrigger_response deps overrideRequest triggeredAt w
          x ho
        rcases x with _ | r
        · simp at hsome
        · rcases hb : BuildChartAndGetPath
            (deps.ResolveDeploymentTypeAndUpdate overrideRequest).AppName r.EnvOverride
            (GetValuesOverrideForTrigger deps overrideRequest triggeredAt w).world
            with ⟨⟨p, err⟩, w'⟩
          rw [hB r ho p err w' hb] at hres
          simp only [Res.val.injEq, Prod.mk.injEq] at hres
          obtain ⟨-, hp, he⟩ := hres
          rw [he] at hp
          simpa using hp.symm
      · rw [hA x e0 ho] at hres
        simp only [Res.val.injEq, Prod.mk.injEq] at hres
        exact hres.2.1.symm
    · rw [hC ho] at hres
      simp at hres
    · exfalso
      unfold BuildManifestForTrigger at hres
      simp only [M.bind_def, M.bind] at hres
      rcases ho2 : GetValuesOverrideForTrigger deps overrideRequest triggeredAt w
        with ⟨r0, w1, l⟩
      rw [ho2] at ho hres
      simp only at ho
      subst ho
      simp at hres

/-- Witness for C25: when the image-descriptor template does not render, the sample trigger
returns an empty chart path with the error and the chart builder is not called; when the
trigger succeeds the builder is called once, and its failure gives an empty chart path
although it answered a path. -/
theorem BuildManifestForTrigger_builds_on_success_witness :
    (∃ resp e,
      BuildManifestForTrigger brokenTemplateDeps sampleBuildChartAndGetPath sampleRequest 100 []
        = ⟨.val (resp, "", some e),
            (GetValuesOverrideForTrigger brokenTemplateDeps sampleRequest 100 []).world,
            (GetValuesOverrideForTrigger brokenTemplateDeps sampleRequest 100 []).log⟩) ∧
    (∃ resp,
      (BuildManifestForTrigger memoryDeps sampleBuildChartAndGetPath sampleRequest 100 []).result
        = .val (some resp, "/tmp/charts/demo", none)) ∧
    (∃ resp,
      (BuildManifestForTrigger memoryDeps failingBuildChartAndGetPath sampleRequest 100
        []).result = .val (some resp, "", some (.errorString "chart not found"))) :=
  ⟨⟨_, _, (BuildManifestForTrigger_builds_on_success brokenTemplateDeps
      sampleBuildChartAndGetPath sampleRequest 100 []).1 _ _ rfl⟩,
    ⟨_, rfl⟩, ⟨_, rfl⟩⟩

/-- C26 (code bug): a live HPA manifest without `currentReplicas`. With autoscaling enabled
and a manifest returned with a nil error, (1) when the manifest has an object under `status`
and `currentReplicas` is absent from it or null, `autoscalingCheckBeforeTrigger` returns the
merged values it was given and a nil error; (2) when the manifest is not empty and has no
object under `status` (the key is absent, null, or not an object), the type assertion of
line 994 fails and the function panics. -/
theorem autoscalingCheckBeforeTrigger_currentReplicas_unavailable {σ : Type}
    (k : LiveDeps σ) (appName ns : String) (merged : Text)
    (overrideRequest : ValuesOverrideRequest) (templateMap : List (String × Json))
    (hpa : HpaResourceRequest) (w w1 : σ) (manifest : List (String × Json)) (l : List Event)
    (hun : unmarshalMap merged = .ok templateMap)
    (hhpa : k.GetAutoScalingReplicaCount templateMap appName = some hpa)
    (hen : hpa.IsEnable = true)
    (hm : getK8sHPAResourceManifest k overrideRequest.ClusterId ns hpa w
      = ⟨.val (manifest, none), w1, l⟩) :
    (∀ statusMap, Json.lookup "status" manifest = some (.obj statusMap) →
      (Json.lookup "currentReplicas" statusMap = none ∨
        Json.lookup "currentReplicas" statusMap = some .null) →
      autoscalingCheckBeforeTrigger k appName ns merged overrideRequest w
        = ⟨.val (merged, none), w1, l⟩) ∧
    (manifest ≠ [] →
      (∀ statusMap, Json.lookup "status" manifest ≠ some (.obj statusMap)) →
      autoscalingCheckBeforeTrigger k appName ns merged overrideRequest w
        = ⟨.panic, w1, l⟩) :=
  ⟨fun statusMap hstatus hcur =>
      autoscalingCheckBeforeTrigger_no_currentReplicas k appName ns merged overrideRequest
        templateMap hpa w w1 manifest statusMap l hun hhpa hen hm hstatus hcur,
    fun hne hstatus =>
      autoscalingCheckBeforeTrigger_no_status k appName ns merged overrideRequest templateMap
        hpa w w1 manifest l hun hhpa hen hm hne hstatus⟩

/-- Witness for C26: a live HPA whose status has no `currentReplicas` leaves the merged values
as they were; a live HPA that has only `metadata` makes the check panic, and with it the
trigger, after the override row is inserted. -/
theorem autoscalingCheckBeforeTrigger_currentReplicas_unavailable_witness :
    (autoscalingCheckBeforeTrigger pendingLive "demo-app" "demo" sampleAutoscaledValues
      sampleRequest []).result = .val (sampleAutoscaledValues, none) ∧
    (autoscalingCheckBeforeTrigger noStatusLive "demo-app" "demo" sampleAutoscaledValues
      sampleRequest []).result = .panic ∧
    (GetValuesOverrideForTrigger (serviceDeps autoscaledDeps sampleResolver noStatusLive)
      sampleRequest 100 []).result = .panic ∧
    releaseKeys (GetValuesOverrideForTrigger
      (serviceDeps autoscaledDeps sampleResolver noStatusLive) sampleRequest 100 []).world
      = [(10, 1)] :=
  ⟨congrArg Outcome.result
      ((autoscalingCheckBeforeTrigger_currentReplicas_unavailable pendingLive "demo-app" "demo"
        sampleAutoscaledValues sampleRequest
        [("autoscaling", .obj [("MaxReplicas", .num 10), ("MinReplicas", .num 2),
            ("enabled", .bool true)]),
          ("replicaCount", .num 1)]
        { IsEnable := true, ReqMaxReplicas := 10, ReqMinReplicas := 2,
          ResourceName := "demo-app-hpa", Group := "autoscaling",
          Kind := "HorizontalPodAutoscaler" }
        [] [] [("status", .obj [("desiredReplicas", .num 0)])] _ rfl rfl rfl rfl).1
        [("desiredReplicas", .num 0)] rfl (Or.inl rfl)),
    congrArg Outcome.result
      ((autoscalingCheckBeforeTrigger_currentReplicas_unavailable noStatusLive "demo-app" "demo"
        sampleAutoscaledValues sampleRequest
        [("autoscaling", .obj [("MaxReplicas", .num 10), ("MinReplicas", .num 2),
            ("enabled", .bool true)]),
          ("replicaCount", .num 1)]
        { IsEnable := true, ReqMaxReplicas := 10, ReqMinReplicas := 2,
          ResourceName := "demo-app-hpa", Group := "autoscaling",
          Kind := "HorizontalPodAutoscaler" }
        [] [] [("metadata", .obj [("name", .str "demo-app-hpa")])] _ rfl rfl rfl rfl).2
        (by simp) (fun statusMap h => by simp [Json.lookup] at h)),
    rfl, rfl⟩

section
variable {σ : Type}

end

section
variable {σ : Type}

/-- The shape of every run of the repair loop: when it ends verified, the override it holds
is the one it started with but for the counter, and the last event is the lookup of the pair
it holds, which showed it first; its first event is the lookup of the pair it started with;
every later lookup comes right after the update that stored the pair looked up; and every
counter read that succeeded is followed at once by that update. -/
theorem checkAndFixLoop_trace (deps : Deps σ) :
    ∀ (k : Nat) ov w,
      (∀ rc' ov', (checkAndFixLoop deps k false (5 - (k : Int)) ov w).result
          = .val (.ok (true, rc', ov')) →
        ov' = { ov with PipelineReleaseCounter := ov'.PipelineReleaseCounter } ∧
        ∃ pre first rest,
          (checkAndFixLoop deps k false (5 - (k : Int)) ov w).log
            = pre ++ [Event.GetByPipelineIdAndReleaseNo ov'.PipelineId
                ov'.PipelineReleaseCounter (.ok (first :: rest))] ∧
          first.Id = ov'.Id) ∧
      ((checkAndFixLoop deps k false (5 - (k : Int)) ov w).log = [] ∨
        ∃ resp tl, (checkAndFixLoop deps k false (5 - (k : Int)) ov w).log
          = Event.GetByPipelineIdAndReleaseNo ov.PipelineId ov.PipelineReleaseCounter resp
              :: tl) ∧
      repairOrdered (checkAndFixLoop deps k false (5 - (k : Int)) ov w).log = true ∧
      endsWithCounterRead (checkAndFixLoop deps k false (5 - (k : Int)) ov w).log = false := by
  refine checkAndFixLoop_attempts deps
    (fun _ ov _ o =>
      (∀ rc' ov', o.result = .val (.ok (true, rc', ov')) →
        ov' = { ov with PipelineReleaseCounter := ov'.PipelineReleaseCounter } ∧
        ∃ pre first rest,
          o.log = pre ++ [Event.GetByPipelineIdAndReleaseNo ov'.PipelineId
              ov'.PipelineReleaseCounter (.ok (first :: rest))] ∧
          first.Id = ov'.Id) ∧
      (o.log = [] ∨
        ∃ resp tl, o.log
          = Event.GetByPipelineIdAndReleaseNo ov.PipelineId ov.PipelineReleaseCounter resp
              :: tl) ∧
      repairOrdered o.log = true ∧ endsWithCounterRead o.log = false) ?_ ?_ ?_ ?_ ?_ ?_ ?_
  · intro ov w
    refine ⟨?_, Or.inl rfl, rfl, rfl⟩
    intro rc' ov' h; simp at h
  · intro k ov w w1 err _
    refine ⟨?_, Or.inr ⟨_, _, rfl⟩, rfl, rfl⟩
    intro rc' ov' h; simp at h
  · intro k ov w w1 _
    refine ⟨?_, Or.inr ⟨_, _, rfl⟩, rfl, rfl⟩
    intro rc' ov' h; simp at h
  · intro k ov w w1 first rest _ hid
    refine ⟨?_, Or.inr ⟨_, _, rfl⟩, rfl, rfl⟩
    intro rc' ov' h
    simp only [Res.val.injEq, Except.ok.injEq, Prod.mk.injEq, true_and] at h
    obtain ⟨-, rfl⟩ := h
    exact ⟨rfl, [], first, rest, rfl, hid⟩
  · intro k ov w w1 w2 first rest err _ _ _
    refine ⟨?_, Or.inr ⟨_, _, rfl⟩, rfl, rfl⟩
    intro rc' ov' h; simp at h
  · intro k ov w w1 w2 w3 first rest c err _ _ _ _
    refine ⟨?_, Or.inr ⟨_, _, rfl⟩, ?_, rfl⟩
    · intro rc' ov' h; simp at h
    · simp [repairOrdered, Event.inRepairOrder]
  · intro k ov w w1 w2 w3 first rest c o _ _ _ _ ih
    obtain ⟨ih1, ih2, ih3, ih4⟩ := ih
    refine ⟨?_, Or.inr ⟨_, _, rfl⟩, ?_, ?_⟩
    · intro rc' ov' h
      obtain ⟨heq, pre, first', rest', hlog, hid'⟩ := ih1 rc' ov' h
      refine ⟨?_, ?_⟩
      · rw [heq]
      · exact ⟨Event.GetByPipelineIdAndReleaseNo ov.PipelineId ov.PipelineReleaseCounter
            (.ok (first :: rest))
          :: Event.GetCurrentPipelineReleaseCounter ov.PipelineId (.ok c)
          :: Event.Update { ov with PipelineReleaseCounter := c + 1 } none :: pre,
          first', rest', by simp only [hlog, List.cons_append], hid'⟩
    · rcases ih2 with hnil | ⟨resp, tl, hcons⟩
      · simp [hnil, repairOrdered, Event.inRepairOrder]
      · rw [hcons] at ih3
        simp [hcons, repairOrdered, Event.inRepairOrder, ih3]
    · rcases ih2 with hnil | ⟨resp, tl, hcons⟩
      · simp [hnil, endsWithCounterRead]
      · have hne : o.log ≠ [] := by rw [hcons]; simp
        simp only [endsWithCounterRead] at ih4 ⊢
        rw [show (Event.GetByPipelineIdAndReleaseNo ov.PipelineId ov.PipelineReleaseCounter
              (.ok (first :: rest))
            :: Event.GetCurrentPipelineReleaseCounter ov.PipelineId (.ok c)
            :: Event.Update { ov with PipelineReleaseCounter := c + 1 } none :: o.log).getLast?
          = o.log.getLast? from by
            rw [hcons]
            simp [List.getLast?_cons_cons]]
        exact ih4

end
/-- C28: the counter that `checkAndFixDuplicateReleaseNo` leaves on a nil return is the one
it verified. (1) When the function returns nil, the override is the one it was given but for
the counter, and the last call of the run is the lookup of exactly the pair
`(PipelineId, PipelineReleaseCounter)` the override holds on return, which showed the
override's own id on the first row; nothing follows it, so the counter was not changed after
it. (2) In every run, the first call is the lookup of the pair the override came with, every
later lookup comes right after an `Update` that returned nil for a row with the pair looked
up, and every counter read that succeeded is followed at once by the `Update` of the row with
the new counter: a changed counter is persisted before the next lookup. -/
theorem checkAndFixDuplicateReleaseNo_verified_counter {σ : Type} (deps : Deps σ)
    (override : PipelineOverride) (w : σ) :
    (∀ ov', (checkAndFixDuplicateReleaseNo deps override w).result = .val (ov', none) →
      ov' = { override with PipelineReleaseCounter := ov'.PipelineReleaseCounter } ∧
      ∃ pre first rest,
        (checkAndFixDuplicateReleaseNo deps override w).log
          = pre ++ [Event.GetByPipelineIdAndReleaseNo ov'.PipelineId
              ov'.PipelineReleaseCounter (.ok (first :: rest))] ∧
        first.Id = ov'.Id) ∧
    ((checkAndFixDuplicateReleaseNo deps override w).log = [] ∨
      ∃ resp tl, (checkAndFixDuplicateReleaseNo deps override w).log
        = Event.GetByPipelineIdAndReleaseNo override.PipelineId
            override.PipelineReleaseCounter resp :: tl) ∧
    repairOrdered (checkAndFixDuplicateReleaseNo deps override w).log = true ∧
    endsWithCounterRead (checkAndFixDuplicateReleaseNo deps override w).log = false := by
  have h5 : (5 : Int) - ((5 : Nat) : Int) = 0 := by norm_num
  obtain ⟨hlog, -, hres⟩ := checkAndFixDuplicateReleaseNo_run deps override w
  have ht := checkAndFixLoop_trace deps 5 override w
  rw [h5] at ht
  obtain ⟨t1, t2, t3, t4⟩ := ht
  rw [hlog]
  refine ⟨?_, t2, t3, t4⟩
  intro ov' hret
  rw [hres] at hret
  rcases hl : (checkAndFixLoop deps 5 false 0 override w).result with r | _ | _
  · rw [hl] at hret
    rcases r with ⟨ov2, err⟩ | ⟨uv, rc, ov2⟩
    · simp at hret
    · rcases uv with _ | _
      · simp at hret
      · simp only [if_true, Res.val.injEq, Prod.mk.injEq, and_true] at hret
        subst hret
        exact t1 rc ov2 hl
  · rw [hl] at hret; simp at hret
  · rw [hl] at hret; simp at hret

/-- Witness for C28: row 2 shares release 1 of pipeline 10 with the older row 1; the check
moves it to release 2, stores that, and returns nil after the lookup of `(10, 2)` shows it
first. -/
theorem checkAndFixDuplicateReleaseNo_verified_counter_witness :
    (checkAndFixDuplicateReleaseNo memoryDeps
        { Id := 2, PipelineId := 10, PipelineReleaseCounter := 1 } duplicateRows).result
      = .val ({ Id := 2, PipelineId := 10, PipelineReleaseCounter := 2 }, none) ∧
    releaseKeys (checkAndFixDuplicateReleaseNo memoryDeps
        { Id := 2, PipelineId := 10, PipelineReleaseCounter := 1 } duplicateRows).world
      = [(10, 1), (10, 2)] ∧
    ∃ pre first rest,
      (checkAndFixDuplicateReleaseNo memoryDeps
          { Id := 2, PipelineId := 10, PipelineReleaseCounter := 1 } duplicateRows).log
        = pre ++ [Event.GetByPipelineIdAndReleaseNo 10 2 (.ok (first :: rest))] ∧
      first.Id = 2 :=
  ⟨rfl, rfl,
    ((checkAndFixDuplicateReleaseNo_verified_counter memoryDeps
      { Id := 2, PipelineId := 10, PipelineReleaseCounter := 1 } duplicateRows).1
      { Id := 2, PipelineId := 10, PipelineReleaseCounter := 2 } rfl).2⟩

section
variable {σ : Type}

theorem checkAndFixLoop_triggerTypeDeps (deps : Deps σ) (t : TriggerTypeDeps σ) (fuel : Nat) :
    ∀ uv rc ov, checkAndFixLoop (triggerTypeDeps deps t) fuel uv rc ov
      = checkAndFixLoop deps fuel uv rc ov := by
  induction fuel with
  | zero => intro uv rc ov; rfl
  | succ n ih =>
    intro uv rc ov
    funext w
    simp only [checkAndFixLoop, ih]
    rfl

/-- The allocator does not call the trigger-type methods. -/
theorem savePipelineOverride_triggerTypeDeps (deps : Deps σ) (t : TriggerTypeDeps σ)
    (overrideRequest : ValuesOverrideRequest) (envOverrideId : Int) (triggeredAt : Time) :
    savePipelineOverride (triggerTypeDeps deps t) overrideRequest envOverrideId triggeredAt
      = savePipelineOverride deps overrideRequest envOverrideId triggeredAt := by
  simp only [savePipelineOverride, checkAndFixDuplicateReleaseNo,
    checkAndFixLoop_triggerTypeDeps]
  rfl

/-- The release override of an environment override without chart and environment, for an
artifact: the digest policy is looked up, and whatever it answers the run panics. -/
theorem getReleaseOverride_no_chart_no_environment (deps : Deps σ)
    (envOverride : EnvConfigOverride) (overrideRequest : ValuesOverrideRequest)
    (artifact : CiArtifact) (pipelineReleaseCounter : Int) (strategy : Option PipelineStrategy)
    (appMetrics : Bool) (w : σ)
    (hChart : envOverride.Chart = none) (hEnv : envOverride.Environment = none) :
    getReleaseOverride deps envOverride overrideRequest (some artifact) pipelineReleaseCounter
        strategy appMetrics w
      = ⟨.panic, (deps.GetDigestPolicyConfigurations overrideRequest.PipelineId w).2,
          [Event.GetDigestPolicyConfigurations overrideRequest.PipelineId]⟩ := by
  rcases hd : deps.GetDigestPolicyConfigurations overrideRequest.PipelineId w with ⟨resp, w1⟩
  rcases resp with err | cfg <;>
    simp [getReleaseOverride, releaseImageAndTag, renderReleaseOverride, M.bind_def,
      M.pure_def, M.bind, M.call, M.pure, M.panic, hd, hChart, hEnv]

end

/-- C29 (code_bug): a trigger whose configuration type is neither LAST_SAVED nor
SPECIFIC_TRIGGER and that brings no override id. `getDeploymentStrategyByTriggerType` and
`getEnvOverrideByTriggerType` answer an empty strategy and an empty environment override
with a nil error and without any call; the orchestrator then runs `savePipelineOverride`
with environment-override id 0, and when that inserted a row it goes on to the app metrics,
looks up the digest policy and panics in `getReleaseOverride` on the unset chart or
environment of the empty environment override. -/
theorem GetValuesOverrideForTrigger_other_config_type {σ : Type} (deps : Deps σ)
    (t : TriggerTypeDeps σ) (overrideRequest req : ValuesOverrideRequest) (triggeredAt : Time)
    (w w1 w2 : σ) (pipeline : Pipeline) (artifact : CiArtifact) (name : String)
    (hreq : deps.ResolveDeploymentTypeAndUpdate overrideRequest = req)
    (hcfg : req.DeploymentWithConfig = .other name)
    (hnew : ¬ req.PipelineOverrideId > 0)
    (h1 : deps.FindPipelineById req.PipelineId w = (.ok pipeline, w1))
    (h2 : deps.GetCiArtifact req.CiArtifactId w1 = (.ok artifact, w2)) :
    getDeploymentStrategyByTriggerType t { req with Image := artifact.Image } w2
      = ⟨.val (some emptyPipelineStrategy, none), w2, []⟩ ∧
    getEnvOverrideByTriggerType t { req with Image := artifact.Image } triggeredAt w2
      = ⟨.val (some emptyEnvConfigOverride, none), w2, []⟩ ∧
    emptyEnvConfigOverride.Chart = none ∧ emptyEnvConfigOverride.Environment = none ∧
    ∀ (po : PipelineOverride) (w5 : σ) (log5 : List Event),
      savePipelineOverride deps { req with Image := artifact.Image } 0 triggeredAt w2
        = ⟨.val (some po, none), w5, log5⟩ →
      GetValuesOverrideForTrigger (triggerTypeDeps deps t) overrideRequest triggeredAt w
        = ⟨.panic, (deps.GetDigestPolicyConfigurations req.PipelineId w5).2,
            [Event.FindPipelineById req.PipelineId, Event.GetCiArtifact req.CiArtifactId,
              Event.getDeploymentStrategyByTriggerType, Event.getEnvOverrideByTriggerType]
              ++ log5 ++ [Event.getAppMetricsByTriggerType,
                Event.GetDigestPolicyConfigurations req.PipelineId]⟩ := by
  have hS : getDeploymentStrategyByTriggerType t { req with Image := artifact.Image } w2
      = ⟨.val (some emptyPipelineStrategy, none), w2, []⟩ := by
    simp only [getDeploymentStrategyByTriggerType, hcfg]
    rfl
  have hE : getEnvOverrideByTriggerType t { req with Image := artifact.Image } triggeredAt w2
      = ⟨.val (some emptyEnvConfigOverride, none), w2, []⟩ := by
    simp only [getEnvOverrideByTriggerType, hcfg]
    rfl
  refine ⟨hS, hE, rfl, rfl, ?_⟩
  intro po w5 log5 h5
  have hdec : decide (req.PipelineOverrideId > 0) = false := by simpa using hnew
  have hreq2 : (triggerTypeDeps deps t).ResolveDeploymentTypeAndUpdate overrideRequest
      = req := hreq
  have h1b : (triggerTypeDeps deps t).FindPipelineById req.PipelineId w
      = (.ok pipeline, w1) := h1
  have h2b : (triggerTypeDeps deps t).GetCiArtifact req.CiArtifactId w1
      = (.ok artifact, w2) := h2
  have h3 : (triggerTypeDeps deps t).getDeploymentStrategyByTriggerType
      { req with Image := artifact.Image } w2
      = (some (some emptyPipelineStrategy, none), w2) := by
    show M.asStep (getDeploymentStrategyByTriggerType t { req with Image := artifact.Image })
      w2 = _
    simp only [M.asStep, hS]
  have h4 : (triggerTypeDeps deps t).getEnvOverrideByTriggerType
      { req with Image := artifact.Image } triggeredAt w2
      = (some (some emptyEnvConfigOverride, none), w2) := by
    show M.asStep (getEnvOverrideByTriggerType t { req with Image := artifact.Image }
      triggeredAt) w2 = _
    simp only [M.asStep, hE]
  have h5b : savePipelineOverride (triggerTypeDeps deps t) { req with Image := artifact.Image }
      emptyEnvConfigOverride.Id triggeredAt w2 = ⟨.val (some po, none), w5, log5⟩ := by
    rw [savePipelineOverride_triggerTypeDeps]
    exact h5
  have h6 : (triggerTypeDeps deps t).getAppMetricsByTriggerType
      { req with Image := artifact.Image, PipelineOverrideId := po.Id } w5
      = (some (false, none), w5) := by
    show M.asStep (getAppMetricsByTriggerType t
      { req with Image := artifact.Image, PipelineOverrideId := po.Id }) w5 = _
    simp only [M.asStep, getAppMetricsByTriggerType, hcfg]
    rfl
  have h7 := getReleaseOverride_no_chart_no_environment (triggerTypeDeps deps t)
    emptyEnvConfigOverride { req with Image := artifact.Image, PipelineOverrideId := po.Id }
    artifact po.PipelineReleaseCounter (some emptyPipelineStrategy) false w5 rfl rfl
  simp [GetValuesOverrideForTrigger, resolveEnvOverride, M.bind_def, M.pure_def, M.bind,
    M.call, M.step, M.pure, hreq2, hdec, h1b, h2b, h3, h4, h5b, h6, h7]
  rfl

/-- Witness for C29: the sample trigger with configuration type `LATEST_TRIGGER` over the
empty table panics, after the row with environment-override id 0 was inserted. -/
theorem GetValuesOverrideForTrigger_other_config_type_witness :
    (GetValuesOverrideForTrigger (triggerTypeDeps memoryDeps sampleTriggerType)
        otherConfigRequest 100 []).result = .panic ∧
    ((GetValuesOverrideForTrigger (triggerTypeDeps memoryDeps sampleTriggerType)
        otherConfigRequest 100 []).world.map
        (fun row => (row.Id, row.EnvConfigOverrideId, row.PipelineId,
          row.PipelineReleaseCounter))) = [(1, 0, 10, 1)] :=
  have h := (GetValuesOverrideForTrigger_other_config_type memoryDeps sampleTriggerType
    otherConfigRequest otherConfigRequest 100 [] [] [] _ sampleArtifact "LATEST_TRIGGER"
    rfl rfl (by decide) rfl rfl).2.2.2.2 _ _ _ rfl
  ⟨by rw [h], by rw [h]; rfl⟩

/-- `strings.Contains` holds exactly when the second string occurs in the first. -/
theorem Contains_iff (s substr : String) :
    Contains s substr = true ↔ substr.data <:+: s.data := by
  simp only [Contains, List.any_eq_true, List.mem_tails, List.isPrefixOf_iff_prefix]
  constructor
  · rintro ⟨t, ht, hp⟩
    exact List.infix_iff_prefix_suffix.mpr ⟨t, hp, ht⟩
  · intro h
    obtain ⟨t, hp, ht⟩ := List.infix_iff_prefix_suffix.mp h
    exact ⟨t, ht, hp⟩

/-- `strings.HasPrefix` holds exactly when the first string begins with the second. -/
theorem HasPrefix_iff (s pfx : String) : HasPrefix s pfx = true ↔ pfx.data <+: s.data := by
  simp [HasPrefix, List.isPrefixOf_iff_prefix]

/-- C30 (code bug): `WhitelistChecker` tests the entries of `prefixUrls` with
`strings.Contains`, not with a prefix test. (1) It is true exactly when the URL equals one of
the exact paths or one of the entries of `prefixUrls` occurs in it at any position. (2) Every
URL that equals an exact path or begins with an entry of `prefixUrls` is whitelisted. (3) The
URL `/orchestrator/user?next=/dashboard` is whitelisted although it equals no exact path and
begins with no entry of `prefixUrls`. -/
theorem WhitelistChecker_contains :
    (∀ url, WhitelistChecker url = true ↔
      url ∈ WhitelistChecker.urls ∨
        ∃ a ∈ WhitelistChecker.prefixUrls, a.data <:+: url.data) ∧
    (∀ url, whitelistedByPrefix url = true → WhitelistChecker url = true) ∧
    (WhitelistChecker "/orchestrator/user?next=/dashboard" = true ∧
      whitelistedByPrefix "/orchestrator/user?next=/dashboard" = false ∧
      "/orchestrator/user?next=/dashboard" ∉ WhitelistChecker.urls ∧
      ∀ a ∈ WhitelistChecker.prefixUrls,
        ¬ a.data <+: "/orchestrator/user?next=/dashboard".data) := by
  have hchar : ∀ url, WhitelistChecker url = true ↔
      url ∈ WhitelistChecker.urls ∨
        ∃ a ∈ WhitelistChecker.prefixUrls, a.data <:+: url.data := by
    intro url
    unfold WhitelistChecker
    by_cases h1 : WhitelistChecker.urls.any (fun a => a == url) = true
    · simp only [h1, if_true, true_iff]
      left
      simp only [List.any_eq_true, beq_iff_eq] at h1
      obtain ⟨a, ha, rfl⟩ := h1
      exact ha
    · have hn : url ∉ WhitelistChecker.urls := by
        intro hmem
        exact h1 (List.any_eq_true.mpr ⟨url, hmem, by simp⟩)
      simp only [h1, Bool.false_eq_true, if_false]
      by_cases h2 : WhitelistChecker.prefixUrls.any (fun a => Contains url a) = true
      · simp only [h2, if_true, true_iff]
        right
        obtain ⟨a, ha, hc⟩ := List.any_eq_true.mp h2
        exact ⟨a, ha, (Contains_iff url a).mp hc⟩
      · simp only [h2, Bool.false_eq_true, if_false, false_iff]
        rintro (h | ⟨a, ha, hc⟩)
        · exact hn h
        · exact h2 (List.any_eq_true.mpr ⟨a, ha, (Contains_iff url a).mpr hc⟩)
  refine ⟨hchar, ?_, ?_⟩
  · intro url h
    rw [hchar]
    simp only [whitelistedByPrefix, Bool.or_eq_true, List.any_eq_true] at h
    rcases h with h | ⟨a, ha, hp⟩
    · exact Or.inl (by simpa using h)
    · exact Or.inr ⟨a, ha, ((HasPrefix_iff url a).mp hp).isInfix⟩
  · refine ⟨by decide, by decide, by decide, ?_⟩
    intro a ha hp
    have hf : whitelistedByPrefix "/orchestrator/user?next=/dashboard" = false := by decide
    have ht : whitelistedByPrefix "/orchestrator/user?next=/dashboard" = true := by
      simp only [whitelistedByPrefix, Bool.or_eq_true, List.any_eq_true]
      exact Or.inr ⟨a, ha, (HasPrefix_iff _ a).mpr hp⟩
    rw [hf] at ht
    exact absurd ht (by decide)

/-- Witness for C30: the URL `/dashboard/app` begins with the entry `/dashboard` and is
whitelisted. -/
theorem WhitelistChecker_contains_witness :
    whitelistedByPrefix "/dashboard/app" = true ∧ WhitelistChecker "/dashboard/app" = true :=
  ⟨by decide, WhitelistChecker_contains.2.1 "/dashboard/app" (by decide)⟩

end Devtron
